import Mathlib

/-!
# Controller service of the OpenSDS CSI plugin (`csi/server/plugin/opensds/controller.go`)

A shallow embedding of the controller operations: the node identity parser
(`extractInfoFromNodeId`), the snapshot listing and pagination engine
(`Plugin.ListSnapshots`), volume provisioning and deletion with replication, snapshot
creation and deletion, and the publishing and unpublishing of volumes; with the
properties of the controller specification stated and proved (or refuted) over the
embedding.

Conventions of the embedding.

* A Go `string` is a `List Char`.  Every string that reaches this code is valid UTF-8
  (protobuf string fields and JSON-decoded backend fields), and on valid UTF-8 the
  operations used here (splitting on ASCII separators, ASCII prefix tests, concatenation,
  byte-wise comparison) agree with the same operations on the sequence of code points.
* Go signed machine integers are `Int`; every conversion or arithmetic result that can
  leave the range is wrapped explicitly (`toInt32`, `toInt64`).
* A Go function returning `(T, error)` returns `Except Failure T`; `Failure.panic` is a
  run-time panic (index or slice bounds out of range, nil dereference).
-/

namespace Opensds

/-- A Go string, as its sequence of characters. -/
abbrev GoString := List Char

/-! ## Go run-time and library functions used by the controller -/

/-- The gRPC status codes used by the controller (`google.golang.org/grpc/codes`). -/
inductive Code
  | InvalidArgument
  | NotFound
  | AlreadyExists
  | FailedPrecondition
  | Aborted
  | Unimplemented
  | Internal
deriving DecidableEq, Repr

/-- A Go `error` value: a gRPC status (`status.Error(code, msg)`) or any other error. -/
inductive GoError
  | status (code : Code) (msg : GoString)
  | other (msg : GoString)
deriving DecidableEq, Repr

/-- The ways a call does not produce its result: it returns a non-nil `error`, or the
Go run time panics. -/
inductive Failure
  | error (e : GoError)
  | panic
deriving DecidableEq, Repr

/-- Equality of two outcomes is decidable when it is for the results and the failures. -/
instance instDecidableEqExcept {ε α : Type} [DecidableEq ε] [DecidableEq α] :
    DecidableEq (Except ε α)
  | .ok a, .ok b =>
    if h : a = b then isTrue (by rw [h]) else isFalse (by intro h1; cases h1; exact h rfl)
  | .error a, .error b =>
    if h : a = b then isTrue (by rw [h]) else isFalse (by intro h1; cases h1; exact h rfl)
  | .ok _, .error _ => isFalse (by intro h; cases h)
  | .error _, .ok _ => isFalse (by intro h; cases h)

/-- Conversion of an integer to `int32` (two's complement wrap-around). -/
def toInt32 (x : Int) : Int := (x + 2 ^ 31) % 2 ^ 32 - 2 ^ 31

/-- Conversion of an integer to `int64` (two's complement wrap-around). -/
def toInt64 (x : Int) : Int := (x + 2 ^ 63) % 2 ^ 64 - 2 ^ 63

/-- Go `strings.HasPrefix(s, p)`. -/
def HasPrefix (s p : GoString) : Bool := p.isPrefixOf s

/-- Go `strings.Index(s, sep)`: the position of the first occurrence of `sep` in `s`. -/
def Index : GoString → GoString → Option Nat
  | [], sep => if sep = [] then some 0 else none
  | c :: s, sep =>
    if sep.isPrefixOf (c :: s) then some 0 else (Index s sep).map (· + 1)

/-- The loop of Go `strings.genSplit` for a non-empty separator: cut at the first
occurrence of `sep`, continue behind it.  The counter bounds the number of cuts. -/
def genSplit (sep : GoString) : Nat → GoString → List GoString
  | 0, s => [s]
  | n + 1, s =>
    match Index s sep with
    | none => [s]
    | some m => s.take m :: genSplit sep n (s.drop (m + sep.length))

/-- Go `strings.Split(s, sep)`.  With an empty separator the string is exploded into its
characters; otherwise the pieces between the non-overlapping occurrences of `sep`, found
from left to right, are returned (always at least one piece).  The number of cuts is at
most `len(s)`, since each cut consumes at least one character. -/
def Split (s sep : GoString) : List GoString :=
  if sep = [] then s.map (fun c => [c]) else genSplit sep s.length s

/-- Value of a decimal digit character, as in the digit loop of `strconv.ParseUint`. -/
def digitValue (c : Char) : Option Nat :=
  if '0' ≤ c ∧ c ≤ '9' then some (c.toNat - '0'.toNat) else none

/-- The digit loop of `strconv.ParseUint` in base 10: a character that is not a decimal
digit is a syntax error, a value above `maxVal` is a range error (both `none`). -/
def parseDigits (maxVal : Nat) : Nat → GoString → Option Nat
  | n, [] => some n
  | n, c :: s =>
    match digitValue c with
    | none => none
    | some d => if n * 10 + d > maxVal then none else parseDigits maxVal (n * 10 + d) s

/-- Go `strconv.ParseUint(s, 10, bitSize)`; `none` stands for a non-nil error.  The empty
string is a syntax error and no sign is accepted. -/
def ParseUint (s : GoString) (bitSize : Nat) : Option Nat :=
  if s = [] then none else parseDigits (2 ^ bitSize - 1) 0 s

/-- Go `fmt.Sprintf("%d", x)` for a signed integer. -/
def formatInt (x : Int) : GoString :=
  if x < 0 then '-' :: Nat.toDigits 10 x.natAbs else Nat.toDigits 10 x.natAbs

/-- Go slice expression `s[lo:]`: panics unless `0 ≤ lo ≤ len(s)`. -/
def sliceFrom {α : Type} (s : List α) (lo : Int) : Except Failure (List α) :=
  if 0 ≤ lo ∧ lo ≤ s.length then .ok (s.drop lo.toNat) else .error .panic

/-- Go slice expression `s[lo:hi]`: panics unless `0 ≤ lo ≤ hi ≤ cap(s)`.  The capacity
is not modelled: the bound used is `len(s)`, which is the one that matters wherever the
controller slices (there `hi` is below the `int32` conversion of `len(s)`). -/
def sliceRange {α : Type} (s : List α) (lo hi : Int) : Except Failure (List α) :=
  if 0 ≤ lo ∧ lo ≤ hi ∧ hi ≤ s.length then .ok ((s.take hi.toNat).drop lo.toNat)
  else .error .panic

/-- Go `sort.Strings`: ascending byte-wise lexicographic order.  For valid UTF-8 this is
the lexicographic order of the code points.  The sorted arrangement of a list of strings
is unique, so the sorting algorithm does not matter. -/
def sortStrings (keys : List GoString) : List GoString :=
  keys.insertionSort (fun a b => a ≤ b)

/-! ## Node identity parser -/

/-- Modelled from the spec: the constant `connector.Wwpn` of the OpenSDS connector
package is not part of the sources; the specification names the tag prefix `wwpn:`. -/
def Wwpn : GoString := "wwpn".toList

/-- Modelled from the spec: the constant `connector.Wwnn` of the OpenSDS connector
package is not part of the sources; the specification names the tag prefix `wwnn:`. -/
def Wwnn : GoString := "wwnn".toList

/-- Modelled from the spec: the constant `connector.Iqn` of the OpenSDS connector
package is not part of the sources; the specification names the tag prefix `iqn:`. -/
def Iqn : GoString := "iqn".toList

/-- The local variables of the loop of `extractInfoFromNodeId`. -/
structure NodeIdState where
  wwpns : List GoString
  wwnns : List GoString
  iqns : List GoString
  previousParameter : GoString
  previousIndex : Nat
deriving DecidableEq, Repr

/-- The state before the loop of `extractInfoFromNodeId`. -/
def NodeIdState.init : NodeIdState :=
  { wwpns := [], wwnns := [], iqns := [], previousParameter := [], previousIndex := 0 }

/-- Go `xs = append(xs, strings.Split(seg, tag + ":")[1])`; the index expression panics
when the split has fewer than two pieces. -/
def appendSecondPiece (xs : List GoString) (seg tag : GoString) :
    Except Failure (List GoString) :=
  match (Split seg (tag ++ [':'])).get? 1 with
  | none => .error .panic
  | some v => .ok (xs ++ [v])

/-- Go `xs[i] = xs[i] + "," + seg`; panics when `i` is out of range. -/
def appendContinuation (xs : List GoString) (i : Nat) (seg : GoString) :
    Except Failure (List GoString) :=
  match xs.get? i with
  | none => .error .panic
  | some old => .ok (xs.set i (old ++ [','] ++ seg))

/-- One iteration of the loop of `extractInfoFromNodeId`, on the segment
`hostNameAndInitor[i]`. -/
def nodeIdStep (st : NodeIdState) (seg : GoString) : Except Failure NodeIdState :=
  if HasPrefix seg (Wwpn ++ [':']) then
    match appendSecondPiece st.wwpns seg Wwpn with
    | .error f => .error f
    | .ok wwpns =>
      .ok { st with wwpns := wwpns, previousParameter := Wwpn,
                    previousIndex := wwpns.length - 1 }
  else if HasPrefix seg (Wwnn ++ [':']) then
    match appendSecondPiece st.wwnns seg Wwnn with
    | .error f => .error f
    | .ok wwnns =>
      .ok { st with wwnns := wwnns, previousParameter := Wwnn,
                    previousIndex := wwnns.length - 1 }
  else if HasPrefix seg (Iqn ++ [':']) then
    match appendSecondPiece st.iqns seg Iqn with
    | .error f => .error f
    | .ok iqns =>
      .ok { st with iqns := iqns, previousParameter := Iqn,
                    previousIndex := iqns.length - 1 }
  else if st.previousParameter = Wwpn then
    match appendContinuation st.wwpns st.previousIndex seg with
    | .error f => .error f
    | .ok wwpns => .ok { st with wwpns := wwpns }
  else if st.previousParameter = Wwnn then
    match appendContinuation st.wwnns st.previousIndex seg with
    | .error f => .error f
    | .ok wwnns => .ok { st with wwnns := wwnns }
  else if st.previousParameter = Iqn then
    match appendContinuation st.iqns st.previousIndex seg with
    | .error f => .error f
    | .ok iqns => .ok { st with iqns := iqns }
  else
    .ok st

/-- The loop `for i := 1; i < hostNameAndInitorLen; i++` of `extractInfoFromNodeId`,
over the segments after the first. -/
def nodeIdLoop : NodeIdState → List GoString → Except Failure NodeIdState
  | st, [] => .ok st
  | st, seg :: rest =>
    match nodeIdStep st seg with
    | .error f => .error f
    | .ok st1 => nodeIdLoop st1 rest

/-- The function `extractInfoFromNodeId`: host name, world-wide port names, world-wide
node names and iSCSI qualified names, in the order of the Go return values. -/
def extractInfoFromNodeId (nodeId : GoString) :
    Except Failure (GoString × List GoString × List GoString × List GoString) :=
  let hostNameAndInitor := Split nodeId [',']
  let hostName : GoString := if hostNameAndInitor.length ≥ 1 then hostNameAndInitor.headD [] else []
  match nodeIdLoop NodeIdState.init (hostNameAndInitor.drop 1) with
  | .error f => .error f
  | .ok st => .ok (hostName, st.wwpns, st.wwnns, st.iqns)

/-! ## Snapshot listing and pagination -/

/-- The fields of the backend record `model.VolumeSnapshotSpec` that the controller
reads. `Size` is an `int64` number of allocation units. -/
structure VolumeSnapshotSpec where
  Id : GoString
  CreatedAt : GoString
  Name : GoString
  Size : Int
  VolumeId : GoString
  ProfileId : GoString
deriving DecidableEq, Repr

/-- An instant as a protobuf timestamp (`timestamp.Timestamp`). -/
structure Timestamp where
  Seconds : Int
  Nanos : Int
deriving DecidableEq, Repr

/-- The protocol record `csi.Snapshot`. -/
structure Snapshot where
  SizeBytes : Int
  SnapshotId : GoString
  SourceVolumeId : GoString
  CreationTime : Timestamp
  ReadyToUse : Bool
deriving DecidableEq, Repr

/-- The protocol record `csi.ListSnapshotsResponse_Entry`. -/
structure ListSnapshotsResponse_Entry where
  Snapshot : Snapshot
deriving DecidableEq, Repr

/-- The protocol record `csi.ListSnapshotsResponse`. -/
structure ListSnapshotsResponse where
  Entries : List ListSnapshotsResponse_Entry
  NextToken : GoString
deriving DecidableEq, Repr

/-- The protocol record `csi.ListSnapshotsRequest`; `MaxEntries` is an `int32`, and an
absent string field reads as the empty string. -/
structure ListSnapshotsRequest where
  MaxEntries : Int
  StartingToken : GoString
  SourceVolumeId : GoString
  SnapshotId : GoString
deriving DecidableEq, Repr

/-- The two library calls of `convertStringToPtypesTimestamp`, which are outside the
sources: `time.Parse(constants.TimeFormat, s)`, with an instant represented by an
integer, and `ptypes.TimestampProto`.  Each returns its result or an error message. -/
structure TimeLib where
  Parse : GoString → Except GoString Int
  TimestampProto : Int → Except GoString Timestamp

/-- Modelled from the spec: the constant `util.GiB` of the package `csi/util` is not part
of the sources; the specification gives the allocation unit as one GiB. -/
def GiB : Int := 2 ^ 30

/-- The method `Plugin.convertStringToPtypesTimestamp`. -/
def convertStringToPtypesTimestamp (tl : TimeLib) (timeStr : GoString) :
    Except GoError Timestamp :=
  match tl.Parse timeStr with
  | .error msg => .error (.status .Internal msg)
  | .ok timeAt =>
    match tl.TimestampProto timeAt with
    | .error msg => .error (.other msg)
    | .ok ptypesTime => .ok ptypesTime

/-- How the filter part of `ListSnapshots` (the first loop and the `switch`) ends. -/
inductive FilterOutcome
  | empty
  | notFound (msg : GoString)
  | result (filterResult : List VolumeSnapshotSpec)
deriving DecidableEq, Repr

/-- The filter part of `ListSnapshots`: the lists `snapshotsFilterByVolumeId` and
`snapshotsFilterById` and the four-way `switch`, whose cases are exhaustive (the fourth
is the last `else`).  `empty` is the return of an empty response, `notFound msg` the
return of `status.Error(codes.NotFound, msg)`. -/
def filterSnapshots (allSnapshots : List VolumeSnapshotSpec)
    (snapshotId sourceVolumeId : GoString) : FilterOutcome :=
  let snapshotsFilterByVolumeId := allSnapshots.filter (fun s => s.VolumeId == sourceVolumeId)
  let snapshotsFilterById := allSnapshots.filter (fun s => s.Id == snapshotId)
  if snapshotId.length = 0 ∧ sourceVolumeId.length = 0 then
    if allSnapshots.length ≤ 0 then .empty else .result allSnapshots
  else if snapshotId.length = 0 ∧ sourceVolumeId.length ≠ 0 then
    if snapshotsFilterByVolumeId.length ≤ 0 then
      .notFound ("no snapshot with source volume id ".toList ++ sourceVolumeId)
    else .result snapshotsFilterByVolumeId
  else if snapshotId.length ≠ 0 ∧ sourceVolumeId.length = 0 then
    if snapshotsFilterById.length ≤ 0 then
      .notFound ("no snapshot with id ".toList ++ snapshotId)
    else .result snapshotsFilterById
  else
    let filterResult := snapshotsFilterById.filter (fun s => s.VolumeId == sourceVolumeId)
    if filterResult.length ≤ 0 then
      .notFound ("no snapshot with id ".toList ++ snapshotId ++
        " and source volume id ".toList ++ sourceVolumeId)
    else .result filterResult

/-- The map `snapshotsMap` after the loop over `filterResult`: each record is stored
under its id, a later record replacing an earlier one with the same id. -/
def snapshotsMap (filterResult : List VolumeSnapshotSpec) : GoString → Option VolumeSnapshotSpec :=
  filterResult.foldl (fun m s => fun key => if key = s.Id then some s else m key)
    (fun _ => none)

/-- The slice `sortedKeys` after `sort.Strings`. -/
def sortedKeys (filterResult : List VolumeSnapshotSpec) : List GoString :=
  sortStrings (filterResult.map (fun s => s.Id))

/-- The slice `sortResult`: the map entry of each sorted key (`none` is the nil pointer
that a map read yields for a missing key). -/
def sortResult (filterResult : List VolumeSnapshotSpec) : List (Option VolumeSnapshotSpec) :=
  (sortedKeys filterResult).map (snapshotsMap filterResult)

/-- The value of the local `startingToken` of `ListSnapshots`, or the aborted error of a
token that `strconv.ParseUint(v, 10, 32)` rejects. -/
def parseStartingToken (v : GoString) : Except Failure Int :=
  if v ≠ [] then
    match ParseUint v 32 with
    | none => .error (.error (.status .Aborted "parsing the startingToken failed".toList))
    | some i => .ok (toInt32 i)
  else .ok 0

/-- The pagination part of `ListSnapshots`: from the sorted slice, `req.MaxEntries` and
`req.StartingToken` to `sliceResult` and `nextToken`. -/
def pageSnapshots {α : Type} (sortResult : List α) (maxEntries : Int)
    (token : GoString) : Except Failure (List α × GoString) :=
  let ulenSnapshots := toInt32 sortResult.length
  match parseStartingToken token with
  | .error f => .error f
  | .ok startingToken =>
    if startingToken ≥ ulenSnapshots then
      .error (.error (.status .Aborted
        ("startingToken=".toList ++ formatInt startingToken ++
          " >= len(snapshots)=".toList ++ formatInt ulenSnapshots)))
    else
      let nextTokenIndex := toInt32 (startingToken + maxEntries)
      if maxEntries = 0 ∨ nextTokenIndex ≥ ulenSnapshots then
        match sliceFrom sortResult startingToken with
        | .error f => .error f
        | .ok sliceResult => .ok (sliceResult, [])
      else
        match sliceRange sortResult startingToken nextTokenIndex with
        | .error f => .error f
        | .ok sliceResult => .ok (sliceResult, formatInt nextTokenIndex)

/-- The entry that the loop of `ListSnapshots` appends for `snapshot`, once its creation
time is converted. -/
def snapshotEntry (snapshot : VolumeSnapshotSpec) (creationTime : Timestamp) :
    ListSnapshotsResponse_Entry :=
  { Snapshot :=
      { SizeBytes := toInt64 (snapshot.Size * GiB)
        SnapshotId := snapshot.Id
        SourceVolumeId := snapshot.VolumeId
        CreationTime := creationTime
        ReadyToUse := true } }

/-- The loop of `ListSnapshots` that builds `entries` from `sliceResult`; reading a field
of a nil record panics, a timestamp conversion error is returned. -/
def snapshotEntries (tl : TimeLib) :
    List (Option VolumeSnapshotSpec) → Except Failure (List ListSnapshotsResponse_Entry)
  | [] => .ok []
  | none :: _ => .error .panic
  | some snapshot :: rest =>
    match convertStringToPtypesTimestamp tl snapshot.CreatedAt with
    | .error e => .error (.error e)
    | .ok creationTime =>
      match snapshotEntries tl rest with
      | .error f => .error f
      | .ok entries => .ok (snapshotEntry snapshot creationTime :: entries)

/-- The method `Plugin.ListSnapshots`.  `listVolumeSnapshots` is what the backend call
`Client.ListVolumeSnapshots(opts)` returns. -/
def ListSnapshots (tl : TimeLib)
    (listVolumeSnapshots : Except GoError (List VolumeSnapshotSpec))
    (req : ListSnapshotsRequest) : Except Failure ListSnapshotsResponse :=
  match listVolumeSnapshots with
  | .error err => .error (.error err)
  | .ok allSnapshots =>
    match filterSnapshots allSnapshots req.SnapshotId req.SourceVolumeId with
    | .empty => .ok { Entries := [], NextToken := [] }
    | .notFound msg => .error (.error (.status .NotFound msg))
    | .result filterResult =>
      match pageSnapshots (sortResult filterResult) req.MaxEntries req.StartingToken with
      | .error f => .error f
      | .ok (sliceResult, nextToken) =>
        if sliceResult.length ≤ 0 then .ok { Entries := [], NextToken := nextToken }
        else
          match snapshotEntries tl sliceResult with
          | .error f => .error f
          | .ok entries => .ok { Entries := entries, NextToken := nextToken }

/-! ## Notions of the specification -/

/-- The filter predicate of the specification: a record passes when it agrees with every
present filter (the empty string is an absent filter). -/
def matchesFilters (snapshotId sourceVolumeId : GoString) (x : VolumeSnapshotSpec) : Bool :=
  decide ((snapshotId = [] ∨ x.Id = snapshotId) ∧
    (sourceVolumeId = [] ∨ x.VolumeId = sourceVolumeId))

/-- The filtered set sorted by identifier, as the specification describes the sequence
that is paginated: the records themselves, arranged in ascending order of their ids. -/
def sortedRecords (filterResult : List VolumeSnapshotSpec) : List VolumeSnapshotSpec :=
  filterResult.insertionSort (fun a b => a.Id ≤ b.Id)

/-- The offset that the specification gives to a starting token: `0` for the empty
token, the value of an unsigned decimal integer otherwise. -/
def tokenOffset (token : GoString) : Option Nat :=
  if token = [] then some 0 else ParseUint token 32

/-- A client that lists all snapshots page by page, as in the pagination property of the
specification: it starts from `token`, passes `maxEntries` and no filter, follows the
returned next tokens and stops at an empty one, concatenating the pages.  Call number `i`
reads `backend i` from the backend.  The first argument bounds the number of calls:
`none` means that the bound was reached before an empty next token was returned. -/
def listAllSnapshots (tl : TimeLib)
    (backend : Nat → Except GoError (List VolumeSnapshotSpec)) (maxEntries : Int) :
    Nat → Nat → GoString → Option (Except Failure (List ListSnapshotsResponse_Entry))
  | 0, _, _ => none
  | fuel + 1, i, token =>
    match ListSnapshots tl (backend i)
        { MaxEntries := maxEntries, StartingToken := token,
          SourceVolumeId := [], SnapshotId := [] } with
    | .error f => some (.error f)
    | .ok resp =>
      if resp.NextToken = [] then some (.ok resp.Entries)
      else
        match listAllSnapshots tl backend maxEntries fuel (i + 1) resp.NextToken with
        | none => none
        | some (.error f) => some (.error f)
        | some (.ok rest) => some (.ok (resp.Entries ++ rest))

/-! ## Concrete data for the examples -/

/-- A time library for the examples: the empty string does not parse, every other
string parses to the instant `0`, and every instant converts. -/
def exampleTimeLib : TimeLib :=
  { Parse := fun s => if s = [] then .error "cannot parse".toList else .ok 0
    TimestampProto := fun t => .ok { Seconds := t, Nanos := 0 } }

/-- A backend snapshot record for the examples, of size one allocation unit. -/
def exampleSnapshot (id volumeId : String) : VolumeSnapshotSpec :=
  { Id := id.toList, CreatedAt := "2018-01-01T00:00:00".toList, Name := [], Size := 1,
    VolumeId := volumeId.toList, ProfileId := [] }

/-- A backend listing of three records, not in the order of their ids. -/
def exampleListing : List VolumeSnapshotSpec :=
  [exampleSnapshot "c" "v1", exampleSnapshot "a" "v2", exampleSnapshot "b" "v1"]

/-- A backend listing of `n` records with pairwise distinct ids: record `i` has the id
made of `i` letters `a`. -/
def longListing (n : Nat) : List VolumeSnapshotSpec :=
  (List.range n).map (fun i =>
    { Id := List.replicate i 'a', CreatedAt := "2018-01-01T00:00:00".toList, Name := [],
      Size := 1, VolumeId := [], ProfileId := [] })

/-! ## Notions of the specification for the node identity parser -/

/-- A segment that starts with one of the three tag prefixes of the node identity
parser. -/
def startsWithTag (seg : GoString) : Bool :=
  HasPrefix seg (Wwpn ++ [':']) || HasPrefix seg (Wwnn ++ [':']) || HasPrefix seg (Iqn ++ [':'])

/-- The index held in `previousIndex` is a valid index of the list selected by
`previousParameter`. -/
def NodeIdState.indexValid (st : NodeIdState) : Prop :=
  (st.previousParameter = Wwpn → st.previousIndex < st.wwpns.length) ∧
  (st.previousParameter = Wwnn → st.previousIndex < st.wwnns.length) ∧
  (st.previousParameter = Iqn → st.previousIndex < st.iqns.length)

/-! ## Volumes: backend records, client calls and protocol messages -/

/-- The fields of the backend record `model.VolumeSpec` that the controller reads or
writes.  `Size` is an `int64` number of allocation units; `Metadata` is a Go
`map[string]string`, held as the list of its entries. -/
structure VolumeSpec where
  Id : GoString
  Name : GoString
  Size : Int
  AvailabilityZone : GoString
  Status : GoString
  PoolId : GoString
  ProfileId : GoString
  SnapshotId : GoString
  Metadata : List (GoString × GoString)
deriving DecidableEq, Repr

/-- The Go value `&model.VolumeSpec{}`: every field has its zero value. -/
def VolumeSpec.zero : VolumeSpec :=
  { Id := [], Name := [], Size := 0, AvailabilityZone := [], Status := [], PoolId := [],
    ProfileId := [], SnapshotId := [], Metadata := [] }

/-- The fields of the backend record `model.ProfileSpec` that the controller reads. -/
structure ProfileSpec where
  Id : GoString
  Name : GoString
deriving DecidableEq, Repr

/-- The fields of the backend record `model.ReplicationSpec` that the controller reads
or writes. -/
structure ReplicationSpec where
  Id : GoString
  Name : GoString
  PrimaryVolumeId : GoString
  SecondaryVolumeId : GoString
  ReplicationMode : GoString
  ReplicationPeriod : Int
deriving DecidableEq, Repr

/-- The fields of the backend record `model.VolumeAttachmentSpec` that the controller
reads or writes; the fields of the embedded `model.HostInfo` are listed with the others.
`Metadata` is a Go `map[string]string`, held as the list of its entries. -/
structure VolumeAttachmentSpec where
  Id : GoString
  VolumeId : GoString
  Host : GoString
  Platform : GoString
  OsType : GoString
  Ip : GoString
  Initiator : GoString
  Status : GoString
  Metadata : List (GoString × GoString)
  AccessProtocol : GoString
deriving DecidableEq, Repr

/-- A call of the backend client `Client`, with the arguments that the controller
chooses. -/
inductive Call
  | ListProfiles
  | ListVolumes
  | CreateVolume (body : VolumeSpec)
  | CreateReplication (body : ReplicationSpec)
  | ListReplications
  | DeleteReplication (id : GoString)
  | DeleteVolume (id : GoString)
  | GetVolume (id : GoString)
  | GetPool (id : GoString)
  | ListPools
  | ListVolumeAttachments
  | CreateVolumeAttachment (body : VolumeAttachmentSpec)
  | DeleteVolumeAttachment (id : GoString)
  | GetReplication (id : GoString)
  | ListVolumeSnapshots
  | CreateVolumeSnapshot (body : VolumeSnapshotSpec)
  | DeleteVolumeSnapshot (id : GoString)
deriving DecidableEq, Repr

/-- The backend behind the client `Client`, which is outside the sources.  The answer to
a call is a function of the call and of the calls issued before it; this covers every
deterministic backend state machine, whatever its state.  A delete answers with its
error, if any. -/
structure Backend where
  ListProfiles : List Call → Except GoError (List ProfileSpec)
  ListVolumes : List Call → Except GoError (List VolumeSpec)
  CreateVolume : List Call → VolumeSpec → Except GoError VolumeSpec
  CreateReplication : List Call → ReplicationSpec → Except GoError ReplicationSpec
  ListReplications : List Call → Except GoError (List ReplicationSpec)
  DeleteReplication : List Call → GoString → Option GoError
  DeleteVolume : List Call → GoString → Option GoError

/-- The constants and the library function that `CreateVolume` takes from outside the
sources: the parameter keys and volume context keys of the plugin package, the default
secondary availability zone of `csi/util`, the name prefix of secondary volumes, the
synchronous replication mode of the backend model, and `strings.ToLower`. -/
structure Env where
  ToLower : GoString → GoString
  KParamProfile : GoString
  KParamAZ : GoString
  KParamEnableReplication : GoString
  KParamSecondaryAZ : GoString
  OpensdsDefaultSecondaryAZ : GoString
  SecondaryPrefix : GoString
  KVolumeName : GoString
  KVolumeStatus : GoString
  KVolumeAZ : GoString
  KVolumePoolId : GoString
  KVolumeProfileId : GoString
  KVolumeLvPath : GoString
  KVolumeReplicationId : GoString
  ReplicationModeSync : GoString

/-- The protocol record `csi.CapacityRange`; both fields are `int64`. -/
structure CapacityRange where
  RequiredBytes : Int
  LimitBytes : Int
deriving DecidableEq, Repr

/-- The protocol record `csi.VolumeContentSource`: a snapshot or a volume. -/
inductive VolumeContentSource
  | Snapshot (SnapshotId : GoString)
  | Volume (VolumeId : GoString)
deriving DecidableEq, Repr

/-- The protocol record `csi.CreateVolumeRequest`.  `Parameters` is a Go map, held as the
list of its entries in the order in which the `range` loop of this call visits them. -/
structure CreateVolumeRequest where
  Name : GoString
  CapacityRange : Option CapacityRange
  Parameters : List (GoString × GoString)
  VolumeContentSource : Option VolumeContentSource
deriving DecidableEq, Repr

/-- The protocol record `csi.Volume`; `VolumeContext` is a Go map, held as the list of
its entries. -/
structure Volume where
  CapacityBytes : Int
  VolumeId : GoString
  VolumeContext : List (GoString × GoString)
deriving DecidableEq, Repr

/-- The protocol record `csi.CreateVolumeResponse`. -/
structure CreateVolumeResponse where
  Volume : Volume
deriving DecidableEq, Repr

/-- Go map read `m[key]` on a `map[string]string`: the empty string for a missing key. -/
def mapGet (m : List (GoString × GoString)) (key : GoString) : GoString :=
  match m.find? (fun kv => kv.1 = key) with
  | some kv => kv.2
  | none => []

/-- Go map write `m[key] = value`: the entry of `key` is replaced, or added. -/
def mapSet (m : List (GoString × GoString)) (key value : GoString) :
    List (GoString × GoString) :=
  if m.any (fun kv => kv.1 = key) then
    m.map (fun kv => if kv.1 = key then (key, value) else kv)
  else m ++ [(key, value)]

/-! ## Volume provisioning -/

/-- The function `GetDefaultProfile`; the second component is the call log. -/
def GetDefaultProfile (b : Backend) (log : List Call) :
    Except GoError ProfileSpec × List Call :=
  match b.ListProfiles log with
  | .error err => (.error err, log ++ [Call.ListProfiles])
  | .ok profiles =>
    match profiles.find? (fun profile => profile.Name = "default".toList) with
    | some profile => (.ok profile, log ++ [Call.ListProfiles])
    | none =>
      (.error (.status .FailedPrecondition "No default profile".toList),
        log ++ [Call.ListProfiles])

/-- The compatibility test of `FindVolume`: same size, profile, availability zone and
snapshot source. -/
def volumeCompatible (volume req : VolumeSpec) : Bool :=
  decide (volume.Size = req.Size) && decide (volume.ProfileId = req.ProfileId) &&
    decide (volume.AvailabilityZone = req.AvailabilityZone) &&
    decide (volume.SnapshotId = req.SnapshotId)

/-- The loop of `FindVolume` over the listed volumes, from the current value of
`isExist` to the values returned. -/
def findVolumeLoop (req : VolumeSpec) :
    List VolumeSpec → Bool → Bool × Bool × Option VolumeSpec
  | [], isExist => (isExist, false, none)
  | volume :: rest, isExist =>
    if volume.Name = req.Name then
      if volumeCompatible volume req then (true, true, some volume)
      else findVolumeLoop req rest true
    else findVolumeLoop req rest isExist

/-- The function `FindVolume`: `isExist`, `isCompatible` and the volume found, or the
error of the listing; the second component is the call log. -/
def FindVolume (b : Backend) (req : VolumeSpec) (log : List Call) :
    Except GoError (Bool × Bool × Option VolumeSpec) × List Call :=
  match b.ListVolumes log with
  | .error err => (.error err, log ++ [Call.ListVolumes])
  | .ok volumes => (.ok (findVolumeLoop req volumes false), log ++ [Call.ListVolumes])

/-- The size computation of `CreateVolume`, in `int64` arithmetic with Go's truncating
division: the required bytes rounded up to allocation units, or `1` when that is below
`1` or no capacity range is given. -/
def volumeSize (capacityRange : Option CapacityRange) : Int :=
  match capacityRange with
  | some range =>
    let volumeSizeBytes := toInt64 range.RequiredBytes
    let size := toInt64 (Int.tdiv (toInt64 (toInt64 (volumeSizeBytes + GiB) - 1)) GiB)
    if size < 1 then 1 else size
  | none => 1

/-- The locals `volumebody`, `secondaryAZ` and `enableReplication` of `CreateVolume`. -/
structure VolumeBodyState where
  volumebody : VolumeSpec
  secondaryAZ : GoString
  enableReplication : Bool
deriving DecidableEq, Repr

/-- One iteration of the loop over the request parameters: the `switch` on the
lower-cased key. -/
def applyParameter (env : Env) (st : VolumeBodyState) (kv : GoString × GoString) :
    VolumeBodyState :=
  if env.ToLower kv.1 = env.KParamProfile then
    { st with volumebody := { st.volumebody with ProfileId := kv.2 } }
  else if env.ToLower kv.1 = env.KParamAZ then
    { st with volumebody := { st.volumebody with AvailabilityZone := kv.2 } }
  else if env.ToLower kv.1 = env.KParamEnableReplication then
    if env.ToLower kv.2 = "true".toList then { st with enableReplication := true } else st
  else if env.ToLower kv.1 = env.KParamSecondaryAZ then
    { st with secondaryAZ := kv.2 }
  else st

/-- The first part of `CreateVolume`, without backend call: name, size, parameters and
snapshot source. -/
def buildVolumeBody (env : Env) (req : CreateVolumeRequest) : VolumeBodyState :=
  let st := req.Parameters.foldl (applyParameter env)
    { volumebody := { VolumeSpec.zero with Name := req.Name,
                                           Size := volumeSize req.CapacityRange },
      secondaryAZ := env.OpensdsDefaultSecondaryAZ, enableReplication := false }
  match req.VolumeContentSource with
  | some (.Snapshot snapshotId) =>
    { st with volumebody := { st.volumebody with SnapshotId := snapshotId } }
  | _ => st

/-- The default availability zone of `CreateVolume`. -/
def defaultAvailabilityZone (st : VolumeBodyState) : VolumeBodyState :=
  if st.volumebody.AvailabilityZone = [] then
    { st with volumebody := { st.volumebody with AvailabilityZone := "default".toList } }
  else st

/-- The part of `CreateVolume` up to the lookup: the body is built, an empty profile id
is replaced by the id of the default profile, an empty availability zone by `default`. -/
def resolveVolumeBody (env : Env) (b : Backend) (req : CreateVolumeRequest)
    (log : List Call) : Except GoError VolumeBodyState × List Call :=
  if (buildVolumeBody env req).volumebody.ProfileId = [] then
    match GetDefaultProfile b log with
    | (.error err, log1) => (.error err, log1)
    | (.ok defaultRrf, log1) =>
      (.ok (defaultAvailabilityZone
        { buildVolumeBody env req with
          volumebody := { (buildVolumeBody env req).volumebody with
                          ProfileId := defaultRrf.Id } }), log1)
  else (.ok (defaultAvailabilityZone (buildVolumeBody env req)), log)

/-- The lookup part of `CreateVolume`: the volume `v` and the value that the variable
`isExist` of the function body has afterwards.  The re-scan after a failed create
declares variables of its own, so it does not change that `isExist`.  A nil volume
would panic when `v.Size` is read. -/
def chooseVolume (b : Backend) (volumebody : VolumeSpec) (log : List Call) :
    Except Failure (VolumeSpec × Bool) × List Call :=
  match FindVolume b volumebody log with
  | (.error err, log1) => (.error (.error err), log1)
  | (.ok (isExist, isCompatible, findVolume), log1) =>
    if isExist then
      if isCompatible then
        match findVolume with
        | some v => (.ok (v, isExist), log1)
        | none => (.error .panic, log1)
      else
        (.error (.error (.status .AlreadyExists
          "Volume already exists but is incompatible".toList)), log1)
    else
      match b.CreateVolume log1 volumebody with
      | .error err =>
        match FindVolume b volumebody (log1 ++ [Call.CreateVolume volumebody]) with
        | (.error findErr, log2) => (.error (.error findErr), log2)
        | (.ok (isExist2, isCompatible2, findV), log2) =>
          if !(isExist2 && isCompatible2) then (.error (.error err), log2)
          else
            match findV with
            | some v => (.ok (v, isExist), log2)
            | none => (.error .panic, log2)
      | .ok createVolume => (.ok (createVolume, isExist), log1 ++ [Call.CreateVolume volumebody])

/-- The record `volumeinfo` that `CreateVolume` builds from the volume `v`. -/
def volumeInfo (env : Env) (v : VolumeSpec) : Volume :=
  { CapacityBytes := toInt64 (v.Size * GiB)
    VolumeId := v.Id
    VolumeContext :=
      mapSet (mapSet (mapSet (mapSet (mapSet (mapSet [] env.KVolumeName v.Name)
        env.KVolumeStatus v.Status) env.KVolumeAZ v.AvailabilityZone)
        env.KVolumePoolId v.PoolId) env.KVolumeProfileId v.ProfileId)
        env.KVolumeLvPath (mapGet v.Metadata "lvPath".toList) }

/-- The body of the secondary volume: `volumebody` with the secondary availability zone
and the prefixed request name. -/
def secondaryVolumeBody (env : Env) (req : CreateVolumeRequest) (st : VolumeBodyState) :
    VolumeSpec :=
  { st.volumebody with AvailabilityZone := st.secondaryAZ,
                       Name := env.SecondaryPrefix ++ req.Name }

/-- The record `replicaBody` of `CreateVolume`. -/
def replicationBody (env : Env) (req : CreateVolumeRequest) (v sVol : VolumeSpec) :
    ReplicationSpec :=
  { Id := [], Name := req.Name, PrimaryVolumeId := v.Id, SecondaryVolumeId := sVol.Id,
    ReplicationMode := env.ReplicationModeSync, ReplicationPeriod := 0 }

/-- The replication part of `CreateVolume`, entered when `enableReplication && !isExist`:
the secondary volume, then the replication pair, whose id is written into the volume
context. -/
def createReplica (env : Env) (b : Backend) (req : CreateVolumeRequest)
    (st : VolumeBodyState) (v : VolumeSpec) (volumeinfo : Volume) (log : List Call) :
    Except Failure Volume × List Call :=
  match b.CreateVolume log (secondaryVolumeBody env req st) with
  | .error err => (.error (.error err), log ++ [Call.CreateVolume (secondaryVolumeBody env req st)])
  | .ok sVol =>
    match b.CreateReplication (log ++ [Call.CreateVolume (secondaryVolumeBody env req st)])
        (replicationBody env req v sVol) with
    | .error err =>
      (.error (.error err),
        log ++ [Call.CreateVolume (secondaryVolumeBody env req st),
                Call.CreateReplication (replicationBody env req v sVol)])
    | .ok replicaResp =>
      (.ok { volumeinfo with
             VolumeContext := mapSet volumeinfo.VolumeContext env.KVolumeReplicationId
               replicaResp.Id },
        log ++ [Call.CreateVolume (secondaryVolumeBody env req st),
                Call.CreateReplication (replicationBody env req v sVol)])

/-- The method `Plugin.CreateVolume`: the response or the failure, and the call log
extended by the backend calls of this invocation. -/
def CreateVolume (env : Env) (b : Backend) (req : CreateVolumeRequest) (log : List Call) :
    Except Failure CreateVolumeResponse × List Call :=
  match resolveVolumeBody env b req log with
  | (.error err, log1) => (.error (.error err), log1)
  | (.ok st, log1) =>
    match chooseVolume b st.volumebody log1 with
    | (.error f, log2) => (.error f, log2)
    | (.ok (v, isExist), log2) =>
      if st.enableReplication && !isExist then
        match createReplica env b req st v (volumeInfo env v) log2 with
        | (.error f, log3) => (.error f, log3)
        | (.ok volumeinfo, log3) => (.ok { Volume := volumeinfo }, log3)
      else (.ok { Volume := volumeInfo env v }, log2)

/-- The function `getReplicationByVolume`: the first listed pair that references the
volume.  The error of the listing is discarded, the list is then taken to be nil. -/
def getReplicationByVolume (b : Backend) (volId : GoString) (log : List Call) :
    Option ReplicationSpec × List Call :=
  match b.ListReplications log with
  | .error _ => (none, log ++ [Call.ListReplications])
  | .ok replications =>
    (replications.find? (fun r => decide (volId = r.PrimaryVolumeId ∨ volId = r.SecondaryVolumeId)),
      log ++ [Call.ListReplications])

/-- The method `Plugin.DeleteVolume` on the volume id of the request: `none` is the
empty response `csi.DeleteVolumeResponse`, `some err` the error returned; the second
component is the call log. -/
def DeleteVolume (b : Backend) (volId : GoString) (log : List Call) :
    Option GoError × List Call :=
  match getReplicationByVolume b volId log with
  | (some r, log1) =>
    match b.DeleteReplication log1 r.Id with
    | some err => (some err, log1 ++ [Call.DeleteReplication r.Id])
    | none =>
      match b.DeleteVolume (log1 ++ [Call.DeleteReplication r.Id]) r.PrimaryVolumeId with
      | some err =>
        (some err, log1 ++ [Call.DeleteReplication r.Id, Call.DeleteVolume r.PrimaryVolumeId])
      | none =>
        match b.DeleteVolume
            (log1 ++ [Call.DeleteReplication r.Id, Call.DeleteVolume r.PrimaryVolumeId])
            r.SecondaryVolumeId with
        | some err =>
          (some err, log1 ++ [Call.DeleteReplication r.Id,
            Call.DeleteVolume r.PrimaryVolumeId, Call.DeleteVolume r.SecondaryVolumeId])
        | none =>
          (none, log1 ++ [Call.DeleteReplication r.Id,
            Call.DeleteVolume r.PrimaryVolumeId, Call.DeleteVolume r.SecondaryVolumeId])
  | (none, log1) =>
    match b.DeleteVolume log1 volId with
    | some err => (some err, log1 ++ [Call.DeleteVolume volId])
    | none => (none, log1 ++ [Call.DeleteVolume volId])

/-! ## Notions of the specification for volumes -/

/-- The volume that a re-use of the name resolves to: the first listed volume with the
name of the request and the same size, profile, availability zone and snapshot
source. -/
def firstCompatible (req : VolumeSpec) (volumes : List VolumeSpec) : Option VolumeSpec :=
  volumes.find? (fun v => decide (v.Name = req.Name) && volumeCompatible v req)

/-! ## Backends and requests for the examples -/

/-- Lower-casing of the ASCII letters, which is what `strings.ToLower` does on ASCII
strings. -/
def asciiToLower (s : GoString) : GoString := s.map Char.toLower

/-- An environment for the examples.  The constants are not part of the sources; the
parameter keys are here the lower-case names `profile`, `availabilityzone`,
`enablereplication` and `secondaryavailabilityzone`, so that the parameters `profile` and
`enableReplication` of the example requests select the profile and enable replication.
Its `ToLower` lowers the ASCII letters only, which agrees with `strings.ToLower` on the
ASCII keys of the examples; the general statements hold for every `env.ToLower`. -/
def exampleEnv : Env :=
  { ToLower := asciiToLower
    KParamProfile := "profile".toList
    KParamAZ := "availabilityzone".toList
    KParamEnableReplication := "enablereplication".toList
    KParamSecondaryAZ := "secondaryavailabilityzone".toList
    OpensdsDefaultSecondaryAZ := "secondary".toList
    SecondaryPrefix := "secondary-".toList
    KVolumeName := "name".toList
    KVolumeStatus := "status".toList
    KVolumeAZ := "availabilityZone".toList
    KVolumePoolId := "poolId".toList
    KVolumeProfileId := "profileId".toList
    KVolumeLvPath := "lvPath".toList
    KVolumeReplicationId := "replicationId".toList
    ReplicationModeSync := "sync".toList }

/-- An id that differs from every id of the list: it is longer than each of them. -/
def freshId (ids : List GoString) : GoString :=
  List.replicate ((ids.map List.length).foldr max 0 + 1) 'v'

/-- The volumes of the in-memory backend after one more call: a create stores the
submitted record unchanged under a fresh id, a delete removes the record of that id. -/
def memVolumesStep (volumes : List VolumeSpec) (c : Call) : List VolumeSpec :=
  match c with
  | .CreateVolume body => volumes ++ [{ body with Id := freshId (volumes.map (fun v => v.Id)) }]
  | .DeleteVolume id => volumes.filter (fun v => v.Id ≠ id)
  | _ => volumes

/-- The volumes of the in-memory backend that started with `init`, after the calls of the
log. -/
def memVolumes (init : List VolumeSpec) (log : List Call) : List VolumeSpec :=
  log.foldl memVolumesStep init

/-- The replication pairs of the in-memory backend after one more call. -/
def memReplicationsStep (pairs : List ReplicationSpec) (c : Call) : List ReplicationSpec :=
  match c with
  | .CreateReplication body => pairs ++ [{ body with Id := freshId (pairs.map (fun r => r.Id)) }]
  | .DeleteReplication id => pairs.filter (fun r => r.Id ≠ id)
  | _ => pairs

/-- The replication pairs of the in-memory backend after the calls of the log. -/
def memReplications (log : List Call) : List ReplicationSpec :=
  log.foldl memReplicationsStep []

/-- The backend model of the idempotence property: an in-memory backend whose every call
succeeds.  It lists the given profiles and a profile named `default`; it starts with the
volumes `init`; create-volume stores the submitted name, size, profile id, availability
zone and snapshot source unchanged under a fresh id; pairs are stored the same way. -/
def memBackend (defaultProfileId : GoString) (profiles : List ProfileSpec)
    (init : List VolumeSpec) : Backend :=
  { ListProfiles := fun _ => .ok (profiles ++ [{ Id := defaultProfileId, Name := "default".toList }])
    ListVolumes := fun log => .ok (memVolumes init log)
    CreateVolume := fun log body =>
      .ok { body with Id := freshId ((memVolumes init log).map (fun v => v.Id)) }
    CreateReplication := fun log body =>
      .ok { body with Id := freshId ((memReplications log).map (fun r => r.Id)) }
    ListReplications := fun log => .ok (memReplications log)
    DeleteReplication := fun _ _ => none
    DeleteVolume := fun _ _ => none }

/-- A volume record for the examples, in the availability zone `default` with the profile
`p1`. -/
def exampleVolume (id name : String) (size : Int) : VolumeSpec :=
  { VolumeSpec.zero with Id := id.toList, Name := name.toList, Size := size,
                         AvailabilityZone := "default".toList, ProfileId := "p1".toList }

/-- A create request for the examples: the volume `vol1` of one allocation unit with the
profile `p1`, with or without replication. -/
def exampleCreateRequest (enableReplication : Bool) : CreateVolumeRequest :=
  { Name := "vol1".toList
    CapacityRange := some { RequiredBytes := 1073741824, LimitBytes := 0 }
    Parameters := [("profile".toList, "p1".toList),
      ("enableReplication".toList, if enableReplication then "true".toList else "false".toList)]
    VolumeContentSource := none }

/-- A backend that loses the answer of the primary create: the volume `vol1` is stored
and listed from then on, but the create call answers with an error.  The create of any
other volume succeeds or fails as the flag says; pair creation succeeds. -/
def lostReplyBackend (secondaryFails : Bool) : Backend :=
  { ListProfiles := fun _ => .ok []
    ListVolumes := fun log =>
      if log.any (fun c => c matches .CreateVolume _) then .ok [exampleVolume "id1" "vol1" 1]
      else .ok []
    CreateVolume := fun _ body =>
      if body.Name = "vol1".toList then .error (.other "request timed out".toList)
      else if secondaryFails then .error (.other "no pool in the secondary zone".toList)
      else .ok { body with Id := "id2".toList }
    CreateReplication := fun _ body => .ok { body with Id := "pair1".toList }
    ListReplications := fun _ => .ok []
    DeleteReplication := fun _ _ => none
    DeleteVolume := fun _ _ => none }

/-- A create request for the largest capacity of the 64-bit field: `2^63 - 1` bytes. -/
def maxCapacityRequest : CreateVolumeRequest :=
  { exampleCreateRequest false with
    CapacityRange := some { RequiredBytes := 9223372036854775807, LimitBytes := 0 } }

/-- The body that `CreateVolume` resolves the example requests to, with the given
replication flag. -/
def exampleBodyState (enableReplication : Bool) : VolumeBodyState :=
  { volumebody := exampleVolume "" "vol1" 1
    secondaryAZ := "secondary".toList
    enableReplication := enableReplication }

/-- A replication pair for the examples: the pair `v` of the volumes `v` and `vv`. -/
def examplePair : ReplicationSpec :=
  { Id := "v".toList, Name := "vol1".toList, PrimaryVolumeId := "v".toList,
    SecondaryVolumeId := "vv".toList, ReplicationMode := "sync".toList,
    ReplicationPeriod := 0 }

/-! ## Attachments, pools and snapshots: client, constants and protocol messages -/

/-- The fields of the backend record `model.StoragePoolSpec` that the controller reads:
the free capacity, an `int64`, and `Extras.IOConnectivity.AccessProtocol`. -/
structure StoragePoolSpec where
  Id : GoString
  FreeCapacity : Int
  AccessProtocol : GoString
deriving DecidableEq, Repr

/-- The backend client `Client` with the calls of the attachment, pool and snapshot
operations added to those of `Backend`.  `GetVolume` and `GetPool` may answer with a nil
record and no error, which the controller tests for. -/
structure Client extends Backend where
  GetVolume : List Call → GoString → Except GoError (Option VolumeSpec)
  GetPool : List Call → GoString → Except GoError (Option StoragePoolSpec)
  ListPools : List Call → Except GoError (List (Option StoragePoolSpec))
  ListVolumeAttachments : List Call → Except GoError (List VolumeAttachmentSpec)
  CreateVolumeAttachment :
    List Call → VolumeAttachmentSpec → Except GoError VolumeAttachmentSpec
  DeleteVolumeAttachment : List Call → GoString → VolumeAttachmentSpec → Option GoError
  GetReplication : List Call → GoString → Except GoError ReplicationSpec
  ListVolumeSnapshots : List Call → Except GoError (List VolumeSnapshotSpec)
  CreateVolumeSnapshot : List Call → VolumeSnapshotSpec → Except GoError VolumeSnapshotSpec
  DeleteVolumeSnapshot : List Call → GoString → Option GoError

/-- The constants and library functions that the attachment operations take from outside
the sources, added to those of `Env`: the driver names of the connector package, the
architecture and operating system of the build (`runtime.GOARCH`, `runtime.GOOS`), the
publish context keys of the plugin package, and `utils.MergeStringMaps` of the OpenSDS
utilities. -/
structure PublishEnv extends Env where
  FcDriver : GoString
  IscsiDriver : GoString
  RbdDriver : GoString
  GOARCH : GoString
  GOOS : GoString
  KPublishHostIp : GoString
  KPublishHostName : GoString
  KPublishAttachId : GoString
  KPublishAttachStatus : GoString
  KPublishSecondaryAttachId : GoString
  MergeStringMaps :
    List (GoString × GoString) → List (GoString × GoString) → List (GoString × GoString)

/-- The name of a status code (`codes.Code.String`). -/
def Code.String : Code → GoString
  | .InvalidArgument => "InvalidArgument".toList
  | .NotFound => "NotFound".toList
  | .AlreadyExists => "AlreadyExists".toList
  | .FailedPrecondition => "FailedPrecondition".toList
  | .Aborted => "Aborted".toList
  | .Unimplemented => "Unimplemented".toList
  | .Internal => "Internal".toList

/-- The method `Error()` of a Go error: the message, which for a gRPC status names the
code and the description. -/
def GoError.Error : GoError → GoString
  | .status code msg => "rpc error: code = ".toList ++ code.String ++ " desc = ".toList ++ msg
  | .other msg => msg

/-- Go `strings.Join(elems, sep)`. -/
def Join (elems : List GoString) (sep : GoString) : GoString := sep.intercalate elems

/-- Go map read `value, ok := m[key]`: `none` when the key is missing. -/
def mapFind (m : List (GoString × GoString)) (key : GoString) : Option GoString :=
  (m.find? (fun kv => kv.1 = key)).map (fun kv => kv.2)

/-- The access modes of `csi.VolumeCapability_AccessMode_Mode`. -/
inductive AccessModeMode
  | UNKNOWN
  | SINGLE_NODE_WRITER
  | SINGLE_NODE_READER_ONLY
  | MULTI_NODE_READER_ONLY
  | MULTI_NODE_SINGLE_WRITER
  | MULTI_NODE_MULTI_WRITER
deriving DecidableEq, Repr

/-- The protocol record `csi.VolumeCapability_AccessMode`. -/
structure AccessMode where
  Mode : AccessModeMode
deriving DecidableEq, Repr

/-- The protocol record `csi.VolumeCapability`, reduced to its access mode, a pointer
that may be nil. -/
structure VolumeCapability where
  AccessMode : Option AccessMode
deriving DecidableEq, Repr

/-- The protocol record `csi.ControllerPublishVolumeRequest`; the volume capability is a
pointer that may be nil, the volume context a Go map held as the list of its entries. -/
structure ControllerPublishVolumeRequest where
  VolumeId : GoString
  NodeId : GoString
  VolumeCapability : Option VolumeCapability
  VolumeContext : List (GoString × GoString)
deriving DecidableEq, Repr

/-- The protocol record `csi.ControllerPublishVolumeResponse`. -/
structure ControllerPublishVolumeResponse where
  PublishContext : List (GoString × GoString)
deriving DecidableEq, Repr

/-- The protocol record `csi.ControllerUnpublishVolumeRequest`. -/
structure ControllerUnpublishVolumeRequest where
  VolumeId : GoString
  NodeId : GoString
deriving DecidableEq, Repr

/-- The protocol record `csi.ControllerUnpublishVolumeResponse`, which has no field. -/
structure ControllerUnpublishVolumeResponse where
deriving DecidableEq, Repr

/-- The protocol record `csi.ListVolumesResponse_Entry`. -/
structure ListVolumesResponse_Entry where
  Volume : Volume
deriving DecidableEq, Repr

/-- The protocol record `csi.ListVolumesResponse`. -/
structure ListVolumesResponse where
  Entries : List ListVolumesResponse_Entry
deriving DecidableEq, Repr

/-- The protocol record `csi.GetCapacityResponse`; the capacity is an `int64`. -/
structure GetCapacityResponse where
  AvailableCapacity : Int
deriving DecidableEq, Repr

/-- The protocol record `csi.CreateSnapshotRequest`.  `Parameters` is a Go map, held as
the list of its entries in the order in which the `range` loop of this call visits
them. -/
structure CreateSnapshotRequest where
  Name : GoString
  SourceVolumeId : GoString
  Parameters : List (GoString × GoString)
deriving DecidableEq, Repr

/-- The protocol record `csi.CreateSnapshotResponse`. -/
structure CreateSnapshotResponse where
  Snapshot : Snapshot
deriving DecidableEq, Repr

/-- The protocol record `csi.DeleteSnapshotRequest`. -/
structure DeleteSnapshotRequest where
  SnapshotId : GoString
deriving DecidableEq, Repr

/-- The protocol record `csi.DeleteSnapshotResponse`, which has no field. -/
structure DeleteSnapshotResponse where
deriving DecidableEq, Repr

/-! ## Publishing and unpublishing volumes -/

/-- The function `isStringMapEqual`: equal lengths, and every entry of `metadataA` has
its key in `metadataB` with the same value. -/
def isStringMapEqual (metadataA metadataB : List (GoString × GoString)) : Bool :=
  if metadataA.length ≠ metadataB.length then false
  else
    metadataA.all (fun kv =>
      match mapFind metadataB kv.1 with
      | none => false
      | some valueB => decide (kv.2 = valueB))

/-- The five comparisons of `isVolumePublished` for an attachment of the same volume on
the same host. -/
def attachmentCompatible (attachSpec attachReq : VolumeAttachmentSpec)
    (metadata : List (GoString × GoString)) : Bool :=
  decide (attachSpec.Platform = attachReq.Platform) &&
    decide (attachSpec.OsType = attachReq.OsType) &&
    decide (attachSpec.Initiator = attachReq.Initiator) &&
    isStringMapEqual attachSpec.Metadata metadata &&
    decide (attachSpec.AccessProtocol = attachReq.AccessProtocol)

/-- The loop of `isVolumePublished` over the listed attachments. -/
def isVolumePublishedLoop (canAtMultiNode : Bool) (attachReq : VolumeAttachmentSpec)
    (metadata : List (GoString × GoString)) :
    List VolumeAttachmentSpec → Except GoError (Option VolumeAttachmentSpec)
  | [] => .ok none
  | attachSpec :: rest =>
    if attachSpec.VolumeId = attachReq.VolumeId then
      if attachSpec.Host ≠ attachReq.Host then
        if !canAtMultiNode then
          .error (.status .FailedPrecondition
            ("the volume ".toList ++ attachReq.VolumeId ++
              (" has been published to another node and does not have " ++
                "MULTI_NODE volume capability").toList))
        else isVolumePublishedLoop canAtMultiNode attachReq metadata rest
      else if attachmentCompatible attachSpec attachReq metadata then .ok (some attachSpec)
      else .error (.status .AlreadyExists "Volume published but is incompatible".toList)
    else isVolumePublishedLoop canAtMultiNode attachReq metadata rest

/-- The function `isVolumePublished`: the compatible attachment found, `none` when a new
attachment is needed, or the error; the second component is the call log. -/
def isVolumePublished (c : Client) (canAtMultiNode : Bool)
    (attachReq : VolumeAttachmentSpec) (metadata : List (GoString × GoString))
    (log : List Call) : Except GoError (Option VolumeAttachmentSpec) × List Call :=
  match c.ListVolumeAttachments log with
  | .error err =>
    (.error (.status .FailedPrecondition err.Error), log ++ [Call.ListVolumeAttachments])
  | .ok attachments =>
    (isVolumePublishedLoop canAtMultiNode attachReq metadata attachments,
      log ++ [Call.ListVolumeAttachments])

/-- The access protocol of `ControllerPublishVolume`: the lower-cased protocol of the
pool, `iscsi` when that is empty. -/
def resolveProtocol (penv : PublishEnv) (pool : StoragePoolSpec) : GoString :=
  if penv.ToLower pool.AccessProtocol = [] then "iscsi".toList
  else penv.ToLower pool.AccessProtocol

/-- The `switch` of `ControllerPublishVolume` on the protocol: the initiator, or the
error returned. -/
def selectInitiator (penv : PublishEnv) (protocol : GoString) (wwpns iqns : List GoString) :
    Except GoError GoString :=
  if protocol = penv.FcDriver then
    if wwpns.length ≤ 0 then
      .error (.status .FailedPrecondition
        ("protocol is ".toList ++ protocol ++ ", but no wwpn".toList))
    else .ok (Join wwpns [','])
  else if protocol = penv.IscsiDriver then
    match iqns with
    | [] =>
      .error (.status .FailedPrecondition
        ("protocol is ".toList ++ protocol ++ ", but no iqn".toList))
    | iqn :: _ => .ok iqn
  else if protocol = penv.RbdDriver then .ok []
  else .error (.status .InvalidArgument ("protocol cannot be ".toList ++ protocol))

/-- The test of `ControllerPublishVolume` for the three multi-node access modes. -/
def canAtMultiNode (mode : AccessModeMode) : Bool :=
  decide (AccessModeMode.MULTI_NODE_MULTI_WRITER = mode) ||
    decide (AccessModeMode.MULTI_NODE_READER_ONLY = mode) ||
    decide (AccessModeMode.MULTI_NODE_SINGLE_WRITER = mode)

/-- The locals of `ControllerPublishVolume` when the compatibility scan is reached. -/
structure PublishState where
  attachReq : VolumeAttachmentSpec
  canAtMultiNode : Bool
  expectedMetadata : List (GoString × GoString)
deriving DecidableEq, Repr

/-- The record `attachReq` of `ControllerPublishVolume`; the fields that the literal
does not name have their zero values. -/
def attachRequest (penv : PublishEnv) (req : ControllerPublishVolumeRequest)
    (hostName initator protocol : GoString) : VolumeAttachmentSpec :=
  { Id := [], VolumeId := req.VolumeId, Host := hostName, Platform := penv.GOARCH,
    OsType := penv.GOOS, Ip := [], Initiator := initator, Status := [],
    Metadata := req.VolumeContext, AccessProtocol := protocol }

/-- The part of `ControllerPublishVolume` before the compatibility scan: volume, pool,
protocol, node id, initiator, attachment request, access mode and expected metadata.
Reading the access mode of a request without volume capability or without access mode
panics. -/
def preparePublish (penv : PublishEnv) (c : Client) (req : ControllerPublishVolumeRequest)
    (log : List Call) : Except Failure PublishState × List Call :=
  match c.GetVolume log req.VolumeId with
  | .ok (some volSpec) =>
    match c.GetPool (log ++ [Call.GetVolume req.VolumeId]) volSpec.PoolId with
    | .ok (some pool) =>
      match extractInfoFromNodeId req.NodeId with
      | .error f => (.error f, log ++ [Call.GetVolume req.VolumeId, Call.GetPool volSpec.PoolId])
      | .ok (hostName, wwpns, _, iqns) =>
        match selectInitiator penv (resolveProtocol penv pool) wwpns iqns with
        | .error err =>
          (.error (.error err),
            log ++ [Call.GetVolume req.VolumeId, Call.GetPool volSpec.PoolId])
        | .ok initator =>
          match req.VolumeCapability with
          | none =>
            (.error .panic, log ++ [Call.GetVolume req.VolumeId, Call.GetPool volSpec.PoolId])
          | some capability =>
            match capability.AccessMode with
            | none =>
              (.error .panic,
                log ++ [Call.GetVolume req.VolumeId, Call.GetPool volSpec.PoolId])
            | some accessMode =>
              (.ok { attachReq :=
                       attachRequest penv req hostName initator (resolveProtocol penv pool)
                     canAtMultiNode := canAtMultiNode accessMode.Mode
                     expectedMetadata :=
                       penv.MergeStringMaps req.VolumeContext volSpec.Metadata },
                log ++ [Call.GetVolume req.VolumeId, Call.GetPool volSpec.PoolId])
    | _ =>
      (.error (.error (.status .NotFound
        ("the pool ".toList ++ volSpec.PoolId ++ " is not sxist".toList))),
        log ++ [Call.GetVolume req.VolumeId, Call.GetPool volSpec.PoolId])
  | _ =>
    (.error (.error (.status .NotFound
      ("the volume ".toList ++ req.VolumeId ++ " is not exist".toList))),
      log ++ [Call.GetVolume req.VolumeId])

/-- The block that `ControllerPublishVolume` runs for the volume and again for the
secondary volume: the compatibility scan, and the create of the attachment when the scan
finds none. -/
def publishAttachment (c : Client) (req : ControllerPublishVolumeRequest)
    (canAtMultiNode : Bool) (attachReq : VolumeAttachmentSpec)
    (expectedMetadata : List (GoString × GoString)) (log : List Call) :
    Except GoError VolumeAttachmentSpec × List Call :=
  match isVolumePublished c canAtMultiNode attachReq expectedMetadata log with
  | (.error err, log1) => (.error err, log1)
  | (.ok (some existAttachment), log1) => (.ok existAttachment, log1)
  | (.ok none, log1) =>
    match c.CreateVolumeAttachment log1 attachReq with
    | .error _ =>
      (.error (.status .FailedPrecondition
        ("the volume ".toList ++ req.VolumeId ++ " failed to publish to node ".toList ++
          req.NodeId ++ ".".toList)), log1 ++ [Call.CreateVolumeAttachment attachReq])
    | .ok newAttachment => (.ok newAttachment, log1 ++ [Call.CreateVolumeAttachment attachReq])

/-- The map `PublishContext` that `ControllerPublishVolume` builds from the attachment. -/
def publishContext (penv : PublishEnv) (attachSpec : VolumeAttachmentSpec) :
    List (GoString × GoString) :=
  mapSet (mapSet (mapSet (mapSet [] penv.KPublishHostIp attachSpec.Ip)
    penv.KPublishHostName attachSpec.Host) penv.KPublishAttachId attachSpec.Id)
    penv.KPublishAttachStatus attachSpec.Status

/-- The method `Plugin.ControllerPublishVolume`: the response or the failure, and the
call log extended by the backend calls of this invocation. -/
def ControllerPublishVolume (penv : PublishEnv) (c : Client)
    (req : ControllerPublishVolumeRequest) (log : List Call) :
    Except Failure ControllerPublishVolumeResponse × List Call :=
  match preparePublish penv c req log with
  | (.error f, log1) => (.error f, log1)
  | (.ok st, log1) =>
    match publishAttachment c req st.canAtMultiNode st.attachReq st.expectedMetadata log1 with
    | (.error err, log2) => (.error (.error err), log2)
    | (.ok attachSpec, log2) =>
      match mapFind req.VolumeContext penv.KVolumeReplicationId with
      | none => (.ok { PublishContext := publishContext penv attachSpec }, log2)
      | some replicationId =>
        match c.GetReplication log2 replicationId with
        | .error _ =>
          (.error (.error (.status .FailedPrecondition "Get replication failed".toList)),
            log2 ++ [Call.GetReplication replicationId])
        | .ok r =>
          match publishAttachment c req st.canAtMultiNode
              { st.attachReq with VolumeId := r.SecondaryVolumeId } st.expectedMetadata
              (log2 ++ [Call.GetReplication replicationId]) with
          | (.error err, log3) => (.error (.error err), log3)
          | (.ok secondaryAttachSpec, log3) =>
            (.ok { PublishContext :=
                     mapSet (publishContext penv attachSpec) penv.KPublishSecondaryAttachId
                       secondaryAttachSpec.Id }, log3)

/-- The two gathering loops of `ControllerUnpublishVolume`: the listed attachments of the
volume on the host, the host condition being dropped for an empty node id. -/
def gatherAttachments (attachments : List VolumeAttachmentSpec)
    (volumeId nodeId hostName : GoString) : List VolumeAttachmentSpec :=
  attachments.filter (fun attachSpec =>
    decide (attachSpec.VolumeId = volumeId) &&
      (decide (nodeId = []) || decide (attachSpec.Host = hostName)))

/-- The delete loop of `ControllerUnpublishVolume` over the gathered attachments: it
stops at the first delete that fails, with the failed-precondition error of message
`msg`. -/
def deleteAttachments (c : Client) (msg : GoString) :
    List VolumeAttachmentSpec → List Call → Option GoError × List Call
  | [], log => (none, log)
  | act :: rest, log =>
    match c.DeleteVolumeAttachment log act.Id act with
    | some _ =>
      (some (.status .FailedPrecondition msg), log ++ [Call.DeleteVolumeAttachment act.Id])
    | none => deleteAttachments c msg rest (log ++ [Call.DeleteVolumeAttachment act.Id])

/-- The list `acts` of `ControllerUnpublishVolume`: the attachments gathered for the
volume, followed by those gathered for the secondary volume of the pair `r`, if any. -/
def gatheredActs (attachments : List VolumeAttachmentSpec)
    (req : ControllerUnpublishVolumeRequest) (hostName : GoString)
    (r : Option ReplicationSpec) : List VolumeAttachmentSpec :=
  match r with
  | some r =>
    gatherAttachments attachments req.VolumeId req.NodeId hostName ++
      gatherAttachments attachments r.SecondaryVolumeId req.NodeId hostName
  | none => gatherAttachments attachments req.VolumeId req.NodeId hostName

/-- The method `Plugin.ControllerUnpublishVolume`: the response or the failure, and the
call log extended by the backend calls of this invocation. -/
def ControllerUnpublishVolume (c : Client) (req : ControllerUnpublishVolumeRequest)
    (log : List Call) : Except Failure ControllerUnpublishVolumeResponse × List Call :=
  match c.GetVolume log req.VolumeId with
  | .ok (some _) =>
    match c.ListVolumeAttachments (log ++ [Call.GetVolume req.VolumeId]) with
    | .error _ =>
      (.error (.error (.status .FailedPrecondition "Failed to unpublish volume.".toList)),
        log ++ [Call.GetVolume req.VolumeId, Call.ListVolumeAttachments])
    | .ok attachments =>
      match extractInfoFromNodeId req.NodeId with
      | .error f => (.error f, log ++ [Call.GetVolume req.VolumeId, Call.ListVolumeAttachments])
      | .ok (hostName, _, _, _) =>
        match getReplicationByVolume c.toBackend req.VolumeId
            (log ++ [Call.GetVolume req.VolumeId, Call.ListVolumeAttachments]) with
        | (r, log1) =>
          match deleteAttachments c
              ("the volume ".toList ++ req.VolumeId ++ " failed to unpublish from node ".toList ++
                req.NodeId ++ ".".toList)
              (gatheredActs attachments req hostName r) log1 with
          | (some err, log2) => (.error (.error err), log2)
          | (none, log2) => (.ok {}, log2)
  | _ =>
    (.error (.error (.status .NotFound
      ("the volume ".toList ++ req.VolumeId ++ " is not exist".toList))),
      log ++ [Call.GetVolume req.VolumeId])

/-! ## Listing volumes and capacity -/

/-- The entry that `ListVolumes` appends for the volume `v`. -/
def listVolumesEntry (v : VolumeSpec) : ListVolumesResponse_Entry :=
  { Volume :=
      { CapacityBytes := v.Size
        VolumeId := v.Id
        VolumeContext :=
          mapSet (mapSet (mapSet (mapSet (mapSet [] "Name".toList v.Name)
            "Status".toList v.Status) "AvailabilityZone".toList v.AvailabilityZone)
            "PoolId".toList v.PoolId) "ProfileId".toList v.ProfileId } }

/-- The method `Plugin.ListVolumes`.  `listVolumes` is what the backend call
`Client.ListVolumes()` returns, a list of pointers of which the nil ones are skipped. -/
def ListVolumes (listVolumes : Except GoError (List (Option VolumeSpec))) :
    Except Failure ListVolumesResponse :=
  match listVolumes with
  | .error err => .error (.error err)
  | .ok volumes => .ok { Entries := (volumes.filterMap id).map listVolumesEntry }

/-- The method `Plugin.GetCapacity`.  `listPools` is what the backend call
`Client.ListPools()` returns; the free capacities of the pools that are not nil are
added up in `int64`. -/
def GetCapacity (listPools : Except GoError (List (Option StoragePoolSpec))) :
    Except Failure GetCapacityResponse :=
  match listPools with
  | .error err => .error (.error err)
  | .ok pools =>
    .ok { AvailableCapacity :=
            (pools.filterMap id).foldl
              (fun freecapacity p => toInt64 (freecapacity + toInt64 p.FreeCapacity)) 0 }

/-! ## Creating and deleting snapshots -/

/-- The compatibility test of `FindSnapshot`: same source volume and profile. -/
def snapshotCompatible (snapshot req : VolumeSnapshotSpec) : Bool :=
  decide (snapshot.VolumeId = req.VolumeId) && decide (snapshot.ProfileId = req.ProfileId)

/-- The loop of `FindSnapshot` over the listed snapshots, from the current value of
`isExist` to the values returned. -/
def findSnapshotLoop (req : VolumeSnapshotSpec) :
    List VolumeSnapshotSpec → Bool → Bool × Bool × Option VolumeSnapshotSpec
  | [], isExist => (isExist, false, none)
  | snapshot :: rest, isExist =>
    if snapshot.Name = req.Name then
      if snapshotCompatible snapshot req then (true, true, some snapshot)
      else findSnapshotLoop req rest true
    else findSnapshotLoop req rest isExist

/-- The function `FindSnapshot`: `isExist`, `isCompatible` and the snapshot found, or the
error of the listing; the second component is the call log. -/
def FindSnapshot (c : Client) (req : VolumeSnapshotSpec) (log : List Call) :
    Except GoError (Bool × Bool × Option VolumeSnapshotSpec) × List Call :=
  match c.ListVolumeSnapshots log with
  | .error err => (.error err, log ++ [Call.ListVolumeSnapshots])
  | .ok snapshots =>
    (.ok (findSnapshotLoop req snapshots false), log ++ [Call.ListVolumeSnapshots])

/-- The record `snapReq` of `CreateSnapshot`: name and source volume of the request, and
the profile that the loop over the request parameters leaves. -/
def snapshotBody (env : Env) (req : CreateSnapshotRequest) : VolumeSnapshotSpec :=
  req.Parameters.foldl
    (fun snapReq kv =>
      if env.ToLower kv.1 = env.KParamProfile then { snapReq with ProfileId := kv.2 }
      else snapReq)
    { Id := [], CreatedAt := [], Name := req.Name, Size := 0, VolumeId := req.SourceVolumeId,
      ProfileId := [] }

/-- The lookup part of `CreateSnapshot`: the snapshot found or created.  There is no
re-scan after a failed create.  A nil snapshot would panic when its fields are read. -/
def chooseSnapshot (c : Client) (snapReq : VolumeSnapshotSpec) (log : List Call) :
    Except Failure VolumeSnapshotSpec × List Call :=
  match FindSnapshot c snapReq log with
  | (.error err, log1) => (.error (.error err), log1)
  | (.ok (isExist, isCompatible, findSnapshot), log1) =>
    if isExist then
      if isCompatible then
        match findSnapshot with
        | some snapshot => (.ok snapshot, log1)
        | none => (.error .panic, log1)
      else
        (.error (.error (.status .AlreadyExists
          "Snapshot already exists but is incompatible".toList)), log1)
    else
      match c.CreateVolumeSnapshot log1 snapReq with
      | .error err => (.error (.error err), log1 ++ [Call.CreateVolumeSnapshot snapReq])
      | .ok createSnapshot => (.ok createSnapshot, log1 ++ [Call.CreateVolumeSnapshot snapReq])

/-- The last part of `CreateSnapshot`: the response built from the snapshot, or the error
of the conversion of its creation time. -/
def snapshotResponse (tl : TimeLib) (snapshot : VolumeSnapshotSpec) :
    Except Failure CreateSnapshotResponse :=
  match convertStringToPtypesTimestamp tl snapshot.CreatedAt with
  | .error err => .error (.error err)
  | .ok creationTime => .ok { Snapshot := (snapshotEntry snapshot creationTime).Snapshot }

/-- The method `Plugin.CreateSnapshot`: the response or the failure, and the call log
extended by the backend calls of this invocation. -/
def CreateSnapshot (env : Env) (tl : TimeLib) (c : Client) (req : CreateSnapshotRequest)
    (log : List Call) : Except Failure CreateSnapshotResponse × List Call :=
  if 0 = req.Name.length then
    (.error (.error (.status .InvalidArgument "Snapshot Name cannot be empty".toList)), log)
  else if 0 = req.SourceVolumeId.length then
    (.error (.error (.status .InvalidArgument "Source Volume ID cannot be empty".toList)), log)
  else
    match chooseSnapshot c (snapshotBody env req) log with
    | (.error f, log1) => (.error f, log1)
    | (.ok snapshot, log1) => (snapshotResponse tl snapshot, log1)

/-- The method `Plugin.DeleteSnapshot`: the response or the failure, and the call log
extended by the backend call of this invocation. -/
def DeleteSnapshot (c : Client) (req : DeleteSnapshotRequest) (log : List Call) :
    Except Failure DeleteSnapshotResponse × List Call :=
  if 0 = req.SnapshotId.length then
    (.error (.error (.status .InvalidArgument "Snapshot ID cannot be empty".toList)), log)
  else
    match c.DeleteVolumeSnapshot log req.SnapshotId with
    | some err => (.error (.error err), log ++ [Call.DeleteVolumeSnapshot req.SnapshotId])
    | none => (.ok {}, log ++ [Call.DeleteVolumeSnapshot req.SnapshotId])

/-! ## Notions of the specification for deletion, snapshots and attachments -/

/-- The deletion invariant of replication pairs on a sequence of backend calls: a delete
of a volume that one of the pairs references, as primary or as secondary volume, comes
after the delete of that pair. -/
def pairingGovernsDeletion (pairs : List ReplicationSpec) (calls : List Call) : Prop :=
  ∀ (before after : List Call) (id : GoString),
    calls = before ++ Call.DeleteVolume id :: after →
    ∀ r ∈ pairs, (id = r.PrimaryVolumeId ∨ id = r.SecondaryVolumeId) →
      Call.DeleteReplication r.Id ∈ before

/-- The snapshot that a re-use of the name resolves to: the first listed snapshot with
the name, source volume and profile of the request. -/
def firstCompatibleSnapshot (req : VolumeSnapshotSpec) (snapshots : List VolumeSnapshotSpec) :
    Option VolumeSnapshotSpec :=
  snapshots.find? (fun s => decide (s.Name = req.Name) && snapshotCompatible s req)

/-- A Go map held as the list of its entries has pairwise distinct keys. -/
def distinctKeys (m : List (GoString × GoString)) : Prop := (m.map (fun kv => kv.1)).Nodup

/-! ## Clients and requests for the attachment and snapshot examples -/

/-- The attachments of the in-memory client after one more call: a create stores the
submitted record unchanged under a fresh id, a delete removes the record of that id. -/
def memAttachmentsStep (attachments : List VolumeAttachmentSpec) (c : Call) :
    List VolumeAttachmentSpec :=
  match c with
  | .CreateVolumeAttachment body =>
    attachments ++ [{ body with Id := freshId (attachments.map (fun a => a.Id)) }]
  | .DeleteVolumeAttachment id => attachments.filter (fun a => a.Id ≠ id)
  | _ => attachments

/-- The record that the in-memory client stores for a submitted attachment request when
it holds `attachments`: the request under a fresh id. -/
def storedAttachment (body : VolumeAttachmentSpec) (attachments : List VolumeAttachmentSpec) :
    VolumeAttachmentSpec :=
  { body with Id := freshId (attachments.map (fun a => a.Id)) }

/-- The attachments of the in-memory client that started with `init`, after the calls of
the log. -/
def memAttachments (init : List VolumeAttachmentSpec) (log : List Call) :
    List VolumeAttachmentSpec :=
  log.foldl memAttachmentsStep init

/-- The snapshots of the in-memory client after one more call: a create stores the
submitted record under a fresh id with a creation time. -/
def memSnapshotsStep (snapshots : List VolumeSnapshotSpec) (c : Call) :
    List VolumeSnapshotSpec :=
  match c with
  | .CreateVolumeSnapshot body =>
    snapshots ++ [{ body with Id := freshId (snapshots.map (fun s => s.Id)),
                              CreatedAt := "2018-01-01T00:00:00".toList }]
  | .DeleteVolumeSnapshot id => snapshots.filter (fun s => s.Id ≠ id)
  | _ => snapshots

/-- The snapshots of the in-memory client that started with `init`, after the calls of
the log. -/
def memSnapshots (init : List VolumeSnapshotSpec) (log : List Call) :
    List VolumeSnapshotSpec :=
  log.foldl memSnapshotsStep init

/-- The backend model of the attachment reuse property: an in-memory client whose every
call succeeds.  Volumes, pools and replication pairs are fixed; create-attachment stores
the submitted attachment request unchanged under a fresh id; snapshots are stored the
same way.  A volume or pool that is not held is answered with a nil record, a pair that
is not held with an error. -/
def memClient (volumes : List VolumeSpec) (pools : List StoragePoolSpec)
    (pairs : List ReplicationSpec) (snapshots : List VolumeSnapshotSpec)
    (attachments : List VolumeAttachmentSpec) : Client :=
  { toBackend := { memBackend [] [] volumes with ListReplications := fun _ => .ok pairs }
    GetVolume := fun _ id => .ok (volumes.find? (fun v => v.Id = id))
    GetPool := fun _ id => .ok (pools.find? (fun p => p.Id = id))
    ListPools := fun _ => .ok (pools.map some)
    ListVolumeAttachments := fun log => .ok (memAttachments attachments log)
    CreateVolumeAttachment := fun log body =>
      .ok { body with Id := freshId ((memAttachments attachments log).map (fun a => a.Id)) }
    DeleteVolumeAttachment := fun _ _ _ => none
    GetReplication := fun _ id =>
      match pairs.find? (fun r => r.Id = id) with
      | some r => .ok r
      | none => .error (.other "replication not found".toList)
    ListVolumeSnapshots := fun log => .ok (memSnapshots snapshots log)
    CreateVolumeSnapshot := fun log body =>
      .ok { body with Id := freshId ((memSnapshots snapshots log).map (fun s => s.Id)),
                      CreatedAt := "2018-01-01T00:00:00".toList }
    DeleteVolumeSnapshot := fun _ _ => none }

/-- A merge of string maps for the examples: the entries of the second map are written
into the first. -/
def exampleMerge (a b : List (GoString × GoString)) : List (GoString × GoString) :=
  b.foldl (fun m kv => mapSet m kv.1 kv.2) a

/-- An environment for the attachment examples.  The constants are not part of the
sources; the driver names are here `fibre_channel`, `iscsi` and `rbd`. -/
def examplePublishEnv : PublishEnv :=
  { toEnv := exampleEnv
    FcDriver := "fibre_channel".toList
    IscsiDriver := "iscsi".toList
    RbdDriver := "rbd".toList
    GOARCH := "amd64".toList
    GOOS := "linux".toList
    KPublishHostIp := "hostIp".toList
    KPublishHostName := "hostName".toList
    KPublishAttachId := "attachId".toList
    KPublishAttachStatus := "attachStatus".toList
    KPublishSecondaryAttachId := "secondaryAttachId".toList
    MergeStringMaps := exampleMerge }

/-- A pool for the examples, with the given access protocol. -/
def examplePool (protocol : String) : StoragePoolSpec :=
  { Id := "pool1".toList, FreeCapacity := 10, AccessProtocol := protocol.toList }

/-- A volume in the pool of the examples, with the given metadata. -/
def examplePublishedVolume (id : String) (metadata : List (GoString × GoString)) :
    VolumeSpec :=
  { exampleVolume id "vol1" 1 with PoolId := "pool1".toList, Metadata := metadata }

/-- A publish request for the examples: the volume `v1`, the given node id, and the
access mode single-node writer. -/
def examplePublishRequest (nodeId : String) (context : List (GoString × GoString)) :
    ControllerPublishVolumeRequest :=
  { VolumeId := "v1".toList, NodeId := nodeId.toList,
    VolumeCapability := some { AccessMode := some { Mode := .SINGLE_NODE_WRITER } },
    VolumeContext := context }

/-- An attachment record for the examples: the volume `v1` on the given host, with the
fields that `ControllerPublishVolume` requests for an iSCSI pool and the initiator
`iqn.a`. -/
def exampleAttachment (id host : String) : VolumeAttachmentSpec :=
  { Id := id.toList, VolumeId := "v1".toList, Host := host.toList, Platform := "amd64".toList,
    OsType := "linux".toList, Ip := [], Initiator := "iqn.a".toList, Status := [],
    Metadata := [], AccessProtocol := "iscsi".toList }

/-- A client whose listing of the attachments fails with the error "backend down"; its
other calls are those of the in-memory client that holds the volume `v1`. -/
def downClient : Client :=
  { memClient [examplePublishedVolume "v1" []] [examplePool ""] [] [] [] with
    ListVolumeAttachments := fun _ => .error (.other "backend down".toList) }

/-- A client whose listing of the replication pairs fails with the error "backend down";
its other calls are those of the in-memory client that holds the volume `v1` and one
attachment `a1` of it on the host `host1`. -/
def pairsDownClient : Client :=
  { memClient [examplePublishedVolume "v1" []] [examplePool ""] [] []
      [exampleAttachment "a1" "host1"] with
    ListReplications := fun _ => .error (.other "backend down".toList) }

/-! ## Data for the unpublish and capacity examples -/

/-- A replication pair whose secondary volume is the volume `v1` of the attachment
examples; its primary volume is `v0`. -/
def exampleSecondaryPair : ReplicationSpec :=
  { Id := "r1".toList, Name := "vol1".toList, PrimaryVolumeId := "v0".toList,
    SecondaryVolumeId := "v1".toList, ReplicationMode := "sync".toList,
    ReplicationPeriod := 0 }

/-- A client that holds the volumes `v0` and `v1`, the pair of `v0` with its secondary
`v1`, and one attachment `a1` of `v1` on the host `host1`. -/
def secondaryClient : Client :=
  memClient [examplePublishedVolume "v0" [], examplePublishedVolume "v1" []] [examplePool ""]
    [exampleSecondaryPair] [] [exampleAttachment "a1" "host1"]

/-- The client `secondaryClient` with a backend that refuses to delete an attachment it
does not hold any more. -/
def strictSecondaryClient : Client :=
  { secondaryClient with
    DeleteVolumeAttachment := fun log id _ =>
      if (memAttachments [exampleAttachment "a1" "host1"] log).any (fun a => a.Id = id) then none
      else some (.other "attachment not found".toList) }

/-! ## Node identity parser: the example of the specification -/

/-- C9 (as stated, refuted): on the example node id of the specification the parser does
not return the iSCSI names `["iqn.1993-08.org.debian:01:abc,more"]` with host `host1`
and no world-wide port names, whatever the list of world-wide node names. -/
theorem extractInfoFromNodeId_example_not_spec :
    ¬ ∃ wwnns : List GoString,
      extractInfoFromNodeId
          "host1,iqn:iqn.1993-08.org.debian:01:abc,more,wwn:500143802426baf8".toList =
        .ok ("host1".toList, [], wwnns, ["iqn.1993-08.org.debian:01:abc,more".toList]) := by
  rintro ⟨wwnns, h⟩
  have hrun : extractInfoFromNodeId
      "host1,iqn:iqn.1993-08.org.debian:01:abc,more,wwn:500143802426baf8".toList =
      .ok ("host1".toList, [], [],
        ["iqn.1993-08.org.debian:01:abc,more,wwn:500143802426baf8".toList]) := rfl
  rw [hrun] at h
  revert h
  simp

/-- C9 (amended): on the example node id of the specification the parser returns host
`host1`, no world-wide port name, no world-wide node name and the single iSCSI name
`iqn.1993-08.org.debian:01:abc,more,wwn:500143802426baf8`: the segment `wwn:...` starts
with none of the tag prefixes `wwpn:`, `wwnn:`, `iqn:` and is a continuation. -/
theorem extractInfoFromNodeId_example :
    extractInfoFromNodeId
        "host1,iqn:iqn.1993-08.org.debian:01:abc,more,wwn:500143802426baf8".toList =
      .ok ("host1".toList, [], [],
        ["iqn.1993-08.org.debian:01:abc,more,wwn:500143802426baf8".toList]) := rfl

/-- C10 (failing input): on the node id `h,iqn:aiqn:b` the segment `iqn:aiqn:b` starts
with the tag prefix `iqn:` and its remainder after the prefix is `aiqn:b`, but the entry
that the parser opens is `a`: the piece between the first two occurrences of the prefix
text. -/
theorem extractInfoFromNodeId_prefix_in_remainder :
    HasPrefix "iqn:aiqn:b".toList (Iqn ++ [':']) = true ∧
    "iqn:aiqn:b".toList = (Iqn ++ [':']) ++ "aiqn:b".toList ∧
    extractInfoFromNodeId "h,iqn:aiqn:b".toList = .ok ("h".toList, [], [], ["a".toList]) :=
  ⟨rfl, rfl, rfl⟩

/-! ## The filter part of `ListSnapshots` -/

/-- The filter part computes the specification's filtered set; an empty set ends the
call, with an empty response when no filter is present and with not-found otherwise. -/
theorem filterSnapshots_eq (all : List VolumeSnapshotSpec) (s v : GoString) :
    filterSnapshots all s v =
      if all.filter (matchesFilters s v) = [] then
        (if s = [] ∧ v = [] then .empty
         else if s = [] then .notFound ("no snapshot with source volume id ".toList ++ v)
         else if v = [] then .notFound ("no snapshot with id ".toList ++ s)
         else .notFound ("no snapshot with id ".toList ++ s ++
                " and source volume id ".toList ++ v))
      else .result (all.filter (matchesFilters s v)) := by
  unfold filterSnapshots
  by_cases hs : s = [] <;> by_cases hv : v = []
  · subst hs; subst hv
    have : all.filter (matchesFilters [] []) = all := by
      rw [List.filter_eq_self]; intro x _; simp [matchesFilters]
    simp [this]
  · subst hs
    have : all.filter (matchesFilters [] v) = all.filter (fun x => x.VolumeId == v) := by
      congr 1; funext x; rw [Bool.eq_iff_iff]; simp [matchesFilters, hv]
    simp [hv, this, List.filter_eq_nil_iff]
  · subst hv
    have : all.filter (matchesFilters s []) = all.filter (fun x => x.Id == s) := by
      congr 1; funext x; rw [Bool.eq_iff_iff]; simp [matchesFilters, hs]
    simp [hs, this, List.filter_eq_nil_iff]
  · have : all.filter (matchesFilters s v) =
        (all.filter (fun x => x.Id == s)).filter (fun x => x.VolumeId == v) := by
      rw [List.filter_filter]; congr 1; funext x; rw [Bool.eq_iff_iff]
      simp [matchesFilters, hs, hv, and_comm]
    simp [hs, hv, this, List.filter_eq_nil_iff]

theorem filterSnapshots_result_of_match (all : List VolumeSnapshotSpec) (s v : GoString)
    (h : ∃ x ∈ all, matchesFilters s v x = true) :
    filterSnapshots all s v = .result (all.filter (matchesFilters s v)) := by
  rw [filterSnapshots_eq, if_neg]
  obtain ⟨x, hx, hm⟩ := h
  intro hnil
  have : x ∈ all.filter (matchesFilters s v) := List.mem_filter.mpr ⟨hx, hm⟩
  rw [hnil] at this
  exact List.not_mem_nil _ this

theorem filterSnapshots_no_filter (all : List VolumeSnapshotSpec) (h : all ≠ []) :
    filterSnapshots all [] [] = .result all := by
  unfold filterSnapshots
  have : ¬ all.length ≤ 0 := by
    cases all with
    | nil => exact absurd rfl h
    | cons a l => simp
  simp [this]

/-- The errors of the pagination part are run-time panics and aborted errors. -/
theorem pageSnapshots_failure {α : Type} (sr : List α) (m : Int) (token : GoString)
    (f : Failure) (h : pageSnapshots sr m token = .error f) :
    f = .panic ∨ ∃ msg, f = .error (.status .Aborted msg) := by
  unfold pageSnapshots at h
  simp only [parseStartingToken, sliceFrom, sliceRange] at h
  split at h
  · rename_i f1 hf1
    split at hf1
    · split at hf1
      · cases hf1; cases h; exact Or.inr ⟨_, rfl⟩
      · cases hf1
    · cases hf1
  · split at h
    · cases h; exact Or.inr ⟨_, rfl⟩
    · split at h
      · split at h
        · rename_i f2 hf2
          split at hf2
          · cases hf2
          · cases hf2; cases h; exact Or.inl rfl
        · cases h
      · split at h
        · rename_i f2 hf2
          split at hf2
          · cases hf2
          · cases hf2; cases h; exact Or.inl rfl
        · cases h

/-- The entry loop fails with a panic or with the error of a timestamp conversion, which
is an internal status or an error without status. -/
theorem snapshotEntries_failure (tl : TimeLib) (l : List (Option VolumeSnapshotSpec))
    (f : Failure) (h : snapshotEntries tl l = .error f) :
    f = .panic ∨ (∃ msg, f = .error (.status .Internal msg)) ∨ ∃ msg, f = .error (.other msg) := by
  induction l with
  | nil => simp [snapshotEntries] at h
  | cons a rest ih =>
    cases a with
    | none => simp [snapshotEntries] at h; exact Or.inl h.symm
    | some s =>
      simp only [snapshotEntries, convertStringToPtypesTimestamp] at h
      split at h
      · rename_i e he
        split at he
        · cases he; cases h; exact Or.inr (Or.inl ⟨_, rfl⟩)
        · split at he
          · cases he; cases h; exact Or.inr (Or.inr ⟨_, rfl⟩)
          · cases he
      · split at h
        · rename_i f1 hf1
          cases h
          exact ih hf1
        · cases h

/-- C7: the filtered set of `ListSnapshots` is the sub-list, in listing order, of the
backend records that agree with every present filter (whenever the filter part hands a
set on, it is that sub-list, and it hands it on whenever the sub-list is not empty); and
with both filters absent and an empty backend listing the call succeeds with no entries
and an empty next token, whatever the starting token and max-entries. -/
theorem filterSnapshots_spec (tl : TimeLib) (all : List VolumeSnapshotSpec) (s v : GoString) :
    (∀ fr, filterSnapshots all s v = .result fr → fr = all.filter (matchesFilters s v)) ∧
    (all.filter (matchesFilters s v) ≠ [] →
      filterSnapshots all s v = .result (all.filter (matchesFilters s v))) ∧
    (∀ (maxEntries : Int) (token : GoString),
      ListSnapshots tl (.ok [])
        { MaxEntries := maxEntries, StartingToken := token,
          SourceVolumeId := [], SnapshotId := [] } =
        .ok { Entries := [], NextToken := [] }) := by
  refine ⟨?_, ?_, ?_⟩
  · intro fr h
    rw [filterSnapshots_eq] at h
    split at h
    · split at h
      · cases h
      · split at h
        · cases h
        · split at h <;> cases h
    · cases h; rfl
  · intro h
    rw [filterSnapshots_eq, if_neg h]
  · intro maxEntries token
    simp [ListSnapshots, filterSnapshots]

/-- C8: when the backend listing succeeds, `ListSnapshots` fails with not-found exactly
when a filter is present and no backend record agrees with every present filter; and
then the outcome is the same for every starting token and max-entries. -/
theorem listSnapshots_notFound_iff (tl : TimeLib) (all : List VolumeSnapshotSpec)
    (req : ListSnapshotsRequest) :
    ((∃ msg, ListSnapshots tl (.ok all) req = .error (.error (.status .NotFound msg))) ↔
      ((req.SnapshotId ≠ [] ∨ req.SourceVolumeId ≠ []) ∧
        ∀ x ∈ all, matchesFilters req.SnapshotId req.SourceVolumeId x = false)) ∧
    (((req.SnapshotId ≠ [] ∨ req.SourceVolumeId ≠ []) ∧
        ∀ x ∈ all, matchesFilters req.SnapshotId req.SourceVolumeId x = false) →
      ∀ (token : GoString) (maxEntries : Int),
        ListSnapshots tl (.ok all)
          { req with StartingToken := token, MaxEntries := maxEntries } =
        ListSnapshots tl (.ok all) req) := by
  have hnil : (all.filter (matchesFilters req.SnapshotId req.SourceVolumeId) = []) ↔
      ∀ x ∈ all, matchesFilters req.SnapshotId req.SourceVolumeId x = false := by
    simp [List.filter_eq_nil_iff]
  refine ⟨⟨?_, ?_⟩, ?_⟩
  · rintro ⟨msg, h⟩
    simp only [ListSnapshots] at h
    rw [filterSnapshots_eq] at h
    by_cases hf : all.filter (matchesFilters req.SnapshotId req.SourceVolumeId) = []
    · refine ⟨?_, hnil.mp hf⟩
      by_contra hno
      have hboth : req.SnapshotId = [] ∧ req.SourceVolumeId = [] := by
        constructor
        · by_contra h1; exact hno (Or.inl h1)
        · by_contra h1; exact hno (Or.inr h1)
      rw [if_pos hf, if_pos hboth] at h
      cases h
    · exfalso
      rw [if_neg hf] at h
      simp only at h
      split at h
      · rename_i f hf1
        cases h
        rcases pageSnapshots_failure _ _ _ _ hf1 with h1 | ⟨m, h1⟩ <;> cases h1
      · split at h
        · cases h
        · split at h
          · rename_i f hf1
            cases h
            rcases snapshotEntries_failure _ _ _ hf1 with h1 | ⟨m, h1⟩ | ⟨m, h1⟩ <;> cases h1
          · cases h
  · rintro ⟨hpres, hno⟩
    have hf := hnil.mpr hno
    have hboth : ¬ (req.SnapshotId = [] ∧ req.SourceVolumeId = []) := by
      rintro ⟨h1, h2⟩
      rcases hpres with h | h
      · exact h h1
      · exact h h2
    simp only [ListSnapshots]
    rw [filterSnapshots_eq, if_pos hf, if_neg hboth]
    by_cases h1 : req.SnapshotId = []
    · rw [if_pos h1]; exact ⟨_, rfl⟩
    · rw [if_neg h1]
      by_cases h2 : req.SourceVolumeId = []
      · rw [if_pos h2]; exact ⟨_, rfl⟩
      · rw [if_neg h2]; exact ⟨_, rfl⟩
  · rintro ⟨hpres, hno⟩ token maxEntries
    have hf := hnil.mpr hno
    have hboth : ¬ (req.SnapshotId = [] ∧ req.SourceVolumeId = []) := by
      rintro ⟨h1, h2⟩
      rcases hpres with h | h
      · exact h h1
      · exact h h2
    simp only [ListSnapshots]
    rw [filterSnapshots_eq, if_pos hf, if_neg hboth]
    by_cases h1 : req.SnapshotId = []
    · rw [if_pos h1]
    · rw [if_neg h1]
      by_cases h2 : req.SourceVolumeId = []
      · rw [if_pos h2]
      · rw [if_neg h2]

/-! ## Machine integers -/

theorem toInt32_of_nonneg_lt (x : Int) (h0 : 0 ≤ x) (h1 : x < 2 ^ 31) : toInt32 x = x := by
  unfold toInt32
  omega

theorem toInt32_of_ge (x : Int) (h0 : 2 ^ 31 ≤ x) (h1 : x < 2 ^ 32) :
    toInt32 x = x - 2 ^ 32 := by
  unfold toInt32
  omega

/-! ## The sorted sequence -/

theorem snapshotsMap_append_singleton (l : List VolumeSnapshotSpec) (a : VolumeSnapshotSpec)
    (key : GoString) :
    snapshotsMap (l ++ [a]) key = if key = a.Id then some a else snapshotsMap l key := by
  simp [snapshotsMap, List.foldl_append]

/-- Every id of the filtered set is a key of the map, bound to a record of the set with
that id. -/
theorem snapshotsMap_of_mem_ids (l : List VolumeSnapshotSpec) (key : GoString)
    (h : key ∈ l.map (fun s => s.Id)) :
    ∃ s ∈ l, s.Id = key ∧ snapshotsMap l key = some s := by
  induction l using List.reverseRecOn with
  | nil => simp at h
  | append_singleton l a ih =>
    rw [snapshotsMap_append_singleton]
    by_cases hk : key = a.Id
    · exact ⟨a, by simp, hk.symm, by simp [hk]⟩
    · have hin : key ∈ l.map (fun s => s.Id) := by
        simp only [List.map_append, List.mem_append, List.map_cons, List.map_nil,
          List.mem_singleton] at h
        rcases h with h | h
        · exact h
        · exact absurd h hk
      obtain ⟨s, hs, hid, hmap⟩ := ih hin
      exact ⟨s, by simp [hs], hid, by simp [hk, hmap]⟩

/-- With pairwise distinct ids, the map binds the id of each record to that record. -/
theorem snapshotsMap_of_mem (l : List VolumeSnapshotSpec)
    (hnd : (l.map (fun s => s.Id)).Nodup) (s : VolumeSnapshotSpec) (hs : s ∈ l) :
    snapshotsMap l s.Id = some s := by
  induction l using List.reverseRecOn with
  | nil => simp at hs
  | append_singleton l a ih =>
    rw [snapshotsMap_append_singleton]
    rw [List.map_append, List.nodup_append] at hnd
    obtain ⟨hnd1, _, hdisj⟩ := hnd
    simp only [List.mem_append, List.mem_singleton] at hs
    rcases hs with hs | hs
    · have hne : s.Id ≠ a.Id := by
        intro heq
        have h1 : s.Id ∈ l.map (fun s => s.Id) := List.mem_map_of_mem _ hs
        have h2 : s.Id ∈ [a].map (fun s => s.Id) := by simp [heq]
        exact hdisj h1 h2
      simp [hne, ih hnd1 hs]
    · simp [hs]

theorem sortedKeys_perm (fr : List VolumeSnapshotSpec) :
    (sortedKeys fr).Perm (fr.map (fun s => s.Id)) :=
  List.perm_insertionSort _ _

theorem sortedKeys_sorted (fr : List VolumeSnapshotSpec) :
    (sortedKeys fr).Sorted (fun a b => a ≤ b) :=
  List.sorted_insertionSort _ _

theorem length_sortResult (fr : List VolumeSnapshotSpec) :
    (sortResult fr).length = fr.length := by
  simp [sortResult, sortedKeys, sortStrings, List.length_insertionSort]

/-- The sorted sequence holds no nil record: it is a list of records of the filtered set,
one for each record of the set. -/
theorem sortResult_eq_map_some (fr : List VolumeSnapshotSpec) :
    ∃ l : List VolumeSnapshotSpec,
      sortResult fr = l.map some ∧ l.length = fr.length ∧ ∀ s ∈ l, s ∈ fr := by
  have key : ∀ keys : List GoString, (∀ k ∈ keys, k ∈ fr.map (fun s => s.Id)) →
      ∃ l : List VolumeSnapshotSpec,
        keys.map (snapshotsMap fr) = l.map some ∧ l.length = keys.length ∧ ∀ s ∈ l, s ∈ fr := by
    intro keys
    induction keys with
    | nil => intro _; exact ⟨[], rfl, rfl, by simp⟩
    | cons k ks ih =>
      intro hk
      obtain ⟨l, h1, h2, h3⟩ := ih (fun k1 hk1 => hk k1 (List.mem_cons_of_mem _ hk1))
      obtain ⟨s, hs, _, hmap⟩ := snapshotsMap_of_mem_ids fr k (hk k (List.mem_cons_self _ _))
      refine ⟨s :: l, by simp [hmap, h1], by simp [h2], ?_⟩
      intro x hx
      rcases List.mem_cons.mp hx with hx | hx
      · rw [hx]; exact hs
      · exact h3 x hx
  obtain ⟨l, h1, h2, h3⟩ := key (sortedKeys fr)
    (fun k hk => (sortedKeys_perm fr).mem_iff.mp hk)
  refine ⟨l, h1, ?_, h3⟩
  rw [h2, (sortedKeys_perm fr).length_eq, List.length_map]

theorem sortedRecords_perm (fr : List VolumeSnapshotSpec) : (sortedRecords fr).Perm fr :=
  List.perm_insertionSort _ _

theorem sortedRecords_map_id (fr : List VolumeSnapshotSpec) :
    (sortedRecords fr).map (fun s => s.Id) = sortedKeys fr := by
  unfold sortedRecords sortedKeys sortStrings
  exact List.map_insertionSort (fun a b => a.Id ≤ b.Id) (fun a b => a ≤ b) (fun s => s.Id) fr
    (fun _ _ _ _ => Iff.rfl)

/-- With pairwise distinct ids, the sorted sequence is the filtered set arranged in
ascending order of the ids. -/
theorem sortResult_eq_sortedRecords (fr : List VolumeSnapshotSpec)
    (hnd : (fr.map (fun s => s.Id)).Nodup) :
    sortResult fr = (sortedRecords fr).map some := by
  unfold sortResult
  rw [← sortedRecords_map_id, List.map_map]
  apply List.map_congr_left
  intro s hs
  exact snapshotsMap_of_mem fr hnd s ((sortedRecords_perm fr).mem_iff.mp hs)

theorem sortedRecords_sorted_lt (fr : List VolumeSnapshotSpec)
    (hnd : (fr.map (fun s => s.Id)).Nodup) :
    ((sortedRecords fr).map (fun s => s.Id)).Sorted (fun a b => a < b) := by
  rw [sortedRecords_map_id]
  have hs := sortedKeys_sorted fr
  have hn : (sortedKeys fr).Nodup := (sortedKeys_perm fr).nodup_iff.mpr hnd
  exact List.Sorted.lt_of_le hs hn

/-! ## Starting tokens -/

theorem digitValue_digitChar (d : Nat) (h : d < 10) : digitValue (Nat.digitChar d) = some d := by
  interval_cases d <;> rfl

/-- Reading the decimal digits of `n` from the value `0` arrives at the value `n`. -/
theorem parseDigits_toDigitsCore (maxVal : Nat) (fuel : Nat) :
    ∀ (n : Nat) (ds : GoString), n < fuel → n ≤ maxVal →
      parseDigits maxVal 0 (Nat.toDigitsCore 10 fuel n ds) = parseDigits maxVal n ds := by
  induction fuel with
  | zero => intro n ds h; omega
  | succ fuel ih =>
    intro n ds hlt hle
    have hd : n % 10 < 10 := Nat.mod_lt _ (by norm_num)
    by_cases h0 : n / 10 = 0
    · have hn : n % 10 = n := by omega
      simp only [Nat.toDigitsCore, h0, if_true]
      simp only [parseDigits, digitValue_digitChar _ hd]
      rw [hn]
      have : ¬ (0 * 10 + n > maxVal) := by omega
      rw [if_neg this]
      simp
    · simp only [Nat.toDigitsCore, h0, if_false]
      rw [ih (n / 10) _ (by omega) (by omega)]
      simp only [parseDigits, digitValue_digitChar _ hd]
      have h1 : n / 10 * 10 + n % 10 = n := by omega
      rw [h1]
      have : ¬ (n > maxVal) := by omega
      rw [if_neg this]

theorem toDigitsCore_ne_nil (fuel : Nat) :
    ∀ (n : Nat) (ds : GoString), ds ≠ [] → Nat.toDigitsCore 10 fuel n ds ≠ [] := by
  induction fuel with
  | zero => intro n ds h; simpa [Nat.toDigitsCore] using h
  | succ fuel ih =>
    intro n ds _
    simp only [Nat.toDigitsCore]
    split
    · simp
    · exact ih _ _ (by simp)

theorem toDigits_ne_nil (n : Nat) : Nat.toDigits 10 n ≠ [] := by
  unfold Nat.toDigits
  simp only [Nat.toDigitsCore]
  split
  · simp
  · exact toDigitsCore_ne_nil _ _ _ (by simp)

theorem formatInt_ne_nil (x : Int) : formatInt x ≠ [] := by
  unfold formatInt
  split
  · simp
  · exact toDigits_ne_nil _

/-- A next token written by `ListSnapshots` is read back as the same offset. -/
theorem ParseUint_formatInt (n : Nat) (h : n < 2 ^ 32) :
    ParseUint (formatInt (n : Int)) 32 = some n := by
  have hf : formatInt (n : Int) = Nat.toDigits 10 n := by
    unfold formatInt
    simp
  rw [hf]
  unfold ParseUint
  rw [if_neg (toDigits_ne_nil n)]
  unfold Nat.toDigits
  rw [parseDigits_toDigitsCore _ _ _ _ (by omega) (by omega)]
  rfl

theorem tokenOffset_formatInt (n : Nat) (h : n < 2 ^ 32) :
    tokenOffset (formatInt (n : Int)) = some n := by
  unfold tokenOffset
  rw [if_neg (formatInt_ne_nil _)]
  exact ParseUint_formatInt n h

/-- An offset below `2^31` is the value of the local `startingToken`. -/
theorem parseStartingToken_of_offset (token : GoString) (o : Nat)
    (h : tokenOffset token = some o) (ho : o < 2 ^ 31) :
    parseStartingToken token = .ok (o : Int) := by
  unfold tokenOffset at h
  unfold parseStartingToken
  by_cases ht : token = []
  · simp [ht] at h
    subst h
    simp [ht]
  · rw [if_neg ht] at h
    rw [if_pos ht, h]
    simp only
    rw [toInt32_of_nonneg_lt _ (by omega) (by omega)]

/-! ## The pagination part -/

/-- The page of a sequence of fewer than `2^31` items, for an offset inside the sequence
and a non-negative max-entries whose sum with the offset stays below `2^31`. -/
theorem pageSnapshots_ok {α : Type} (sr : List α) (m : Int) (token : GoString) (o : Nat)
    (hN : sr.length < 2 ^ 31) (htok : tokenOffset token = some o) (ho : o < sr.length)
    (hm : 0 ≤ m) (hov : (o : Int) + m < 2 ^ 31) :
    pageSnapshots sr m token =
      .ok (if m = 0 ∨ (sr.length : Int) ≤ o + m then (sr.drop o, [])
           else ((sr.take ((o : Int) + m).toNat).drop o, formatInt ((o : Int) + m))) := by
  unfold pageSnapshots
  rw [parseStartingToken_of_offset token o htok (by omega)]
  simp only
  rw [toInt32_of_nonneg_lt (sr.length : Int) (by omega) (by omega),
    toInt32_of_nonneg_lt ((o : Int) + m) (by omega) hov]
  have h1 : ¬ ((o : Int) ≥ (sr.length : Int)) := by omega
  rw [if_neg h1]
  by_cases hc : m = 0 ∨ (sr.length : Int) ≤ o + m
  · have hc2 : m = 0 ∨ (o : Int) + m ≥ (sr.length : Int) := hc
    rw [if_pos hc2, if_pos hc]
    unfold sliceFrom
    rw [if_pos ⟨by omega, by omega⟩]
    simp
  · have hc2 : ¬ (m = 0 ∨ (o : Int) + m ≥ (sr.length : Int)) := hc
    rw [if_neg hc2, if_neg hc]
    unfold sliceRange
    have : (0 : Int) ≤ o ∧ (o : Int) ≤ o + m ∧ (o : Int) + m ≤ sr.length := by
      refine ⟨by omega, by omega, ?_⟩
      push_neg at hc
      omega
    rw [if_pos this]
    simp

/-! ## From the page to the response -/

theorem snapshotEntries_map_some (tl : TimeLib) (time : VolumeSnapshotSpec → Timestamp)
    (l : List VolumeSnapshotSpec)
    (h : ∀ s ∈ l, convertStringToPtypesTimestamp tl s.CreatedAt = .ok (time s)) :
    snapshotEntries tl (l.map some) = .ok (l.map (fun s => snapshotEntry s (time s))) := by
  induction l with
  | nil => rfl
  | cons a rest ih =>
    have ha := h a (List.mem_cons_self _ _)
    have hrest := ih (fun s hs => h s (List.mem_cons_of_mem _ hs))
    simp only [List.map_cons, snapshotEntries, ha, hrest]

/-- The response of `ListSnapshots` for a filtered set of fewer than `2^31` records whose
creation times convert, an offset inside the set and a non-negative max-entries whose
sum with the offset stays below `2^31`. -/
theorem listSnapshots_page (tl : TimeLib) (all fr l : List VolumeSnapshotSpec)
    (req : ListSnapshotsRequest) (o : Nat) (time : VolumeSnapshotSpec → Timestamp)
    (hf : filterSnapshots all req.SnapshotId req.SourceVolumeId = .result fr)
    (hl : sortResult fr = l.map some)
    (hN : l.length < 2 ^ 31) (htok : tokenOffset req.StartingToken = some o)
    (ho : o < l.length) (hm : 0 ≤ req.MaxEntries)
    (hov : (o : Int) + req.MaxEntries < 2 ^ 31)
    (htime : ∀ s ∈ l, convertStringToPtypesTimestamp tl s.CreatedAt = .ok (time s)) :
    ListSnapshots tl (.ok all) req =
      .ok (if req.MaxEntries = 0 ∨ (l.length : Int) ≤ o + req.MaxEntries then
            { Entries := (l.drop o).map (fun s => snapshotEntry s (time s)), NextToken := [] }
           else
            { Entries := ((l.take ((o : Int) + req.MaxEntries).toNat).drop o).map
                (fun s => snapshotEntry s (time s)),
              NextToken := formatInt ((o : Int) + req.MaxEntries) }) := by
  have hlen : (l.map some).length < 2 ^ 31 := by simpa using hN
  have ho2 : o < (l.map some).length := by simpa using ho
  unfold ListSnapshots
  simp only [hf, hl]
  rw [pageSnapshots_ok (l.map some) req.MaxEntries req.StartingToken o hlen htok ho2 hm hov]
  simp only [List.length_map]
  by_cases hc : req.MaxEntries = 0 ∨ (l.length : Int) ≤ o + req.MaxEntries
  · simp only [if_pos hc]
    have hpos : ¬ ((List.drop o (List.map some l)).length ≤ 0) := by
      simp only [List.length_drop, List.length_map]; omega
    rw [if_neg hpos, ← List.map_drop,
      snapshotEntries_map_some tl time _ (fun s hs => htime s (List.mem_of_mem_drop hs))]
  · simp only [if_neg hc]
    have hpos : ¬ ((List.drop o (List.take ((o : Int) + req.MaxEntries).toNat
        (List.map some l))).length ≤ 0) := by
      simp only [List.length_drop, List.length_take, List.length_map]
      push_neg at hc
      omega
    rw [if_neg hpos, ← List.map_take, ← List.map_drop,
      snapshotEntries_map_some tl time _
        (fun s hs => htime s (List.mem_of_mem_take (List.mem_of_mem_drop hs)))]

/-- When offset plus max-entries leaves the `int32` range, the upper slice bound wraps
to a negative number and the slice expression panics. -/
theorem pageSnapshots_panic_of_overflow {α : Type} (sr : List α) (m : Int)
    (token : GoString) (o : Nat)
    (hN : sr.length < 2 ^ 31) (htok : tokenOffset token = some o) (ho : o < sr.length)
    (hm : 0 < m) (hm2 : m < 2 ^ 31) (hov : (2 : Int) ^ 31 ≤ o + m) :
    pageSnapshots sr m token = .error .panic := by
  unfold pageSnapshots
  rw [parseStartingToken_of_offset token o htok (by omega)]
  simp only
  rw [toInt32_of_nonneg_lt (sr.length : Int) (by omega) (by omega),
    toInt32_of_ge ((o : Int) + m) hov (by omega)]
  have h1 : ¬ ((o : Int) ≥ (sr.length : Int)) := by omega
  have h2 : ¬ (m = 0 ∨ (o : Int) + m - 2 ^ 32 ≥ (sr.length : Int)) := by omega
  rw [if_neg h1, if_neg h2]
  unfold sliceRange
  have h3 : ¬ ((0 : Int) ≤ o ∧ (o : Int) ≤ o + m - 2 ^ 32 ∧
      (o : Int) + m - 2 ^ 32 ≤ sr.length) := by omega
  rw [if_neg h3]

theorem length_longListing (n : Nat) : (longListing n).length = n := by
  simp [longListing]

theorem longListing_ne_nil (n : Nat) (h : 0 < n) : longListing n ≠ [] := by
  intro hnil
  have := length_longListing n
  rw [hnil] at this
  simp at this
  omega

theorem longListing_nodup (n : Nat) : ((longListing n).map (fun s => s.Id)).Nodup := by
  unfold longListing
  rw [List.map_map]
  apply List.Nodup.map _ (List.nodup_range n)
  intro i j hij
  have := congrArg List.length hij
  simpa using this

theorem longListing_time (n : Nat) :
    ∀ s ∈ longListing n,
      convertStringToPtypesTimestamp exampleTimeLib s.CreatedAt =
        .ok { Seconds := 0, Nanos := 0 } := by
  intro s hs
  unfold longListing at hs
  obtain ⟨i, _, rfl⟩ := List.mem_map.mp hs
  rfl

/-! ## Claims on the sorted sequence and on single pages -/

/-- C6: for a filtered set with pairwise distinct ids, the sequence that `ListSnapshots`
paginates over consists of the records of a permutation of the set (same length, same
records, none of them nil) whose ids are in strictly ascending lexicographic order, every
adjacent pair included. -/
theorem sortResult_sorted_perm (fr : List VolumeSnapshotSpec)
    (hnd : (fr.map (fun s => s.Id)).Nodup) :
    ∃ l : List VolumeSnapshotSpec,
      sortResult fr = l.map some ∧ l.Perm fr ∧ l.length = fr.length ∧
      (l.map (fun s => s.Id)).Sorted (fun a b => a < b) ∧
      (l.map (fun s => s.Id)).Chain' (fun a b => a < b) := by
  refine ⟨sortedRecords fr, sortResult_eq_sortedRecords fr hnd, sortedRecords_perm fr,
    (sortedRecords_perm fr).length_eq, sortedRecords_sorted_lt fr hnd, ?_⟩
  exact List.Pairwise.chain' (sortedRecords_sorted_lt fr hnd)

/-- C6 at the example listing with ids `c`, `a`, `b`. -/
theorem sortResult_sorted_perm_witness :
    (exampleListing.map (fun s => s.Id)).Nodup ∧
    ∃ l : List VolumeSnapshotSpec,
      sortResult exampleListing = l.map some ∧ l.Perm exampleListing ∧
      l.length = exampleListing.length ∧
      (l.map (fun s => s.Id)).Sorted (fun a b => a < b) ∧
      (l.map (fun s => s.Id)).Chain' (fun a b => a < b) :=
  ⟨by decide, sortResult_sorted_perm exampleListing (by decide)⟩

/-- A listing of exactly `2^31` records has the `int32` length `-2147483648`, and every
call without filter and with the empty starting token is aborted. -/
theorem listSnapshots_length_wrap (tl : TimeLib) (all : List VolumeSnapshotSpec)
    (req : ListSnapshotsRequest) (hs : req.SnapshotId = []) (hv : req.SourceVolumeId = [])
    (ht : req.StartingToken = []) (hlen : all.length = 2 ^ 31) :
    ListSnapshots tl (.ok all) req =
      .error (.error (.status .Aborted
        "startingToken=0 >= len(snapshots)=-2147483648".toList)) := by
  have hne : all ≠ [] := by
    intro h; rw [h] at hlen; simp at hlen
  have hf : filterSnapshots all req.SnapshotId req.SourceVolumeId = .result all := by
    rw [hs, hv]; exact filterSnapshots_no_filter _ hne
  have h0 : parseStartingToken [] = .ok 0 := rfl
  have h1 : toInt32 ((2 ^ 31 : Nat) : Int) = -2147483648 := by
    unfold toInt32; norm_num
  have h2 : (0 : Int) ≥ -2147483648 := by norm_num
  have h3 : "startingToken=".toList ++ formatInt 0 ++ " >= len(snapshots)=".toList ++
      formatInt (-2147483648) = "startingToken=0 >= len(snapshots)=-2147483648".toList := by
    decide
  unfold ListSnapshots
  simp only [hf]
  unfold pageSnapshots
  simp only [length_sortResult, hlen, ht, h0, h1]
  rw [if_pos h2, h3]

/-- C5 (as stated, refuted): with max-entries 0 and offset 0, a single record whose
creation time does not parse makes `ListSnapshots` return an internal error instead of
the record; and for a sorted sequence of `2^31` records the `int32` length is negative
and `ListSnapshots` returns an aborted error instead of the records. -/
theorem listSnapshots_maxEntries_zero_failures :
    ListSnapshots exampleTimeLib
        (.ok [{ exampleSnapshot "a" "v1" with CreatedAt := [] }])
        { MaxEntries := 0, StartingToken := [], SourceVolumeId := [], SnapshotId := [] } =
      .error (.error (.status .Internal "cannot parse".toList)) ∧
    ListSnapshots exampleTimeLib (.ok (longListing (2 ^ 31)))
        { MaxEntries := 0, StartingToken := [], SourceVolumeId := [], SnapshotId := [] } =
      .error (.error (.status .Aborted
        "startingToken=0 >= len(snapshots)=-2147483648".toList)) := by
  refine ⟨by decide, ?_⟩
  exact listSnapshots_length_wrap _ _ _ rfl rfl rfl (length_longListing _)

/-- C5 (amended): for a filtered set of `N ≤ 2^31 - 1` records whose creation times
convert, and a starting token denoting an offset `o < N`, `ListSnapshots` with
max-entries 0 returns the entries of all `N - o` records from position `o` to the end of
the sorted sequence, in order, with an empty next token. -/
theorem listSnapshots_maxEntries_zero (tl : TimeLib) (all fr : List VolumeSnapshotSpec)
    (req : ListSnapshotsRequest) (o : Nat) (time : VolumeSnapshotSpec → Timestamp)
    (hf : filterSnapshots all req.SnapshotId req.SourceVolumeId = .result fr)
    (hN : fr.length < 2 ^ 31) (htok : tokenOffset req.StartingToken = some o)
    (ho : o < fr.length) (hm : req.MaxEntries = 0)
    (htime : ∀ s ∈ fr, convertStringToPtypesTimestamp tl s.CreatedAt = .ok (time s)) :
    ∃ l : List VolumeSnapshotSpec,
      sortResult fr = l.map some ∧ l.length = fr.length ∧
      ListSnapshots tl (.ok all) req =
        .ok { Entries := (l.drop o).map (fun s => snapshotEntry s (time s)),
              NextToken := [] } ∧
      ((l.drop o).map (fun s => snapshotEntry s (time s))).length = fr.length - o := by
  obtain ⟨l, hl, hlen, hmem⟩ := sortResult_eq_map_some fr
  refine ⟨l, hl, hlen, ?_, by simp [hlen]⟩
  rw [listSnapshots_page tl all fr l req o time hf hl (by omega) htok (by omega)
    (by omega) (by omega) (fun s hs => htime s (hmem s hs))]
  rw [if_pos (Or.inl hm)]

/-- C5 (amended) at the example listing, offset 1. -/
theorem listSnapshots_maxEntries_zero_witness :
    filterSnapshots exampleListing [] [] = .result exampleListing ∧
    exampleListing.length < 2 ^ 31 ∧ tokenOffset "1".toList = some 1 ∧
    1 < exampleListing.length ∧
    ∃ l : List VolumeSnapshotSpec,
      sortResult exampleListing = l.map some ∧ l.length = exampleListing.length ∧
      ListSnapshots exampleTimeLib (.ok exampleListing)
          { MaxEntries := 0, StartingToken := "1".toList,
            SourceVolumeId := [], SnapshotId := [] } =
        .ok { Entries := (l.drop 1).map
                (fun s => snapshotEntry s { Seconds := 0, Nanos := 0 }),
              NextToken := [] } ∧
      ((l.drop 1).map
        (fun s => snapshotEntry s { Seconds := 0, Nanos := 0 })).length =
          exampleListing.length - 1 :=
  ⟨rfl, by decide, rfl, by decide,
    listSnapshots_maxEntries_zero exampleTimeLib exampleListing exampleListing
      { MaxEntries := 0, StartingToken := "1".toList, SourceVolumeId := [], SnapshotId := [] }
      1 (fun _ => { Seconds := 0, Nanos := 0 }) rfl (by decide) rfl (by decide) rfl
      (by
        intro s hs
        simp only [exampleListing, List.mem_cons, List.mem_singleton, List.not_mem_nil,
          or_false] at hs
        rcases hs with h | h | h <;> subst h <;> rfl)⟩

/-- C4 (failing input): on the example listing of three records, with the starting token
`1` and max-entries `2147483647` (the largest `int32`), `ListSnapshots` panics: the sum
`1 + 2147483647` wraps to `-2147483648`, is not recognised as reaching the end, and is
used as the upper bound of the slice expression. -/
theorem listSnapshots_maxEntries_overflow :
    tokenOffset "1".toList = some 1 ∧ 1 < exampleListing.length ∧
    ListSnapshots exampleTimeLib (.ok exampleListing)
        { MaxEntries := 2147483647, StartingToken := "1".toList,
          SourceVolumeId := [], SnapshotId := [] } =
      .error .panic :=
  ⟨by decide, by decide, by decide⟩

/-- C2 (failing input): on the example listing of three records, the starting token
`2147483648` is an unsigned decimal integer that is at least the length, but
`ListSnapshots` does not return the aborted error: the conversion of the parsed value to
`int32` gives `-2147483648`, the range check passes, and the slice expression panics. -/
theorem listSnapshots_token_int32_wrap :
    tokenOffset "2147483648".toList = some 2147483648 ∧
    exampleListing.length ≤ 2147483648 ∧
    ListSnapshots exampleTimeLib (.ok exampleListing)
        { MaxEntries := 0, StartingToken := "2147483648".toList,
          SourceVolumeId := [], SnapshotId := [] } =
      .error .panic :=
  ⟨by decide, by decide, by decide⟩

/-- C3 (as stated, refuted): with no filter and an empty backend listing, a starting
token that is not an unsigned decimal integer does not make `ListSnapshots` fail: it
returns the empty response before the token is looked at. -/
theorem listSnapshots_bad_token_empty_listing :
    ("x".toList : GoString) ≠ [] ∧ ParseUint "x".toList 32 = none ∧
    ListSnapshots exampleTimeLib (.ok [])
        { MaxEntries := 0, StartingToken := "x".toList,
          SourceVolumeId := [], SnapshotId := [] } =
      .ok { Entries := [], NextToken := [] } :=
  ⟨by decide, by decide, by decide⟩

theorem pageSnapshots_empty_token {α : Type} (sr : List α) (m : Int) :
    pageSnapshots sr m [] = pageSnapshots sr m "0".toList := by
  have h : parseStartingToken [] = parseStartingToken "0".toList := rfl
  unfold pageSnapshots
  rw [h]

/-- Two requests with the same filters whose pagination parts agree on every sorted
sequence have the same outcome. -/
theorem listSnapshots_congr_page (tl : TimeLib)
    (backend : Except GoError (List VolumeSnapshotSpec)) (r1 r2 : ListSnapshotsRequest)
    (hs : r1.SnapshotId = r2.SnapshotId) (hv : r1.SourceVolumeId = r2.SourceVolumeId)
    (hp : ∀ sr : List (Option VolumeSnapshotSpec),
      pageSnapshots sr r1.MaxEntries r1.StartingToken =
        pageSnapshots sr r2.MaxEntries r2.StartingToken) :
    ListSnapshots tl backend r1 = ListSnapshots tl backend r2 := by
  unfold ListSnapshots
  rw [hs, hv]
  simp only [hp]

/-- C3 (amended): when the backend listing succeeds and some record agrees with every
present filter, a non-empty starting token that `strconv.ParseUint(v, 10, 32)` rejects
makes `ListSnapshots` fail with the aborted error; and for every backend answer and
request, the empty starting token gives the same outcome as the token `0`. -/
theorem listSnapshots_token_parse (tl : TimeLib) (all : List VolumeSnapshotSpec)
    (req : ListSnapshotsRequest)
    (hmatch : ∃ x ∈ all, matchesFilters req.SnapshotId req.SourceVolumeId x = true)
    (hne : req.StartingToken ≠ []) (hparse : ParseUint req.StartingToken 32 = none) :
    ListSnapshots tl (.ok all) req =
      .error (.error (.status .Aborted "parsing the startingToken failed".toList)) ∧
    ∀ (backend : Except GoError (List VolumeSnapshotSpec)) (r : ListSnapshotsRequest),
      ListSnapshots tl backend { r with StartingToken := [] } =
        ListSnapshots tl backend { r with StartingToken := "0".toList } := by
  constructor
  · unfold ListSnapshots
    simp only [filterSnapshots_result_of_match all _ _ hmatch]
    unfold pageSnapshots parseStartingToken
    simp only [if_pos hne, hparse]
  · intro backend r
    exact listSnapshots_congr_page tl backend _ _ rfl rfl
      (fun sr => pageSnapshots_empty_token sr r.MaxEntries)

/-- C3 (amended) at the example listing with the starting token `x`. -/
theorem listSnapshots_token_parse_witness :
    (∃ x ∈ exampleListing, matchesFilters [] [] x = true) ∧
    ("x".toList : GoString) ≠ [] ∧ ParseUint "x".toList 32 = none ∧
    (ListSnapshots exampleTimeLib (.ok exampleListing)
        { MaxEntries := 0, StartingToken := "x".toList,
          SourceVolumeId := [], SnapshotId := [] } =
      .error (.error (.status .Aborted "parsing the startingToken failed".toList)) ∧
    ∀ (backend : Except GoError (List VolumeSnapshotSpec)) (r : ListSnapshotsRequest),
      ListSnapshots exampleTimeLib backend { r with StartingToken := [] } =
        ListSnapshots exampleTimeLib backend { r with StartingToken := "0".toList }) :=
  ⟨⟨exampleSnapshot "c" "v1", by simp [exampleListing], rfl⟩, by decide, rfl,
    listSnapshots_token_parse exampleTimeLib exampleListing
      { MaxEntries := 0, StartingToken := "x".toList, SourceVolumeId := [], SnapshotId := [] }
      ⟨exampleSnapshot "c" "v1", by simp [exampleListing], rfl⟩ (by decide) rfl⟩

/-! ## Independence of the backend listing order -/

theorem sortedKeys_eq_of_perm (l1 l2 : List VolumeSnapshotSpec) (h : l1.Perm l2) :
    sortedKeys l1 = sortedKeys l2 := by
  apply List.eq_of_perm_of_sorted _ (sortedKeys_sorted l1) (sortedKeys_sorted l2)
  exact (sortedKeys_perm l1).trans ((h.map _).trans (sortedKeys_perm l2).symm)

/-- With pairwise distinct ids, the sorted sequence does not depend on the order in which
the backend lists the records. -/
theorem sortResult_eq_of_perm (l1 l2 : List VolumeSnapshotSpec) (h : l1.Perm l2)
    (hnd : (l2.map (fun s => s.Id)).Nodup) : sortResult l1 = sortResult l2 := by
  have hnd1 : (l1.map (fun s => s.Id)).Nodup := (h.map _).nodup_iff.mpr hnd
  rw [sortResult_eq_sortedRecords l1 hnd1, sortResult_eq_sortedRecords l2 hnd]
  have hk : (sortedRecords l1).map (fun s => s.Id) = (sortedRecords l2).map (fun s => s.Id) := by
    rw [sortedRecords_map_id, sortedRecords_map_id, sortedKeys_eq_of_perm l1 l2 h]
  have hinj : ∀ a ∈ l2, ∀ b ∈ l2, a.Id = b.Id → a = b := by
    intro a ha b hb hab
    exact List.inj_on_of_nodup_map hnd ha hb hab
  have hp : (sortedRecords l1).Perm (sortedRecords l2) :=
    (sortedRecords_perm l1).trans (h.trans (sortedRecords_perm l2).symm)
  have key : ∀ (a b : List VolumeSnapshotSpec), (∀ x ∈ a, x ∈ l2) → (∀ x ∈ b, x ∈ l2) →
      a.map (fun s => s.Id) = b.map (fun s => s.Id) → a = b := by
    intro a
    induction a with
    | nil => intro b _ _ hab; cases b with
      | nil => rfl
      | cons y ys => simp at hab
    | cons x xs ih =>
      intro b ha hb hab
      cases b with
      | nil => simp at hab
      | cons y ys =>
        simp only [List.map_cons, List.cons.injEq] at hab
        have hxy : x = y := hinj x (ha x (List.mem_cons_self _ _)) y
          (hb y (List.mem_cons_self _ _)) hab.1
        have hrest := ih ys (fun z hz => ha z (List.mem_cons_of_mem _ hz))
          (fun z hz => hb z (List.mem_cons_of_mem _ hz)) hab.2
        rw [hxy, hrest]
  rw [key (sortedRecords l1) (sortedRecords l2)
    (fun x hx => h.mem_iff.mp ((sortedRecords_perm l1).mem_iff.mp hx))
    (fun x hx => (sortedRecords_perm l2).mem_iff.mp hx) hk]

/-! ## Listing page by page -/

theorem listAllSnapshots_last (tl : TimeLib)
    (backend : Nat → Except GoError (List VolumeSnapshotSpec)) (m : Int) (fuel i : Nat)
    (token : GoString) (resp : ListSnapshotsResponse)
    (h : ListSnapshots tl (backend i)
      { MaxEntries := m, StartingToken := token, SourceVolumeId := [], SnapshotId := [] } =
        .ok resp)
    (hnil : resp.NextToken = []) :
    listAllSnapshots tl backend m (fuel + 1) i token = some (.ok resp.Entries) := by
  rw [listAllSnapshots, h]
  simp only [hnil, if_true]

theorem listAllSnapshots_next_ok (tl : TimeLib)
    (backend : Nat → Except GoError (List VolumeSnapshotSpec)) (m : Int) (fuel i : Nat)
    (token : GoString) (resp : ListSnapshotsResponse)
    (rest : List ListSnapshotsResponse_Entry)
    (h : ListSnapshots tl (backend i)
      { MaxEntries := m, StartingToken := token, SourceVolumeId := [], SnapshotId := [] } =
        .ok resp)
    (hne : resp.NextToken ≠ [])
    (hrest : listAllSnapshots tl backend m fuel (i + 1) resp.NextToken = some (.ok rest)) :
    listAllSnapshots tl backend m (fuel + 1) i token = some (.ok (resp.Entries ++ rest)) := by
  rw [listAllSnapshots, h]
  simp only [hne, if_false, hrest]

theorem listAllSnapshots_next_error (tl : TimeLib)
    (backend : Nat → Except GoError (List VolumeSnapshotSpec)) (m : Int) (fuel i : Nat)
    (token : GoString) (resp : ListSnapshotsResponse) (f : Failure)
    (h : ListSnapshots tl (backend i)
      { MaxEntries := m, StartingToken := token, SourceVolumeId := [], SnapshotId := [] } =
        .ok resp)
    (hne : resp.NextToken ≠ [])
    (hrest : listAllSnapshots tl backend m fuel (i + 1) resp.NextToken = some (.error f)) :
    listAllSnapshots tl backend m (fuel + 1) i token = some (.error f) := by
  rw [listAllSnapshots, h]
  simp only [hne, if_false, hrest]

theorem listAllSnapshots_error (tl : TimeLib)
    (backend : Nat → Except GoError (List VolumeSnapshotSpec)) (m : Int) (fuel i : Nat)
    (token : GoString) (f : Failure)
    (h : ListSnapshots tl (backend i)
      { MaxEntries := m, StartingToken := token, SourceVolumeId := [], SnapshotId := [] } =
        .error f) :
    listAllSnapshots tl backend m (fuel + 1) i token = some (.error f) := by
  rw [listAllSnapshots, h]

theorem drop_take_append_drop {α : Type} (l : List α) (o k : Nat) :
    (l.take (o + k)).drop o ++ l.drop (o + k) = l.drop o := by
  conv_rhs => rw [← List.take_append_drop (o + k) l]
  by_cases h : o + k ≤ l.length
  · rw [List.drop_append_of_le_length (by rw [List.length_take]; omega)]
  · have h1 : l.drop (o + k) = [] := List.drop_eq_nil_of_le (by omega)
    simp [h1]

/-- The response to one call of the page-by-page client, when the backend lists a
permutation of `snaps`. -/
theorem listSnapshots_page_of_perm (tl : TimeLib) (snaps l : List VolumeSnapshotSpec)
    (k : Int) (token : GoString) (o : Nat) (time : VolumeSnapshotSpec → Timestamp)
    (hnd : (snaps.map (fun s => s.Id)).Nodup) (hperm : l.Perm snaps)
    (hN : snaps.length < 2 ^ 31) (htok : tokenOffset token = some o)
    (ho : o < snaps.length) (hk : 0 ≤ k) (hov : (o : Int) + k < 2 ^ 31)
    (htime : ∀ s ∈ snaps, convertStringToPtypesTimestamp tl s.CreatedAt = .ok (time s)) :
    ListSnapshots tl (.ok l)
        { MaxEntries := k, StartingToken := token, SourceVolumeId := [], SnapshotId := [] } =
      .ok (if k = 0 ∨ (snaps.length : Int) ≤ o + k then
            { Entries := ((sortedRecords snaps).drop o).map (fun s => snapshotEntry s (time s)),
              NextToken := [] }
           else
            { Entries := (((sortedRecords snaps).take ((o : Int) + k).toNat).drop o).map
                (fun s => snapshotEntry s (time s)),
              NextToken := formatInt ((o : Int) + k) }) := by
  have hlen : (sortedRecords snaps).length = snaps.length := (sortedRecords_perm snaps).length_eq
  have hne : l ≠ [] := by
    intro h
    rw [h] at hperm
    have := hperm.length_eq
    simp at this
    omega
  have hl : sortResult l = (sortedRecords snaps).map some := by
    rw [sortResult_eq_of_perm l snaps hperm hnd, sortResult_eq_sortedRecords snaps hnd]
  have h := listSnapshots_page tl l l (sortedRecords snaps)
    { MaxEntries := k, StartingToken := token, SourceVolumeId := [], SnapshotId := [] }
    o time (filterSnapshots_no_filter l hne) hl (by omega) htok (by omega) hk hov
    (fun s hs => htime s ((sortedRecords_perm snaps).mem_iff.mp hs))
  rw [hlen] at h
  exact h

/-- The page-by-page client, started at a multiple of the page size inside the set,
returns the entries of the rest of the sorted sequence. -/
theorem listAllSnapshots_from (tl : TimeLib) (snaps : List VolumeSnapshotSpec)
    (backend : Nat → Except GoError (List VolumeSnapshotSpec)) (k : Nat)
    (time : VolumeSnapshotSpec → Timestamp)
    (hnd : (snaps.map (fun s => s.Id)).Nodup) (hk : 1 ≤ k)
    (hfit : ((snaps.length - 1) / k + 1) * k < 2 ^ 31)
    (hback : ∀ i, ∃ l, backend i = .ok l ∧ l.Perm snaps)
    (htime : ∀ s ∈ snaps, convertStringToPtypesTimestamp tl s.CreatedAt = .ok (time s)) :
    ∀ (fuel j i : Nat) (token : GoString), tokenOffset token = some (j * k) →
      j * k < snaps.length → snaps.length ≤ fuel + j * k →
      listAllSnapshots tl backend (k : Int) fuel i token =
        some (.ok (((sortedRecords snaps).drop (j * k)).map
          (fun s => snapshotEntry s (time s)))) := by
  intro fuel
  induction fuel with
  | zero => intro j i token _ h1 h2; omega
  | succ fuel ih =>
    intro j i token htok hlt hfuel
    have hj : j ≤ (snaps.length - 1) / k := by
      rw [Nat.le_div_iff_mul_le (by omega)]; omega
    have hjk : (j + 1) * k ≤ ((snaps.length - 1) / k + 1) * k :=
      Nat.mul_le_mul_right k (by omega)
    have hexp : (j + 1) * k = j * k + k := by ring
    have hN : snaps.length < 2 ^ 31 := by
      have h3 := Nat.lt_mul_div_succ (snaps.length - 1) (show 0 < k by omega)
      rw [Nat.mul_comm] at h3
      omega
    obtain ⟨l, hl, hperm⟩ := hback i
    have hpage := listSnapshots_page_of_perm tl snaps l (k : Int) token (j * k) time hnd hperm
      hN htok hlt (by omega) (by push_cast; omega) htime
    rw [← hl] at hpage
    have hcast : ((j * k : Nat) : Int) + (k : Int) = ((j * k + k : Nat) : Int) := by
      push_cast; ring
    by_cases hc : (k : Int) = 0 ∨ (snaps.length : Int) ≤ ((j * k : Nat) : Int) + (k : Int)
    · rw [if_pos hc] at hpage
      exact listAllSnapshots_last tl backend k fuel i token _ hpage rfl
    · rw [if_neg hc] at hpage
      have hlt2 : j * k + k < snaps.length := by
        push_neg at hc
        have := hc.2
        rw [hcast] at this
        exact_mod_cast this
      have hrest := ih (j + 1) (i + 1) (formatInt (((j * k : Nat) : Int) + (k : Int)))
        (by rw [hcast, hexp]; exact tokenOffset_formatInt _ (by omega))
        (by omega) (by omega)
      have hall := listAllSnapshots_next_ok tl backend k fuel i token _ _ hpage
        (formatInt_ne_nil (((j * k : Nat) : Int) + (k : Int))) hrest
      rw [hall]
      simp only
      rw [hcast, Int.toNat_ofNat, ← List.map_append, hexp, drop_take_append_drop]

theorem listAllSnapshots_next_none (tl : TimeLib)
    (backend : Nat → Except GoError (List VolumeSnapshotSpec)) (m : Int) (fuel i : Nat)
    (token : GoString) (resp : ListSnapshotsResponse)
    (h : ListSnapshots tl (backend i)
      { MaxEntries := m, StartingToken := token, SourceVolumeId := [], SnapshotId := [] } =
        .ok resp)
    (hne : resp.NextToken ≠ [])
    (hrest : listAllSnapshots tl backend m fuel (i + 1) resp.NextToken = none) :
    listAllSnapshots tl backend m (fuel + 1) i token = none := by
  rw [listAllSnapshots, h]
  simp only [hne, if_false, hrest]

/-- When offset plus max-entries leaves the `int32` range, `ListSnapshots` panics. -/
theorem listSnapshots_panic_of_overflow (tl : TimeLib) (all fr : List VolumeSnapshotSpec)
    (req : ListSnapshotsRequest) (o : Nat)
    (hf : filterSnapshots all req.SnapshotId req.SourceVolumeId = .result fr)
    (hN : fr.length < 2 ^ 31) (htok : tokenOffset req.StartingToken = some o)
    (ho : o < fr.length) (hm : 0 < req.MaxEntries) (hm2 : req.MaxEntries < 2 ^ 31)
    (hov : (2 : Int) ^ 31 ≤ o + req.MaxEntries) :
    ListSnapshots tl (.ok all) req = .error .panic := by
  unfold ListSnapshots
  simp only [hf]
  rw [pageSnapshots_panic_of_overflow (sortResult fr) req.MaxEntries req.StartingToken o
    (by rw [length_sortResult]; exact hN) htok (by rw [length_sortResult]; exact ho)
    hm hm2 hov]

/-- With more than `k` records and `2 * k` beyond the `int32` range, the second call of
the page-by-page client panics. -/
theorem listAllSnapshots_second_call_panics (tl : TimeLib) (snaps : List VolumeSnapshotSpec)
    (k : Nat) (time : VolumeSnapshotSpec → Timestamp)
    (hnd : (snaps.map (fun s => s.Id)).Nodup) (hkN : k < snaps.length)
    (hN : snaps.length < 2 ^ 31) (h2k : 2 ^ 31 ≤ 2 * k)
    (htime : ∀ s ∈ snaps, convertStringToPtypesTimestamp tl s.CreatedAt = .ok (time s)) :
    (∀ fuel, listAllSnapshots tl (fun _ => .ok snaps) (k : Int) (fuel + 2) 0 [] =
      some (.error .panic)) ∧
    listAllSnapshots tl (fun _ => .ok snaps) (k : Int) 1 0 [] = none ∧
    listAllSnapshots tl (fun _ => .ok snaps) (k : Int) 0 0 [] = none := by
  have hne : snaps ≠ [] := by
    intro h; rw [h] at hkN; simp at hkN
  have hpage := listSnapshots_page_of_perm tl snaps snaps (k : Int) [] 0 time hnd
    (List.Perm.refl _) hN rfl (by omega) (by omega) (by push_cast; omega) htime
  have hc : ¬ ((k : Int) = 0 ∨ (snaps.length : Int) ≤ ((0 : Nat) : Int) + (k : Int)) := by
    push_cast; omega
  rw [if_neg hc] at hpage
  have hcast : ((0 : Nat) : Int) + (k : Int) = ((k : Nat) : Int) := by push_cast; ring
  have hsecond := listSnapshots_panic_of_overflow tl snaps snaps
    { MaxEntries := (k : Int), StartingToken := formatInt (((0 : Nat) : Int) + (k : Int)),
      SourceVolumeId := [], SnapshotId := [] } k
    (filterSnapshots_no_filter snaps hne) hN
    (by show tokenOffset (formatInt (((0 : Nat) : Int) + (k : Int))) = some k
        rw [hcast]; exact tokenOffset_formatInt k (by omega))
    hkN (by show (0 : Int) < (k : Int); omega)
    (by show (k : Int) < 2 ^ 31; omega)
    (by show (2 : Int) ^ 31 ≤ (k : Int) + (k : Int); omega)
  refine ⟨?_, ?_, rfl⟩
  · intro fuel
    exact listAllSnapshots_next_error tl (fun _ => .ok snaps) k (fuel + 1) 0 [] _ _ hpage
      (formatInt_ne_nil (((0 : Nat) : Int) + (k : Int)))
      (listAllSnapshots_error tl (fun _ => .ok snaps) k fuel 1 _ _ hsecond)
  · exact listAllSnapshots_next_none tl (fun _ => .ok snaps) k 0 0 [] _ hpage
      (formatInt_ne_nil (((0 : Nat) : Int) + (k : Int))) rfl

/-! ## Pagination completeness -/

/-- C1 (as stated, refuted): the page-by-page client never returns the list of the
`2147483648` records of `longListing`, for which the `int32` length is `-2147483648` and
the first call is aborted (max-entries `1`); nor the list of the `1073741825` records of
`longListing` with max-entries `1073741824`, for which the second call computes the upper
slice bound `1073741824 + 1073741824`, which wraps to `-2147483648`, and panics.  Both
listings have pairwise distinct ids and creation times that convert. -/
theorem listAllSnapshots_incomplete :
    (((longListing 2147483648).map (fun s => s.Id)).Nodup ∧
      (longListing 2147483648).length = 2147483648 ∧
      (∀ s ∈ longListing 2147483648,
        convertStringToPtypesTimestamp exampleTimeLib s.CreatedAt =
          .ok { Seconds := 0, Nanos := 0 }) ∧
      (∀ fuel, listAllSnapshots exampleTimeLib (fun _ => .ok (longListing 2147483648))
          1 (fuel + 1) 0 [] =
        some (.error (.error (.status .Aborted
          "startingToken=0 >= len(snapshots)=-2147483648".toList)))) ∧
      (∀ fuel entries, listAllSnapshots exampleTimeLib
          (fun _ => .ok (longListing 2147483648)) 1 fuel 0 [] ≠ some (.ok entries))) ∧
    (((longListing 1073741825).map (fun s => s.Id)).Nodup ∧
      (longListing 1073741825).length = 1073741825 ∧
      (∀ s ∈ longListing 1073741825,
        convertStringToPtypesTimestamp exampleTimeLib s.CreatedAt =
          .ok { Seconds := 0, Nanos := 0 }) ∧
      (∀ fuel, listAllSnapshots exampleTimeLib (fun _ => .ok (longListing 1073741825))
          ((1073741824 : Nat) : Int) (fuel + 2) 0 [] = some (.error .panic)) ∧
      (∀ fuel entries, listAllSnapshots exampleTimeLib
          (fun _ => .ok (longListing 1073741825))
          ((1073741824 : Nat) : Int) fuel 0 [] ≠ some (.ok entries))) := by
  have hA : ∀ fuel, listAllSnapshots exampleTimeLib (fun _ => .ok (longListing 2147483648))
      1 (fuel + 1) 0 [] =
      some (.error (.error (.status .Aborted
        "startingToken=0 >= len(snapshots)=-2147483648".toList))) := by
    intro fuel
    exact listAllSnapshots_error exampleTimeLib (fun _ => .ok (longListing 2147483648)) 1
      fuel 0 [] _
      (listSnapshots_length_wrap exampleTimeLib (longListing 2147483648)
        { MaxEntries := 1, StartingToken := [], SourceVolumeId := [], SnapshotId := [] }
        rfl rfl rfl (by rw [length_longListing]; norm_num))
  have h := listAllSnapshots_second_call_panics exampleTimeLib (longListing 1073741825)
    1073741824 (fun _ => { Seconds := 0, Nanos := 0 }) (longListing_nodup _)
    (by rw [length_longListing]; norm_num) (by rw [length_longListing]; norm_num)
    (by norm_num) (longListing_time _)
  refine ⟨⟨longListing_nodup _, length_longListing _, longListing_time _, hA, ?_⟩,
    ⟨longListing_nodup _, length_longListing _, longListing_time _, h.1, ?_⟩⟩
  · intro fuel entries
    match fuel with
    | 0 => rw [listAllSnapshots]; simp
    | n + 1 => rw [hA n]; simp
  · intro fuel entries
    match fuel with
    | 0 => rw [h.2.2]; simp
    | 1 => rw [h.2.1]; simp
    | n + 2 => rw [h.1 n]; simp

/-- C1 (amended): for a backend snapshot set of `N ≥ 1` records with pairwise distinct
ids whose creation times convert, and max-entries `k ≥ 1` such that the least multiple
of `k` that is at least `N` is below `2^31`, the page-by-page client (empty first
token, no filter, following the next tokens, each call seeing the set in any order)
terminates within `N` calls, and the concatenation of its pages is the entries of the
records in ascending order of their ids: exactly `N` entries, strictly ascending by
snapshot id, every backend snapshot id exactly once. -/
theorem listAllSnapshots_complete (tl : TimeLib) (snaps : List VolumeSnapshotSpec)
    (backend : Nat → Except GoError (List VolumeSnapshotSpec)) (k : Nat)
    (time : VolumeSnapshotSpec → Timestamp)
    (hnd : (snaps.map (fun s => s.Id)).Nodup) (hN : 1 ≤ snaps.length) (hk : 1 ≤ k)
    (hfit : ((snaps.length - 1) / k + 1) * k < 2 ^ 31)
    (hback : ∀ i, ∃ l, backend i = .ok l ∧ l.Perm snaps)
    (htime : ∀ s ∈ snaps, convertStringToPtypesTimestamp tl s.CreatedAt = .ok (time s))
    (fuel : Nat) (hfuel : snaps.length ≤ fuel) :
    ∃ entries : List ListSnapshotsResponse_Entry,
      listAllSnapshots tl backend (k : Int) fuel 0 [] = some (.ok entries) ∧
      entries = (sortedRecords snaps).map (fun s => snapshotEntry s (time s)) ∧
      entries.length = snaps.length ∧
      (entries.map (fun e => e.Snapshot.SnapshotId)).Sorted (fun a b => a < b) ∧
      (entries.map (fun e => e.Snapshot.SnapshotId)).Perm (snaps.map (fun s => s.Id)) := by
  have h := listAllSnapshots_from tl snaps backend k time hnd hk hfit hback htime fuel 0 0 []
    (by simp [tokenOffset]) (by omega) (by omega)
  rw [Nat.zero_mul, List.drop_zero] at h
  have hids : ((sortedRecords snaps).map (fun s => snapshotEntry s (time s))).map
      (fun e => e.Snapshot.SnapshotId) = (sortedRecords snaps).map (fun s => s.Id) := by
    rw [List.map_map]; rfl
  refine ⟨_, h, rfl, ?_, ?_, ?_⟩
  · rw [List.length_map, (sortedRecords_perm snaps).length_eq]
  · rw [hids]; exact sortedRecords_sorted_lt snaps hnd
  · rw [hids]; exact (sortedRecords_perm snaps).map _

/-- C1 (amended) at the example listing of three records with page size 2, the backend
listing the records in a different order at the second call. -/
theorem listAllSnapshots_complete_witness :
    (exampleListing.map (fun s => s.Id)).Nodup ∧ 1 ≤ exampleListing.length ∧
    ((exampleListing.length - 1) / 2 + 1) * 2 < 2 ^ 31 ∧
    ∃ entries : List ListSnapshotsResponse_Entry,
      listAllSnapshots exampleTimeLib
          (fun i => if i = 0 then .ok exampleListing else .ok exampleListing.reverse)
          ((2 : Nat) : Int) 3 0 [] = some (.ok entries) ∧
      entries = (sortedRecords exampleListing).map
        (fun s => snapshotEntry s { Seconds := 0, Nanos := 0 }) ∧
      entries.length = exampleListing.length ∧
      (entries.map (fun e => e.Snapshot.SnapshotId)).Sorted (fun a b => a < b) ∧
      (entries.map (fun e => e.Snapshot.SnapshotId)).Perm
        (exampleListing.map (fun s => s.Id)) :=
  ⟨by decide, by decide, by decide,
    listAllSnapshots_complete exampleTimeLib exampleListing
      (fun i => if i = 0 then .ok exampleListing else .ok exampleListing.reverse) 2
      (fun _ => { Seconds := 0, Nanos := 0 }) (by decide) (by decide) (by decide) (by decide)
      (by
        intro i
        by_cases hi : i = 0
        · exact ⟨exampleListing, by simp [hi], List.Perm.refl _⟩
        · exact ⟨exampleListing.reverse, by simp [hi], List.reverse_perm _⟩)
      (by
        intro s hs
        simp only [exampleListing, List.mem_cons, List.mem_singleton, List.not_mem_nil,
          or_false] at hs
        rcases hs with h | h | h <;> subst h <;> rfl)
      3 (by decide)⟩

/-! ## Splitting strings -/

theorem isPrefixOf_singleton (c x : Char) (s : GoString) :
    List.isPrefixOf [c] (x :: s) = (c == x) := by
  simp [List.isPrefixOf]

/-- The first occurrence of a one-character separator. -/
theorem Index_singleton (c : Char) (s : GoString) :
    (Index s [c] = none ∧ c ∉ s) ∨
    ∃ a b, s = a ++ c :: b ∧ c ∉ a ∧ Index s [c] = some a.length := by
  induction s with
  | nil => left; simp [Index]
  | cons x s ih =>
    by_cases hx : c = x
    · right
      refine ⟨[], s, by simp [hx], by simp, ?_⟩
      simp [Index, hx]
    · rcases ih with ⟨h1, h2⟩ | ⟨a, b, h1, h2, h3⟩
      · left
        refine ⟨?_, ?_⟩
        · simp [Index, hx, h1]
        · simp [hx, h2]
      · right
        refine ⟨x :: a, b, by simp [h1], ?_, ?_⟩
        · simp [hx, h2]
        · simp [Index, hx, h3]

/-- With enough fuel, the split loop on a one-character separator is `List.splitOn`. -/
theorem genSplit_singleton (c : Char) (n : Nat) :
    ∀ s : GoString, s.length ≤ n → genSplit [c] n s = s.splitOn c := by
  induction n with
  | zero =>
    intro s hs
    have : s = [] := List.length_eq_zero.mp (by omega)
    subst this
    simp [genSplit, List.splitOn]
  | succ n ih =>
    intro s hs
    rcases Index_singleton c s with ⟨h1, h2⟩ | ⟨a, b, h1, h2, h3⟩
    · rw [genSplit, h1]
      simp only
      rw [List.splitOn, List.splitOnP_eq_single]
      intro x hx
      simp only [beq_iff_eq]
      intro hxc
      exact h2 (hxc ▸ hx)
    · rw [genSplit, h3]
      simp only
      subst h1
      have hb : b.length ≤ n := by
        simp only [List.length_append, List.length_cons] at hs
        omega
      have ht : List.take a.length (a ++ c :: b) = a := by simp
      have hd : List.drop (a.length + [c].length) (a ++ c :: b) = b := by
        simp [List.drop_append]
      rw [ht, hd, ih b hb]
      rw [List.splitOn, List.splitOn, List.splitOnP_first]
      · intro x hx
        simp only [beq_iff_eq]
        intro hxc
        exact h2 (hxc ▸ hx)
      · simp

theorem Split_singleton (c : Char) (s : GoString) : Split s [c] = s.splitOn c := by
  unfold Split
  rw [if_neg (by simp)]
  exact genSplit_singleton c s.length s (le_refl _)

/-- No piece of a split on a one-character separator contains the separator. -/
theorem not_mem_of_mem_splitOn (c : Char) (n : Nat) :
    ∀ s : GoString, s.length ≤ n → ∀ l ∈ s.splitOn c, c ∉ l := by
  induction n with
  | zero =>
    intro s hs l hl
    have : s = [] := List.length_eq_zero.mp (by omega)
    subst this
    simp [List.splitOn] at hl
    simp [hl]
  | succ n ih =>
    intro s hs l hl
    rcases Index_singleton c s with ⟨_, h2⟩ | ⟨a, b, h1, h2, _⟩
    · rw [List.splitOn, List.splitOnP_eq_single] at hl
      · simp only [List.mem_singleton] at hl
        rw [hl]; exact h2
      · intro x hx
        simp only [beq_iff_eq]
        intro hxc
        exact h2 (hxc ▸ hx)
    · subst h1
      rw [List.splitOn, List.splitOnP_first] at hl
      · rcases List.mem_cons.mp hl with hl | hl
        · rw [hl]; exact h2
        · have hb : b.length ≤ n := by
            simp only [List.length_append, List.length_cons] at hs
            omega
          exact ih b hb l hl
      · intro x hx
        simp only [beq_iff_eq]
        intro hxc
        exact h2 (hxc ▸ hx)
      · simp

theorem not_mem_of_mem_Split (c : Char) (s l : GoString) (h : l ∈ Split s [c]) : c ∉ l := by
  rw [Split_singleton] at h
  exact not_mem_of_mem_splitOn c s.length s (le_refl _) l h

/-- Joining comma-free segments and splitting again gives the segments back. -/
theorem Split_intercalate (c : Char) (ls : List GoString) (hx : ∀ l ∈ ls, c ∉ l)
    (hls : ls ≠ []) : Split ([c].intercalate ls) [c] = ls := by
  rw [Split_singleton]
  exact List.splitOn_intercalate _ c hx hls

theorem intercalate_Split (c : Char) (s : GoString) : [c].intercalate (Split s [c]) = s := by
  rw [Split_singleton]
  exact List.intercalate_splitOn _ c

theorem Split_ne_nil (c : Char) (s : GoString) : Split s [c] ≠ [] := by
  rw [Split_singleton]
  exact List.splitOnP_ne_nil _ _

theorem intercalate_cons_cons (sep a b : GoString) (ls : List GoString) :
    sep.intercalate (a :: b :: ls) = a ++ sep ++ sep.intercalate (b :: ls) := by
  simp [List.intercalate, List.intersperse]

theorem intercalate_singleton (sep a : GoString) : sep.intercalate [a] = a := by
  simp [List.intercalate, List.intersperse]

/-- A string that does not contain the separator has no occurrence of it. -/
theorem Index_eq_none_of_not_infix (sep : GoString) :
    ∀ s : GoString, ¬ sep <:+: s → Index s sep = none := by
  intro s
  induction s with
  | nil =>
    intro h
    have : sep ≠ [] := by
      intro h0; subst h0; exact h List.nil_infix
    simp [Index, this]
  | cons x s ih =>
    intro h
    have h1 : ¬ sep.isPrefixOf (x :: s) = true := by
      intro hp
      exact h (List.IsPrefix.isInfix (List.isPrefixOf_iff_prefix.mp hp))
    have h2 : ¬ sep <:+: s := fun hi => h (List.infix_cons hi)
    simp [Index, h1, ih h2]

/-- Splitting a segment that starts with a non-empty separator gives at least two
pieces, the first of them empty. -/
theorem Split_of_hasPrefix (sep seg : GoString) (hsep : sep ≠ []) (h : HasPrefix seg sep = true) :
    ∃ v rest, Split seg sep = [] :: v :: rest := by
  unfold HasPrefix at h
  have hidx : Index seg sep = some 0 := by
    cases seg with
    | nil =>
      cases sep with
      | nil => exact absurd rfl hsep
      | cons y ys => simp [List.isPrefixOf] at h
    | cons x s => simp [Index, h]
  have hlen : 0 < seg.length := by
    cases seg with
    | nil =>
      cases sep with
      | nil => exact absurd rfl hsep
      | cons y ys => simp [List.isPrefixOf] at h
    | cons x s => simp
  unfold Split
  rw [if_neg hsep]
  obtain ⟨n, hn⟩ : ∃ n, seg.length = n + 1 := ⟨seg.length - 1, by omega⟩
  rw [hn, genSplit, hidx]
  simp only [List.take_zero]
  have hne : ∀ (m : Nat) (t : GoString), ∃ v rest, genSplit sep m t = v :: rest := by
    intro m t
    cases m with
    | zero => exact ⟨t, [], rfl⟩
    | succ m =>
      rw [genSplit]
      cases Index t sep with
      | none => exact ⟨t, [], rfl⟩
      | some k => exact ⟨_, _, rfl⟩
  obtain ⟨v, rest, hv⟩ := hne n (List.drop (0 + sep.length) seg)
  exact ⟨v, rest, by rw [hv]⟩

/-- Splitting `sep ++ r` at `sep`, when `r` does not contain `sep`, gives the empty
piece and `r`. -/
theorem Split_prefix_append (sep r : GoString) (hsep : sep ≠ []) (h : ¬ sep <:+: r) :
    Split (sep ++ r) sep = [[], r] := by
  have hidx : Index (sep ++ r) sep = some 0 := by
    cases hs : sep ++ r with
    | nil =>
      have : sep = [] := (List.append_eq_nil.mp hs).1
      exact absurd this hsep
    | cons x s =>
      have hp : sep.isPrefixOf (x :: s) = true := by
        rw [← hs]; exact List.isPrefixOf_iff_prefix.mpr (List.prefix_append _ _)
      simp [Index, hp]
  have hlen : (sep ++ r).length = (sep.length - 1 + r.length) + 1 := by
    have : 0 < sep.length := List.length_pos.mpr hsep
    simp only [List.length_append]; omega
  unfold Split
  rw [if_neg hsep, hlen, genSplit, hidx]
  simp only [List.take_zero, Nat.zero_add, List.drop_left]
  have hr : ∀ m, genSplit sep m r = [r] := by
    intro m
    cases m with
    | zero => rfl
    | succ m => rw [genSplit, Index_eq_none_of_not_infix sep r h]
  rw [hr]

/-! ## Node identity parser: continuations and totality -/

theorem tag_ne : Wwpn ≠ Wwnn ∧ Wwpn ≠ Iqn ∧ Wwnn ≠ Iqn ∧
    ([] : GoString) ≠ Wwpn ∧ ([] : GoString) ≠ Wwnn ∧ ([] : GoString) ≠ Iqn := by decide

theorem appendSecondPiece_of_hasPrefix (xs : List GoString) (seg tag : GoString)
    (h : HasPrefix seg (tag ++ [':']) = true) :
    ∃ v, appendSecondPiece xs seg tag = .ok (xs ++ [v]) := by
  obtain ⟨v, rest, hv⟩ := Split_of_hasPrefix (tag ++ [':']) seg (by simp) h
  exact ⟨v, by simp [appendSecondPiece, hv]⟩

theorem appendContinuation_of_lt (xs : List GoString) (i : Nat) (seg : GoString)
    (h : i < xs.length) :
    ∃ ys, appendContinuation xs i seg = .ok ys ∧ ys.length = xs.length := by
  unfold appendContinuation
  rw [List.get?_eq_get h]
  exact ⟨_, rfl, by simp⟩

/-- One iteration of the parser loop never panics and keeps the index valid. -/
theorem nodeIdStep_total (st : NodeIdState) (seg : GoString) (hinv : st.indexValid) :
    ∃ st1, nodeIdStep st seg = .ok st1 ∧ st1.indexValid := by
  obtain ⟨h1, h2, h3, _, _, _⟩ := tag_ne
  obtain ⟨i1, i2, i3⟩ := hinv
  unfold nodeIdStep
  by_cases c1 : HasPrefix seg (Wwpn ++ [':']) = true
  · obtain ⟨v, hv⟩ := appendSecondPiece_of_hasPrefix st.wwpns seg Wwpn c1
    rw [if_pos c1, hv]
    refine ⟨_, rfl, ?_, ?_, ?_⟩
    · intro _; simp
    · intro h; exact absurd h h1
    · intro h; exact absurd h h2
  · rw [if_neg c1]
    by_cases c2 : HasPrefix seg (Wwnn ++ [':']) = true
    · obtain ⟨v, hv⟩ := appendSecondPiece_of_hasPrefix st.wwnns seg Wwnn c2
      rw [if_pos c2, hv]
      refine ⟨_, rfl, ?_, ?_, ?_⟩
      · intro h; exact absurd h.symm h1
      · intro _; simp
      · intro h; exact absurd h h3
    · rw [if_neg c2]
      by_cases c3 : HasPrefix seg (Iqn ++ [':']) = true
      · obtain ⟨v, hv⟩ := appendSecondPiece_of_hasPrefix st.iqns seg Iqn c3
        rw [if_pos c3, hv]
        refine ⟨_, rfl, ?_, ?_, ?_⟩
        · intro h; exact absurd h.symm h2
        · intro h; exact absurd h.symm h3
        · intro _; simp
      · rw [if_neg c3]
        by_cases p1 : st.previousParameter = Wwpn
        · obtain ⟨ys, hys, hlen⟩ :=
            appendContinuation_of_lt st.wwpns st.previousIndex seg (i1 p1)
          rw [if_pos p1, hys]
          exact ⟨_, rfl, fun h => by simpa [hlen] using i1 h, i2, i3⟩
        · rw [if_neg p1]
          by_cases p2 : st.previousParameter = Wwnn
          · obtain ⟨ys, hys, hlen⟩ :=
              appendContinuation_of_lt st.wwnns st.previousIndex seg (i2 p2)
            rw [if_pos p2, hys]
            exact ⟨_, rfl, i1, fun h => by simpa [hlen] using i2 h, i3⟩
          · rw [if_neg p2]
            by_cases p3 : st.previousParameter = Iqn
            · obtain ⟨ys, hys, hlen⟩ :=
                appendContinuation_of_lt st.iqns st.previousIndex seg (i3 p3)
              rw [if_pos p3, hys]
              exact ⟨_, rfl, i1, i2, fun h => by simpa [hlen] using i3 h⟩
            · rw [if_neg p3]
              exact ⟨st, rfl, i1, i2, i3⟩

theorem nodeIdLoop_total (segs : List GoString) :
    ∀ st : NodeIdState, st.indexValid → ∃ st1, nodeIdLoop st segs = .ok st1 := by
  induction segs with
  | nil => intro st _; exact ⟨st, rfl⟩
  | cons seg rest ih =>
    intro st hinv
    obtain ⟨st1, h1, hinv1⟩ := nodeIdStep_total st seg hinv
    obtain ⟨st2, h2⟩ := ih st1 hinv1
    exact ⟨st2, by rw [nodeIdLoop, h1]; exact h2⟩

theorem indexValid_init : NodeIdState.init.indexValid := by
  obtain ⟨_, _, _, h4, h5, h6⟩ := tag_ne
  exact ⟨fun h => absurd h h4, fun h => absurd h h5, fun h => absurd h h6⟩

/-- Before any tag is seen, a segment without tag prefix leaves the state unchanged. -/
theorem nodeIdStep_untagged_init (st : NodeIdState) (seg : GoString)
    (hp : st.previousParameter = []) (h : startsWithTag seg = false) :
    nodeIdStep st seg = .ok st := by
  obtain ⟨_, _, _, h4, h5, h6⟩ := tag_ne
  simp only [startsWithTag, Bool.or_eq_false_iff] at h
  obtain ⟨⟨c1, c2⟩, c3⟩ := h
  unfold nodeIdStep
  rw [hp]
  simp only [c1, c2, c3, if_neg h4, if_neg h5, if_neg h6]
  simp

theorem nodeIdLoop_untagged_init (conts rest : List GoString) (st : NodeIdState)
    (hp : st.previousParameter = []) (h : ∀ c ∈ conts, startsWithTag c = false) :
    nodeIdLoop st (conts ++ rest) = nodeIdLoop st rest := by
  induction conts with
  | nil => rfl
  | cons c cs ih =>
    rw [List.cons_append, nodeIdLoop, nodeIdStep_untagged_init st c hp
      (h c (List.mem_cons_self _ _))]
    exact ih (fun x hx => h x (List.mem_cons_of_mem _ hx))

/-- After an `iqn:` segment opened the single entry `x`, the following segments without
tag prefix are appended to it, comma-joined. -/
theorem nodeIdLoop_iqn_continuations (segs : List GoString) :
    ∀ x : GoString, (∀ s ∈ segs, startsWithTag s = false) →
      nodeIdLoop { wwpns := [], wwnns := [], iqns := [x], previousParameter := Iqn,
                   previousIndex := 0 } segs =
        .ok { wwpns := [], wwnns := [], iqns := [[','].intercalate (x :: segs)],
              previousParameter := Iqn, previousIndex := 0 } := by
  obtain ⟨_, h2, h3, _, _, _⟩ := tag_ne
  induction segs with
  | nil => intro x _; simp [nodeIdLoop, intercalate_singleton]
  | cons s ss ih =>
    intro x h
    have hs := h s (List.mem_cons_self _ _)
    simp only [startsWithTag, Bool.or_eq_false_iff] at hs
    obtain ⟨⟨c1, c2⟩, c3⟩ := hs
    have hstep : nodeIdStep (⟨[], [], [x], Iqn, 0⟩ : NodeIdState) s =
        .ok (⟨[], [], [x ++ [','] ++ s], Iqn, 0⟩ : NodeIdState) := by
      unfold nodeIdStep
      simp only [c1, c2, c3, if_neg h2.symm, if_neg h3.symm]
      simp [appendContinuation]
    rw [nodeIdLoop, hstep]
    simp only
    rw [ih (x ++ [','] ++ s) (fun y hy => h y (List.mem_cons_of_mem _ hy))]
    congr 3
    have key : ∀ (a b : GoString) (l : List GoString),
        [','].intercalate ((a ++ b) :: l) = a ++ [','].intercalate (b :: l) := by
      intro a b l
      cases l with
      | nil => simp [intercalate_singleton]
      | cons y ys => simp [intercalate_cons_cons]
    rw [intercalate_cons_cons, key (x ++ [',']) s ss]

theorem extractInfoFromNodeId_of_Split (nodeId h : GoString) (segs : List GoString)
    (st : NodeIdState) (hs : Split nodeId [','] = h :: segs)
    (hl : nodeIdLoop NodeIdState.init segs = .ok st) :
    extractInfoFromNodeId nodeId = .ok (h, st.wwpns, st.wwnns, st.iqns) := by
  unfold extractInfoFromNodeId
  simp only [hs, List.drop_one, List.tail_cons, hl]
  simp

/-- C11: for a host name `h` without comma and an initiator value `v` that does not
contain the text `iqn:` and none of whose comma-delimited pieces starts with a tag
prefix, the parser applied to `h + ",iqn:" + v` returns the host `h`, the iSCSI names
`[v]`, no world-wide port name and no world-wide node name: the continuation segments
are appended, comma-joined, to the entry opened by the `iqn:` segment. -/
theorem extractInfoFromNodeId_iqn_round_trip (h v : GoString) (hh : ',' ∉ h)
    (hv : ∀ p ∈ Split v [','], startsWithTag p = false)
    (hiqn : ¬ (Iqn ++ [':']) <:+: v) :
    extractInfoFromNodeId (h ++ ",iqn:".toList ++ v) = .ok (h, [], [], [v]) := by
  obtain ⟨p1, ps, hps⟩ : ∃ p1 ps, Split v [','] = p1 :: ps := by
    cases hsp : Split v [','] with
    | nil => exact absurd hsp (Split_ne_nil ',' v)
    | cons a l => exact ⟨a, l, rfl⟩
  have hvj : v = [','].intercalate (p1 :: ps) := by
    rw [← hps, intercalate_Split]
  have hfree : ∀ l ∈ p1 :: ps, ',' ∉ l := by
    intro l hl
    rw [← hps] at hl
    exact not_mem_of_mem_Split ',' v l hl
  have key : ∀ (a b : GoString) (l : List GoString),
      [','].intercalate ((a ++ b) :: l) = a ++ [','].intercalate (b :: l) := by
    intro a b l
    cases l with
    | nil => simp [intercalate_singleton]
    | cons y ys => simp [intercalate_cons_cons]
  have hiq : Iqn ++ [':'] = ['i', 'q', 'n', ':'] := by decide
  have hnode : h ++ ",iqn:".toList ++ v =
      [','].intercalate (h :: (Iqn ++ [':'] ++ p1) :: ps) := by
    rw [intercalate_cons_cons, key, ← hvj, hiq]
    simp
  have hsplit : Split (h ++ ",iqn:".toList ++ v) [','] = h :: (Iqn ++ [':'] ++ p1) :: ps := by
    rw [hnode]
    apply Split_intercalate
    · intro l hl
      rcases List.mem_cons.mp hl with hl | hl
      · rw [hl]; exact hh
      · rcases List.mem_cons.mp hl with hl | hl
        · rw [hl, hiq]
          have := hfree p1 (List.mem_cons_self _ _)
          simp [this]
        · exact hfree l (List.mem_cons_of_mem _ hl)
    · simp
  have hp1 : ¬ (Iqn ++ [':']) <:+: p1 := by
    intro hi
    apply hiqn
    have hpre : p1 <+: v := by
      rw [hvj]
      cases ps with
      | nil => rw [intercalate_singleton]
      | cons y ys => rw [intercalate_cons_cons, List.append_assoc]; exact List.prefix_append _ _
    exact hi.trans hpre.isInfix
  have hstep : nodeIdStep NodeIdState.init (Iqn ++ [':'] ++ p1) =
      .ok (⟨[], [], [p1], Iqn, 0⟩ : NodeIdState) := by
    have hw1 : Wwpn ++ [':'] = ['w', 'w', 'p', 'n', ':'] := by decide
    have hw2 : Wwnn ++ [':'] = ['w', 'w', 'n', 'n', ':'] := by decide
    have c1 : HasPrefix (Iqn ++ [':'] ++ p1) (Wwpn ++ [':']) = false := by
      rw [hiq, hw1]; simp [HasPrefix, List.isPrefixOf]
    have c2 : HasPrefix (Iqn ++ [':'] ++ p1) (Wwnn ++ [':']) = false := by
      rw [hiq, hw2]; simp [HasPrefix, List.isPrefixOf]
    have c3 : HasPrefix (Iqn ++ [':'] ++ p1) (Iqn ++ [':']) = true := by
      unfold HasPrefix
      exact List.isPrefixOf_iff_prefix.mpr (List.prefix_append _ _)
    unfold nodeIdStep
    simp only [c1, c2, c3, appendSecondPiece,
      Split_prefix_append (Iqn ++ [':']) p1 (by simp) hp1]
    simp [NodeIdState.init]
  have hloop : nodeIdLoop NodeIdState.init ((Iqn ++ [':'] ++ p1) :: ps) =
      .ok (⟨[], [], [[','].intercalate (p1 :: ps)], Iqn, 0⟩ : NodeIdState) := by
    rw [nodeIdLoop, hstep]
    simp only
    exact nodeIdLoop_iqn_continuations ps p1
      (fun s hs => hv s (by rw [hps]; exact List.mem_cons_of_mem _ hs))
  rw [extractInfoFromNodeId_of_Split _ h _ _ hsplit hloop, ← hvj]

/-- C11 at the host `host1` and the initiator value `iqn.1993-08.org.debian:01:abc,more`. -/
theorem extractInfoFromNodeId_iqn_round_trip_witness :
    ',' ∉ "host1".toList ∧
    (∀ p ∈ Split "iqn.1993-08.org.debian:01:abc,more".toList [','],
      startsWithTag p = false) ∧
    (¬ (Iqn ++ [':']) <:+: "iqn.1993-08.org.debian:01:abc,more".toList) ∧
    extractInfoFromNodeId
        ("host1".toList ++ ",iqn:".toList ++ "iqn.1993-08.org.debian:01:abc,more".toList) =
      .ok ("host1".toList, [], [], ["iqn.1993-08.org.debian:01:abc,more".toList]) :=
  ⟨by decide, by decide, by decide,
    extractInfoFromNodeId_iqn_round_trip "host1".toList
      "iqn.1993-08.org.debian:01:abc,more".toList (by decide) (by decide) (by decide)⟩

/-- C12: for every node id the parser returns normally, the host name it returns is the
first comma-delimited segment (the whole string when there is no comma), and the
segments without tag prefix that come before the first tagged segment do not affect the
result: the node id with those segments removed gives the same host and the same three
lists. -/
theorem extractInfoFromNodeId_total (nodeId : GoString) :
    (∃ wwpns wwnns iqns, extractInfoFromNodeId nodeId =
      .ok ((Split nodeId [',']).headD [], wwpns, wwnns, iqns)) ∧
    (',' ∉ nodeId → (Split nodeId [',']).headD [] = nodeId) ∧
    (∀ (h : GoString) (conts rest : List GoString),
      Split nodeId [','] = h :: (conts ++ rest) →
      (∀ c ∈ conts, startsWithTag c = false) →
      ∃ wwpns wwnns iqns,
        extractInfoFromNodeId nodeId = .ok (h, wwpns, wwnns, iqns) ∧
        extractInfoFromNodeId ([','].intercalate (h :: rest)) =
          .ok (h, wwpns, wwnns, iqns)) := by
  refine ⟨?_, ?_, ?_⟩
  · obtain ⟨h, segs, hs⟩ : ∃ h segs, Split nodeId [','] = h :: segs := by
      cases hsp : Split nodeId [','] with
      | nil => exact absurd hsp (Split_ne_nil ',' nodeId)
      | cons a l => exact ⟨a, l, rfl⟩
    obtain ⟨st, hst⟩ := nodeIdLoop_total segs NodeIdState.init indexValid_init
    refine ⟨st.wwpns, st.wwnns, st.iqns, ?_⟩
    rw [hs]
    exact extractInfoFromNodeId_of_Split nodeId h segs st hs hst
  · intro hno
    rw [Split_singleton, List.splitOn, List.splitOnP_eq_single]
    · rfl
    · intro x hx
      simp only [beq_iff_eq]
      intro hxc
      exact hno (hxc ▸ hx)
  · intro h conts rest hs hc
    obtain ⟨st, hst⟩ := nodeIdLoop_total rest NodeIdState.init indexValid_init
    have hst2 : nodeIdLoop NodeIdState.init (conts ++ rest) = .ok st := by
      rw [nodeIdLoop_untagged_init conts rest NodeIdState.init rfl hc]; exact hst
    have hfree : ∀ l ∈ h :: rest, ',' ∉ l := by
      intro l hl
      apply not_mem_of_mem_Split ',' nodeId l
      rw [hs]
      rcases List.mem_cons.mp hl with hl | hl
      · rw [hl]; exact List.mem_cons_self _ _
      · exact List.mem_cons_of_mem _ (List.mem_append_right _ hl)
    refine ⟨st.wwpns, st.wwnns, st.iqns,
      extractInfoFromNodeId_of_Split nodeId h _ st hs hst2,
      extractInfoFromNodeId_of_Split _ h rest st
        (Split_intercalate ',' (h :: rest) hfree (by simp)) hst⟩

/-! ## Capacity rounding -/

/-- As long as `R + 2^30 - 1` stays in the `int64` range, the size is the number of
allocation units that `R` bytes round up to, and at least `1`. -/
theorem volumeSize_of_le (R l : Int) (h0 : 0 ≤ R) (h1 : R ≤ 2 ^ 63 - 2 ^ 30) :
    volumeSize (some { RequiredBytes := R, LimitBytes := l }) =
      max 1 ((R + 2 ^ 30 - 1) / 2 ^ 30) := by
  have e1 : toInt64 R = R := by unfold toInt64; omega
  have e2 : toInt64 (toInt64 (R + GiB) - 1) = R + 2 ^ 30 - 1 := by
    unfold toInt64 GiB; omega
  have e3 : Int.tdiv (R + 2 ^ 30 - 1) GiB = (R + 2 ^ 30 - 1) / 2 ^ 30 := by
    unfold GiB
    exact Int.tdiv_eq_ediv (by omega) (by norm_num)
  have e4 : toInt64 ((R + 2 ^ 30 - 1) / 2 ^ 30) = (R + 2 ^ 30 - 1) / 2 ^ 30 := by
    unfold toInt64; omega
  simp only [volumeSize, e1, e2, e3, e4]
  split
  · rw [max_eq_left]; omega
  · rw [max_eq_right]; omega

/-- Beyond that range the sum wraps around, the quotient is not positive, and the size
falls back to `1`. -/
theorem volumeSize_of_gt (R l : Int) (h0 : 2 ^ 63 - 2 ^ 30 < R) (h1 : R ≤ 2 ^ 63 - 1) :
    volumeSize (some { RequiredBytes := R, LimitBytes := l }) = 1 := by
  have e1 : toInt64 R = R := by unfold toInt64; omega
  have e2 : toInt64 (toInt64 (R + GiB) - 1) = R + 2 ^ 30 - 1 - 2 ^ 64 := by
    unfold toInt64 GiB; omega
  have e3 : Int.tdiv (R + 2 ^ 30 - 1 - 2 ^ 64) GiB ≤ 0 := by
    have h2 : R + 2 ^ 30 - 1 - 2 ^ 64 = -(2 ^ 64 - (R + 2 ^ 30 - 1)) := by ring
    rw [h2, Int.neg_tdiv]
    have : 0 ≤ Int.tdiv (2 ^ 64 - (R + 2 ^ 30 - 1)) GiB :=
      Int.tdiv_nonneg (by omega) (by unfold GiB; norm_num)
    omega
  have e4 : -(2 : Int) ^ 63 ≤ Int.tdiv (R + 2 ^ 30 - 1 - 2 ^ 64) GiB := by
    have h2 : R + 2 ^ 30 - 1 - 2 ^ 64 = -(2 ^ 64 - (R + 2 ^ 30 - 1)) := by ring
    rw [h2, Int.neg_tdiv]
    have h3 : Int.tdiv (2 ^ 64 - (R + 2 ^ 30 - 1)) GiB =
        (2 ^ 64 - (R + 2 ^ 30 - 1)) / 2 ^ 30 := by
      unfold GiB
      exact Int.tdiv_eq_ediv (by omega) (by norm_num)
    rw [h3]; omega
  have e5 : toInt64 (Int.tdiv (R + 2 ^ 30 - 1 - 2 ^ 64) GiB) =
      Int.tdiv (R + 2 ^ 30 - 1 - 2 ^ 64) GiB := by
    unfold toInt64; omega
  simp only [volumeSize, e1, e2, e5]
  rw [if_pos (by omega)]

theorem applyParameter_name_size (env : Env) (st : VolumeBodyState) (kv : GoString × GoString) :
    (applyParameter env st kv).volumebody.Name = st.volumebody.Name ∧
    (applyParameter env st kv).volumebody.Size = st.volumebody.Size := by
  unfold applyParameter
  split
  · exact ⟨rfl, rfl⟩
  · split
    · exact ⟨rfl, rfl⟩
    · split
      · split <;> exact ⟨rfl, rfl⟩
      · split <;> exact ⟨rfl, rfl⟩

theorem foldl_applyParameter_name_size (env : Env) (ps : List (GoString × GoString)) :
    ∀ st : VolumeBodyState,
      (ps.foldl (applyParameter env) st).volumebody.Name = st.volumebody.Name ∧
      (ps.foldl (applyParameter env) st).volumebody.Size = st.volumebody.Size := by
  induction ps with
  | nil => intro st; exact ⟨rfl, rfl⟩
  | cons kv rest ih =>
    intro st
    rw [List.foldl_cons]
    obtain ⟨h1, h2⟩ := ih (applyParameter env st kv)
    obtain ⟨h3, h4⟩ := applyParameter_name_size env st kv
    exact ⟨h1.trans h3, h2.trans h4⟩

/-- The body that `CreateVolume` builds has the name of the request and the rounded
size. -/
theorem buildVolumeBody_name_size (env : Env) (req : CreateVolumeRequest) :
    (buildVolumeBody env req).volumebody.Name = req.Name ∧
    (buildVolumeBody env req).volumebody.Size = volumeSize req.CapacityRange := by
  unfold buildVolumeBody
  obtain ⟨h1, h2⟩ := foldl_applyParameter_name_size env req.Parameters
    { volumebody := { VolumeSpec.zero with Name := req.Name,
                                           Size := volumeSize req.CapacityRange },
      secondaryAZ := env.OpensdsDefaultSecondaryAZ, enableReplication := false }
  split <;> exact ⟨h1, h2⟩

theorem defaultAvailabilityZone_fields (st : VolumeBodyState) :
    (defaultAvailabilityZone st).volumebody.Name = st.volumebody.Name ∧
    (defaultAvailabilityZone st).volumebody.Size = st.volumebody.Size ∧
    (defaultAvailabilityZone st).volumebody.ProfileId = st.volumebody.ProfileId ∧
    (defaultAvailabilityZone st).volumebody.SnapshotId = st.volumebody.SnapshotId ∧
    (defaultAvailabilityZone st).secondaryAZ = st.secondaryAZ ∧
    (defaultAvailabilityZone st).enableReplication = st.enableReplication := by
  unfold defaultAvailabilityZone
  split <;> exact ⟨rfl, rfl, rfl, rfl, rfl, rfl⟩

/-- The resolved body has the name of the request and the rounded size. -/
theorem resolveVolumeBody_name_size (env : Env) (b : Backend) (req : CreateVolumeRequest)
    (log log1 : List Call) (st : VolumeBodyState)
    (h : resolveVolumeBody env b req log = (.ok st, log1)) :
    st.volumebody.Name = req.Name ∧ st.volumebody.Size = volumeSize req.CapacityRange := by
  obtain ⟨h1, h2⟩ := buildVolumeBody_name_size env req
  unfold resolveVolumeBody at h
  split at h
  · split at h
    · cases h
    · rename_i defaultRrf log2 _
      simp only [Prod.mk.injEq, Except.ok.injEq] at h
      obtain ⟨hst, _⟩ := h
      subst hst
      obtain ⟨d1, d2, _⟩ := defaultAvailabilityZone_fields
        { buildVolumeBody env req with
          volumebody := { (buildVolumeBody env req).volumebody with
                          ProfileId := defaultRrf.Id } }
      exact ⟨d1.trans h1, d2.trans h2⟩
  · simp only [Prod.mk.injEq, Except.ok.injEq] at h
    obtain ⟨hst, _⟩ := h
    subst hst
    obtain ⟨d1, d2, _⟩ := defaultAvailabilityZone_fields (buildVolumeBody env req)
    exact ⟨d1.trans h1, d2.trans h2⟩

/-! ## The lookup of `CreateVolume` -/

/-- What the loop of `FindVolume` returns: the first compatible volume of the requested
name if there is one, and otherwise whether some volume has the requested name. -/
theorem findVolumeLoop_eq (req : VolumeSpec) (volumes : List VolumeSpec) :
    ∀ isExist : Bool, findVolumeLoop req volumes isExist =
      match firstCompatible req volumes with
      | some v => (true, true, some v)
      | none => (isExist || volumes.any (fun v => decide (v.Name = req.Name)), false, none) := by
  induction volumes with
  | nil => intro isExist; simp [findVolumeLoop, firstCompatible]
  | cons a rest ih =>
    intro isExist
    unfold findVolumeLoop
    by_cases hn : a.Name = req.Name
    · by_cases hc : volumeCompatible a req = true
      · simp [firstCompatible, hn, hc]
      · have hc2 : volumeCompatible a req = false := by simpa using hc
        rw [if_pos hn, if_neg hc, ih true]
        simp only [firstCompatible, List.find?_cons, hn, hc2, decide_True, Bool.and_false,
          List.any_cons, Bool.true_or, Bool.or_true]
    · rw [if_neg hn, ih isExist]
      simp only [firstCompatible, List.find?_cons, hn, decide_False, Bool.false_and,
        List.any_cons, Bool.false_or]

theorem firstCompatible_some (req v : VolumeSpec) (volumes : List VolumeSpec)
    (h : firstCompatible req volumes = some v) :
    v ∈ volumes ∧ v.Name = req.Name ∧ volumeCompatible v req = true := by
  unfold firstCompatible at h
  have h1 := List.find?_some h
  have h2 := List.mem_of_find?_eq_some h
  simp only [Bool.and_eq_true, decide_eq_true_eq] at h1
  exact ⟨h2, h1.1, h1.2⟩

theorem firstCompatible_none (req : VolumeSpec) (volumes : List VolumeSpec) :
    firstCompatible req volumes = none ↔
      ∀ v ∈ volumes, v.Name = req.Name → volumeCompatible v req = false := by
  unfold firstCompatible
  rw [List.find?_eq_none]
  constructor
  · intro h v hv hn
    have := h v hv
    simpa [hn] using this
  · intro h v hv
    by_cases hn : v.Name = req.Name
    · simp [hn, h v hv hn]
    · simp [hn]

theorem firstCompatible_none_of_no_name (req : VolumeSpec) (volumes : List VolumeSpec)
    (h : ∀ v ∈ volumes, v.Name ≠ req.Name) : firstCompatible req volumes = none :=
  (firstCompatible_none req volumes).mpr (fun v hv hn => absurd hn (h v hv))

theorem any_name_false (req : VolumeSpec) (volumes : List VolumeSpec)
    (h : ∀ v ∈ volumes, v.Name ≠ req.Name) :
    volumes.any (fun v => decide (v.Name = req.Name)) = false := by
  rw [List.any_eq_false]
  intro v hv
  simpa using h v hv

theorem any_name_true (req : VolumeSpec) (volumes : List VolumeSpec)
    (h : ∃ v ∈ volumes, v.Name = req.Name) :
    volumes.any (fun v => decide (v.Name = req.Name)) = true := by
  rw [List.any_eq_true]
  obtain ⟨v, hv, hn⟩ := h
  exact ⟨v, hv, by simpa using hn⟩

/-- The lookup when the listing fails. -/
theorem chooseVolume_list_error (b : Backend) (body : VolumeSpec) (log : List Call)
    (e : GoError) (hl : b.ListVolumes log = .error e) :
    chooseVolume b body log = (.error (.error e), log ++ [Call.ListVolumes]) := by
  simp only [chooseVolume, FindVolume, hl]

/-- The lookup when a compatible volume of the requested name is listed. -/
theorem chooseVolume_found (b : Backend) (body v : VolumeSpec) (log : List Call)
    (volumes : List VolumeSpec) (hl : b.ListVolumes log = .ok volumes)
    (hf : firstCompatible body volumes = some v) :
    chooseVolume b body log = (.ok (v, true), log ++ [Call.ListVolumes]) := by
  simp only [chooseVolume, FindVolume, hl, findVolumeLoop_eq, hf]
  simp

/-- The lookup when the requested name is listed, but with no compatible volume. -/
theorem chooseVolume_conflict (b : Backend) (body : VolumeSpec) (log : List Call)
    (volumes : List VolumeSpec) (hl : b.ListVolumes log = .ok volumes)
    (hn : ∃ v ∈ volumes, v.Name = body.Name)
    (hf : firstCompatible body volumes = none) :
    chooseVolume b body log =
      (.error (.error (.status .AlreadyExists
        "Volume already exists but is incompatible".toList)), log ++ [Call.ListVolumes]) := by
  simp only [chooseVolume, FindVolume, hl, findVolumeLoop_eq, hf, any_name_true body volumes hn]
  simp

/-- The lookup when the requested name is not listed and the create succeeds. -/
theorem chooseVolume_created (b : Backend) (body v : VolumeSpec) (log : List Call)
    (volumes : List VolumeSpec) (hl : b.ListVolumes log = .ok volumes)
    (hn : ∀ x ∈ volumes, x.Name ≠ body.Name)
    (hc : b.CreateVolume (log ++ [Call.ListVolumes]) body = .ok v) :
    chooseVolume b body log =
      (.ok (v, false), log ++ [Call.ListVolumes] ++ [Call.CreateVolume body]) := by
  simp only [chooseVolume, FindVolume, hl, findVolumeLoop_eq,
    firstCompatible_none_of_no_name body volumes hn, any_name_false body volumes hn, hc]
  simp

/-- The lookup when the requested name is not listed, the create fails and the listing of
the re-scan fails. -/
theorem chooseVolume_rescan_error (b : Backend) (body : VolumeSpec) (log : List Call)
    (volumes : List VolumeSpec) (e e2 : GoError) (hl : b.ListVolumes log = .ok volumes)
    (hn : ∀ x ∈ volumes, x.Name ≠ body.Name)
    (hc : b.CreateVolume (log ++ [Call.ListVolumes]) body = .error e)
    (hl2 : b.ListVolumes (log ++ [Call.ListVolumes] ++ [Call.CreateVolume body]) = .error e2) :
    chooseVolume b body log =
      (.error (.error e2),
        log ++ [Call.ListVolumes] ++ [Call.CreateVolume body] ++ [Call.ListVolumes]) := by
  simp only [chooseVolume, FindVolume, hl, findVolumeLoop_eq,
    firstCompatible_none_of_no_name body volumes hn, any_name_false body volumes hn, hc, hl2]
  simp

/-- The lookup when the requested name is not listed, the create fails and the re-scan
lists no compatible volume of the requested name. -/
theorem chooseVolume_rescan_none (b : Backend) (body : VolumeSpec) (log : List Call)
    (volumes volumes2 : List VolumeSpec) (e : GoError)
    (hl : b.ListVolumes log = .ok volumes)
    (hn : ∀ x ∈ volumes, x.Name ≠ body.Name)
    (hc : b.CreateVolume (log ++ [Call.ListVolumes]) body = .error e)
    (hl2 : b.ListVolumes (log ++ [Call.ListVolumes] ++ [Call.CreateVolume body]) =
      .ok volumes2)
    (hf : firstCompatible body volumes2 = none) :
    chooseVolume b body log =
      (.error (.error e),
        log ++ [Call.ListVolumes] ++ [Call.CreateVolume body] ++ [Call.ListVolumes]) := by
  simp only [chooseVolume, FindVolume, hl, findVolumeLoop_eq,
    firstCompatible_none_of_no_name body volumes hn, any_name_false body volumes hn, hc, hl2,
    hf]
  simp

/-- The lookup when the requested name is not listed, the create fails and the re-scan
lists a compatible volume of the requested name: the volume is taken, and `isExist`
keeps the value `false` of the first lookup. -/
theorem chooseVolume_rescan_found (b : Backend) (body v : VolumeSpec) (log : List Call)
    (volumes volumes2 : List VolumeSpec) (e : GoError)
    (hl : b.ListVolumes log = .ok volumes)
    (hn : ∀ x ∈ volumes, x.Name ≠ body.Name)
    (hc : b.CreateVolume (log ++ [Call.ListVolumes]) body = .error e)
    (hl2 : b.ListVolumes (log ++ [Call.ListVolumes] ++ [Call.CreateVolume body]) =
      .ok volumes2)
    (hf : firstCompatible body volumes2 = some v) :
    chooseVolume b body log =
      (.ok (v, false),
        log ++ [Call.ListVolumes] ++ [Call.CreateVolume body] ++ [Call.ListVolumes]) := by
  simp only [chooseVolume, FindVolume, hl, findVolumeLoop_eq,
    firstCompatible_none_of_no_name body volumes hn, any_name_false body volumes hn, hc, hl2,
    hf]
  simp

theorem GetDefaultProfile_log (b : Backend) (log : List Call) :
    (GetDefaultProfile b log).2 = log ++ [Call.ListProfiles] := by
  unfold GetDefaultProfile
  cases b.ListProfiles log with
  | error e => rfl
  | ok profiles =>
    simp only
    cases profiles.find? (fun profile => decide (profile.Name = "default".toList)) <;> rfl

/-- Resolving the body issues no call, or the one listing of the profiles. -/
theorem resolveVolumeBody_log (env : Env) (b : Backend) (req : CreateVolumeRequest)
    (log : List Call) :
    (resolveVolumeBody env b req log).2 = log ∨
    (resolveVolumeBody env b req log).2 = log ++ [Call.ListProfiles] := by
  unfold resolveVolumeBody
  by_cases hp : (buildVolumeBody env req).volumebody.ProfileId = []
  · right
    rw [if_pos hp]
    have h := GetDefaultProfile_log b log
    rcases hg : GetDefaultProfile b log with ⟨r, log1⟩
    rw [hg] at h
    simp only at h
    subst h
    cases r <;> rfl
  · left
    rw [if_neg hp]

theorem mapGet_mapSet (m : List (GoString × GoString)) (key value : GoString) :
    mapGet (mapSet m key value) key = value := by
  unfold mapSet
  by_cases h : m.any (fun kv => decide (kv.1 = key)) = true
  · rw [if_pos h]
    induction m with
    | nil => simp at h
    | cons a rest ih =>
      by_cases ha : a.1 = key
      · simp [mapGet, ha]
      · have h2 : rest.any (fun kv => decide (kv.1 = key)) = true := by
          simpa [ha] using h
        have := ih h2
        simp only [mapGet, List.map_cons, ha, if_false, List.find?_cons, decide_False] at this ⊢
        exact this
  · rw [if_neg h]
    have h2 : ∀ kv ∈ m, kv.1 ≠ key := by
      intro kv hkv hk
      apply h
      rw [List.any_eq_true]
      exact ⟨kv, hkv, by simpa using hk⟩
    have h3 : m.find? (fun kv => decide (kv.1 = key)) = none := by
      rw [List.find?_eq_none]
      intro kv hkv
      simpa using h2 kv hkv
    simp [mapGet, List.find?_append, h3]

/-! ## `CreateVolume` from its parts -/

theorem createVolume_of_resolve_error (env : Env) (b : Backend) (req : CreateVolumeRequest)
    (log log1 : List Call) (e : GoError)
    (hres : resolveVolumeBody env b req log = (.error e, log1)) :
    CreateVolume env b req log = (.error (.error e), log1) := by
  simp only [CreateVolume, hres]

theorem createVolume_of_choose_error (env : Env) (b : Backend) (req : CreateVolumeRequest)
    (log log1 log2 : List Call) (st : VolumeBodyState) (f : Failure)
    (hres : resolveVolumeBody env b req log = (.ok st, log1))
    (hch : chooseVolume b st.volumebody log1 = (.error f, log2)) :
    CreateVolume env b req log = (.error f, log2) := by
  simp only [CreateVolume, hres, hch]

theorem createVolume_of_no_trigger (env : Env) (b : Backend) (req : CreateVolumeRequest)
    (log log1 log2 : List Call) (st : VolumeBodyState) (v : VolumeSpec) (isExist : Bool)
    (hres : resolveVolumeBody env b req log = (.ok st, log1))
    (hch : chooseVolume b st.volumebody log1 = (.ok (v, isExist), log2))
    (ht : (st.enableReplication && !isExist) = false) :
    CreateVolume env b req log = (.ok { Volume := volumeInfo env v }, log2) := by
  simp only [CreateVolume, hres, hch, ht]
  simp

theorem createVolume_of_replica_error (env : Env) (b : Backend) (req : CreateVolumeRequest)
    (log log1 log2 log3 : List Call) (st : VolumeBodyState) (v : VolumeSpec) (f : Failure)
    (hres : resolveVolumeBody env b req log = (.ok st, log1))
    (hch : chooseVolume b st.volumebody log1 = (.ok (v, false), log2))
    (he : st.enableReplication = true)
    (hr : createReplica env b req st v (volumeInfo env v) log2 = (.error f, log3)) :
    CreateVolume env b req log = (.error f, log3) := by
  simp only [CreateVolume, hres, hch, he, hr]
  simp

theorem createVolume_of_replica_ok (env : Env) (b : Backend) (req : CreateVolumeRequest)
    (log log1 log2 log3 : List Call) (st : VolumeBodyState) (v : VolumeSpec)
    (volumeinfo : Volume)
    (hres : resolveVolumeBody env b req log = (.ok st, log1))
    (hch : chooseVolume b st.volumebody log1 = (.ok (v, false), log2))
    (he : st.enableReplication = true)
    (hr : createReplica env b req st v (volumeInfo env v) log2 = (.ok volumeinfo, log3)) :
    CreateVolume env b req log = (.ok { Volume := volumeinfo }, log3) := by
  simp only [CreateVolume, hres, hch, he, hr]
  simp

theorem createReplica_secondary_error (env : Env) (b : Backend) (req : CreateVolumeRequest)
    (st : VolumeBodyState) (v : VolumeSpec) (volumeinfo : Volume) (log : List Call)
    (e : GoError) (hs : b.CreateVolume log (secondaryVolumeBody env req st) = .error e) :
    createReplica env b req st v volumeinfo log =
      (.error (.error e), log ++ [Call.CreateVolume (secondaryVolumeBody env req st)]) := by
  simp only [createReplica, hs]

theorem createReplica_pair_error (env : Env) (b : Backend) (req : CreateVolumeRequest)
    (st : VolumeBodyState) (v sVol : VolumeSpec) (volumeinfo : Volume) (log : List Call)
    (e : GoError) (hs : b.CreateVolume log (secondaryVolumeBody env req st) = .ok sVol)
    (hp : b.CreateReplication (log ++ [Call.CreateVolume (secondaryVolumeBody env req st)])
      (replicationBody env req v sVol) = .error e) :
    createReplica env b req st v volumeinfo log =
      (.error (.error e),
        log ++ [Call.CreateVolume (secondaryVolumeBody env req st),
                Call.CreateReplication (replicationBody env req v sVol)]) := by
  simp only [createReplica, hs, hp]

theorem createReplica_ok (env : Env) (b : Backend) (req : CreateVolumeRequest)
    (st : VolumeBodyState) (v sVol : VolumeSpec) (volumeinfo : Volume) (log : List Call)
    (replicaResp : ReplicationSpec)
    (hs : b.CreateVolume log (secondaryVolumeBody env req st) = .ok sVol)
    (hp : b.CreateReplication (log ++ [Call.CreateVolume (secondaryVolumeBody env req st)])
      (replicationBody env req v sVol) = .ok replicaResp) :
    createReplica env b req st v volumeinfo log =
      (.ok { volumeinfo with
             VolumeContext := mapSet volumeinfo.VolumeContext env.KVolumeReplicationId
               replicaResp.Id },
        log ++ [Call.CreateVolume (secondaryVolumeBody env req st),
                Call.CreateReplication (replicationBody env req v sVol)]) := by
  simp only [createReplica, hs, hp]

/-- The replication part issues the secondary create first, whatever happens then. -/
theorem createReplica_log (env : Env) (b : Backend) (req : CreateVolumeRequest)
    (st : VolumeBodyState) (v : VolumeSpec) (volumeinfo : Volume) (log : List Call) :
    ∃ tail, (createReplica env b req st v volumeinfo log).2 =
      log ++ Call.CreateVolume (secondaryVolumeBody env req st) :: tail := by
  unfold createReplica
  cases b.CreateVolume log (secondaryVolumeBody env req st) with
  | error e => exact ⟨[], rfl⟩
  | ok sVol =>
    simp only
    cases b.CreateReplication (log ++ [Call.CreateVolume (secondaryVolumeBody env req st)])
        (replicationBody env req v sVol) with
    | error e => exact ⟨_, rfl⟩
    | ok r => exact ⟨_, rfl⟩

theorem createReplica_capacity (env : Env) (b : Backend) (req : CreateVolumeRequest)
    (st : VolumeBodyState) (v : VolumeSpec) (volumeinfo vi : Volume) (log log3 : List Call)
    (h : createReplica env b req st v volumeinfo log = (.ok vi, log3)) :
    vi.CapacityBytes = volumeinfo.CapacityBytes ∧ vi.VolumeId = volumeinfo.VolumeId := by
  unfold createReplica at h
  cases hs : b.CreateVolume log (secondaryVolumeBody env req st) with
  | error e => rw [hs] at h; cases h
  | ok sVol =>
    rw [hs] at h
    simp only at h
    cases hp : b.CreateReplication (log ++ [Call.CreateVolume (secondaryVolumeBody env req st)])
        (replicationBody env req v sVol) with
    | error e => rw [hp] at h; cases h
    | ok r =>
      rw [hp] at h
      simp only [Prod.mk.injEq, Except.ok.injEq] at h
      rw [← h.1]
      exact ⟨rfl, rfl⟩

/-- Where the volume of a successful lookup comes from: it is the first compatible
volume of a listing, or the answer of a create of the body. -/
theorem chooseVolume_ok_origin (b : Backend) (body v : VolumeSpec) (log log2 : List Call)
    (isExist : Bool) (h : chooseVolume b body log = (.ok (v, isExist), log2)) :
    (∃ volumes, firstCompatible body volumes = some v) ∨
    (∃ l, b.CreateVolume l body = .ok v) := by
  unfold chooseVolume FindVolume at h
  cases hl : b.ListVolumes log with
  | error e => rw [hl] at h; cases h
  | ok volumes =>
    rw [hl] at h
    simp only [findVolumeLoop_eq] at h
    cases hf : firstCompatible body volumes with
    | some w =>
      rw [hf] at h
      simp only [if_true, Prod.mk.injEq, Except.ok.injEq] at h
      left
      exact ⟨volumes, by rw [hf, h.1.1]⟩
    | none =>
      rw [hf] at h
      simp only [Bool.false_or] at h
      by_cases hany : volumes.any (fun v => decide (v.Name = body.Name)) = true
      · rw [if_pos hany] at h
        simp at h
      · rw [if_neg hany] at h
        cases hc : b.CreateVolume (log ++ [Call.ListVolumes]) body with
        | ok w =>
          rw [hc] at h
          simp only [Prod.mk.injEq, Except.ok.injEq] at h
          right
          exact ⟨_, by rw [hc, h.1.1]⟩
        | error e =>
          rw [hc] at h
          simp only at h
          cases hl2 : b.ListVolumes (log ++ [Call.ListVolumes] ++ [Call.CreateVolume body]) with
          | error e2 => rw [hl2] at h; cases h
          | ok volumes2 =>
            rw [hl2] at h
            simp only at h
            cases hf2 : firstCompatible body volumes2 with
            | none => rw [hf2] at h; simp at h
            | some w =>
              rw [hf2] at h
              simp only [Bool.and_self, Bool.not_true, if_false, Bool.false_eq_true,
                Prod.mk.injEq, Except.ok.injEq] at h
              left
              exact ⟨volumes2, by rw [hf2, h.1.1]⟩

/-- The capacity that a successful `CreateVolume` reports, for a backend that answers a
create with the submitted size: the rounded size in bytes. -/
theorem createVolume_capacity (env : Env) (b : Backend) (req : CreateVolumeRequest)
    (log log3 : List Call) (resp : CreateVolumeResponse)
    (hb : ∀ (l : List Call) (body v : VolumeSpec), b.CreateVolume l body = .ok v →
      v.Size = body.Size)
    (h : CreateVolume env b req log = (.ok resp, log3)) :
    resp.Volume.CapacityBytes = toInt64 (volumeSize req.CapacityRange * GiB) := by
  rcases hres : resolveVolumeBody env b req log with ⟨r, log1⟩
  cases r with
  | error e => rw [createVolume_of_resolve_error env b req log log1 e hres] at h; cases h
  | ok st =>
    obtain ⟨_, hsize⟩ := resolveVolumeBody_name_size env b req log log1 st hres
    rcases hch : chooseVolume b st.volumebody log1 with ⟨c, log2⟩
    cases c with
    | error f =>
      rw [createVolume_of_choose_error env b req log log1 log2 st f hres hch] at h; cases h
    | ok p =>
      obtain ⟨v, isExist⟩ := p
      have hv : v.Size = volumeSize req.CapacityRange := by
        rcases chooseVolume_ok_origin b st.volumebody v log1 log2 isExist hch with
          ⟨volumes, hf⟩ | ⟨l, hc⟩
        · have := (firstCompatible_some _ _ _ hf).2.2
          simp only [volumeCompatible, Bool.and_eq_true, decide_eq_true_eq] at this
          rw [this.1.1.1, hsize]
        · rw [hb l _ _ hc, hsize]
      by_cases ht : (st.enableReplication && !isExist) = true
      · simp only [Bool.and_eq_true, Bool.not_eq_true'] at ht
        obtain ⟨he, hx⟩ := ht
        subst hx
        rcases hr : createReplica env b req st v (volumeInfo env v) log2 with ⟨rr, log4⟩
        cases rr with
        | error f =>
          rw [createVolume_of_replica_error env b req log log1 log2 log4 st v f hres hch he hr]
            at h
          cases h
        | ok vi =>
          rw [createVolume_of_replica_ok env b req log log1 log2 log4 st v vi hres hch he hr]
            at h
          simp only [Prod.mk.injEq, Except.ok.injEq] at h
          rw [← h.1]
          simp only
          rw [(createReplica_capacity env b req st v _ vi log2 log4 hr).1]
          simp only [volumeInfo, hv]
      · have ht2 : (st.enableReplication && !isExist) = false := by simpa using ht
        rw [createVolume_of_no_trigger env b req log log1 log2 st v isExist hres hch ht2] at h
        simp only [Prod.mk.injEq, Except.ok.injEq] at h
        rw [← h.1]
        simp only [volumeInfo, hv]

/-! ## Capacity rounding: the claims -/

set_option maxRecDepth 100000 in
/-- C13 (failing input): for the requested capacity `2^63 - 1` bytes, the largest value of
the 64-bit field, the size sent to the backend is 1 allocation unit, where the rounding
rule `max(1, ceil(R / 2^30))` gives `2^33`; one unit is less than the requested bytes;
and `CreateVolume` submits a body of size 1 for that request. -/
theorem createVolume_size_overflow :
    volumeSize (some { RequiredBytes := 9223372036854775807, LimitBytes := 0 }) = 1 ∧
    max 1 (((9223372036854775807 : Int) + 2 ^ 30 - 1) / 2 ^ 30) = 8589934592 ∧
    volumeSize (some { RequiredBytes := 9223372036854775807, LimitBytes := 0 }) * 2 ^ 30 <
      9223372036854775807 ∧
    CreateVolume exampleEnv (memBackend "dp".toList [] []) maxCapacityRequest [] =
      (.ok { Volume := volumeInfo exampleEnv (exampleVolume "v" "vol1" 1) },
        [Call.ListVolumes, Call.CreateVolume (exampleVolume "" "vol1" 1)]) := by
  refine ⟨by decide, by decide, by decide, by decide⟩

set_option maxRecDepth 100000 in
/-- C14: an absent capacity range and a requested capacity of 0 bytes give size 1; for
every `k ≥ 1` with `k * 2^30 ≤ 2^62` a requested capacity of `k * 2^30` bytes gives size
`k` (so 3 units for `3 * 2^30` bytes); and against a backend whose create answers with
the submitted size, a successful `CreateVolume` for `k * 2^30` bytes reports a capacity
of exactly `k * 2^30` bytes, as the example request of one unit does. -/
theorem createVolume_exact_multiples :
    volumeSize none = 1 ∧
    (∀ l : Int, volumeSize (some { RequiredBytes := 0, LimitBytes := l }) = 1) ∧
    (∀ k l : Int, 1 ≤ k → k * 2 ^ 30 ≤ 2 ^ 62 →
      volumeSize (some { RequiredBytes := k * 2 ^ 30, LimitBytes := l }) = k) ∧
    volumeSize (some { RequiredBytes := 3 * 2 ^ 30, LimitBytes := 0 }) = 3 ∧
    (∀ (env : Env) (b : Backend) (req : CreateVolumeRequest) (log log3 : List Call)
      (resp : CreateVolumeResponse) (k l : Int), 1 ≤ k → k * 2 ^ 30 ≤ 2 ^ 62 →
      req.CapacityRange = some { RequiredBytes := k * 2 ^ 30, LimitBytes := l } →
      (∀ (l : List Call) (body v : VolumeSpec), b.CreateVolume l body = .ok v →
        v.Size = body.Size) →
      CreateVolume env b req log = (.ok resp, log3) →
      resp.Volume.CapacityBytes = k * 2 ^ 30) ∧
    (CreateVolume exampleEnv (memBackend "dp".toList [] []) (exampleCreateRequest false)
      []).1.map (fun resp => resp.Volume.CapacityBytes) = .ok 1073741824 := by
  have hk : ∀ k l : Int, 1 ≤ k → k * 2 ^ 30 ≤ 2 ^ 62 →
      volumeSize (some { RequiredBytes := k * 2 ^ 30, LimitBytes := l }) = k := by
    intro k l h1 h2
    rw [volumeSize_of_le _ _ (by omega) (by omega)]
    have : (k * 2 ^ 30 + 2 ^ 30 - 1) / 2 ^ 30 = k := by omega
    rw [this]
    omega
  refine ⟨rfl, ?_, hk, by decide, ?_, by decide⟩
  · intro l
    rw [volumeSize_of_le _ _ (by omega) (by omega)]
    decide
  · intro env b req log log3 resp k l h1 h2 hreq hb h
    rw [createVolume_capacity env b req log log3 resp hb h, hreq, hk k l h1 h2]
    have hG : GiB = 2 ^ 30 := rfl
    rw [hG]
    unfold toInt64
    omega

/-! ## Idempotence against the in-memory backend -/

theorem memVolumes_append (init : List VolumeSpec) (l1 l2 : List Call) :
    memVolumes init (l1 ++ l2) = memVolumes (memVolumes init l1) l2 := by
  simp only [memVolumes, List.foldl_append]

theorem memVolumes_listProfiles (pre : List Call) (h : ∀ c ∈ pre, c = Call.ListProfiles) :
    ∀ volumes : List VolumeSpec, memVolumes volumes pre = volumes := by
  induction pre with
  | nil => intro volumes; rfl
  | cons c rest ih =>
    intro volumes
    have hc := h c (List.mem_cons_self _ _)
    subst hc
    exact ih (fun c hc => h c (List.mem_cons_of_mem _ hc)) volumes

theorem memBackend_getDefaultProfile (dp : GoString) (profiles : List ProfileSpec)
    (init : List VolumeSpec) :
    ∃ p, ∀ log, GetDefaultProfile (memBackend dp profiles init) log =
      (.ok p, log ++ [Call.ListProfiles]) := by
  cases hf : (profiles ++ [({ Id := dp, Name := "default".toList } : ProfileSpec)]).find?
      (fun profile => profile.Name = "default".toList) with
  | none =>
    rw [List.find?_eq_none] at hf
    have := hf { Id := dp, Name := "default".toList } (by simp)
    simp at this
  | some p =>
    refine ⟨p, fun log => ?_⟩
    simp only [GetDefaultProfile, memBackend, hf]

/-- The resolution of the body against the in-memory backend succeeds, with the same
result after every log; its calls are listings of the profiles. -/
theorem memBackend_resolve (env : Env) (dp : GoString) (profiles : List ProfileSpec)
    (init : List VolumeSpec) (req : CreateVolumeRequest) :
    ∃ st pre, (∀ c ∈ pre, c = Call.ListProfiles) ∧
      ∀ log, resolveVolumeBody env (memBackend dp profiles init) req log =
        (.ok st, log ++ pre) := by
  obtain ⟨p, hp⟩ := memBackend_getDefaultProfile dp profiles init
  by_cases h : (buildVolumeBody env req).volumebody.ProfileId = []
  · refine ⟨defaultAvailabilityZone
        { buildVolumeBody env req with
          volumebody := { (buildVolumeBody env req).volumebody with ProfileId := p.Id } },
      [Call.ListProfiles], by simp, fun log => ?_⟩
    simp only [resolveVolumeBody, if_pos h, hp log]
  · refine ⟨defaultAvailabilityZone (buildVolumeBody env req), [], by simp, fun log => ?_⟩
    simp only [resolveVolumeBody, if_neg h, List.append_nil]

theorem defaultAvailabilityZone_congr (s1 s2 : VolumeBodyState)
    (h : s1.volumebody = s2.volumebody) :
    (defaultAvailabilityZone s1).volumebody = (defaultAvailabilityZone s2).volumebody := by
  unfold defaultAvailabilityZone
  rw [h]
  split <;> simp [h]

/-- Two requests whose bodies agree before the resolution resolve to the same body. -/
theorem resolveVolumeBody_congr (env : Env) (b : Backend) (req req2 : CreateVolumeRequest)
    (log l1 l2 : List Call) (st st2 : VolumeBodyState)
    (hsame : (buildVolumeBody env req2).volumebody = (buildVolumeBody env req).volumebody)
    (h1 : resolveVolumeBody env b req log = (.ok st, l1))
    (h2 : resolveVolumeBody env b req2 log = (.ok st2, l2)) :
    st2.volumebody = st.volumebody := by
  unfold resolveVolumeBody at h1 h2
  rw [hsame] at h2
  by_cases hp : (buildVolumeBody env req).volumebody.ProfileId = []
  · rw [if_pos hp] at h1 h2
    rcases hg : GetDefaultProfile b log with ⟨r, l⟩
    rw [hg] at h1 h2
    cases r with
    | error e => simp at h1
    | ok p =>
      simp only [Prod.mk.injEq, Except.ok.injEq] at h1 h2
      rw [← h1.1, ← h2.1]
      exact defaultAvailabilityZone_congr _ _ rfl
  · rw [if_neg hp] at h1 h2
    simp only [Prod.mk.injEq, Except.ok.injEq] at h1 h2
    rw [← h1.1, ← h2.1]
    exact defaultAvailabilityZone_congr _ _ hsame

theorem firstCompatible_append_cons (body p : VolumeSpec) (volumes extra : List VolumeSpec)
    (hn : ∀ v ∈ volumes, v.Name ≠ body.Name) (hp : p.Name = body.Name)
    (hc : volumeCompatible p body = true) :
    firstCompatible body (volumes ++ p :: extra) = some p := by
  have h0 := firstCompatible_none_of_no_name body volumes hn
  unfold firstCompatible at h0 ⊢
  rw [List.find?_append, h0]
  simp [hp, hc]

theorem volumeCompatible_with_id (body : VolumeSpec) (id : GoString) :
    volumeCompatible { body with Id := id } body = true := by
  simp [volumeCompatible]

/-- The first of two calls against the in-memory backend, when no volume has the
requested name: it succeeds with the id of the volume that the create stores, and that
volume is listed from then on right after the volumes held before. -/
theorem memBackend_first_call (env : Env) (dp : GoString) (profiles : List ProfileSpec)
    (init : List VolumeSpec) (req : CreateVolumeRequest) (log0 : List Call)
    (st : VolumeBodyState) (pre : List Call)
    (hpre : ∀ c ∈ pre, c = Call.ListProfiles)
    (hres : resolveVolumeBody env (memBackend dp profiles init) req log0 =
      (.ok st, log0 ++ pre))
    (hinit : ∀ v ∈ memVolumes init log0, v.Name ≠ req.Name) :
    ∃ resp1 log1 extra, CreateVolume env (memBackend dp profiles init) req log0 =
        (.ok resp1, log1) ∧
      resp1.Volume.VolumeId = freshId ((memVolumes init log0).map (fun v => v.Id)) ∧
      memVolumes init log1 = memVolumes init log0 ++
        { st.volumebody with Id := freshId ((memVolumes init log0).map (fun v => v.Id)) } ::
          extra := by
  have hname := (resolveVolumeBody_name_size env _ req log0 _ st hres).1
  have hV : memVolumes init (log0 ++ pre) = memVolumes init log0 := by
    rw [memVolumes_append, memVolumes_listProfiles pre hpre]
  have hl : (memBackend dp profiles init).ListVolumes (log0 ++ pre) =
      .ok (memVolumes init log0) := by
    simp only [memBackend, hV]
  have hV2 : memVolumes init (log0 ++ pre ++ [Call.ListVolumes]) = memVolumes init log0 := by
    rw [memVolumes_append, hV]; rfl
  have hc : (memBackend dp profiles init).CreateVolume (log0 ++ pre ++ [Call.ListVolumes])
      st.volumebody = .ok { st.volumebody with
        Id := freshId ((memVolumes init log0).map (fun v => v.Id)) } := by
    simp only [memBackend, hV2]
  have hn : ∀ x ∈ memVolumes init log0, x.Name ≠ st.volumebody.Name := by
    rw [hname]; exact hinit
  have hch := chooseVolume_created _ st.volumebody _ (log0 ++ pre) _ hl hn hc
  have hV3 : memVolumes init
      (log0 ++ pre ++ [Call.ListVolumes] ++ [Call.CreateVolume st.volumebody]) =
      memVolumes init log0 ++ [{ st.volumebody with
        Id := freshId ((memVolumes init log0).map (fun v => v.Id)) }] := by
    rw [memVolumes_append, hV2]; rfl
  cases he : st.enableReplication with
  | false =>
    exact ⟨{ Volume := volumeInfo env { st.volumebody with
        Id := freshId ((memVolumes init log0).map (fun v => v.Id)) } }, _, [],
      createVolume_of_no_trigger env _ req log0 _ _ st _ false hres hch (by rw [he]; rfl),
      rfl, hV3⟩
  | true =>
    have hr := createReplica_ok env (memBackend dp profiles init) req st
      { st.volumebody with Id := freshId ((memVolumes init log0).map (fun v => v.Id)) } _
      (volumeInfo env { st.volumebody with
        Id := freshId ((memVolumes init log0).map (fun v => v.Id)) })
      (log0 ++ pre ++ [Call.ListVolumes] ++ [Call.CreateVolume st.volumebody]) _ rfl rfl
    have h1 := createVolume_of_replica_ok env _ req log0 _ _ _ st _ _ hres hch he hr
    refine ⟨_, _, [({ secondaryVolumeBody env req st with
      Id := freshId ((memVolumes init log0 ++ [({ st.volumebody with
        Id := freshId ((memVolumes init log0).map (fun v => v.Id)) } : VolumeSpec)]).map
          (fun v => v.Id)) } : VolumeSpec)], h1, rfl, ?_⟩
    rw [memVolumes_append, hV3]
    simp [memVolumes, memVolumesStep]

/-- C15: against the in-memory backend, whose create stores the submitted name, size,
profile id, availability zone and snapshot source unchanged under a fresh id and whose
calls all succeed, when no volume has the requested name, two successive `CreateVolume`
calls whose requests give the same name, size, profile, availability zone and snapshot
source both succeed and return the same volume id, and the second call issues no
create. -/
theorem createVolume_idempotent (env : Env) (dp : GoString) (profiles : List ProfileSpec)
    (init : List VolumeSpec) (req req2 : CreateVolumeRequest) (log0 : List Call)
    (hinit : ∀ v ∈ memVolumes init log0, v.Name ≠ req.Name)
    (hsame : (buildVolumeBody env req2).volumebody = (buildVolumeBody env req).volumebody) :
    ∃ resp1 resp2 log1 tail,
      CreateVolume env (memBackend dp profiles init) req log0 = (.ok resp1, log1) ∧
      CreateVolume env (memBackend dp profiles init) req2 log1 = (.ok resp2, log1 ++ tail) ∧
      resp2.Volume.VolumeId = resp1.Volume.VolumeId ∧
      ∀ c ∈ tail, ∀ body, c ≠ Call.CreateVolume body := by
  obtain ⟨st, pre, hpre, hres⟩ := memBackend_resolve env dp profiles init req
  obtain ⟨st2, pre2, hpre2, hres2⟩ := memBackend_resolve env dp profiles init req2
  have hvb : st2.volumebody = st.volumebody :=
    resolveVolumeBody_congr env _ req req2 [] _ _ st st2 hsame (hres []) (hres2 [])
  have hname := (resolveVolumeBody_name_size env _ req log0 _ st (hres log0)).1
  obtain ⟨resp1, log1, extra, h1, hid, hV⟩ :=
    memBackend_first_call env dp profiles init req log0 st pre hpre (hres log0) hinit
  have hl : (memBackend dp profiles init).ListVolumes (log1 ++ pre2) =
      .ok (memVolumes init log0 ++
        { st.volumebody with Id := freshId ((memVolumes init log0).map (fun v => v.Id)) } ::
          extra) := by
    simp only [memBackend]
    rw [memVolumes_append, memVolumes_listProfiles pre2 hpre2, hV]
  have hf : firstCompatible st2.volumebody (memVolumes init log0 ++
        { st.volumebody with Id := freshId ((memVolumes init log0).map (fun v => v.Id)) } ::
          extra) =
      some { st.volumebody with Id := freshId ((memVolumes init log0).map (fun v => v.Id)) } := by
    rw [hvb]
    exact firstCompatible_append_cons _ _ _ _ (by rw [hname]; exact hinit) rfl
      (volumeCompatible_with_id _ _)
  have hch := chooseVolume_found _ st2.volumebody _ (log1 ++ pre2) _ hl hf
  have h2 := createVolume_of_no_trigger env _ req2 log1 _ _ st2 _ true (hres2 log1) hch
    (by simp)
  refine ⟨resp1, { Volume := volumeInfo env { st.volumebody with
    Id := freshId ((memVolumes init log0).map (fun v => v.Id)) } }, log1,
    pre2 ++ [Call.ListVolumes], h1, ?_, ?_, ?_⟩
  · rw [h2, List.append_assoc]
  · exact hid.symm
  · intro c hc body
    rcases List.mem_append.mp hc with h | h
    · rw [hpre2 c h]; simp
    · simp only [List.mem_singleton] at h
      rw [h]; simp

set_option maxRecDepth 100000 in
/-- C15 at the in-memory backend that holds one volume of another
name, for the example request with replication sent twice. -/
theorem createVolume_idempotent_witness :
    ∃ resp1 resp2 log1 tail,
      CreateVolume exampleEnv (memBackend "dp".toList [] [exampleVolume "x" "other" 1])
        (exampleCreateRequest true) [] = (.ok resp1, log1) ∧
      CreateVolume exampleEnv (memBackend "dp".toList [] [exampleVolume "x" "other" 1])
        (exampleCreateRequest true) log1 = (.ok resp2, log1 ++ tail) ∧
      resp2.Volume.VolumeId = resp1.Volume.VolumeId ∧
      ∀ c ∈ tail, ∀ body, c ≠ Call.CreateVolume body :=
  createVolume_idempotent exampleEnv "dp".toList [] [exampleVolume "x" "other" 1]
    (exampleCreateRequest true) (exampleCreateRequest true) [] (by decide) rfl

/-! ## Name conflict -/

set_option maxRecDepth 100000 in
/-- C16 (as stated, refuted): the backend holds two volumes named `vol1`, the first of 2
units and the second of 1 unit, and the request asks for `vol1` with 1 unit.  A volume of
the requested name with a different size exists, yet `CreateVolume` succeeds with the
second volume, after the listing alone. -/
theorem createVolume_conflict_not_spec :
    (∃ v ∈ [exampleVolume "a" "vol1" 2, exampleVolume "b" "vol1" 1],
      v.Name = (exampleCreateRequest false).Name ∧
      v.Size ≠ volumeSize (exampleCreateRequest false).CapacityRange) ∧
    CreateVolume exampleEnv
        (memBackend "dp".toList [] [exampleVolume "a" "vol1" 2, exampleVolume "b" "vol1" 1])
        (exampleCreateRequest false) [] =
      (.ok { Volume := volumeInfo exampleEnv (exampleVolume "b" "vol1" 1) },
        [Call.ListVolumes]) := by
  refine ⟨⟨exampleVolume "a" "vol1" 2, by decide, by decide, by decide⟩, by decide⟩

/-- C16 (amended): when the body of the request resolves, the listing succeeds and
contains a volume of the requested name, and every listed volume of that name differs
from the resolved body in size, profile id, availability zone or snapshot source, then
`CreateVolume` fails with already-exists, "Volume already exists but is incompatible",
and its only backend call after the resolution is the listing. -/
theorem createVolume_conflict (env : Env) (b : Backend) (req : CreateVolumeRequest)
    (log log1 : List Call) (st : VolumeBodyState) (volumes : List VolumeSpec)
    (hres : resolveVolumeBody env b req log = (.ok st, log1))
    (hl : b.ListVolumes log1 = .ok volumes)
    (hn : ∃ v ∈ volumes, v.Name = req.Name)
    (hinc : ∀ v ∈ volumes, v.Name = req.Name →
      v.Size ≠ st.volumebody.Size ∨ v.ProfileId ≠ st.volumebody.ProfileId ∨
      v.AvailabilityZone ≠ st.volumebody.AvailabilityZone ∨
      v.SnapshotId ≠ st.volumebody.SnapshotId) :
    CreateVolume env b req log =
      (.error (.error (.status .AlreadyExists
        "Volume already exists but is incompatible".toList)), log1 ++ [Call.ListVolumes]) ∧
    (log1 = log ∨ log1 = log ++ [Call.ListProfiles]) := by
  have hname := (resolveVolumeBody_name_size env b req log log1 st hres).1
  have hlog := resolveVolumeBody_log env b req log
  rw [hres] at hlog
  refine ⟨?_, hlog⟩
  apply createVolume_of_choose_error env b req log log1 _ st _ hres
  apply chooseVolume_conflict b st.volumebody log1 volumes hl
  · rw [hname]; exact hn
  · rw [firstCompatible_none]
    intro v hv hvn
    rw [hname] at hvn
    have := hinc v hv hvn
    simp only [volumeCompatible, Bool.and_eq_false_iff, decide_eq_false_iff_not]
    tauto

set_option maxRecDepth 100000 in
/-- C16 (amended) at a backend that holds `vol1` with 2 units, for the
example request of 1 unit. -/
theorem createVolume_conflict_witness :
    CreateVolume exampleEnv (memBackend "dp".toList [] [exampleVolume "a" "vol1" 2])
        (exampleCreateRequest false) [] =
      (.error (.error (.status .AlreadyExists
        "Volume already exists but is incompatible".toList)), [] ++ [Call.ListVolumes]) ∧
    (([] : List Call) = [] ∨ ([] : List Call) = [] ++ [Call.ListProfiles]) :=
  createVolume_conflict exampleEnv (memBackend "dp".toList [] [exampleVolume "a" "vol1" 2])
    (exampleCreateRequest false) [] [] (exampleBodyState false) [exampleVolume "a" "vol1" 2]
    (by decide) (by decide) (by decide) (by decide)

/-! ## The re-scan after a failed create -/

set_option maxRecDepth 100000 in
/-- C17 (as stated, refuted): the first lookup finds no volume named `vol1`, the create of the
primary volume fails with "request timed out", and the re-scan finds a volume with the
name, size, profile, availability zone and snapshot source of the request.  The request
enables replication, so the call goes on to create the secondary volume and fails with
the error of that create instead of succeeding with the record found. -/
theorem createVolume_rescan_found_fails :
    (lostReplyBackend true).ListVolumes [] = .ok [] ∧
    (lostReplyBackend true).CreateVolume [Call.ListVolumes] (exampleVolume "" "vol1" 1) =
      .error (.other "request timed out".toList) ∧
    (lostReplyBackend true).ListVolumes
        [Call.ListVolumes, Call.CreateVolume (exampleVolume "" "vol1" 1)] =
      .ok [exampleVolume "id1" "vol1" 1] ∧
    firstCompatible (exampleVolume "" "vol1" 1) [exampleVolume "id1" "vol1" 1] =
      some (exampleVolume "id1" "vol1" 1) ∧
    CreateVolume exampleEnv (lostReplyBackend true) (exampleCreateRequest true) [] =
      (.error (.error (.other "no pool in the secondary zone".toList)),
        [Call.ListVolumes, Call.CreateVolume (exampleVolume "" "vol1" 1), Call.ListVolumes,
         Call.CreateVolume
           (secondaryVolumeBody exampleEnv (exampleCreateRequest true)
             (exampleBodyState true))]) := by
  refine ⟨by decide, by decide, by decide, by decide, by decide⟩

/-- C17 (amended): the body of the request resolves, the first listing succeeds without
a volume of the requested name, and the create of the body fails with `e`.  Then the
volumes are listed again.  If that listing fails, its error is returned; if it succeeds
without a volume of the name, size, profile id, availability zone and snapshot source of
the body, `e` is returned; if it contains such a volume and the request does not enable
replication, the call succeeds with the record of the first such volume; and if the
request enables replication, the call continues with the replication part for that
record, whose outcome it returns. -/
theorem createVolume_race_fallback (env : Env) (b : Backend) (req : CreateVolumeRequest)
    (log log1 : List Call) (st : VolumeBodyState) (volumes : List VolumeSpec) (e : GoError)
    (hres : resolveVolumeBody env b req log = (.ok st, log1))
    (hl : b.ListVolumes log1 = .ok volumes)
    (hn : ∀ x ∈ volumes, x.Name ≠ req.Name)
    (hc : b.CreateVolume (log1 ++ [Call.ListVolumes]) st.volumebody = .error e) :
    (∀ e2, b.ListVolumes (log1 ++ [Call.ListVolumes] ++ [Call.CreateVolume st.volumebody]) =
        .error e2 →
      CreateVolume env b req log =
        (.error (.error e2), log1 ++ [Call.ListVolumes] ++
          [Call.CreateVolume st.volumebody] ++ [Call.ListVolumes])) ∧
    (∀ volumes2, b.ListVolumes (log1 ++ [Call.ListVolumes] ++
        [Call.CreateVolume st.volumebody]) = .ok volumes2 →
      (∀ x ∈ volumes2, x.Name = req.Name → volumeCompatible x st.volumebody = false) →
      CreateVolume env b req log =
        (.error (.error e), log1 ++ [Call.ListVolumes] ++
          [Call.CreateVolume st.volumebody] ++ [Call.ListVolumes])) ∧
    (∀ volumes2 v, b.ListVolumes (log1 ++ [Call.ListVolumes] ++
        [Call.CreateVolume st.volumebody]) = .ok volumes2 →
      firstCompatible st.volumebody volumes2 = some v →
      st.enableReplication = false →
      CreateVolume env b req log =
        (.ok { Volume := volumeInfo env v }, log1 ++ [Call.ListVolumes] ++
          [Call.CreateVolume st.volumebody] ++ [Call.ListVolumes])) ∧
    (∀ volumes2 v, b.ListVolumes (log1 ++ [Call.ListVolumes] ++
        [Call.CreateVolume st.volumebody]) = .ok volumes2 →
      firstCompatible st.volumebody volumes2 = some v →
      st.enableReplication = true →
      CreateVolume env b req log =
        ((createReplica env b req st v (volumeInfo env v)
            (log1 ++ [Call.ListVolumes] ++ [Call.CreateVolume st.volumebody] ++
              [Call.ListVolumes])).1.map (fun volumeinfo => { Volume := volumeinfo }),
         (createReplica env b req st v (volumeInfo env v)
            (log1 ++ [Call.ListVolumes] ++ [Call.CreateVolume st.volumebody] ++
              [Call.ListVolumes])).2)) := by
  have hname := (resolveVolumeBody_name_size env b req log log1 st hres).1
  have hn2 : ∀ x ∈ volumes, x.Name ≠ st.volumebody.Name := by rw [hname]; exact hn
  refine ⟨?_, ?_, ?_, ?_⟩
  · intro e2 hl2
    exact createVolume_of_choose_error env b req log log1 _ st _ hres
      (chooseVolume_rescan_error b st.volumebody log1 volumes e e2 hl hn2 hc hl2)
  · intro volumes2 hl2 hnone
    apply createVolume_of_choose_error env b req log log1 _ st _ hres
    apply chooseVolume_rescan_none b st.volumebody log1 volumes volumes2 e hl hn2 hc hl2
    rw [firstCompatible_none, hname]
    exact hnone
  · intro volumes2 v hl2 hf he
    apply createVolume_of_no_trigger env b req log log1 _ st v false hres
      (chooseVolume_rescan_found b st.volumebody v log1 volumes volumes2 e hl hn2 hc hl2 hf)
    rw [he]; rfl
  · intro volumes2 v hl2 hf he
    have hch := chooseVolume_rescan_found b st.volumebody v log1 volumes volumes2 e hl hn2 hc
      hl2 hf
    rcases hr : createReplica env b req st v (volumeInfo env v)
        (log1 ++ [Call.ListVolumes] ++ [Call.CreateVolume st.volumebody] ++
          [Call.ListVolumes]) with ⟨r, log3⟩
    cases r with
    | error f =>
      rw [createVolume_of_replica_error env b req log log1 _ log3 st v f hres hch he hr]
      rfl
    | ok vi =>
      rw [createVolume_of_replica_ok env b req log log1 _ log3 st v vi hres hch he hr]
      rfl

set_option maxRecDepth 100000 in
/-- C17 (amended) at the backend that loses the answer of the primary
create, for the example request without replication. -/
theorem createVolume_race_fallback_witness :
    CreateVolume exampleEnv (lostReplyBackend true) (exampleCreateRequest false) [] =
      (.ok { Volume := volumeInfo exampleEnv (exampleVolume "id1" "vol1" 1) },
        [] ++ [Call.ListVolumes] ++ [Call.CreateVolume (exampleBodyState false).volumebody] ++
          [Call.ListVolumes]) :=
  (createVolume_race_fallback exampleEnv (lostReplyBackend true) (exampleCreateRequest false)
    [] [] (exampleBodyState false) [] (.other "request timed out".toList)
    (by decide) (by decide) (by decide) (by decide)).2.2.1
    [exampleVolume "id1" "vol1" 1] (exampleVolume "id1" "vol1" 1)
    (by decide) (by decide) (by decide)

/-! ## Replication -/

/-- The backend calls of the lookup part: listings and creates of the body. -/
theorem chooseVolume_calls (b : Backend) (body : VolumeSpec) (log : List Call) :
    ∃ tail, (chooseVolume b body log).2 = log ++ tail ∧
      ∀ c ∈ tail, c = Call.ListVolumes ∨ c = Call.CreateVolume body := by
  unfold chooseVolume FindVolume
  cases b.ListVolumes log with
  | error e => exact ⟨[Call.ListVolumes], rfl, by simp⟩
  | ok volumes =>
    simp only [findVolumeLoop_eq]
    cases firstCompatible body volumes with
    | some w => exact ⟨[Call.ListVolumes], rfl, by simp⟩
    | none =>
      simp only [Bool.false_or]
      by_cases hany : volumes.any (fun v => decide (v.Name = body.Name)) = true
      · rw [if_pos hany]
        exact ⟨[Call.ListVolumes], rfl, by simp⟩
      · rw [if_neg hany]
        cases b.CreateVolume (log ++ [Call.ListVolumes]) body with
        | ok w =>
          exact ⟨[Call.ListVolumes, Call.CreateVolume body], by simp, by simp⟩
        | error e =>
          simp only
          cases b.ListVolumes (log ++ [Call.ListVolumes] ++ [Call.CreateVolume body]) with
          | error e2 =>
            exact ⟨[Call.ListVolumes, Call.CreateVolume body, Call.ListVolumes], by simp,
              by simp⟩
          | ok volumes2 =>
            simp only
            cases firstCompatible body volumes2 with
            | none =>
              exact ⟨[Call.ListVolumes, Call.CreateVolume body, Call.ListVolumes], by simp,
                by simp⟩
            | some w =>
              exact ⟨[Call.ListVolumes, Call.CreateVolume body, Call.ListVolumes], by simp,
                by simp⟩

/-- The lookup part after a successful listing with a volume of the name of the body:
the listing is its only call. -/
theorem chooseVolume_existing_log (b : Backend) (body : VolumeSpec) (log : List Call)
    (volumes : List VolumeSpec) (hl : b.ListVolumes log = .ok volumes)
    (hn : ∃ v ∈ volumes, v.Name = body.Name) :
    (chooseVolume b body log).2 = log ++ [Call.ListVolumes] ∧
    ∀ v log2, chooseVolume b body log ≠ (.ok (v, false), log2) := by
  cases hf : firstCompatible body volumes with
  | some w =>
    rw [chooseVolume_found b body w log volumes hl hf]
    exact ⟨rfl, by simp⟩
  | none =>
    rw [chooseVolume_conflict b body log volumes hl hn hf]
    exact ⟨rfl, by simp⟩

/-- `CreateVolume` and its lookup part issue the same calls unless the replication part
is entered. -/
theorem createVolume_log_of_no_trigger (env : Env) (b : Backend) (req : CreateVolumeRequest)
    (log log1 : List Call) (st : VolumeBodyState)
    (hres : resolveVolumeBody env b req log = (.ok st, log1))
    (h : st.enableReplication = false ∨
      ∀ v log2, chooseVolume b st.volumebody log1 ≠ (.ok (v, false), log2)) :
    (CreateVolume env b req log).2 = (chooseVolume b st.volumebody log1).2 := by
  rcases hch : chooseVolume b st.volumebody log1 with ⟨c, log2⟩
  cases c with
  | error f => rw [createVolume_of_choose_error env b req log log1 log2 st f hres hch]
  | ok p =>
    obtain ⟨v, isExist⟩ := p
    rw [createVolume_of_no_trigger env b req log log1 log2 st v isExist hres hch]
    rcases h with h | h
    · rw [h]; rfl
    · cases isExist with
      | true => simp
      | false => exact absurd hch (h v log2)

/-- `CreateVolume` with replication enabled, after a lookup that ends with the volume `v`
and `isExist` false: the calls of the replication part follow, the first of which is the
create of the secondary volume. -/
theorem createVolume_log_of_trigger (env : Env) (b : Backend) (req : CreateVolumeRequest)
    (log log1 log2 : List Call) (st : VolumeBodyState) (v : VolumeSpec)
    (hres : resolveVolumeBody env b req log = (.ok st, log1))
    (hch : chooseVolume b st.volumebody log1 = (.ok (v, false), log2))
    (he : st.enableReplication = true) :
    ∃ tail, (CreateVolume env b req log).2 =
      log2 ++ Call.CreateVolume (secondaryVolumeBody env req st) :: tail := by
  obtain ⟨tail, ht⟩ := createReplica_log env b req st v (volumeInfo env v) log2
  refine ⟨tail, ?_⟩
  rcases hr : createReplica env b req st v (volumeInfo env v) log2 with ⟨r, log3⟩
  rw [hr] at ht
  cases r with
  | error f =>
    rw [createVolume_of_replica_error env b req log log1 log2 log3 st v f hres hch he hr]
    exact ht
  | ok vi =>
    rw [createVolume_of_replica_ok env b req log log1 log2 log3 st v vi hres hch he hr]
    exact ht

set_option maxRecDepth 100000 in
/-- C18 (as stated, refuted): the request enables replication, the create of the primary
volume fails with "request timed out", and the re-scan lists the volume `id1`.  The
volume returned is that listed record, not the answer of a successful create of this
call, and yet the secondary volume and the replication pair are created. -/
theorem createVolume_replication_after_rescan :
    (lostReplyBackend false).CreateVolume [Call.ListVolumes] (exampleVolume "" "vol1" 1) =
      .error (.other "request timed out".toList) ∧
    (lostReplyBackend false).ListVolumes
        [Call.ListVolumes, Call.CreateVolume (exampleVolume "" "vol1" 1)] =
      .ok [exampleVolume "id1" "vol1" 1] ∧
    (CreateVolume exampleEnv (lostReplyBackend false) (exampleCreateRequest true) []).1.map
        (fun resp => resp.Volume.VolumeId) = .ok "id1".toList ∧
    (CreateVolume exampleEnv (lostReplyBackend false) (exampleCreateRequest true) []).2 =
      [Call.ListVolumes, Call.CreateVolume (exampleVolume "" "vol1" 1), Call.ListVolumes,
       Call.CreateVolume
         (secondaryVolumeBody exampleEnv (exampleCreateRequest true) (exampleBodyState true)),
       Call.CreateReplication
         (replicationBody exampleEnv (exampleCreateRequest true)
           (exampleVolume "id1" "vol1" 1)
           { secondaryVolumeBody exampleEnv (exampleCreateRequest true)
               (exampleBodyState true) with Id := "id2".toList })] := by
  refine ⟨by decide, by decide, by decide, by decide⟩

/-- C18 (amended): the replication part is entered exactly when the request enables
replication and the first lookup of the call found no volume of the requested name,
whether the primary record is then the answer of the create or comes from the re-scan
after a failed create.  Without replication enabled, and whenever the first listing
contains a volume of the requested name, the calls of `CreateVolume` are those of the
lookup part: listings and creates of the primary body, and in the second case the one
listing only.  With replication enabled and no volume of the name at the first listing,
the create of the secondary volume follows the create of the primary volume, and equally
the re-scan that found the primary record.  When the lookup part fails, its failure is
returned after its calls. -/
theorem createVolume_replication_trigger (env : Env) (b : Backend)
    (req : CreateVolumeRequest) (log log1 : List Call) (st : VolumeBodyState)
    (hres : resolveVolumeBody env b req log = (.ok st, log1)) :
    (st.enableReplication = false →
      ∃ tail, (CreateVolume env b req log).2 = log1 ++ tail ∧
        ∀ c ∈ tail, c = Call.ListVolumes ∨ c = Call.CreateVolume st.volumebody) ∧
    (∀ volumes, b.ListVolumes log1 = .ok volumes → (∃ v ∈ volumes, v.Name = req.Name) →
      (CreateVolume env b req log).2 = log1 ++ [Call.ListVolumes]) ∧
    (st.enableReplication = true →
      ∀ volumes v, b.ListVolumes log1 = .ok volumes →
        (∀ x ∈ volumes, x.Name ≠ req.Name) →
        b.CreateVolume (log1 ++ [Call.ListVolumes]) st.volumebody = .ok v →
        ∃ tail, (CreateVolume env b req log).2 =
          log1 ++ [Call.ListVolumes] ++ [Call.CreateVolume st.volumebody] ++
            Call.CreateVolume (secondaryVolumeBody env req st) :: tail) ∧
    (st.enableReplication = true →
      ∀ volumes volumes2 v e, b.ListVolumes log1 = .ok volumes →
        (∀ x ∈ volumes, x.Name ≠ req.Name) →
        b.CreateVolume (log1 ++ [Call.ListVolumes]) st.volumebody = .error e →
        b.ListVolumes (log1 ++ [Call.ListVolumes] ++ [Call.CreateVolume st.volumebody]) =
          .ok volumes2 →
        firstCompatible st.volumebody volumes2 = some v →
        ∃ tail, (CreateVolume env b req log).2 =
          log1 ++ [Call.ListVolumes] ++ [Call.CreateVolume st.volumebody] ++
            [Call.ListVolumes] ++
            Call.CreateVolume (secondaryVolumeBody env req st) :: tail) ∧
    (∀ f log2, chooseVolume b st.volumebody log1 = (.error f, log2) →
      CreateVolume env b req log = (.error f, log2) ∧
      ∃ tail, log2 = log1 ++ tail ∧
        ∀ c ∈ tail, c = Call.ListVolumes ∨ c = Call.CreateVolume st.volumebody) := by
  have hname := (resolveVolumeBody_name_size env b req log log1 st hres).1
  refine ⟨?_, ?_, ?_, ?_, ?_⟩
  · intro he
    rw [createVolume_log_of_no_trigger env b req log log1 st hres (Or.inl he)]
    exact chooseVolume_calls b st.volumebody log1
  · intro volumes hl hn
    rw [← hname] at hn
    obtain ⟨h1, h2⟩ := chooseVolume_existing_log b st.volumebody log1 volumes hl hn
    rw [createVolume_log_of_no_trigger env b req log log1 st hres (Or.inr h2), h1]
  · intro he volumes v hl hn hc
    rw [← hname] at hn
    exact createVolume_log_of_trigger env b req log log1 _ st v hres
      (chooseVolume_created b st.volumebody v log1 volumes hl hn hc) he
  · intro he volumes volumes2 v e hl hn hc hl2 hf
    rw [← hname] at hn
    exact createVolume_log_of_trigger env b req log log1 _ st v hres
      (chooseVolume_rescan_found b st.volumebody v log1 volumes volumes2 e hl hn hc hl2 hf) he
  · intro f log2 hch
    refine ⟨createVolume_of_choose_error env b req log log1 log2 st f hres hch, ?_⟩
    obtain ⟨tail, h1, h2⟩ := chooseVolume_calls b st.volumebody log1
    rw [hch] at h1
    exact ⟨tail, h1, h2⟩

set_option maxRecDepth 100000 in
/-- C18 (amended) at the in-memory backend that already holds `vol1`, for
the example request with replication: the listing is the only call. -/
theorem createVolume_replication_trigger_witness :
    (CreateVolume exampleEnv (memBackend "dp".toList [] [exampleVolume "a" "vol1" 1])
      (exampleCreateRequest true) []).2 = [] ++ [Call.ListVolumes] :=
  (createVolume_replication_trigger exampleEnv
    (memBackend "dp".toList [] [exampleVolume "a" "vol1" 1]) (exampleCreateRequest true)
    [] [] (exampleBodyState true) (by decide)).2.1 [exampleVolume "a" "vol1" 1]
    (by decide) (by decide)

/-- `CreateVolume` issues no delete call. -/
theorem createVolume_no_delete (env : Env) (b : Backend) (req : CreateVolumeRequest)
    (log : List Call) :
    ∃ tail, (CreateVolume env b req log).2 = log ++ tail ∧
      ∀ c ∈ tail, (∀ id, c ≠ Call.DeleteVolume id) ∧ (∀ id, c ≠ Call.DeleteReplication id) := by
  rcases hres : resolveVolumeBody env b req log with ⟨r, log1⟩
  have hlog := resolveVolumeBody_log env b req log
  rw [hres] at hlog
  simp only at hlog
  have hpre : ∃ pre, log1 = log ++ pre ∧
      ∀ c ∈ pre, (∀ id, c ≠ Call.DeleteVolume id) ∧ (∀ id, c ≠ Call.DeleteReplication id) := by
    rcases hlog with h | h
    · exact ⟨[], by simp [h], by simp⟩
    · exact ⟨[Call.ListProfiles], h, by simp⟩
  obtain ⟨pre, hpre1, hpre2⟩ := hpre
  cases r with
  | error e =>
    rw [createVolume_of_resolve_error env b req log log1 e hres]
    exact ⟨pre, hpre1, hpre2⟩
  | ok st =>
    obtain ⟨mid, hmid1, hmid2⟩ := chooseVolume_calls b st.volumebody log1
    have hmid3 : ∀ c ∈ mid,
        (∀ id, c ≠ Call.DeleteVolume id) ∧ (∀ id, c ≠ Call.DeleteReplication id) := by
      intro c hc
      rcases hmid2 c hc with h | h <;> subst h <;> simp
    rcases hch : chooseVolume b st.volumebody log1 with ⟨c, log2⟩
    rw [hch] at hmid1
    simp only at hmid1
    have hboth : ∀ c ∈ pre ++ mid,
        (∀ id, c ≠ Call.DeleteVolume id) ∧ (∀ id, c ≠ Call.DeleteReplication id) := by
      intro c hc
      rcases List.mem_append.mp hc with h | h
      · exact hpre2 c h
      · exact hmid3 c h
    have hlog2 : log2 = log ++ (pre ++ mid) := by rw [hmid1, hpre1, List.append_assoc]
    cases c with
    | error f =>
      rw [createVolume_of_choose_error env b req log log1 log2 st f hres hch]
      exact ⟨pre ++ mid, hlog2, hboth⟩
    | ok p =>
      obtain ⟨v, isExist⟩ := p
      by_cases ht : (st.enableReplication && !isExist) = true
      · simp only [Bool.and_eq_true, Bool.not_eq_true'] at ht
        obtain ⟨he, hx⟩ := ht
        subst hx
        rcases hr : createReplica env b req st v (volumeInfo env v) log2 with ⟨rr, log3⟩
        have hlog3 : ∃ post, log3 = log2 ++ post ∧ ∀ c ∈ post,
            (∀ id, c ≠ Call.DeleteVolume id) ∧ (∀ id, c ≠ Call.DeleteReplication id) := by
          unfold createReplica at hr
          cases hs : b.CreateVolume log2 (secondaryVolumeBody env req st) with
          | error e =>
            rw [hs] at hr
            simp only [Prod.mk.injEq] at hr
            exact ⟨_, hr.2.symm, by simp⟩
          | ok sVol =>
            rw [hs] at hr
            simp only at hr
            cases hp : b.CreateReplication
                (log2 ++ [Call.CreateVolume (secondaryVolumeBody env req st)])
                (replicationBody env req v sVol) with
            | error e =>
              rw [hp] at hr
              simp only [Prod.mk.injEq] at hr
              exact ⟨_, hr.2.symm, by simp⟩
            | ok rp =>
              rw [hp] at hr
              simp only [Prod.mk.injEq] at hr
              exact ⟨_, hr.2.symm, by simp⟩
        obtain ⟨post, hpost1, hpost2⟩ := hlog3
        have hall : ∀ c ∈ pre ++ mid ++ post,
            (∀ id, c ≠ Call.DeleteVolume id) ∧ (∀ id, c ≠ Call.DeleteReplication id) := by
          intro c hc
          rcases List.mem_append.mp hc with h | h
          · exact hboth c h
          · exact hpost2 c h
        have hlog3 : log3 = log ++ (pre ++ mid ++ post) := by
          rw [hpost1, hlog2, List.append_assoc]
        cases rr with
        | error f =>
          rw [createVolume_of_replica_error env b req log log1 log2 log3 st v f hres hch he hr]
          exact ⟨_, hlog3, hall⟩
        | ok vi =>
          rw [createVolume_of_replica_ok env b req log log1 log2 log3 st v vi hres hch he hr]
          exact ⟨_, hlog3, hall⟩
      · have ht2 : (st.enableReplication && !isExist) = false := by simpa using ht
        rw [createVolume_of_no_trigger env b req log log1 log2 st v isExist hres hch ht2]
        exact ⟨pre ++ mid, hlog2, hboth⟩

/-- C19: when the replication part is entered (replication enabled, lookup ended with
the primary volume `v` and `isExist` false), `CreateVolume` first creates the secondary
volume, whose body has the size, profile and snapshot source of the primary body, the
secondary availability zone and the name `SecondaryPrefix + request name`; an error of
that create is returned.  Then it creates the pair, synchronous with period 0 and
referencing the ids of `v` and of the secondary volume; an error of that create is
returned, after exactly these two calls.  On success the volume context carries the id
of the pair.  No invocation of `CreateVolume` issues a delete call. -/
theorem createVolume_replication_fail_forward (env : Env) (b : Backend)
    (req : CreateVolumeRequest) (log log1 log2 : List Call) (st : VolumeBodyState)
    (v : VolumeSpec)
    (hres : resolveVolumeBody env b req log = (.ok st, log1))
    (hch : chooseVolume b st.volumebody log1 = (.ok (v, false), log2))
    (he : st.enableReplication = true) :
    ((secondaryVolumeBody env req st).Size = st.volumebody.Size ∧
      (secondaryVolumeBody env req st).ProfileId = st.volumebody.ProfileId ∧
      (secondaryVolumeBody env req st).SnapshotId = st.volumebody.SnapshotId ∧
      (secondaryVolumeBody env req st).AvailabilityZone = st.secondaryAZ ∧
      (secondaryVolumeBody env req st).Name = env.SecondaryPrefix ++ req.Name) ∧
    (∀ e, b.CreateVolume log2 (secondaryVolumeBody env req st) = .error e →
      CreateVolume env b req log =
        (.error (.error e), log2 ++ [Call.CreateVolume (secondaryVolumeBody env req st)])) ∧
    (∀ sVol, b.CreateVolume log2 (secondaryVolumeBody env req st) = .ok sVol →
      ((replicationBody env req v sVol).PrimaryVolumeId = v.Id ∧
        (replicationBody env req v sVol).SecondaryVolumeId = sVol.Id ∧
        (replicationBody env req v sVol).ReplicationMode = env.ReplicationModeSync ∧
        (replicationBody env req v sVol).ReplicationPeriod = 0) ∧
      (∀ e, b.CreateReplication
          (log2 ++ [Call.CreateVolume (secondaryVolumeBody env req st)])
          (replicationBody env req v sVol) = .error e →
        CreateVolume env b req log =
          (.error (.error e),
            log2 ++ [Call.CreateVolume (secondaryVolumeBody env req st),
                     Call.CreateReplication (replicationBody env req v sVol)])) ∧
      (∀ replicaResp, b.CreateReplication
          (log2 ++ [Call.CreateVolume (secondaryVolumeBody env req st)])
          (replicationBody env req v sVol) = .ok replicaResp →
        ∃ resp, CreateVolume env b req log =
          (.ok resp,
            log2 ++ [Call.CreateVolume (secondaryVolumeBody env req st),
                     Call.CreateReplication (replicationBody env req v sVol)]) ∧
          resp.Volume.VolumeId = v.Id ∧
          mapGet resp.Volume.VolumeContext env.KVolumeReplicationId = replicaResp.Id)) ∧
    (∃ tail, (CreateVolume env b req log).2 = log ++ tail ∧
      ∀ c ∈ tail, (∀ id, c ≠ Call.DeleteVolume id) ∧
        (∀ id, c ≠ Call.DeleteReplication id)) := by
  refine ⟨⟨rfl, rfl, rfl, rfl, rfl⟩, ?_, ?_, createVolume_no_delete env b req log⟩
  · intro e hs
    exact createVolume_of_replica_error env b req log log1 log2 _ st v _ hres hch he
      (createReplica_secondary_error env b req st v _ log2 e hs)
  · intro sVol hs
    refine ⟨⟨rfl, rfl, rfl, rfl⟩, ?_, ?_⟩
    · intro e hp
      exact createVolume_of_replica_error env b req log log1 log2 _ st v _ hres hch he
        (createReplica_pair_error env b req st v sVol _ log2 e hs hp)
    · intro replicaResp hp
      refine ⟨_, createVolume_of_replica_ok env b req log log1 log2 _ st v _ hres hch he
        (createReplica_ok env b req st v sVol _ log2 replicaResp hs hp), rfl, ?_⟩
      exact mapGet_mapSet _ _ _

set_option maxRecDepth 100000 in
/-- C19 at the backend that loses the answer of the primary create
and has no pool for the secondary volume: the error of the secondary create is
returned. -/
theorem createVolume_replication_fail_forward_witness :
    CreateVolume exampleEnv (lostReplyBackend true) (exampleCreateRequest true) [] =
      (.error (.error (.other "no pool in the secondary zone".toList)),
        [Call.ListVolumes, Call.CreateVolume (exampleVolume "" "vol1" 1), Call.ListVolumes] ++
        [Call.CreateVolume (secondaryVolumeBody exampleEnv (exampleCreateRequest true)
          (exampleBodyState true))]) :=
  (createVolume_replication_fail_forward exampleEnv (lostReplyBackend true)
    (exampleCreateRequest true) [] []
    [Call.ListVolumes, Call.CreateVolume (exampleVolume "" "vol1" 1), Call.ListVolumes]
    (exampleBodyState true) (exampleVolume "id1" "vol1" 1)
    (by decide) (by decide) (by decide)).2.1 (.other "no pool in the secondary zone".toList)
    (by decide)

/-! ## Replication teardown -/

/-- C20: when the listing of the pairs succeeds, `DeleteVolume` on an id referenced (as
primary or as secondary volume) by a listed pair, `r` being the first such pair, deletes
the pair, then the primary volume of `r`, then its secondary volume, and stops at the
first of these calls that fails, returning its error; when no listed pair references the
id, it issues the one delete of the id and returns its outcome. -/
theorem deleteVolume_teardown (b : Backend) (volId : GoString) (log : List Call)
    (replications : List ReplicationSpec)
    (hl : b.ListReplications log = .ok replications) :
    (∀ r, replications.find?
        (fun r => decide (volId = r.PrimaryVolumeId ∨ volId = r.SecondaryVolumeId)) = some r →
      (∀ e, b.DeleteReplication (log ++ [Call.ListReplications]) r.Id = some e →
        DeleteVolume b volId log =
          (some e, log ++ [Call.ListReplications] ++ [Call.DeleteReplication r.Id])) ∧
      (b.DeleteReplication (log ++ [Call.ListReplications]) r.Id = none →
        (∀ e, b.DeleteVolume (log ++ [Call.ListReplications] ++ [Call.DeleteReplication r.Id])
            r.PrimaryVolumeId = some e →
          DeleteVolume b volId log =
            (some e, log ++ [Call.ListReplications] ++
              [Call.DeleteReplication r.Id, Call.DeleteVolume r.PrimaryVolumeId])) ∧
        (b.DeleteVolume (log ++ [Call.ListReplications] ++ [Call.DeleteReplication r.Id])
            r.PrimaryVolumeId = none →
          DeleteVolume b volId log =
            (b.DeleteVolume (log ++ [Call.ListReplications] ++
                [Call.DeleteReplication r.Id, Call.DeleteVolume r.PrimaryVolumeId])
              r.SecondaryVolumeId,
             log ++ [Call.ListReplications] ++
              [Call.DeleteReplication r.Id, Call.DeleteVolume r.PrimaryVolumeId,
               Call.DeleteVolume r.SecondaryVolumeId])))) ∧
    ((∀ r ∈ replications, volId ≠ r.PrimaryVolumeId ∧ volId ≠ r.SecondaryVolumeId) →
      DeleteVolume b volId log =
        (b.DeleteVolume (log ++ [Call.ListReplications]) volId,
         log ++ [Call.ListReplications] ++ [Call.DeleteVolume volId])) := by
  constructor
  · intro r hf
    have hg : getReplicationByVolume b volId log = (some r, log ++ [Call.ListReplications]) := by
      simp only [getReplicationByVolume, hl, hf]
    refine ⟨?_, ?_⟩
    · intro e hd
      simp only [DeleteVolume, hg, hd]
    · intro hd
      refine ⟨?_, ?_⟩
      · intro e hp
        simp only [DeleteVolume, hg, hd, hp]
      · intro hp
        cases hs : b.DeleteVolume (log ++ [Call.ListReplications] ++
            [Call.DeleteReplication r.Id, Call.DeleteVolume r.PrimaryVolumeId])
            r.SecondaryVolumeId with
        | none => simp only [DeleteVolume, hg, hd, hp, hs]
        | some e => simp only [DeleteVolume, hg, hd, hp, hs]
  · intro hno
    have hf : replications.find?
        (fun r => decide (volId = r.PrimaryVolumeId ∨ volId = r.SecondaryVolumeId)) = none := by
      rw [List.find?_eq_none]
      intro r hr
      have := hno r hr
      simp only [decide_eq_true_eq]
      tauto
    have hg : getReplicationByVolume b volId log = (none, log ++ [Call.ListReplications]) := by
      simp only [getReplicationByVolume, hl, hf]
    cases hd : b.DeleteVolume (log ++ [Call.ListReplications]) volId with
    | none => simp only [DeleteVolume, hg, hd]
    | some e => simp only [DeleteVolume, hg, hd]

set_option maxRecDepth 100000 in
/-- C20 at the in-memory backend that holds the pair of `v` and `vv`,
for the id of the secondary volume. -/
theorem deleteVolume_teardown_witness :
    DeleteVolume (memBackend "dp".toList [] []) "vv".toList
        [Call.CreateReplication { examplePair with Id := [] }] =
      (none,
        [Call.CreateReplication { examplePair with Id := [] }] ++ [Call.ListReplications] ++
        [Call.DeleteReplication examplePair.Id, Call.DeleteVolume examplePair.PrimaryVolumeId,
         Call.DeleteVolume examplePair.SecondaryVolumeId]) :=
  (((deleteVolume_teardown (memBackend "dp".toList [] []) "vv".toList
    [Call.CreateReplication { examplePair with Id := [] }] [examplePair]
    (by decide)).1 examplePair (by decide)).2 (by decide)).2 (by decide)

/-! ## The lookup of `CreateSnapshot` -/

/-- What the loop of `FindSnapshot` returns: the first compatible snapshot of the
requested name if there is one, and otherwise whether some snapshot has the requested
name. -/
theorem findSnapshotLoop_eq (req : VolumeSnapshotSpec) (snapshots : List VolumeSnapshotSpec) :
    ∀ isExist : Bool, findSnapshotLoop req snapshots isExist =
      match firstCompatibleSnapshot req snapshots with
      | some s => (true, true, some s)
      | none =>
        (isExist || snapshots.any (fun s => decide (s.Name = req.Name)), false, none) := by
  induction snapshots with
  | nil => intro isExist; simp [findSnapshotLoop, firstCompatibleSnapshot]
  | cons a rest ih =>
    intro isExist
    unfold findSnapshotLoop
    by_cases hn : a.Name = req.Name
    · by_cases hc : snapshotCompatible a req = true
      · simp [firstCompatibleSnapshot, hn, hc]
      · have hc2 : snapshotCompatible a req = false := by simpa using hc
        rw [if_pos hn, if_neg hc, ih true]
        simp only [firstCompatibleSnapshot, List.find?_cons, hn, hc2, decide_True,
          Bool.and_false, List.any_cons, Bool.true_or, Bool.or_true]
    · rw [if_neg hn, ih isExist]
      simp only [firstCompatibleSnapshot, List.find?_cons, hn, decide_False, Bool.false_and,
        List.any_cons, Bool.false_or]

theorem firstCompatibleSnapshot_some (req s : VolumeSnapshotSpec)
    (snapshots : List VolumeSnapshotSpec) (h : firstCompatibleSnapshot req snapshots = some s) :
    s ∈ snapshots ∧ s.Name = req.Name ∧ s.VolumeId = req.VolumeId ∧
      s.ProfileId = req.ProfileId := by
  unfold firstCompatibleSnapshot at h
  have h1 := List.find?_some h
  have h2 := List.mem_of_find?_eq_some h
  simp only [snapshotCompatible, Bool.and_eq_true, decide_eq_true_eq] at h1
  exact ⟨h2, h1.1, h1.2.1, h1.2.2⟩

theorem firstCompatibleSnapshot_none (req : VolumeSnapshotSpec)
    (snapshots : List VolumeSnapshotSpec) :
    firstCompatibleSnapshot req snapshots = none ↔
      ∀ s ∈ snapshots, s.Name = req.Name →
        ¬ (s.VolumeId = req.VolumeId ∧ s.ProfileId = req.ProfileId) := by
  unfold firstCompatibleSnapshot
  rw [List.find?_eq_none]
  constructor
  · intro h s hs hn
    have := h s hs
    simpa [hn, snapshotCompatible] using this
  · intro h s hs
    by_cases hn : s.Name = req.Name
    · have := h s hs hn
      simp only [snapshotCompatible, Bool.and_eq_true, decide_eq_true_eq, not_and]
      intro _
      exact not_and.mp this
    · simp [hn]

theorem firstCompatibleSnapshot_isSome (req : VolumeSnapshotSpec)
    (snapshots : List VolumeSnapshotSpec) :
    (∃ s, firstCompatibleSnapshot req snapshots = some s) ↔
      ∃ s ∈ snapshots, s.Name = req.Name ∧ s.VolumeId = req.VolumeId ∧
        s.ProfileId = req.ProfileId := by
  constructor
  · rintro ⟨s, hs⟩
    exact ⟨s, firstCompatibleSnapshot_some req s snapshots hs⟩
  · rintro ⟨s, hs, hn, hv, hp⟩
    cases hf : firstCompatibleSnapshot req snapshots with
    | some x => exact ⟨x, rfl⟩
    | none =>
      exact absurd ⟨hv, hp⟩ ((firstCompatibleSnapshot_none req snapshots).mp hf s hs hn)

theorem any_snapshot_name (req : VolumeSnapshotSpec) (snapshots : List VolumeSnapshotSpec) :
    snapshots.any (fun s => decide (s.Name = req.Name)) = true ↔
      ∃ s ∈ snapshots, s.Name = req.Name := by
  simp [List.any_eq_true]

/-- The lookup when the listing fails. -/
theorem chooseSnapshot_list_error (c : Client) (body : VolumeSnapshotSpec) (log : List Call)
    (e : GoError) (hl : c.ListVolumeSnapshots log = .error e) :
    chooseSnapshot c body log = (.error (.error e), log ++ [Call.ListVolumeSnapshots]) := by
  simp only [chooseSnapshot, FindSnapshot, hl]

/-- The lookup when a compatible snapshot of the requested name is listed. -/
theorem chooseSnapshot_found (c : Client) (body s : VolumeSnapshotSpec) (log : List Call)
    (snapshots : List VolumeSnapshotSpec) (hl : c.ListVolumeSnapshots log = .ok snapshots)
    (hf : firstCompatibleSnapshot body snapshots = some s) :
    chooseSnapshot c body log = (.ok s, log ++ [Call.ListVolumeSnapshots]) := by
  simp only [chooseSnapshot, FindSnapshot, hl, findSnapshotLoop_eq, hf]
  simp

/-- The lookup when the requested name is listed, but with no compatible snapshot. -/
theorem chooseSnapshot_conflict (c : Client) (body : VolumeSnapshotSpec) (log : List Call)
    (snapshots : List VolumeSnapshotSpec) (hl : c.ListVolumeSnapshots log = .ok snapshots)
    (hn : ∃ s ∈ snapshots, s.Name = body.Name)
    (hf : firstCompatibleSnapshot body snapshots = none) :
    chooseSnapshot c body log =
      (.error (.error (.status .AlreadyExists
        "Snapshot already exists but is incompatible".toList)),
        log ++ [Call.ListVolumeSnapshots]) := by
  simp only [chooseSnapshot, FindSnapshot, hl, findSnapshotLoop_eq, hf,
    (any_snapshot_name body snapshots).mpr hn]
  simp

/-- The lookup when the requested name is not listed: the outcome of the one create. -/
theorem chooseSnapshot_create (c : Client) (body : VolumeSnapshotSpec) (log : List Call)
    (snapshots : List VolumeSnapshotSpec) (hl : c.ListVolumeSnapshots log = .ok snapshots)
    (hn : ∀ s ∈ snapshots, s.Name ≠ body.Name) :
    chooseSnapshot c body log =
      (match c.CreateVolumeSnapshot (log ++ [Call.ListVolumeSnapshots]) body with
        | .error e => .error (.error e)
        | .ok s => .ok s,
       log ++ [Call.ListVolumeSnapshots] ++ [Call.CreateVolumeSnapshot body]) := by
  have hf : firstCompatibleSnapshot body snapshots = none :=
    (firstCompatibleSnapshot_none body snapshots).mpr (fun s hs h => absurd h (hn s hs))
  have ha : snapshots.any (fun s => decide (s.Name = body.Name)) = false := by
    rw [Bool.eq_false_iff, Ne, any_snapshot_name]
    rintro ⟨s, hs, h⟩
    exact hn s hs h
  simp only [chooseSnapshot, FindSnapshot, hl, findSnapshotLoop_eq, hf, ha]
  cases c.CreateVolumeSnapshot (log ++ [Call.ListVolumeSnapshots]) body <;> simp

theorem snapshotBody_foldl (env : Env) (ps : List (GoString × GoString)) :
    ∀ s : VolumeSnapshotSpec,
      (ps.foldl (fun snapReq kv =>
        if env.ToLower kv.1 = env.KParamProfile then { snapReq with ProfileId := kv.2 }
        else snapReq) s).Name = s.Name ∧
      (ps.foldl (fun snapReq kv =>
        if env.ToLower kv.1 = env.KParamProfile then { snapReq with ProfileId := kv.2 }
        else snapReq) s).VolumeId = s.VolumeId := by
  induction ps with
  | nil => intro s; exact ⟨rfl, rfl⟩
  | cons kv rest ih =>
    intro s
    rw [List.foldl_cons]
    by_cases h : env.ToLower kv.1 = env.KParamProfile
    · rw [if_pos h]
      exact ih _
    · rw [if_neg h]
      exact ih _

theorem snapshotBody_fields (env : Env) (req : CreateSnapshotRequest) :
    (snapshotBody env req).Name = req.Name ∧
    (snapshotBody env req).VolumeId = req.SourceVolumeId :=
  snapshotBody_foldl env req.Parameters _

theorem createSnapshot_of_valid (env : Env) (tl : TimeLib) (c : Client)
    (req : CreateSnapshotRequest) (log : List Call)
    (hname : req.Name ≠ []) (hsrc : req.SourceVolumeId ≠ []) :
    CreateSnapshot env tl c req log =
      (match (chooseSnapshot c (snapshotBody env req) log).1 with
        | .error f => .error f
        | .ok snapshot => snapshotResponse tl snapshot,
       (chooseSnapshot c (snapshotBody env req) log).2) := by
  have h1 : ¬ (0 = req.Name.length) := by
    intro h; exact hname (List.length_eq_zero.mp h.symm)
  have h2 : ¬ (0 = req.SourceVolumeId.length) := by
    intro h; exact hsrc (List.length_eq_zero.mp h.symm)
  unfold CreateSnapshot
  rw [if_neg h1, if_neg h2]
  rcases chooseSnapshot c (snapshotBody env req) log with ⟨r, l⟩
  cases r <;> rfl

theorem snapshotResponse_ne_alreadyExists (tl : TimeLib) (s : VolumeSnapshotSpec)
    (msg : GoString) :
    snapshotResponse tl s ≠ .error (.error (.status .AlreadyExists msg)) := by
  unfold snapshotResponse convertStringToPtypesTimestamp
  cases h1 : tl.Parse s.CreatedAt with
  | error m => simp
  | ok t =>
    cases h2 : tl.TimestampProto t with
    | error m => simp [h2]
    | ok ts => simp [h2]

/-! ## Snapshot creation: the claims -/

/-- C22: for a request with a name and a source volume id, when the listing of the
snapshots succeeds.  The lookup ends with a listed snapshot and no create exactly when
some listed snapshot has the requested name, source volume id and profile id, and
`CreateSnapshot` then answers with the response built from the first such snapshot;
`CreateSnapshot` fails with already-exists after the listing alone exactly when some
listed snapshot has the requested name and none of that name has both the source volume
id and the profile id; and when no listed snapshot has the requested name, exactly one
create follows the listing, whose error is returned unchanged, without another
listing, and whose snapshot gives the response. -/
theorem createSnapshot_lookup (env : Env) (tl : TimeLib) (c : Client)
    (req : CreateSnapshotRequest) (log : List Call) (snapshots : List VolumeSnapshotSpec)
    (hname : req.Name ≠ []) (hsrc : req.SourceVolumeId ≠ [])
    (hl : c.ListVolumeSnapshots log = .ok snapshots) :
    ((∃ s, chooseSnapshot c (snapshotBody env req) log =
        (.ok s, log ++ [Call.ListVolumeSnapshots])) ↔
      ∃ s ∈ snapshots, s.Name = req.Name ∧ s.VolumeId = req.SourceVolumeId ∧
        s.ProfileId = (snapshotBody env req).ProfileId) ∧
    (∀ s, firstCompatibleSnapshot (snapshotBody env req) snapshots = some s →
      CreateSnapshot env tl c req log =
        (snapshotResponse tl s, log ++ [Call.ListVolumeSnapshots])) ∧
    (CreateSnapshot env tl c req log =
        (.error (.error (.status .AlreadyExists
          "Snapshot already exists but is incompatible".toList)),
          log ++ [Call.ListVolumeSnapshots]) ↔
      ((∃ s ∈ snapshots, s.Name = req.Name) ∧
        ∀ s ∈ snapshots, s.Name = req.Name →
          ¬ (s.VolumeId = req.SourceVolumeId ∧
            s.ProfileId = (snapshotBody env req).ProfileId))) ∧
    ((∀ s ∈ snapshots, s.Name ≠ req.Name) →
      (CreateSnapshot env tl c req log).2 =
        log ++ [Call.ListVolumeSnapshots] ++ [Call.CreateVolumeSnapshot (snapshotBody env req)] ∧
      (∀ e, c.CreateVolumeSnapshot (log ++ [Call.ListVolumeSnapshots])
          (snapshotBody env req) = .error e →
        (CreateSnapshot env tl c req log).1 = .error (.error e)) ∧
      (∀ s, c.CreateVolumeSnapshot (log ++ [Call.ListVolumeSnapshots])
          (snapshotBody env req) = .ok s →
        (CreateSnapshot env tl c req log).1 = snapshotResponse tl s)) := by
  obtain ⟨hbn, hbv⟩ := snapshotBody_fields env req
  have hcs := createSnapshot_of_valid env tl c req log hname hsrc
  have hne : log ++ [Call.ListVolumeSnapshots] ++
      [Call.CreateVolumeSnapshot (snapshotBody env req)] ≠
      log ++ [Call.ListVolumeSnapshots] := by
    intro h
    have := congrArg List.length h
    simp at this
  -- the three cases of the lookup
  have hA : ∀ s, firstCompatibleSnapshot (snapshotBody env req) snapshots = some s →
      chooseSnapshot c (snapshotBody env req) log = (.ok s, log ++ [Call.ListVolumeSnapshots]) :=
    fun s hf => chooseSnapshot_found c _ s log snapshots hl hf
  have hB : (∃ s ∈ snapshots, s.Name = req.Name) →
      firstCompatibleSnapshot (snapshotBody env req) snapshots = none →
      chooseSnapshot c (snapshotBody env req) log =
        (.error (.error (.status .AlreadyExists
          "Snapshot already exists but is incompatible".toList)),
          log ++ [Call.ListVolumeSnapshots]) := by
    intro hn hf
    exact chooseSnapshot_conflict c _ log snapshots hl (by rw [hbn]; exact hn) hf
  have hC : (∀ s ∈ snapshots, s.Name ≠ req.Name) →
      chooseSnapshot c (snapshotBody env req) log =
        (match c.CreateVolumeSnapshot (log ++ [Call.ListVolumeSnapshots])
            (snapshotBody env req) with
          | .error e => .error (.error e)
          | .ok s => .ok s,
         log ++ [Call.ListVolumeSnapshots] ++
           [Call.CreateVolumeSnapshot (snapshotBody env req)]) := by
    intro hn
    exact chooseSnapshot_create c _ log snapshots hl (by rw [hbn]; exact hn)
  have hcompat : (∃ s, firstCompatibleSnapshot (snapshotBody env req) snapshots = some s) ↔
      ∃ s ∈ snapshots, s.Name = req.Name ∧ s.VolumeId = req.SourceVolumeId ∧
        s.ProfileId = (snapshotBody env req).ProfileId := by
    rw [firstCompatibleSnapshot_isSome, hbn, hbv]
  have hnone : firstCompatibleSnapshot (snapshotBody env req) snapshots = none ↔
      ∀ s ∈ snapshots, s.Name = req.Name →
        ¬ (s.VolumeId = req.SourceVolumeId ∧
          s.ProfileId = (snapshotBody env req).ProfileId) := by
    rw [firstCompatibleSnapshot_none, hbn, hbv]
  refine ⟨⟨?_, ?_⟩, ?_, ⟨?_, ?_⟩, ?_⟩
  · rintro ⟨s, hs⟩
    cases hf : firstCompatibleSnapshot (snapshotBody env req) snapshots with
    | some x => exact hcompat.mp ⟨x, hf⟩
    | none =>
      by_cases hn : ∃ s ∈ snapshots, s.Name = req.Name
      · rw [hB hn hf] at hs
        simp at hs
      · have hn2 : ∀ s ∈ snapshots, s.Name ≠ req.Name :=
          fun s hs h => hn ⟨s, hs, h⟩
        rw [hC hn2] at hs
        exact absurd (congrArg Prod.snd hs) hne
  · intro h
    obtain ⟨s, hf⟩ := hcompat.mpr h
    exact ⟨s, hA s hf⟩
  · intro s hf
    rw [hcs, hA s hf]
  · intro h
    cases hf : firstCompatibleSnapshot (snapshotBody env req) snapshots with
    | some x =>
      rw [hcs, hA x hf] at h
      exact absurd (congrArg Prod.fst h) (snapshotResponse_ne_alreadyExists tl x _)
    | none =>
      refine ⟨?_, hnone.mp hf⟩
      by_contra hn
      have hn2 : ∀ s ∈ snapshots, s.Name ≠ req.Name :=
        fun s hs h => hn ⟨s, hs, h⟩
      rw [hcs, hC hn2] at h
      exact absurd (congrArg Prod.snd h) hne
  · rintro ⟨hn, hno⟩
    rw [hcs, hB hn (hnone.mpr hno)]
  · intro hn
    rw [hcs, hC hn]
    refine ⟨rfl, ?_, ?_⟩
    · intro e he
      simp only [he]
    · intro s hs
      simp only [hs]

set_option maxRecDepth 100000 in
/-- C22 at the in-memory client that holds the snapshot `s1` of the volume `v1`, for a
request of the same name and source volume: the snapshot is reused after the listing. -/
theorem createSnapshot_lookup_witness :
    CreateSnapshot exampleEnv exampleTimeLib
        (memClient [] [] [] [{ exampleSnapshot "x" "v1" with Name := "s1".toList }] [])
        { Name := "s1".toList, SourceVolumeId := "v1".toList, Parameters := [] } [] =
      (snapshotResponse exampleTimeLib { exampleSnapshot "x" "v1" with Name := "s1".toList },
        [] ++ [Call.ListVolumeSnapshots]) :=
  (createSnapshot_lookup exampleEnv exampleTimeLib
    (memClient [] [] [] [{ exampleSnapshot "x" "v1" with Name := "s1".toList }] [])
    { Name := "s1".toList, SourceVolumeId := "v1".toList, Parameters := [] } []
    [{ exampleSnapshot "x" "v1" with Name := "s1".toList }]
    (by decide) (by decide) (by decide)).2.1
    { exampleSnapshot "x" "v1" with Name := "s1".toList } (by decide)

/-- C23: a request with an empty name or an empty source volume id makes
`CreateSnapshot` fail with invalid-argument, and the call log is unchanged: no backend
call is made. -/
theorem createSnapshot_validation (env : Env) (tl : TimeLib) (c : Client)
    (req : CreateSnapshotRequest) (log : List Call)
    (h : req.Name = [] ∨ req.SourceVolumeId = []) :
    (∃ msg, (CreateSnapshot env tl c req log).1 =
      .error (.error (.status .InvalidArgument msg))) ∧
    (CreateSnapshot env tl c req log).2 = log := by
  unfold CreateSnapshot
  by_cases h1 : req.Name = []
  · simp [h1]
  · have h2 : req.SourceVolumeId = [] := h.resolve_left h1
    have h3 : ¬ (0 = req.Name.length) := by
      intro h; exact h1 (List.length_eq_zero.mp h.symm)
    rw [if_neg h3]
    simp [h2]

/-- C23 at a request without source volume id. -/
theorem createSnapshot_validation_witness :
    (∃ msg, (CreateSnapshot exampleEnv exampleTimeLib (memClient [] [] [] [] [])
      { Name := "s1".toList, SourceVolumeId := [], Parameters := [] } []).1 =
      .error (.error (.status .InvalidArgument msg))) ∧
    (CreateSnapshot exampleEnv exampleTimeLib (memClient [] [] [] [] [])
      { Name := "s1".toList, SourceVolumeId := [], Parameters := [] } []).2 = [] :=
  createSnapshot_validation exampleEnv exampleTimeLib (memClient [] [] [] [] [])
    { Name := "s1".toList, SourceVolumeId := [], Parameters := [] } [] (Or.inr rfl)

/-! ## Pairing and deletion -/

/-- The deletion invariant for the calls of `DeleteVolume` when no pair references the
volume. -/
theorem pairingGovernsDeletion_single (pairs : List ReplicationSpec) (volId : GoString)
    (h : ∀ r ∈ pairs, ¬ (volId = r.PrimaryVolumeId ∨ volId = r.SecondaryVolumeId)) :
    pairingGovernsDeletion pairs [Call.ListReplications, Call.DeleteVolume volId] := by
  intro before after id heq r hr href
  match before, heq with
  | [], heq => simp at heq
  | [_], heq =>
    simp only [List.singleton_append, List.cons.injEq, Call.DeleteVolume.injEq] at heq
    rw [← heq.2.1] at href
    exact absurd href (h r hr)
  | _ :: _ :: rest, heq =>
    simp only [List.cons_append, List.cons.injEq] at heq
    have := congrArg List.length heq.2.2
    simp at this
    omega

/-- The deletion invariant for calls that begin with the delete of the pair `i`, when
every volume deleted afterwards is referenced by no pair with another id. -/
theorem pairingGovernsDeletion_pair (pairs : List ReplicationSpec) (i : GoString)
    (rest : List Call)
    (h : ∀ r ∈ pairs, ∀ id, Call.DeleteVolume id ∈ rest →
      (id = r.PrimaryVolumeId ∨ id = r.SecondaryVolumeId) → r.Id = i) :
    pairingGovernsDeletion pairs
      (Call.ListReplications :: Call.DeleteReplication i :: rest) := by
  intro before after id heq r hr href
  match before, heq with
  | [], heq => simp at heq
  | [_], heq => simp at heq
  | a :: b :: before2, heq =>
    simp only [List.cons_append, List.cons.injEq] at heq
    obtain ⟨_, hb, hrest⟩ := heq
    have hmem : Call.DeleteVolume id ∈ rest := by rw [hrest]; simp
    rw [h r hr id hmem href, hb]
    simp

/-- Under the deletion invariant, a pair whose delete is not among the calls references
no volume whose delete is among them. -/
theorem pairingGovernsDeletion_remaining (pairs : List ReplicationSpec) (calls : List Call)
    (h : pairingGovernsDeletion pairs calls) :
    ∀ r ∈ pairs, Call.DeleteReplication r.Id ∉ calls →
      ∀ id, Call.DeleteVolume id ∈ calls →
        ¬ (id = r.PrimaryVolumeId ∨ id = r.SecondaryVolumeId) := by
  intro r hr hnot id hid href
  obtain ⟨before, after, heq⟩ := List.append_of_mem hid
  have := h before after id heq r hr href
  exact hnot (by rw [heq]; exact List.mem_append_left _ this)

/-- The calls of `DeleteVolume` when a listed pair references the volume: the listing,
the delete of the first such pair, and then only deletes of its two volumes. -/
theorem deleteVolume_calls_pair (b : Backend) (volId : GoString) (log : List Call)
    (replications : List ReplicationSpec) (r : ReplicationSpec)
    (hl : b.ListReplications log = .ok replications)
    (hf : replications.find?
      (fun r => decide (volId = r.PrimaryVolumeId ∨ volId = r.SecondaryVolumeId)) = some r) :
    ∃ rest, (DeleteVolume b volId log).2 =
        log ++ Call.ListReplications :: Call.DeleteReplication r.Id :: rest ∧
      ∀ id, Call.DeleteVolume id ∈ rest →
        id = r.PrimaryVolumeId ∨ id = r.SecondaryVolumeId := by
  have hg : getReplicationByVolume b volId log = (some r, log ++ [Call.ListReplications]) := by
    simp only [getReplicationByVolume, hl, hf]
  cases hd : b.DeleteReplication (log ++ [Call.ListReplications]) r.Id with
  | some e =>
    refine ⟨[], ?_, by simp⟩
    simp only [DeleteVolume, hg, hd]
    simp
  | none =>
    cases hp : b.DeleteVolume (log ++ [Call.ListReplications] ++ [Call.DeleteReplication r.Id])
        r.PrimaryVolumeId with
    | some e =>
      refine ⟨[Call.DeleteVolume r.PrimaryVolumeId], ?_, by simp⟩
      simp only [DeleteVolume, hg, hd, hp]
      simp
    | none =>
      refine ⟨[Call.DeleteVolume r.PrimaryVolumeId, Call.DeleteVolume r.SecondaryVolumeId],
        ?_, ?_⟩
      · cases hs : b.DeleteVolume (log ++ [Call.ListReplications] ++
            [Call.DeleteReplication r.Id, Call.DeleteVolume r.PrimaryVolumeId])
            r.SecondaryVolumeId with
        | none =>
          simp only [DeleteVolume, hg, hd, hp, hs]
          simp
        | some e =>
          simp only [DeleteVolume, hg, hd, hp, hs]
          simp
      · intro id hid
        simp only [List.mem_cons, Call.DeleteVolume.injEq, List.mem_singleton,
          List.not_mem_nil, or_false] at hid
        exact hid

/-- The calls of `DeleteVolume` when no listed pair references the volume. -/
theorem deleteVolume_calls_none (b : Backend) (volId : GoString) (log : List Call)
    (replications : List ReplicationSpec)
    (hl : b.ListReplications log = .ok replications)
    (hf : replications.find?
      (fun r => decide (volId = r.PrimaryVolumeId ∨ volId = r.SecondaryVolumeId)) = none) :
    (DeleteVolume b volId log).2 =
      log ++ [Call.ListReplications] ++ [Call.DeleteVolume volId] := by
  have hg : getReplicationByVolume b volId log = (none, log ++ [Call.ListReplications]) := by
    simp only [getReplicationByVolume, hl, hf]
  cases hd : b.DeleteVolume (log ++ [Call.ListReplications]) volId with
  | none => simp only [DeleteVolume, hg, hd]
  | some e => simp only [DeleteVolume, hg, hd]

set_option maxRecDepth 100000 in
/-- C21 (as stated, refuted): the backend holds the pair `v` of the volumes `a` and `b`
and the pair `vv` of the volumes `a` and `c`.  `DeleteVolume` on `a` deletes the pair
`v` and the volumes `a` and `b`; the pair `vv` references `a` and is not deleted. -/
theorem deleteVolume_second_pair_remains :
    (memBackend [] [] []).ListReplications
        [Call.CreateReplication { examplePair with Id := [], PrimaryVolumeId := "a".toList,
                                                   SecondaryVolumeId := "b".toList },
         Call.CreateReplication { examplePair with Id := [], PrimaryVolumeId := "a".toList,
                                                   SecondaryVolumeId := "c".toList }] =
      .ok [{ examplePair with Id := "v".toList, PrimaryVolumeId := "a".toList,
                              SecondaryVolumeId := "b".toList },
           { examplePair with Id := "vv".toList, PrimaryVolumeId := "a".toList,
                              SecondaryVolumeId := "c".toList }] ∧
    (DeleteVolume (memBackend [] [] []) "a".toList
        [Call.CreateReplication { examplePair with Id := [], PrimaryVolumeId := "a".toList,
                                                   SecondaryVolumeId := "b".toList },
         Call.CreateReplication { examplePair with Id := [], PrimaryVolumeId := "a".toList,
                                                   SecondaryVolumeId := "c".toList }]).2 =
      [Call.CreateReplication { examplePair with Id := [], PrimaryVolumeId := "a".toList,
                                                 SecondaryVolumeId := "b".toList },
       Call.CreateReplication { examplePair with Id := [], PrimaryVolumeId := "a".toList,
                                                 SecondaryVolumeId := "c".toList }] ++
      [Call.ListReplications, Call.DeleteReplication "v".toList, Call.DeleteVolume "a".toList,
       Call.DeleteVolume "b".toList] ∧
    ¬ pairingGovernsDeletion
        [{ examplePair with Id := "v".toList, PrimaryVolumeId := "a".toList,
                            SecondaryVolumeId := "b".toList },
         { examplePair with Id := "vv".toList, PrimaryVolumeId := "a".toList,
                            SecondaryVolumeId := "c".toList }]
        [Call.ListReplications, Call.DeleteReplication "v".toList,
         Call.DeleteVolume "a".toList, Call.DeleteVolume "b".toList] := by
  refine ⟨by decide, by decide, ?_⟩
  intro h
  have := h [Call.ListReplications, Call.DeleteReplication "v".toList]
    [Call.DeleteVolume "b".toList] "a".toList rfl
    { examplePair with Id := "vv".toList, PrimaryVolumeId := "a".toList,
                       SecondaryVolumeId := "c".toList } (by simp) (Or.inl rfl)
  revert this
  decide

/-- C21 (amended): when the listing of the pairs succeeds and no volume is referenced by
two listed pairs of different ids, `DeleteVolume` issues the delete of a volume that a
listed pair references only after the delete of that pair; so a listed pair whose delete
the call did not issue references no volume whose delete the call issued. -/
theorem deleteVolume_pairing_governs (b : Backend) (volId : GoString) (log : List Call)
    (replications : List ReplicationSpec)
    (hl : b.ListReplications log = .ok replications)
    (huniq : ∀ r ∈ replications, ∀ q ∈ replications, ∀ id,
      (id = r.PrimaryVolumeId ∨ id = r.SecondaryVolumeId) →
      (id = q.PrimaryVolumeId ∨ id = q.SecondaryVolumeId) → q.Id = r.Id) :
    ∃ tail, (DeleteVolume b volId log).2 = log ++ tail ∧
      pairingGovernsDeletion replications tail ∧
      ∀ r ∈ replications, Call.DeleteReplication r.Id ∉ tail →
        ∀ id, Call.DeleteVolume id ∈ tail →
          ¬ (id = r.PrimaryVolumeId ∨ id = r.SecondaryVolumeId) := by
  suffices h : ∃ tail, (DeleteVolume b volId log).2 = log ++ tail ∧
      pairingGovernsDeletion replications tail by
    obtain ⟨tail, h1, h2⟩ := h
    exact ⟨tail, h1, h2, pairingGovernsDeletion_remaining replications tail h2⟩
  cases hf : replications.find?
      (fun r => decide (volId = r.PrimaryVolumeId ∨ volId = r.SecondaryVolumeId)) with
  | none =>
    refine ⟨[Call.ListReplications, Call.DeleteVolume volId],
      by rw [deleteVolume_calls_none b volId log replications hl hf]; simp, ?_⟩
    apply pairingGovernsDeletion_single
    intro r hr
    rw [List.find?_eq_none] at hf
    simpa using hf r hr
  | some r =>
    obtain ⟨rest, h1, h2⟩ := deleteVolume_calls_pair b volId log replications r hl hf
    refine ⟨_, h1, ?_⟩
    apply pairingGovernsDeletion_pair
    intro q hq id hid href
    have hr := List.mem_of_find?_eq_some hf
    exact huniq r hr q hq id (h2 id hid) href

set_option maxRecDepth 100000 in
/-- C21 (amended) at the in-memory backend that holds the pair of `v` and `vv`, for the
id of the secondary volume. -/
theorem deleteVolume_pairing_governs_witness :
    ∃ tail, (DeleteVolume (memBackend [] [] []) "vv".toList
        [Call.CreateReplication { examplePair with Id := [] }]).2 =
        [Call.CreateReplication { examplePair with Id := [] }] ++ tail ∧
      pairingGovernsDeletion [examplePair] tail ∧
      ∀ r ∈ [examplePair], Call.DeleteReplication r.Id ∉ tail →
        ∀ id, Call.DeleteVolume id ∈ tail →
          ¬ (id = r.PrimaryVolumeId ∨ id = r.SecondaryVolumeId) :=
  deleteVolume_pairing_governs (memBackend [] [] []) "vv".toList
    [Call.CreateReplication { examplePair with Id := [] }] [examplePair]
    (by decide)
    (by
      intro r hr q hq id _ _
      rw [List.mem_singleton.mp hr, List.mem_singleton.mp hq])

/-! ## Slicing in `ListSnapshots` -/

/-- C30 (failing input): on the example listing of three records, without starting
token, the max-entries value `-1` makes `ListSnapshots` panic: the upper bound
`0 + (-1)` is below the lower bound of the slice expression.  So do the starting token
`2147483648`, which the conversion to `int32` makes negative, and the max-entries value
`2147483647` from the offset 1, whose sum wraps to a negative upper bound. -/
theorem listSnapshots_slice_out_of_range :
    ListSnapshots exampleTimeLib (.ok exampleListing)
        { MaxEntries := -1, StartingToken := [], SourceVolumeId := [], SnapshotId := [] } =
      .error .panic ∧
    ListSnapshots exampleTimeLib (.ok exampleListing)
        { MaxEntries := 0, StartingToken := "2147483648".toList, SourceVolumeId := [],
          SnapshotId := [] } = .error .panic ∧
    ListSnapshots exampleTimeLib (.ok exampleListing)
        { MaxEntries := 2147483647, StartingToken := "1".toList, SourceVolumeId := [],
          SnapshotId := [] } = .error .panic := by
  refine ⟨by decide, by decide, by decide⟩

/-! ## The compatibility scan over the attachments -/

theorem mapFind_eq_some (m : List (GoString × GoString)) (k v : GoString)
    (h : mapFind m k = some v) : (k, v) ∈ m := by
  unfold mapFind at h
  cases hf : m.find? (fun kv => kv.1 = k) with
  | none => rw [hf] at h; cases h
  | some e =>
    rw [hf] at h
    have h1 := List.find?_some hf
    have h2 := List.mem_of_find?_eq_some hf
    simp only [Option.map_some', Option.some.injEq] at h
    simp only [decide_eq_true_eq] at h1
    have : e = (k, v) := by rw [← h1, ← h]
    rw [← this]
    exact h2

theorem mapFind_of_mem (m : List (GoString × GoString)) (k v : GoString)
    (hm : distinctKeys m) (h : (k, v) ∈ m) : mapFind m k = some v := by
  induction m with
  | nil => cases h
  | cons e rest ih =>
    unfold distinctKeys at hm
    rw [List.map_cons, List.nodup_cons] at hm
    rcases List.mem_cons.mp h with h1 | h1
    · subst h1
      simp [mapFind]
    · have hne : e.1 ≠ k := by
        intro he
        apply hm.1
        rw [he]
        exact List.mem_map.mpr ⟨(k, v), h1, rfl⟩
      have := ih hm.2 h1
      unfold mapFind at this ⊢
      rw [List.find?_cons]
      simp only [hne, decide_False]
      exact this

/-- The function `isStringMapEqual` decides the equality of two maps: for entry lists
with distinct keys, that the one is a rearrangement of the other. -/
theorem isStringMapEqual_iff_perm (metadataA metadataB : List (GoString × GoString))
    (hA : distinctKeys metadataA) :
    isStringMapEqual metadataA metadataB = true ↔ metadataA.Perm metadataB := by
  unfold isStringMapEqual
  constructor
  · intro h
    by_cases hlen : metadataA.length ≠ metadataB.length
    · rw [if_pos hlen] at h; cases h
    · rw [if_neg hlen, List.all_eq_true] at h
      have hsub : metadataA ⊆ metadataB := by
        intro kv hkv
        have := h kv hkv
        cases hf : mapFind metadataB kv.1 with
        | none => rw [hf] at this; cases this
        | some valueB =>
          rw [hf] at this
          simp only [decide_eq_true_eq] at this
          have hm := mapFind_eq_some metadataB kv.1 valueB hf
          rw [← this] at hm
          exact hm
      have hnd : metadataA.Nodup := List.Nodup.of_map _ hA
      exact (List.subperm_of_subset hnd hsub).perm_of_length_le
        (by rw [not_not] at hlen; rw [hlen])
  · intro h
    have hlen : ¬ (metadataA.length ≠ metadataB.length) := by
      rw [not_not]; exact h.length_eq
    rw [if_neg hlen, List.all_eq_true]
    intro kv hkv
    have hB : distinctKeys metadataB := by
      unfold distinctKeys at hA ⊢
      exact (List.Perm.map _ h).nodup_iff.mp hA
    rw [mapFind_of_mem metadataB kv.1 kv.2 hB (h.subset hkv)]
    simp

/-- What the scan returns when it returns an attachment. -/
theorem isVolumePublishedLoop_some (canAt : Bool) (attachReq : VolumeAttachmentSpec)
    (metadata : List (GoString × GoString)) (attachments : List VolumeAttachmentSpec)
    (a : VolumeAttachmentSpec)
    (h : isVolumePublishedLoop canAt attachReq metadata attachments = .ok (some a)) :
    a ∈ attachments ∧ a.VolumeId = attachReq.VolumeId ∧ a.Host = attachReq.Host ∧
      attachmentCompatible a attachReq metadata = true := by
  induction attachments with
  | nil => simp [isVolumePublishedLoop] at h
  | cons x rest ih =>
    unfold isVolumePublishedLoop at h
    by_cases hv : x.VolumeId = attachReq.VolumeId
    · rw [if_pos hv] at h
      by_cases hh : x.Host ≠ attachReq.Host
      · rw [if_pos hh] at h
        cases canAt with
        | false => simp at h
        | true =>
          simp only [Bool.not_true, Bool.false_eq_true, if_false] at h
          obtain ⟨h1, h2⟩ := ih h
          exact ⟨List.mem_cons_of_mem _ h1, h2⟩
      · rw [if_neg hh] at h
        by_cases hc : attachmentCompatible x attachReq metadata = true
        · rw [if_pos hc] at h
          simp only [Except.ok.injEq, Option.some.injEq] at h
          subst h
          exact ⟨List.mem_cons_self _ _, hv, not_not.mp hh, hc⟩
        · rw [if_neg hc] at h; cases h
    · rw [if_neg hv] at h
      obtain ⟨h1, h2⟩ := ih h
      exact ⟨List.mem_cons_of_mem _ h1, h2⟩

/-- What the listing contains when the scan returns already-exists. -/
theorem isVolumePublishedLoop_alreadyExists (canAt : Bool)
    (attachReq : VolumeAttachmentSpec) (metadata : List (GoString × GoString))
    (attachments : List VolumeAttachmentSpec) (msg : GoString)
    (h : isVolumePublishedLoop canAt attachReq metadata attachments =
      .error (.status .AlreadyExists msg)) :
    ∃ a ∈ attachments, a.VolumeId = attachReq.VolumeId ∧ a.Host = attachReq.Host ∧
      attachmentCompatible a attachReq metadata = false := by
  induction attachments with
  | nil => simp [isVolumePublishedLoop] at h
  | cons x rest ih =>
    unfold isVolumePublishedLoop at h
    by_cases hv : x.VolumeId = attachReq.VolumeId
    · rw [if_pos hv] at h
      by_cases hh : x.Host ≠ attachReq.Host
      · rw [if_pos hh] at h
        cases canAt with
        | false => simp at h
        | true =>
          simp only [Bool.not_true, Bool.false_eq_true, if_false] at h
          obtain ⟨a, h1, h2⟩ := ih h
          exact ⟨a, List.mem_cons_of_mem _ h1, h2⟩
      · rw [if_neg hh] at h
        by_cases hc : attachmentCompatible x attachReq metadata = true
        · rw [if_pos hc] at h; cases h
        · exact ⟨x, List.mem_cons_self _ _, hv, not_not.mp hh, by simpa using hc⟩
    · rw [if_neg hv] at h
      obtain ⟨a, h1, h2⟩ := ih h
      exact ⟨a, List.mem_cons_of_mem _ h1, h2⟩

/-- What the listing contains when the scan finds nothing. -/
theorem isVolumePublishedLoop_none (canAt : Bool) (attachReq : VolumeAttachmentSpec)
    (metadata : List (GoString × GoString)) (attachments : List VolumeAttachmentSpec)
    (h : isVolumePublishedLoop canAt attachReq metadata attachments = .ok none) :
    ∀ a ∈ attachments, ¬ (a.VolumeId = attachReq.VolumeId ∧ a.Host = attachReq.Host) := by
  induction attachments with
  | nil => intro a ha; cases ha
  | cons x rest ih =>
    unfold isVolumePublishedLoop at h
    intro a ha
    by_cases hv : x.VolumeId = attachReq.VolumeId
    · rw [if_pos hv] at h
      by_cases hh : x.Host ≠ attachReq.Host
      · rw [if_pos hh] at h
        cases canAt with
        | false => simp at h
        | true =>
          simp only [Bool.not_true, Bool.false_eq_true, if_false] at h
          rcases List.mem_cons.mp ha with h1 | h1
          · subst h1
            exact fun hx => hh hx.2
          · exact ih h a h1
      · rw [if_neg hh] at h
        by_cases hc : attachmentCompatible x attachReq metadata = true
        · rw [if_pos hc] at h; cases h
        · rw [if_neg hc] at h; cases h
    · rw [if_neg hv] at h
      rcases List.mem_cons.mp ha with h1 | h1
      · subst h1
        exact fun hx => hv hx.1
      · exact ih h a h1

/-- The scan skips the attachments of other volumes. -/
theorem isVolumePublishedLoop_append (canAt : Bool) (attachReq : VolumeAttachmentSpec)
    (metadata : List (GoString × GoString)) (front rest : List VolumeAttachmentSpec)
    (h : ∀ a ∈ front, a.VolumeId ≠ attachReq.VolumeId) :
    isVolumePublishedLoop canAt attachReq metadata (front ++ rest) =
      isVolumePublishedLoop canAt attachReq metadata rest := by
  induction front with
  | nil => rfl
  | cons x xs ih =>
    rw [List.cons_append, isVolumePublishedLoop,
      if_neg (h x (List.mem_cons_self _ _))]
    exact ih (fun a ha => h a (List.mem_cons_of_mem _ ha))

theorem isVolumePublished_of_list (c : Client) (canAt : Bool)
    (attachReq : VolumeAttachmentSpec) (metadata : List (GoString × GoString))
    (log : List Call) (attachments : List VolumeAttachmentSpec)
    (hl : c.ListVolumeAttachments log = .ok attachments) :
    isVolumePublished c canAt attachReq metadata log =
      (isVolumePublishedLoop canAt attachReq metadata attachments,
        log ++ [Call.ListVolumeAttachments]) := by
  simp only [isVolumePublished, hl]

/-- C29: when the listing of the attachments succeeds, with maps of distinct keys.  An
attachment that `isVolumePublished` returns is an element of the listing with the volume
id, host, platform, OS type, initiator and access protocol of the request and with the
expected metadata as its metadata map; when it returns already-exists, the listing
contains an attachment of the same volume and host that differs from the request in
platform, OS type, initiator, metadata or access protocol; and when it returns no
attachment and no error, the listing contains no attachment of the requested volume on
the host of the request. -/
theorem isVolumePublished_sound (c : Client) (canAt : Bool)
    (attachReq : VolumeAttachmentSpec) (metadata : List (GoString × GoString))
    (log : List Call) (attachments : List VolumeAttachmentSpec)
    (hl : c.ListVolumeAttachments log = .ok attachments)
    (hkeys : ∀ a ∈ attachments, distinctKeys a.Metadata) :
    (∀ a, (isVolumePublished c canAt attachReq metadata log).1 = .ok (some a) →
      a ∈ attachments ∧ a.VolumeId = attachReq.VolumeId ∧ a.Host = attachReq.Host ∧
      a.Platform = attachReq.Platform ∧ a.OsType = attachReq.OsType ∧
      a.Initiator = attachReq.Initiator ∧ a.AccessProtocol = attachReq.AccessProtocol ∧
      a.Metadata.Perm metadata) ∧
    (∀ msg, (isVolumePublished c canAt attachReq metadata log).1 =
        .error (.status .AlreadyExists msg) →
      ∃ a ∈ attachments, a.VolumeId = attachReq.VolumeId ∧ a.Host = attachReq.Host ∧
        (a.Platform ≠ attachReq.Platform ∨ a.OsType ≠ attachReq.OsType ∨
          a.Initiator ≠ attachReq.Initiator ∨ ¬ a.Metadata.Perm metadata ∨
          a.AccessProtocol ≠ attachReq.AccessProtocol)) ∧
    ((isVolumePublished c canAt attachReq metadata log).1 = .ok none →
      ∀ a ∈ attachments, ¬ (a.VolumeId = attachReq.VolumeId ∧ a.Host = attachReq.Host)) := by
  rw [isVolumePublished_of_list c canAt attachReq metadata log attachments hl]
  refine ⟨?_, ?_, ?_⟩
  · intro a h
    obtain ⟨h1, h2, h3, h4⟩ := isVolumePublishedLoop_some canAt attachReq metadata attachments a h
    simp only [attachmentCompatible, Bool.and_eq_true, decide_eq_true_eq] at h4
    exact ⟨h1, h2, h3, h4.1.1.1.1, h4.1.1.1.2, h4.1.1.2, h4.2,
      (isStringMapEqual_iff_perm _ _ (hkeys a h1)).mp h4.1.2⟩
  · intro msg h
    obtain ⟨a, h1, h2, h3, h4⟩ :=
      isVolumePublishedLoop_alreadyExists canAt attachReq metadata attachments msg h
    refine ⟨a, h1, h2, h3, ?_⟩
    by_contra hno
    simp only [not_or, not_not] at hno
    have : attachmentCompatible a attachReq metadata = true := by
      simp only [attachmentCompatible, Bool.and_eq_true, decide_eq_true_eq]
      exact ⟨⟨⟨⟨hno.1, hno.2.1⟩, hno.2.2.1⟩,
        (isStringMapEqual_iff_perm _ _ (hkeys a h1)).mpr hno.2.2.2.1⟩, hno.2.2.2.2⟩
    rw [this] at h4
    cases h4
  · intro h
    exact isVolumePublishedLoop_none canAt attachReq metadata attachments h

set_option maxRecDepth 100000 in
/-- C29 at the in-memory client that holds an attachment of the volume `v1` on `host1`,
for the attachment request of the example publish request: the attachment is returned. -/
theorem isVolumePublished_sound_witness :
    exampleAttachment "a1" "host1" ∈ [exampleAttachment "a1" "host1"] ∧
    (exampleAttachment "a1" "host1").VolumeId = (exampleAttachment "" "host1").VolumeId ∧
    (exampleAttachment "a1" "host1").Host = (exampleAttachment "" "host1").Host ∧
    (exampleAttachment "a1" "host1").Platform = (exampleAttachment "" "host1").Platform ∧
    (exampleAttachment "a1" "host1").OsType = (exampleAttachment "" "host1").OsType ∧
    (exampleAttachment "a1" "host1").Initiator = (exampleAttachment "" "host1").Initiator ∧
    (exampleAttachment "a1" "host1").AccessProtocol =
      (exampleAttachment "" "host1").AccessProtocol ∧
    (exampleAttachment "a1" "host1").Metadata.Perm [] :=
  (isVolumePublished_sound (memClient [] [] [] [] [exampleAttachment "a1" "host1"]) false
    (exampleAttachment "" "host1") [] [] [exampleAttachment "a1" "host1"] (by decide)
    (by intro a ha; rw [List.mem_singleton.mp ha]; exact List.nodup_nil)).1
    (exampleAttachment "a1" "host1") (by decide)

/-! ## `ControllerPublishVolume` from its parts -/

/-- The part before the scan, when volume, pool, node id, initiator and access mode are
there. -/
theorem preparePublish_ok (penv : PublishEnv) (c : Client)
    (req : ControllerPublishVolumeRequest) (log : List Call) (vol : VolumeSpec)
    (pool : StoragePoolSpec) (host : GoString) (wwpns wwnns iqns : List GoString)
    (i : GoString) (mode : AccessModeMode)
    (hgv : c.GetVolume log req.VolumeId = .ok (some vol))
    (hgp : c.GetPool (log ++ [Call.GetVolume req.VolumeId]) vol.PoolId = .ok (some pool))
    (hx : extractInfoFromNodeId req.NodeId = .ok (host, wwpns, wwnns, iqns))
    (hs : selectInitiator penv (resolveProtocol penv pool) wwpns iqns = .ok i)
    (hcap : req.VolumeCapability = some { AccessMode := some { Mode := mode } }) :
    preparePublish penv c req log =
      (.ok { attachReq := attachRequest penv req host i (resolveProtocol penv pool)
             canAtMultiNode := canAtMultiNode mode
             expectedMetadata := penv.MergeStringMaps req.VolumeContext vol.Metadata },
        log ++ [Call.GetVolume req.VolumeId, Call.GetPool vol.PoolId]) := by
  simp only [preparePublish, hgv, hgp, hx, hs, hcap]

/-- The part before the scan, when the switch on the protocol fails. -/
theorem preparePublish_initiator_error (penv : PublishEnv) (c : Client)
    (req : ControllerPublishVolumeRequest) (log : List Call) (vol : VolumeSpec)
    (pool : StoragePoolSpec) (host : GoString) (wwpns wwnns iqns : List GoString)
    (e : GoError)
    (hgv : c.GetVolume log req.VolumeId = .ok (some vol))
    (hgp : c.GetPool (log ++ [Call.GetVolume req.VolumeId]) vol.PoolId = .ok (some pool))
    (hx : extractInfoFromNodeId req.NodeId = .ok (host, wwpns, wwnns, iqns))
    (hs : selectInitiator penv (resolveProtocol penv pool) wwpns iqns = .error e) :
    preparePublish penv c req log =
      (.error (.error e), log ++ [Call.GetVolume req.VolumeId, Call.GetPool vol.PoolId]) := by
  simp only [preparePublish, hgv, hgp, hx, hs]

/-- Where a successful part before the scan comes from. -/
theorem preparePublish_ok_inv (penv : PublishEnv) (c : Client)
    (req : ControllerPublishVolumeRequest) (log log1 : List Call) (st : PublishState)
    (h : preparePublish penv c req log = (.ok st, log1)) :
    ∃ vol pool host wwpns wwnns iqns i mode,
      c.GetVolume log req.VolumeId = .ok (some vol) ∧
      c.GetPool (log ++ [Call.GetVolume req.VolumeId]) vol.PoolId = .ok (some pool) ∧
      extractInfoFromNodeId req.NodeId = .ok (host, wwpns, wwnns, iqns) ∧
      selectInitiator penv (resolveProtocol penv pool) wwpns iqns = .ok i ∧
      req.VolumeCapability = some { AccessMode := some { Mode := mode } } ∧
      st = { attachReq := attachRequest penv req host i (resolveProtocol penv pool)
             canAtMultiNode := canAtMultiNode mode
             expectedMetadata := penv.MergeStringMaps req.VolumeContext vol.Metadata } ∧
      log1 = log ++ [Call.GetVolume req.VolumeId, Call.GetPool vol.PoolId] := by
  unfold preparePublish at h
  cases hgv : c.GetVolume log req.VolumeId with
  | error e => rw [hgv] at h; simp at h
  | ok ov =>
    cases ov with
    | none => rw [hgv] at h; simp at h
    | some vol =>
      rw [hgv] at h
      simp only at h
      cases hgp : c.GetPool (log ++ [Call.GetVolume req.VolumeId]) vol.PoolId with
      | error e => rw [hgp] at h; simp at h
      | ok op =>
        cases op with
        | none => rw [hgp] at h; simp at h
        | some pool =>
          rw [hgp] at h
          simp only at h
          cases hx : extractInfoFromNodeId req.NodeId with
          | error f => rw [hx] at h; simp at h
          | ok t =>
            obtain ⟨host, wwpns, wwnns, iqns⟩ := t
            rw [hx] at h
            simp only at h
            cases hs : selectInitiator penv (resolveProtocol penv pool) wwpns iqns with
            | error e => rw [hs] at h; simp at h
            | ok i =>
              rw [hs] at h
              simp only at h
              cases hcap : req.VolumeCapability with
              | none => rw [hcap] at h; simp at h
              | some cap =>
                obtain ⟨am⟩ := cap
                cases am with
                | none => rw [hcap] at h; simp at h
                | some am =>
                  obtain ⟨mode⟩ := am
                  rw [hcap] at h
                  simp only [Prod.mk.injEq, Except.ok.injEq] at h
                  exact ⟨vol, pool, host, wwpns, wwnns, iqns, i, mode, rfl, hgp, rfl, hs, rfl,
                    h.1.symm, h.2.symm⟩

theorem controllerPublishVolume_of_prepare_error (penv : PublishEnv) (c : Client)
    (req : ControllerPublishVolumeRequest) (log log1 : List Call) (f : Failure)
    (h : preparePublish penv c req log = (.error f, log1)) :
    ControllerPublishVolume penv c req log = (.error f, log1) := by
  simp only [ControllerPublishVolume, h]

theorem controllerPublishVolume_of_publish_error (penv : PublishEnv) (c : Client)
    (req : ControllerPublishVolumeRequest) (log log1 log2 : List Call) (st : PublishState)
    (e : GoError)
    (h : preparePublish penv c req log = (.ok st, log1))
    (hp : publishAttachment c req st.canAtMultiNode st.attachReq st.expectedMetadata log1 =
      (.error e, log2)) :
    ControllerPublishVolume penv c req log = (.error (.error e), log2) := by
  simp only [ControllerPublishVolume, h, hp]

theorem publishAttachment_of_scan_error (c : Client) (req : ControllerPublishVolumeRequest)
    (canAt : Bool) (attachReq : VolumeAttachmentSpec)
    (metadata : List (GoString × GoString)) (log log1 : List Call) (e : GoError)
    (h : isVolumePublished c canAt attachReq metadata log = (.error e, log1)) :
    publishAttachment c req canAt attachReq metadata log = (.error e, log1) := by
  simp only [publishAttachment, h]

theorem publishAttachment_of_found (c : Client) (req : ControllerPublishVolumeRequest)
    (canAt : Bool) (attachReq a : VolumeAttachmentSpec)
    (metadata : List (GoString × GoString)) (log log1 : List Call)
    (h : isVolumePublished c canAt attachReq metadata log = (.ok (some a), log1)) :
    publishAttachment c req canAt attachReq metadata log = (.ok a, log1) := by
  simp only [publishAttachment, h]

theorem publishAttachment_of_created (c : Client) (req : ControllerPublishVolumeRequest)
    (canAt : Bool) (attachReq a : VolumeAttachmentSpec)
    (metadata : List (GoString × GoString)) (log log1 : List Call)
    (h : isVolumePublished c canAt attachReq metadata log = (.ok none, log1))
    (hc : c.CreateVolumeAttachment log1 attachReq = .ok a) :
    publishAttachment c req canAt attachReq metadata log =
      (.ok a, log1 ++ [Call.CreateVolumeAttachment attachReq]) := by
  simp only [publishAttachment, h, hc]

theorem publishAttachment_of_create_error (c : Client)
    (req : ControllerPublishVolumeRequest) (canAt : Bool) (attachReq : VolumeAttachmentSpec)
    (metadata : List (GoString × GoString)) (log log1 : List Call) (e : GoError)
    (h : isVolumePublished c canAt attachReq metadata log = (.ok none, log1))
    (hc : c.CreateVolumeAttachment log1 attachReq = .error e) :
    publishAttachment c req canAt attachReq metadata log =
      (.error (.status .FailedPrecondition
        ("the volume ".toList ++ req.VolumeId ++ " failed to publish to node ".toList ++
          req.NodeId ++ ".".toList)), log1 ++ [Call.CreateVolumeAttachment attachReq]) := by
  simp only [publishAttachment, h, hc]

/-! ## Initiator selection -/

/-- C24: with pairwise different driver names.  The protocol is the lower-cased access
protocol of the pool, `iscsi` when that is empty.  For the fibre-channel driver the
initiator is the comma-joined list of the port names, and the switch fails with
failed-precondition exactly when there is none; for the iSCSI driver it is the first
qualified name, with failed-precondition exactly when there is none; for the RBD driver
it is empty; every other protocol fails with invalid-argument.  When the switch fails,
`ControllerPublishVolume` returns its error after the calls for the volume and the pool
alone; otherwise the attachment request carries the initiator, the protocol and the host
name parsed from the node id. -/
theorem controllerPublishVolume_initiator (penv : PublishEnv)
    (hfi : penv.FcDriver ≠ penv.IscsiDriver) (hfr : penv.FcDriver ≠ penv.RbdDriver)
    (hir : penv.IscsiDriver ≠ penv.RbdDriver) :
    (∀ pool, (penv.ToLower pool.AccessProtocol = [] →
        resolveProtocol penv pool = "iscsi".toList) ∧
      (penv.ToLower pool.AccessProtocol ≠ [] →
        resolveProtocol penv pool = penv.ToLower pool.AccessProtocol)) ∧
    (∀ iqns, selectInitiator penv penv.FcDriver [] iqns =
        .error (.status .FailedPrecondition
          ("protocol is ".toList ++ penv.FcDriver ++ ", but no wwpn".toList)) ∧
      ∀ wwpns, wwpns ≠ [] →
        selectInitiator penv penv.FcDriver wwpns iqns = .ok (Join wwpns [','])) ∧
    (∀ wwpns, selectInitiator penv penv.IscsiDriver wwpns [] =
        .error (.status .FailedPrecondition
          ("protocol is ".toList ++ penv.IscsiDriver ++ ", but no iqn".toList)) ∧
      ∀ iqn rest, selectInitiator penv penv.IscsiDriver wwpns (iqn :: rest) = .ok iqn) ∧
    (∀ wwpns iqns, selectInitiator penv penv.RbdDriver wwpns iqns = .ok []) ∧
    (∀ protocol wwpns iqns, protocol ≠ penv.FcDriver → protocol ≠ penv.IscsiDriver →
      protocol ≠ penv.RbdDriver →
      selectInitiator penv protocol wwpns iqns =
        .error (.status .InvalidArgument ("protocol cannot be ".toList ++ protocol))) ∧
    (∀ (c : Client) (req : ControllerPublishVolumeRequest) (log : List Call)
      (vol : VolumeSpec) (pool : StoragePoolSpec) (host : GoString)
      (wwpns wwnns iqns : List GoString),
      c.GetVolume log req.VolumeId = .ok (some vol) →
      c.GetPool (log ++ [Call.GetVolume req.VolumeId]) vol.PoolId = .ok (some pool) →
      extractInfoFromNodeId req.NodeId = .ok (host, wwpns, wwnns, iqns) →
      (∀ e, selectInitiator penv (resolveProtocol penv pool) wwpns iqns = .error e →
        ControllerPublishVolume penv c req log =
          (.error (.error e),
            log ++ [Call.GetVolume req.VolumeId, Call.GetPool vol.PoolId])) ∧
      (∀ i st log1, selectInitiator penv (resolveProtocol penv pool) wwpns iqns = .ok i →
        preparePublish penv c req log = (.ok st, log1) →
        st.attachReq.Initiator = i ∧
        st.attachReq.AccessProtocol = resolveProtocol penv pool ∧
        st.attachReq.Host = host)) := by
  refine ⟨?_, ?_, ?_, ?_, ?_, ?_⟩
  · intro pool
    constructor
    · intro h; simp only [resolveProtocol, if_pos h]
    · intro h; simp only [resolveProtocol, if_neg h]
  · intro iqns
    constructor
    · simp only [selectInitiator, if_true, List.length_nil, le_refl]
    · intro wwpns hw
      have : ¬ (wwpns.length ≤ 0) := by
        intro h
        exact hw (List.length_eq_zero.mp (Nat.le_zero.mp h))
      simp only [selectInitiator, if_true, if_neg this]
  · intro wwpns
    constructor
    · simp only [selectInitiator, if_neg hfi.symm, if_true]
    · intro iqn rest
      simp only [selectInitiator, if_neg hfi.symm, if_true]
  · intro wwpns iqns
    simp only [selectInitiator, if_neg hfr.symm, if_neg hir.symm, if_true]
  · intro protocol wwpns iqns h1 h2 h3
    simp only [selectInitiator, if_neg h1, if_neg h2, if_neg h3]
  · intro c req log vol pool host wwpns wwnns iqns hgv hgp hx
    constructor
    · intro e hs
      exact controllerPublishVolume_of_prepare_error penv c req log _ _
        (preparePublish_initiator_error penv c req log vol pool host wwpns wwnns iqns e
          hgv hgp hx hs)
    · intro i st log1 hs hprep
      obtain ⟨vol2, pool2, host2, wwpns2, wwnns2, iqns2, i2, mode, h1, h2, h3, h4, _, h6, _⟩ :=
        preparePublish_ok_inv penv c req log log1 st hprep
      rw [hgv] at h1
      simp only [Except.ok.injEq, Option.some.injEq] at h1
      subst h1
      rw [hgp] at h2
      simp only [Except.ok.injEq, Option.some.injEq] at h2
      subst h2
      rw [hx] at h3
      simp only [Except.ok.injEq, Prod.mk.injEq] at h3
      obtain ⟨rfl, rfl, rfl, rfl⟩ := h3
      rw [hs] at h4
      simp only [Except.ok.injEq] at h4
      subst h4
      rw [h6]
      exact ⟨rfl, rfl, rfl⟩

/-- C24 at the environment of the examples: two port names are joined by a comma. -/
theorem controllerPublishVolume_initiator_witness :
    selectInitiator examplePublishEnv examplePublishEnv.FcDriver
        ["500143802426baf8".toList, "500143802426baf9".toList] [] =
      .ok (Join ["500143802426baf8".toList, "500143802426baf9".toList] [',']) :=
  ((controllerPublishVolume_initiator examplePublishEnv (by decide) (by decide)
    (by decide)).2.1 []).2 ["500143802426baf8".toList, "500143802426baf9".toList]
    (by decide)

/-! ## Attachments on another host -/

/-- The scan fails at the first attachment of the volume when that is on another host and
multi-node access is not permitted. -/
theorem isVolumePublishedLoop_other_host (attachReq a : VolumeAttachmentSpec)
    (metadata : List (GoString × GoString)) (attachments : List VolumeAttachmentSpec)
    (hfirst : attachments.find? (fun x => decide (x.VolumeId = attachReq.VolumeId)) = some a)
    (hhost : a.Host ≠ attachReq.Host) :
    isVolumePublishedLoop false attachReq metadata attachments =
      .error (.status .FailedPrecondition
        ("the volume ".toList ++ attachReq.VolumeId ++
          (" has been published to another node and does not have " ++
            "MULTI_NODE volume capability").toList)) := by
  induction attachments with
  | nil => simp at hfirst
  | cons x rest ih =>
    rw [List.find?_cons] at hfirst
    unfold isVolumePublishedLoop
    by_cases hv : x.VolumeId = attachReq.VolumeId
    · simp only [hv, decide_True, Option.some.injEq] at hfirst
      subst hfirst
      rw [if_pos hv, if_pos hhost]
      rfl
    · simp only [hv, decide_False] at hfirst
      rw [if_neg hv]
      exact ih hfirst

set_option maxRecDepth 100000 in
/-- C25 (as stated, refuted): the listing holds an attachment of the volume `v1` on
`host1` and, after it, one on `host2`; the request comes from `host1` with the access
mode single-node writer.  The listing contains an attachment of the volume on another
host and the access mode is no multi-node mode, yet the scan returns the attachment on
`host1` and `ControllerPublishVolume` succeeds with it. -/
theorem isVolumePublished_second_host_reuse :
    (exampleAttachment "a2" "host2" ∈
        [exampleAttachment "a1" "host1", exampleAttachment "a2" "host2"] ∧
      (exampleAttachment "a2" "host2").VolumeId =
        (examplePublishRequest "host1,iqn:iqn.a" []).VolumeId ∧
      (exampleAttachment "a2" "host2").Host ≠ "host1".toList) ∧
    isVolumePublished
        (memClient [examplePublishedVolume "v1" []] [examplePool ""] [] []
          [exampleAttachment "a1" "host1", exampleAttachment "a2" "host2"])
        false (exampleAttachment "" "host1") [] [] =
      (.ok (some (exampleAttachment "a1" "host1")), [Call.ListVolumeAttachments]) ∧
    ControllerPublishVolume examplePublishEnv
        (memClient [examplePublishedVolume "v1" []] [examplePool ""] [] []
          [exampleAttachment "a1" "host1", exampleAttachment "a2" "host2"])
        (examplePublishRequest "host1,iqn:iqn.a" []) [] =
      (.ok { PublishContext :=
               publishContext examplePublishEnv (exampleAttachment "a1" "host1") },
        [Call.GetVolume "v1".toList, Call.GetPool "pool1".toList,
         Call.ListVolumeAttachments]) := by
  refine ⟨⟨by decide, by decide, by decide⟩, by decide, by decide⟩

/-- C25 (amended): when the listing of the attachments succeeds and the first listed
attachment of the requested volume is on a host different from the host of the request,
and multi-node access is not permitted, `isVolumePublished` fails with
failed-precondition after the listing; and `ControllerPublishVolume`, for a request
whose access mode is none of the three multi-node modes and that reaches the scan, fails
with that error after the listing, without creating an attachment. -/
theorem isVolumePublished_second_host (c : Client) (attachReq a : VolumeAttachmentSpec)
    (metadata : List (GoString × GoString)) (log : List Call)
    (attachments : List VolumeAttachmentSpec)
    (hl : c.ListVolumeAttachments log = .ok attachments)
    (hfirst : attachments.find? (fun x => decide (x.VolumeId = attachReq.VolumeId)) = some a)
    (hhost : a.Host ≠ attachReq.Host) :
    isVolumePublished c false attachReq metadata log =
      (.error (.status .FailedPrecondition
        ("the volume ".toList ++ attachReq.VolumeId ++
          (" has been published to another node and does not have " ++
            "MULTI_NODE volume capability").toList)),
        log ++ [Call.ListVolumeAttachments]) ∧
    (∀ (penv : PublishEnv) (req : ControllerPublishVolumeRequest) (log0 : List Call)
      (st : PublishState) (mode : AccessModeMode),
      preparePublish penv c req log0 = (.ok st, log) →
      st.attachReq = attachReq → st.expectedMetadata = metadata →
      req.VolumeCapability = some { AccessMode := some { Mode := mode } } →
      mode ≠ .MULTI_NODE_MULTI_WRITER → mode ≠ .MULTI_NODE_READER_ONLY →
      mode ≠ .MULTI_NODE_SINGLE_WRITER →
      attachReq.VolumeId = req.VolumeId ∧
      ControllerPublishVolume penv c req log0 =
        (.error (.error (.status .FailedPrecondition
          ("the volume ".toList ++ req.VolumeId ++
            (" has been published to another node and does not have " ++
              "MULTI_NODE volume capability").toList))),
          log ++ [Call.ListVolumeAttachments])) := by
  have hscan : isVolumePublished c false attachReq metadata log =
      (.error (.status .FailedPrecondition
        ("the volume ".toList ++ attachReq.VolumeId ++
          (" has been published to another node and does not have " ++
            "MULTI_NODE volume capability").toList)),
        log ++ [Call.ListVolumeAttachments]) := by
    rw [isVolumePublished_of_list c false attachReq metadata log attachments hl,
      isVolumePublishedLoop_other_host attachReq a metadata attachments hfirst hhost]
  refine ⟨hscan, ?_⟩
  intro penv req log0 st mode hprep hreq hmeta hcap h1 h2 h3
  obtain ⟨vol, pool, host, wwpns, wwnns, iqns, i, mode2, _, _, _, _, h5, h6, _⟩ :=
    preparePublish_ok_inv penv c req log0 log st hprep
  rw [hcap] at h5
  simp only [Option.some.injEq, VolumeCapability.mk.injEq, AccessMode.mk.injEq] at h5
  subst h5
  have hcan : st.canAtMultiNode = false := by
    rw [h6]
    simp only [canAtMultiNode, Bool.or_eq_false_iff, decide_eq_false_iff_not]
    exact ⟨⟨fun h => h1 h.symm, fun h => h2 h.symm⟩, fun h => h3 h.symm⟩
  have hvol : attachReq.VolumeId = req.VolumeId := by
    rw [← hreq, h6]
    rfl
  refine ⟨hvol, ?_⟩
  rw [← hvol]
  apply controllerPublishVolume_of_publish_error penv c req log0 log _ st _ hprep
  apply publishAttachment_of_scan_error
  rw [hcan, hreq, hmeta]
  exact hscan

set_option maxRecDepth 100000 in
/-- C25 (amended) at the in-memory client that holds an attachment of the volume `v1` on
`host2`, for the attachment request of `host1`. -/
theorem isVolumePublished_second_host_witness :
    isVolumePublished
        (memClient [examplePublishedVolume "v1" []] [examplePool ""] [] []
          [exampleAttachment "a2" "host2"])
        false (exampleAttachment "" "host1") [] [] =
      (.error (.status .FailedPrecondition
        ("the volume ".toList ++ (exampleAttachment "" "host1").VolumeId ++
          (" has been published to another node and does not have " ++
            "MULTI_NODE volume capability").toList)),
        [] ++ [Call.ListVolumeAttachments]) :=
  (isVolumePublished_second_host
    (memClient [examplePublishedVolume "v1" []] [examplePool ""] [] []
      [exampleAttachment "a2" "host2"])
    (exampleAttachment "" "host1") (exampleAttachment "a2" "host2") [] []
    [exampleAttachment "a2" "host2"] (by decide) (by decide) (by decide)).1

/-! ## Unpublishing -/

/-- The delete loop when every delete succeeds: one delete for each gathered attachment,
in order. -/
theorem deleteAttachments_all (c : Client) (msg : GoString) :
    ∀ (acts : List VolumeAttachmentSpec) (log : List Call),
      (∀ i a, acts[i]? = some a →
        c.DeleteVolumeAttachment
          (log ++ (acts.take i).map (fun x => Call.DeleteVolumeAttachment x.Id)) a.Id a = none) →
      deleteAttachments c msg acts log =
        (none, log ++ acts.map (fun x => Call.DeleteVolumeAttachment x.Id)) := by
  intro acts
  induction acts with
  | nil => intro log _; simp [deleteAttachments]
  | cons x xs ih =>
    intro log h
    have h0 := h 0 x (by simp)
    simp only [List.take_zero, List.map_nil, List.append_nil] at h0
    rw [deleteAttachments, h0]
    simp only
    rw [ih (log ++ [Call.DeleteVolumeAttachment x.Id])]
    · simp
    · intro i a hi
      have := h (i + 1) a (by simpa using hi)
      simpa using this

/-- The delete loop when the delete number `i` is the first that fails: the
failed-precondition error, after the deletes up to that one. -/
theorem deleteAttachments_first_failure (c : Client) (msg : GoString) :
    ∀ (acts : List VolumeAttachmentSpec) (log : List Call) (i : Nat)
      (a : VolumeAttachmentSpec) (e : GoError),
      (∀ j x, j < i → acts[j]? = some x →
        c.DeleteVolumeAttachment
          (log ++ (acts.take j).map (fun x => Call.DeleteVolumeAttachment x.Id)) x.Id x = none) →
      acts[i]? = some a →
      c.DeleteVolumeAttachment
        (log ++ (acts.take i).map (fun x => Call.DeleteVolumeAttachment x.Id)) a.Id a = some e →
      deleteAttachments c msg acts log =
        (some (.status .FailedPrecondition msg),
          log ++ (acts.take (i + 1)).map (fun x => Call.DeleteVolumeAttachment x.Id)) := by
  intro acts
  induction acts with
  | nil => intro log i a e _ hi; simp at hi
  | cons x xs ih =>
    intro log i a e hbefore hi hfail
    cases i with
    | zero =>
      simp only [List.getElem?_cons_zero, Option.some.injEq] at hi
      subst hi
      simp only [List.take_zero, List.map_nil, List.append_nil] at hfail
      rw [deleteAttachments, hfail]
      simp
    | succ n =>
      have h0 := hbefore 0 x (Nat.succ_pos n) (by simp)
      simp only [List.take_zero, List.map_nil, List.append_nil] at h0
      rw [deleteAttachments, h0]
      simp only
      rw [ih (log ++ [Call.DeleteVolumeAttachment x.Id]) n a e]
      · simp
      · intro j y hj hy
        have := hbefore (j + 1) y (Nat.succ_lt_succ hj) (by simpa using hy)
        simpa using this
      · simpa using hi
      · simpa using hfail

theorem mem_gatherAttachments (attachments : List VolumeAttachmentSpec)
    (volumeId nodeId hostName : GoString) (a : VolumeAttachmentSpec) :
    a ∈ gatherAttachments attachments volumeId nodeId hostName ↔
      a ∈ attachments ∧ a.VolumeId = volumeId ∧ (nodeId = [] ∨ a.Host = hostName) := by
  simp [gatherAttachments, List.mem_filter]

/-- `ControllerUnpublishVolume` when the volume exists and the attachments are listed:
the gathered attachments are deleted after the listing of the pairs. -/
theorem controllerUnpublishVolume_of_listings (c : Client)
    (req : ControllerUnpublishVolumeRequest) (log : List Call) (vol : VolumeSpec)
    (attachments : List VolumeAttachmentSpec) (host : GoString)
    (wwpns wwnns iqns : List GoString)
    (hgv : c.GetVolume log req.VolumeId = .ok (some vol))
    (hla : c.ListVolumeAttachments (log ++ [Call.GetVolume req.VolumeId]) = .ok attachments)
    (hx : extractInfoFromNodeId req.NodeId = .ok (host, wwpns, wwnns, iqns)) :
    ControllerUnpublishVolume c req log =
      (match (deleteAttachments c
          ("the volume ".toList ++ req.VolumeId ++ " failed to unpublish from node ".toList ++
            req.NodeId ++ ".".toList)
          (gatheredActs attachments req host
            (getReplicationByVolume c.toBackend req.VolumeId
              (log ++ [Call.GetVolume req.VolumeId, Call.ListVolumeAttachments])).1)
          (log ++ [Call.GetVolume req.VolumeId, Call.ListVolumeAttachments] ++
            [Call.ListReplications])).1 with
        | some err => .error (.error err)
        | none => .ok {},
       (deleteAttachments c
          ("the volume ".toList ++ req.VolumeId ++ " failed to unpublish from node ".toList ++
            req.NodeId ++ ".".toList)
          (gatheredActs attachments req host
            (getReplicationByVolume c.toBackend req.VolumeId
              (log ++ [Call.GetVolume req.VolumeId, Call.ListVolumeAttachments])).1)
          (log ++ [Call.GetVolume req.VolumeId, Call.ListVolumeAttachments] ++
            [Call.ListReplications])).2) := by
  have hlog : (getReplicationByVolume c.toBackend req.VolumeId
      (log ++ [Call.GetVolume req.VolumeId, Call.ListVolumeAttachments])).2 =
      log ++ [Call.GetVolume req.VolumeId, Call.ListVolumeAttachments] ++
        [Call.ListReplications] := by
    unfold getReplicationByVolume
    cases c.ListReplications (log ++ [Call.GetVolume req.VolumeId, Call.ListVolumeAttachments])
      <;> rfl
  simp only [ControllerUnpublishVolume, hgv, hla, hx]
  rcases hg : getReplicationByVolume c.toBackend req.VolumeId
      (log ++ [Call.GetVolume req.VolumeId, Call.ListVolumeAttachments]) with ⟨r, log1⟩
  rw [hg] at hlog
  simp only at hlog
  subst hlog
  simp only
  rcases deleteAttachments c
      ("the volume ".toList ++ req.VolumeId ++ " failed to unpublish from node ".toList ++
        req.NodeId ++ ".".toList)
      (gatheredActs attachments req host r)
      (log ++ [Call.GetVolume req.VolumeId, Call.ListVolumeAttachments] ++
        [Call.ListReplications]) with ⟨res, log2⟩
  cases res <;> rfl

/-- C27: when the volume exists and the listings of the attachments and of the pairs
succeed, with `host` the host name parsed from the node id.  The gathered attachments are
exactly the listed attachments whose volume id is the given id, or the secondary volume
id of the first listed pair that references the given id, and whose host is `host`, the
host condition being dropped for an empty node id.  When no delete fails, the deletes
issued are those of the gathered attachments; when a delete fails, failed-precondition is
returned and no further delete is issued. -/
theorem controllerUnpublishVolume_gathering (c : Client)
    (req : ControllerUnpublishVolumeRequest) (log : List Call) (vol : VolumeSpec)
    (attachments : List VolumeAttachmentSpec) (replications : List ReplicationSpec)
    (host : GoString) (wwpns wwnns iqns : List GoString)
    (hgv : c.GetVolume log req.VolumeId = .ok (some vol))
    (hla : c.ListVolumeAttachments (log ++ [Call.GetVolume req.VolumeId]) = .ok attachments)
    (hlr : c.ListReplications
      (log ++ [Call.GetVolume req.VolumeId, Call.ListVolumeAttachments]) = .ok replications)
    (hx : extractInfoFromNodeId req.NodeId = .ok (host, wwpns, wwnns, iqns)) :
    (∀ a, a ∈ gatheredActs attachments req host (replications.find? (fun r =>
          decide (req.VolumeId = r.PrimaryVolumeId ∨ req.VolumeId = r.SecondaryVolumeId))) ↔
      a ∈ attachments ∧
      (a.VolumeId = req.VolumeId ∨
        ∃ r, replications.find? (fun r =>
            decide (req.VolumeId = r.PrimaryVolumeId ∨ req.VolumeId = r.SecondaryVolumeId)) =
          some r ∧ a.VolumeId = r.SecondaryVolumeId) ∧
      (req.NodeId = [] ∨ a.Host = host)) ∧
    ((∀ i a, (gatheredActs attachments req host (replications.find? (fun r =>
          decide (req.VolumeId = r.PrimaryVolumeId ∨
            req.VolumeId = r.SecondaryVolumeId))))[i]? = some a →
        c.DeleteVolumeAttachment
          (log ++ [Call.GetVolume req.VolumeId, Call.ListVolumeAttachments] ++
            [Call.ListReplications] ++
            ((gatheredActs attachments req host (replications.find? (fun r =>
              decide (req.VolumeId = r.PrimaryVolumeId ∨
                req.VolumeId = r.SecondaryVolumeId)))).take i).map
              (fun x => Call.DeleteVolumeAttachment x.Id)) a.Id a = none) →
      ControllerUnpublishVolume c req log =
        (.ok {},
          log ++ [Call.GetVolume req.VolumeId, Call.ListVolumeAttachments] ++
            [Call.ListReplications] ++
            (gatheredActs attachments req host (replications.find? (fun r =>
              decide (req.VolumeId = r.PrimaryVolumeId ∨
                req.VolumeId = r.SecondaryVolumeId)))).map
              (fun x => Call.DeleteVolumeAttachment x.Id))) ∧
    (∀ i a e,
      (∀ j x, j < i → (gatheredActs attachments req host (replications.find? (fun r =>
          decide (req.VolumeId = r.PrimaryVolumeId ∨
            req.VolumeId = r.SecondaryVolumeId))))[j]? = some x →
        c.DeleteVolumeAttachment
          (log ++ [Call.GetVolume req.VolumeId, Call.ListVolumeAttachments] ++
            [Call.ListReplications] ++
            ((gatheredActs attachments req host (replications.find? (fun r =>
              decide (req.VolumeId = r.PrimaryVolumeId ∨
                req.VolumeId = r.SecondaryVolumeId)))).take j).map
              (fun x => Call.DeleteVolumeAttachment x.Id)) x.Id x = none) →
      (gatheredActs attachments req host (replications.find? (fun r =>
          decide (req.VolumeId = r.PrimaryVolumeId ∨
            req.VolumeId = r.SecondaryVolumeId))))[i]? = some a →
      c.DeleteVolumeAttachment
          (log ++ [Call.GetVolume req.VolumeId, Call.ListVolumeAttachments] ++
            [Call.ListReplications] ++
            ((gatheredActs attachments req host (replications.find? (fun r =>
              decide (req.VolumeId = r.PrimaryVolumeId ∨
                req.VolumeId = r.SecondaryVolumeId)))).take i).map
              (fun x => Call.DeleteVolumeAttachment x.Id)) a.Id a = some e →
      ControllerUnpublishVolume c req log =
        (.error (.error (.status .FailedPrecondition
          ("the volume ".toList ++ req.VolumeId ++ " failed to unpublish from node ".toList ++
            req.NodeId ++ ".".toList))),
          log ++ [Call.GetVolume req.VolumeId, Call.ListVolumeAttachments] ++
            [Call.ListReplications] ++
            ((gatheredActs attachments req host (replications.find? (fun r =>
              decide (req.VolumeId = r.PrimaryVolumeId ∨
                req.VolumeId = r.SecondaryVolumeId)))).take (i + 1)).map
              (fun x => Call.DeleteVolumeAttachment x.Id))) := by
  have hg : (getReplicationByVolume c.toBackend req.VolumeId
      (log ++ [Call.GetVolume req.VolumeId, Call.ListVolumeAttachments])).1 =
      replications.find? (fun r =>
        decide (req.VolumeId = r.PrimaryVolumeId ∨ req.VolumeId = r.SecondaryVolumeId)) := by
    simp only [getReplicationByVolume, hlr]
  have hcu := controllerUnpublishVolume_of_listings c req log vol attachments host wwpns wwnns
    iqns hgv hla hx
  rw [hg] at hcu
  refine ⟨?_, ?_, ?_⟩
  · intro a
    cases hf : replications.find? (fun r =>
        decide (req.VolumeId = r.PrimaryVolumeId ∨ req.VolumeId = r.SecondaryVolumeId)) with
    | none =>
      simp only [gatheredActs, mem_gatherAttachments]
      constructor
      · rintro ⟨h1, h2, h3⟩
        exact ⟨h1, Or.inl h2, h3⟩
      · rintro ⟨h1, h2 | ⟨r, hr, _⟩, h3⟩
        · exact ⟨h1, h2, h3⟩
        · cases hr
    | some r =>
      simp only [gatheredActs, List.mem_append, mem_gatherAttachments]
      constructor
      · rintro (⟨h1, h2, h3⟩ | ⟨h1, h2, h3⟩)
        · exact ⟨h1, Or.inl h2, h3⟩
        · exact ⟨h1, Or.inr ⟨r, rfl, h2⟩, h3⟩
      · rintro ⟨h1, h2 | ⟨q, hq, h2⟩, h3⟩
        · exact Or.inl ⟨h1, h2, h3⟩
        · simp only [Option.some.injEq] at hq
          subst hq
          exact Or.inr ⟨h1, h2, h3⟩
  · intro hall
    rw [hcu, deleteAttachments_all c _ _ _ hall]
  · intro i a e hbefore hi hfail
    rw [hcu, deleteAttachments_first_failure c _ _ _ i a e hbefore hi hfail]

set_option maxRecDepth 100000 in
/-- C27 at the in-memory client that holds attachments of the volume `v1` on `host1` and
on `host2`, for the node id `host2`: the attachment on `host2` is deleted. -/
theorem controllerUnpublishVolume_gathering_witness :
    ControllerUnpublishVolume
        (memClient [examplePublishedVolume "v1" []] [examplePool ""] [] []
          [exampleAttachment "a1" "host1", exampleAttachment "a2" "host2"])
        { VolumeId := "v1".toList, NodeId := "host2".toList } [] =
      (.ok {},
        [Call.GetVolume "v1".toList, Call.ListVolumeAttachments, Call.ListReplications,
         Call.DeleteVolumeAttachment "a2".toList]) :=
  (controllerUnpublishVolume_gathering
    (memClient [examplePublishedVolume "v1" []] [examplePool ""] [] []
      [exampleAttachment "a1" "host1", exampleAttachment "a2" "host2"])
    { VolumeId := "v1".toList, NodeId := "host2".toList } []
    (examplePublishedVolume "v1" [])
    [exampleAttachment "a1" "host1", exampleAttachment "a2" "host2"] [] "host2".toList [] [] []
    (by decide) (by decide) (by decide) (by decide)).2.1 (fun _ _ _ => rfl)

/-! ## Errors of the backend -/

theorem isVolumePublished_list_error (c : Client) (canAt : Bool)
    (attachReq : VolumeAttachmentSpec) (metadata : List (GoString × GoString))
    (log : List Call) (e : GoError) (hl : c.ListVolumeAttachments log = .error e) :
    isVolumePublished c canAt attachReq metadata log =
      (.error (.status .FailedPrecondition e.Error), log ++ [Call.ListVolumeAttachments]) := by
  simp only [isVolumePublished, hl]

theorem getReplicationByVolume_log (b : Backend) (volId : GoString) (log : List Call) :
    (getReplicationByVolume b volId log).2 = log ++ [Call.ListReplications] := by
  unfold getReplicationByVolume
  cases b.ListReplications log <;> rfl

/-- The parser returns normally for every node id, with the first comma-delimited
segment as the host name. -/
theorem extractInfoFromNodeId_host (nodeId : GoString) :
    ∃ wwpns wwnns iqns, extractInfoFromNodeId nodeId =
      .ok ((Split nodeId [',']).headD [], wwpns, wwnns, iqns) := by
  obtain ⟨h, segs, hs⟩ : ∃ h segs, Split nodeId [','] = h :: segs := by
    cases hsp : Split nodeId [','] with
    | nil => exact absurd hsp (Split_ne_nil ',' nodeId)
    | cons a l => exact ⟨a, l, rfl⟩
  obtain ⟨st, hst⟩ := nodeIdLoop_total segs NodeIdState.init indexValid_init
  refine ⟨st.wwpns, st.wwnns, st.iqns, ?_⟩
  rw [extractInfoFromNodeId_of_Split nodeId h segs st hs hst, hs]
  rfl

theorem controllerPublishVolume_of_secondary_error (penv : PublishEnv) (c : Client)
    (req : ControllerPublishVolumeRequest) (log log1 log2 log3 : List Call)
    (st : PublishState) (a : VolumeAttachmentSpec) (replicationId : GoString)
    (r : ReplicationSpec) (err : GoError)
    (h : preparePublish penv c req log = (.ok st, log1))
    (hp : publishAttachment c req st.canAtMultiNode st.attachReq st.expectedMetadata log1 =
      (.ok a, log2))
    (hm : mapFind req.VolumeContext penv.KVolumeReplicationId = some replicationId)
    (hg : c.GetReplication log2 replicationId = .ok r)
    (hp2 : publishAttachment c req st.canAtMultiNode
      { st.attachReq with VolumeId := r.SecondaryVolumeId } st.expectedMetadata
      (log2 ++ [Call.GetReplication replicationId]) = (.error err, log3)) :
    ControllerPublishVolume penv c req log = (.error (.error err), log3) := by
  simp only [ControllerPublishVolume, h, hp, hm, hg, hp2]

/-- The delete part of `DeleteVolume`, whatever the lookup of the pair gave: the error of
the first delete call that fails is returned. -/
theorem deleteVolume_delete_errors (b : Backend) (volId : GoString) (log : List Call)
    (e : GoError) :
    (∀ r, (getReplicationByVolume b volId log).1 = some r →
      (b.DeleteReplication (log ++ [Call.ListReplications]) r.Id = some e →
        (DeleteVolume b volId log).1 = some e) ∧
      (b.DeleteReplication (log ++ [Call.ListReplications]) r.Id = none →
        (b.DeleteVolume (log ++ [Call.ListReplications] ++ [Call.DeleteReplication r.Id])
            r.PrimaryVolumeId = some e →
          (DeleteVolume b volId log).1 = some e) ∧
        (b.DeleteVolume (log ++ [Call.ListReplications] ++ [Call.DeleteReplication r.Id])
            r.PrimaryVolumeId = none →
          b.DeleteVolume (log ++ [Call.ListReplications] ++
              [Call.DeleteReplication r.Id, Call.DeleteVolume r.PrimaryVolumeId])
            r.SecondaryVolumeId = some e →
          (DeleteVolume b volId log).1 = some e))) ∧
    ((getReplicationByVolume b volId log).1 = none →
      b.DeleteVolume (log ++ [Call.ListReplications]) volId = some e →
      (DeleteVolume b volId log).1 = some e) := by
  have hlog := getReplicationByVolume_log b volId log
  constructor
  · intro r hr
    have hg : getReplicationByVolume b volId log = (some r, log ++ [Call.ListReplications]) :=
      Prod.ext hr hlog
    refine ⟨?_, ?_⟩
    · intro hd
      simp only [DeleteVolume, hg, hd]
    · intro hd
      refine ⟨?_, ?_⟩
      · intro hp
        simp only [DeleteVolume, hg, hd, hp]
      · intro hp hs
        simp only [DeleteVolume, hg, hd, hp, hs]
  · intro hr hd
    have hg : getReplicationByVolume b volId log = (none, log ++ [Call.ListReplications]) :=
      Prod.ext hr hlog
    simp only [DeleteVolume, hg, hd]

/-- The delete loop of `ControllerUnpublishVolume`, at the level of the operation: when
the delete of a gathered attachment fails after the deletes before it succeeded, the
operation fails with failed-precondition and its own message, and stops there. -/
theorem controllerUnpublishVolume_delete_error (c : Client)
    (req : ControllerUnpublishVolumeRequest) (log : List Call) (vol : VolumeSpec)
    (attachments acts : List VolumeAttachmentSpec) (i : Nat) (a : VolumeAttachmentSpec)
    (e : GoError)
    (hgv : c.GetVolume log req.VolumeId = .ok (some vol))
    (hla : c.ListVolumeAttachments (log ++ [Call.GetVolume req.VolumeId]) = .ok attachments)
    (hacts : acts = gatheredActs attachments req ((Split req.NodeId [',']).headD [])
      (getReplicationByVolume c.toBackend req.VolumeId
        (log ++ [Call.GetVolume req.VolumeId, Call.ListVolumeAttachments])).1)
    (hbefore : ∀ j x, j < i → acts[j]? = some x →
      c.DeleteVolumeAttachment
        (log ++ [Call.GetVolume req.VolumeId, Call.ListVolumeAttachments,
            Call.ListReplications] ++
          (acts.take j).map (fun x => Call.DeleteVolumeAttachment x.Id)) x.Id x = none)
    (hi : acts[i]? = some a)
    (hfail : c.DeleteVolumeAttachment
      (log ++ [Call.GetVolume req.VolumeId, Call.ListVolumeAttachments,
          Call.ListReplications] ++
        (acts.take i).map (fun x => Call.DeleteVolumeAttachment x.Id)) a.Id a = some e) :
    ControllerUnpublishVolume c req log =
      (.error (.error (.status .FailedPrecondition
        ("the volume ".toList ++ req.VolumeId ++ " failed to unpublish from node ".toList ++
          req.NodeId ++ ".".toList))),
        log ++ [Call.GetVolume req.VolumeId, Call.ListVolumeAttachments,
            Call.ListReplications] ++
          (acts.take (i + 1)).map (fun x => Call.DeleteVolumeAttachment x.Id)) := by
  obtain ⟨wwpns, wwnns, iqns, hx⟩ := extractInfoFromNodeId_host req.NodeId
  have hlog := getReplicationByVolume_log c.toBackend req.VolumeId
    (log ++ [Call.GetVolume req.VolumeId, Call.ListVolumeAttachments])
  have hlist : log ++ [Call.GetVolume req.VolumeId, Call.ListVolumeAttachments] ++
      [Call.ListReplications] =
      log ++ [Call.GetVolume req.VolumeId, Call.ListVolumeAttachments,
        Call.ListReplications] := by simp
  rw [hlist] at hlog
  have hd := deleteAttachments_first_failure c
    ("the volume ".toList ++ req.VolumeId ++ " failed to unpublish from node ".toList ++
      req.NodeId ++ ".".toList) acts
    (log ++ [Call.GetVolume req.VolumeId, Call.ListVolumeAttachments, Call.ListReplications])
    i a e hbefore hi hfail
  rcases hg : getReplicationByVolume c.toBackend req.VolumeId
    (log ++ [Call.GetVolume req.VolumeId, Call.ListVolumeAttachments]) with ⟨r, log1⟩
  rw [hg] at hlog hacts
  simp only at hlog hacts
  subst hlog
  simp only [ControllerUnpublishVolume, hgv, hla, hx, hg, ← hacts, hd]

set_option maxRecDepth 100000 in
/-- C28 (as stated, refuted): the listing of the attachments fails with the error
"backend down", which is no status.  `ControllerUnpublishVolume` fails with the status
failed-precondition and the message "Failed to unpublish volume.", and
`ControllerPublishVolume` with the status failed-precondition and the message of the
backend error: neither returns the backend error itself.  And when the listing of the
replication pairs fails with that error, `ControllerUnpublishVolume` and `DeleteVolume`
go on as if no pair were listed and succeed. -/
theorem controllerUnpublishVolume_error_replaced :
    downClient.ListVolumeAttachments [Call.GetVolume "v1".toList] =
      .error (.other "backend down".toList) ∧
    ControllerUnpublishVolume downClient { VolumeId := "v1".toList, NodeId := [] } [] =
      (.error (.error (.status .FailedPrecondition "Failed to unpublish volume.".toList)),
        [Call.GetVolume "v1".toList, Call.ListVolumeAttachments]) ∧
    ControllerPublishVolume examplePublishEnv downClient
        (examplePublishRequest "host1,iqn:iqn.a" []) [] =
      (.error (.error (.status .FailedPrecondition "backend down".toList)),
        [Call.GetVolume "v1".toList, Call.GetPool "pool1".toList,
         Call.ListVolumeAttachments]) ∧
    pairsDownClient.ListReplications
        [Call.GetVolume "v1".toList, Call.ListVolumeAttachments] =
      .error (.other "backend down".toList) ∧
    ControllerUnpublishVolume pairsDownClient
        { VolumeId := "v1".toList, NodeId := "host1".toList } [] =
      (.ok {},
        [Call.GetVolume "v1".toList, Call.ListVolumeAttachments, Call.ListReplications,
         Call.DeleteVolumeAttachment "a1".toList]) ∧
    pairsDownClient.ListReplications [] = .error (.other "backend down".toList) ∧
    DeleteVolume pairsDownClient.toBackend "v1".toList [] =
      (none, [Call.ListReplications, Call.DeleteVolume "v1".toList]) := by
  refine ⟨by decide, by decide, by decide, by decide, by decide, by decide, by decide⟩

/-- C28 (amended): apart from the listing of the replication pairs inside
`getReplicationByVolume`, whose failure is outside this statement, a failing backend call
makes the operation fail.  `CreateVolume` returns the error of the profile listing, of
the volume listing, of the re-scan listing, of the secondary create and of the pair
create, and the error of the primary create when the re-scan lists no compatible volume;
`DeleteVolume` the error of each of its delete calls, whatever the lookup of the pair
gave; `ListVolumes`, `GetCapacity` and `ListSnapshots` the error of their listing;
`CreateSnapshot` the error of the listing and of the create; `DeleteSnapshot` the error
of the delete.  `ControllerPublishVolume` and `ControllerUnpublishVolume` replace the
error: not-found for the lookup of the volume or of the pool, failed-precondition with
the message of the error for the attachment listing of the scan, for the volume and for
the secondary volume, and failed-precondition with a message of their own for the create
of an attachment, for the volume and for the secondary volume, the lookup of the pair,
the attachment listing of the unpublish and the delete of an attachment. -/
theorem backend_errors_returned :
    (∀ (env : Env) (b : Backend) (req : CreateVolumeRequest) (log : List Call) (e : GoError),
      (buildVolumeBody env req).volumebody.ProfileId = [] → b.ListProfiles log = .error e →
      CreateVolume env b req log = (.error (.error e), log ++ [Call.ListProfiles])) ∧
    (∀ (env : Env) (b : Backend) (req : CreateVolumeRequest) (log log1 : List Call)
      (st : VolumeBodyState) (e : GoError),
      resolveVolumeBody env b req log = (.ok st, log1) → b.ListVolumes log1 = .error e →
      CreateVolume env b req log = (.error (.error e), log1 ++ [Call.ListVolumes])) ∧
    (∀ (env : Env) (b : Backend) (req : CreateVolumeRequest) (log log1 : List Call)
      (st : VolumeBodyState) (volumes : List VolumeSpec) (e e2 : GoError),
      resolveVolumeBody env b req log = (.ok st, log1) → b.ListVolumes log1 = .ok volumes →
      (∀ x ∈ volumes, x.Name ≠ st.volumebody.Name) →
      b.CreateVolume (log1 ++ [Call.ListVolumes]) st.volumebody = .error e →
      b.ListVolumes (log1 ++ [Call.ListVolumes] ++ [Call.CreateVolume st.volumebody]) =
        .error e2 →
      (CreateVolume env b req log).1 = .error (.error e2)) ∧
    (∀ (env : Env) (b : Backend) (req : CreateVolumeRequest) (log log1 : List Call)
      (st : VolumeBodyState) (volumes volumes2 : List VolumeSpec) (e : GoError),
      resolveVolumeBody env b req log = (.ok st, log1) → b.ListVolumes log1 = .ok volumes →
      (∀ x ∈ volumes, x.Name ≠ st.volumebody.Name) →
      b.CreateVolume (log1 ++ [Call.ListVolumes]) st.volumebody = .error e →
      b.ListVolumes (log1 ++ [Call.ListVolumes] ++ [Call.CreateVolume st.volumebody]) =
        .ok volumes2 →
      firstCompatible st.volumebody volumes2 = none →
      (CreateVolume env b req log).1 = .error (.error e)) ∧
    (∀ (env : Env) (b : Backend) (req : CreateVolumeRequest) (log log1 log2 : List Call)
      (st : VolumeBodyState) (v : VolumeSpec) (e : GoError),
      resolveVolumeBody env b req log = (.ok st, log1) →
      chooseVolume b st.volumebody log1 = (.ok (v, false), log2) →
      st.enableReplication = true →
      (b.CreateVolume log2 (secondaryVolumeBody env req st) = .error e →
        (CreateVolume env b req log).1 = .error (.error e)) ∧
      (∀ sVol, b.CreateVolume log2 (secondaryVolumeBody env req st) = .ok sVol →
        b.CreateReplication (log2 ++ [Call.CreateVolume (secondaryVolumeBody env req st)])
          (replicationBody env req v sVol) = .error e →
        (CreateVolume env b req log).1 = .error (.error e))) ∧
    (∀ (b : Backend) (volId : GoString) (log : List Call) (e : GoError),
      (∀ r, (getReplicationByVolume b volId log).1 = some r →
        (b.DeleteReplication (log ++ [Call.ListReplications]) r.Id = some e →
          (DeleteVolume b volId log).1 = some e) ∧
        (b.DeleteReplication (log ++ [Call.ListReplications]) r.Id = none →
          (b.DeleteVolume (log ++ [Call.ListReplications] ++ [Call.DeleteReplication r.Id])
              r.PrimaryVolumeId = some e →
            (DeleteVolume b volId log).1 = some e) ∧
          (b.DeleteVolume (log ++ [Call.ListReplications] ++ [Call.DeleteReplication r.Id])
              r.PrimaryVolumeId = none →
            b.DeleteVolume (log ++ [Call.ListReplications] ++
                [Call.DeleteReplication r.Id, Call.DeleteVolume r.PrimaryVolumeId])
              r.SecondaryVolumeId = some e →
            (DeleteVolume b volId log).1 = some e))) ∧
      ((getReplicationByVolume b volId log).1 = none →
        b.DeleteVolume (log ++ [Call.ListReplications]) volId = some e →
        (DeleteVolume b volId log).1 = some e)) ∧
    (∀ (tl : TimeLib) (req : ListSnapshotsRequest) (e : GoError),
      ListVolumes (.error e) = .error (.error e) ∧
      GetCapacity (.error e) = .error (.error e) ∧
      ListSnapshots tl (.error e) req = .error (.error e)) ∧
    (∀ (env : Env) (tl : TimeLib) (c : Client) (req : CreateSnapshotRequest)
      (log : List Call) (e : GoError), req.Name ≠ [] → req.SourceVolumeId ≠ [] →
      (c.ListVolumeSnapshots log = .error e →
        CreateSnapshot env tl c req log =
          (.error (.error e), log ++ [Call.ListVolumeSnapshots])) ∧
      (∀ snapshots, c.ListVolumeSnapshots log = .ok snapshots →
        (∀ s ∈ snapshots, s.Name ≠ req.Name) →
        c.CreateVolumeSnapshot (log ++ [Call.ListVolumeSnapshots]) (snapshotBody env req) =
          .error e →
        (CreateSnapshot env tl c req log).1 = .error (.error e))) ∧
    (∀ (c : Client) (req : DeleteSnapshotRequest) (log : List Call) (e : GoError),
      req.SnapshotId ≠ [] → c.DeleteVolumeSnapshot log req.SnapshotId = some e →
      DeleteSnapshot c req log =
        (.error (.error e), log ++ [Call.DeleteVolumeSnapshot req.SnapshotId])) ∧
    (∀ (penv : PublishEnv) (c : Client) (req : ControllerPublishVolumeRequest)
      (log : List Call) (e : GoError),
      (c.GetVolume log req.VolumeId = .error e →
        ControllerPublishVolume penv c req log =
          (.error (.error (.status .NotFound
            ("the volume ".toList ++ req.VolumeId ++ " is not exist".toList))),
            log ++ [Call.GetVolume req.VolumeId])) ∧
      (∀ vol, c.GetVolume log req.VolumeId = .ok (some vol) →
        c.GetPool (log ++ [Call.GetVolume req.VolumeId]) vol.PoolId = .error e →
        ControllerPublishVolume penv c req log =
          (.error (.error (.status .NotFound
            ("the pool ".toList ++ vol.PoolId ++ " is not sxist".toList))),
            log ++ [Call.GetVolume req.VolumeId, Call.GetPool vol.PoolId])) ∧
      (∀ st log1, preparePublish penv c req log = (.ok st, log1) →
        (c.ListVolumeAttachments log1 = .error e →
          ControllerPublishVolume penv c req log =
            (.error (.error (.status .FailedPrecondition e.Error)),
              log1 ++ [Call.ListVolumeAttachments])) ∧
        (∀ log2, isVolumePublished c st.canAtMultiNode st.attachReq st.expectedMetadata log1 =
            (.ok none, log2) →
          c.CreateVolumeAttachment log2 st.attachReq = .error e →
          ControllerPublishVolume penv c req log =
            (.error (.error (.status .FailedPrecondition
              ("the volume ".toList ++ req.VolumeId ++ " failed to publish to node ".toList ++
                req.NodeId ++ ".".toList))),
              log2 ++ [Call.CreateVolumeAttachment st.attachReq])) ∧
        (∀ a log2 replicationId,
          publishAttachment c req st.canAtMultiNode st.attachReq st.expectedMetadata log1 =
            (.ok a, log2) →
          mapFind req.VolumeContext penv.KVolumeReplicationId = some replicationId →
          (c.GetReplication log2 replicationId = .error e →
            ControllerPublishVolume penv c req log =
              (.error (.error (.status .FailedPrecondition "Get replication failed".toList)),
                log2 ++ [Call.GetReplication replicationId])) ∧
          (∀ r, c.GetReplication log2 replicationId = .ok r →
            (c.ListVolumeAttachments (log2 ++ [Call.GetReplication replicationId]) =
                .error e →
              ControllerPublishVolume penv c req log =
                (.error (.error (.status .FailedPrecondition e.Error)),
                  log2 ++ [Call.GetReplication replicationId] ++
                    [Call.ListVolumeAttachments])) ∧
            (∀ log3,
              isVolumePublished c st.canAtMultiNode
                  { st.attachReq with VolumeId := r.SecondaryVolumeId } st.expectedMetadata
                  (log2 ++ [Call.GetReplication replicationId]) = (.ok none, log3) →
              c.CreateVolumeAttachment log3
                  { st.attachReq with VolumeId := r.SecondaryVolumeId } = .error e →
              ControllerPublishVolume penv c req log =
                (.error (.error (.status .FailedPrecondition
                  ("the volume ".toList ++ req.VolumeId ++
                    " failed to publish to node ".toList ++ req.NodeId ++ ".".toList))),
                  log3 ++ [Call.CreateVolumeAttachment
                    { st.attachReq with VolumeId := r.SecondaryVolumeId }])))))) ∧
    (∀ (c : Client) (req : ControllerUnpublishVolumeRequest) (log : List Call) (e : GoError),
      (c.GetVolume log req.VolumeId = .error e →
        ControllerUnpublishVolume c req log =
          (.error (.error (.status .NotFound
            ("the volume ".toList ++ req.VolumeId ++ " is not exist".toList))),
            log ++ [Call.GetVolume req.VolumeId])) ∧
      (∀ vol, c.GetVolume log req.VolumeId = .ok (some vol) →
        c.ListVolumeAttachments (log ++ [Call.GetVolume req.VolumeId]) = .error e →
        ControllerUnpublishVolume c req log =
          (.error (.error (.status .FailedPrecondition "Failed to unpublish volume.".toList)),
            log ++ [Call.GetVolume req.VolumeId, Call.ListVolumeAttachments])) ∧
      (∀ vol attachments acts i a,
        c.GetVolume log req.VolumeId = .ok (some vol) →
        c.ListVolumeAttachments (log ++ [Call.GetVolume req.VolumeId]) = .ok attachments →
        acts = gatheredActs attachments req ((Split req.NodeId [',']).headD [])
          (getReplicationByVolume c.toBackend req.VolumeId
            (log ++ [Call.GetVolume req.VolumeId, Call.ListVolumeAttachments])).1 →
        (∀ j x, j < i → acts[j]? = some x →
          c.DeleteVolumeAttachment
            (log ++ [Call.GetVolume req.VolumeId, Call.ListVolumeAttachments,
                Call.ListReplications] ++
              (acts.take j).map (fun x => Call.DeleteVolumeAttachment x.Id)) x.Id x =
            none) →
        acts[i]? = some a →
        c.DeleteVolumeAttachment
          (log ++ [Call.GetVolume req.VolumeId, Call.ListVolumeAttachments,
              Call.ListReplications] ++
            (acts.take i).map (fun x => Call.DeleteVolumeAttachment x.Id)) a.Id a =
          some e →
        ControllerUnpublishVolume c req log =
          (.error (.error (.status .FailedPrecondition
            ("the volume ".toList ++ req.VolumeId ++
              " failed to unpublish from node ".toList ++ req.NodeId ++ ".".toList))),
            log ++ [Call.GetVolume req.VolumeId, Call.ListVolumeAttachments,
                Call.ListReplications] ++
              (acts.take (i + 1)).map (fun x => Call.DeleteVolumeAttachment x.Id)))) := by
  refine ⟨?_, ?_, ?_, ?_, ?_, ?_, ?_, ?_, ?_, ?_, ?_⟩
  · intro env b req log e hp hl
    apply createVolume_of_resolve_error
    simp only [resolveVolumeBody, if_pos hp, GetDefaultProfile, hl]
  · intro env b req log log1 st e hres hl
    exact createVolume_of_choose_error env b req log log1 _ st _ hres
      (chooseVolume_list_error b st.volumebody log1 e hl)
  · intro env b req log log1 st volumes e e2 hres hl hn hc hl2
    rw [createVolume_of_choose_error env b req log log1 _ st _ hres
      (chooseVolume_rescan_error b st.volumebody log1 volumes e e2 hl hn hc hl2)]
  · intro env b req log log1 st volumes volumes2 e hres hl hn hc hl2 hf
    rw [createVolume_of_choose_error env b req log log1 _ st _ hres
      (chooseVolume_rescan_none b st.volumebody log1 volumes volumes2 e hl hn hc hl2 hf)]
  · intro env b req log log1 log2 st v e hres hch he
    constructor
    · intro hs
      rw [createVolume_of_replica_error env b req log log1 log2 _ st v _ hres hch he
        (createReplica_secondary_error env b req st v _ log2 e hs)]
    · intro sVol hs hp
      rw [createVolume_of_replica_error env b req log log1 log2 _ st v _ hres hch he
        (createReplica_pair_error env b req st v sVol _ log2 e hs hp)]
  · intro b volId log e
    exact deleteVolume_delete_errors b volId log e
  · intro tl req e
    exact ⟨rfl, rfl, rfl⟩
  · intro env tl c req log e hname hsrc
    have hcs := createSnapshot_of_valid env tl c req log hname hsrc
    constructor
    · intro hl
      rw [hcs, chooseSnapshot_list_error c _ log e hl]
    · intro snapshots hl hn hc
      have hbn := (snapshotBody_fields env req).1
      rw [hcs, chooseSnapshot_create c _ log snapshots hl (by rw [hbn]; exact hn), hc]
  · intro c req log e hid hd
    have h1 : ¬ (0 = req.SnapshotId.length) := by
      intro h; exact hid (List.length_eq_zero.mp h.symm)
    simp only [DeleteSnapshot, if_neg h1, hd]
  · intro penv c req log e
    refine ⟨?_, ?_, ?_⟩
    · intro hgv
      apply controllerPublishVolume_of_prepare_error
      simp only [preparePublish, hgv]
    · intro vol hgv hgp
      apply controllerPublishVolume_of_prepare_error
      simp only [preparePublish, hgv, hgp]
    · intro st log1 hprep
      refine ⟨?_, ?_, ?_⟩
      · intro hl
        exact controllerPublishVolume_of_publish_error penv c req log log1 _ st _ hprep
          (publishAttachment_of_scan_error c req _ _ _ log1 _ _
            (isVolumePublished_list_error c _ _ _ log1 e hl))
      · intro log2 hscan hc
        exact controllerPublishVolume_of_publish_error penv c req log log1 _ st _ hprep
          (publishAttachment_of_create_error c req _ _ _ log1 log2 e hscan hc)
      · intro a log2 replicationId hp hm
        refine ⟨?_, ?_⟩
        · intro hg
          simp only [ControllerPublishVolume, hprep, hp, hm, hg]
        · intro r hg
          refine ⟨?_, ?_⟩
          · intro hl
            exact controllerPublishVolume_of_secondary_error penv c req log log1 log2 _ st a
              replicationId r _ hprep hp hm hg
              (publishAttachment_of_scan_error c req _ _ _ _ _ _
                (isVolumePublished_list_error c _ _ _ _ e hl))
          · intro log3 hscan hc
            exact controllerPublishVolume_of_secondary_error penv c req log log1 log2 _ st a
              replicationId r _ hprep hp hm hg
              (publishAttachment_of_create_error c req _ _ _ _ log3 e hscan hc)
  · intro c req log e
    refine ⟨?_, ?_, ?_⟩
    · intro hgv
      simp only [ControllerUnpublishVolume, hgv]
    · intro vol hgv hla
      simp only [ControllerUnpublishVolume, hgv, hla]
    · intro vol attachments acts i a hgv hla hacts hbefore hi hfail
      exact controllerUnpublishVolume_delete_error c req log vol attachments acts i a e
        hgv hla hacts hbefore hi hfail

/-! ## Attachment reuse against the in-memory client -/

theorem controllerPublishVolume_of_single (penv : PublishEnv) (c : Client)
    (req : ControllerPublishVolumeRequest) (log log1 log2 : List Call) (st : PublishState)
    (a : VolumeAttachmentSpec)
    (h : preparePublish penv c req log = (.ok st, log1))
    (hp : publishAttachment c req st.canAtMultiNode st.attachReq st.expectedMetadata log1 =
      (.ok a, log2))
    (hm : mapFind req.VolumeContext penv.KVolumeReplicationId = none) :
    ControllerPublishVolume penv c req log =
      (.ok { PublishContext := publishContext penv a }, log2) := by
  simp only [ControllerPublishVolume, h, hp, hm]

theorem controllerPublishVolume_of_pair (penv : PublishEnv) (c : Client)
    (req : ControllerPublishVolumeRequest) (log log1 log2 log3 : List Call)
    (st : PublishState) (a a2 : VolumeAttachmentSpec) (replicationId : GoString)
    (r : ReplicationSpec)
    (h : preparePublish penv c req log = (.ok st, log1))
    (hp : publishAttachment c req st.canAtMultiNode st.attachReq st.expectedMetadata log1 =
      (.ok a, log2))
    (hm : mapFind req.VolumeContext penv.KVolumeReplicationId = some replicationId)
    (hg : c.GetReplication log2 replicationId = .ok r)
    (hp2 : publishAttachment c req st.canAtMultiNode
      { st.attachReq with VolumeId := r.SecondaryVolumeId } st.expectedMetadata
      (log2 ++ [Call.GetReplication replicationId]) = (.ok a2, log3)) :
    ControllerPublishVolume penv c req log =
      (.ok { PublishContext :=
               mapSet (publishContext penv a) penv.KPublishSecondaryAttachId a2.Id }, log3) := by
  simp only [ControllerPublishVolume, h, hp, hm, hg, hp2]

theorem memAttachments_append (init : List VolumeAttachmentSpec) (l1 l2 : List Call) :
    memAttachments init (l1 ++ l2) = memAttachments (memAttachments init l1) l2 := by
  simp only [memAttachments, List.foldl_append]

/-- Calls that neither create nor delete an attachment leave the attachments of the
in-memory client as they are. -/
theorem memAttachments_neutral (calls : List Call)
    (h : ∀ c ∈ calls, (∀ body, c ≠ Call.CreateVolumeAttachment body) ∧
      (∀ id, c ≠ Call.DeleteVolumeAttachment id)) :
    ∀ attachments : List VolumeAttachmentSpec, memAttachments attachments calls = attachments := by
  induction calls with
  | nil => intro attachments; rfl
  | cons c rest ih =>
    intro attachments
    have hc := h c (List.mem_cons_self _ _)
    have hstep : memAttachmentsStep attachments c = attachments := by
      cases c with
      | CreateVolumeAttachment body => exact absurd rfl (hc.1 body)
      | DeleteVolumeAttachment id => exact absurd rfl (hc.2 id)
      | _ => rfl
    show memAttachments (memAttachmentsStep attachments c) rest = attachments
    rw [hstep]
    exact ih (fun c hc => h c (List.mem_cons_of_mem _ hc)) attachments

/-- The publish block against the in-memory client when no attachment of the volume is
held: the attachment request is stored under a fresh id. -/
theorem memClient_publish_fresh (volumes : List VolumeSpec) (pools : List StoragePoolSpec)
    (pairs : List ReplicationSpec) (snapshots : List VolumeSnapshotSpec)
    (init : List VolumeAttachmentSpec) (req : ControllerPublishVolumeRequest)
    (canAt : Bool) (attachReq : VolumeAttachmentSpec)
    (metadata : List (GoString × GoString)) (log : List Call)
    (current : List VolumeAttachmentSpec)
    (hcur : memAttachments init log = current)
    (hno : ∀ a ∈ current, a.VolumeId ≠ attachReq.VolumeId) :
    publishAttachment (memClient volumes pools pairs snapshots init) req canAt attachReq
        metadata log =
      (.ok (storedAttachment attachReq current),
        log ++ [Call.ListVolumeAttachments] ++ [Call.CreateVolumeAttachment attachReq]) ∧
    memAttachments init
        (log ++ [Call.ListVolumeAttachments] ++ [Call.CreateVolumeAttachment attachReq]) =
      current ++ [storedAttachment attachReq current] := by
  have hl : (memClient volumes pools pairs snapshots init).ListVolumeAttachments log =
      .ok current := by
    simp only [memClient, hcur]
  have hscan := isVolumePublished_of_list _ canAt attachReq metadata log current hl
  have hloop : isVolumePublishedLoop canAt attachReq metadata current = .ok none := by
    have := isVolumePublishedLoop_append canAt attachReq metadata current [] hno
    rw [List.append_nil] at this
    rw [this]
    rfl
  rw [hloop] at hscan
  have hcur2 : memAttachments init (log ++ [Call.ListVolumeAttachments]) = current := by
    rw [memAttachments_append, hcur]
    rfl
  have hc : (memClient volumes pools pairs snapshots init).CreateVolumeAttachment
      (log ++ [Call.ListVolumeAttachments]) attachReq =
      .ok (storedAttachment attachReq current) := by
    simp only [memClient, hcur2, storedAttachment]
  refine ⟨publishAttachment_of_created _ req canAt attachReq _ metadata log _ hscan hc, ?_⟩
  rw [memAttachments_append, hcur2]
  rfl

/-- The publish block against the in-memory client when the first attachment of the
volume that is held is compatible and on the host of the request: it is returned after
the listing. -/
theorem memClient_publish_reuse (volumes : List VolumeSpec) (pools : List StoragePoolSpec)
    (pairs : List ReplicationSpec) (snapshots : List VolumeSnapshotSpec)
    (init : List VolumeAttachmentSpec) (req : ControllerPublishVolumeRequest)
    (canAt : Bool) (attachReq a : VolumeAttachmentSpec)
    (metadata : List (GoString × GoString)) (log : List Call)
    (front rest : List VolumeAttachmentSpec)
    (hcur : memAttachments init log = front ++ a :: rest)
    (hno : ∀ x ∈ front, x.VolumeId ≠ attachReq.VolumeId)
    (hv : a.VolumeId = attachReq.VolumeId) (hh : a.Host = attachReq.Host)
    (hc : attachmentCompatible a attachReq metadata = true) :
    publishAttachment (memClient volumes pools pairs snapshots init) req canAt attachReq
        metadata log = (.ok a, log ++ [Call.ListVolumeAttachments]) ∧
    memAttachments init (log ++ [Call.ListVolumeAttachments]) = front ++ a :: rest := by
  have hl : (memClient volumes pools pairs snapshots init).ListVolumeAttachments log =
      .ok (front ++ a :: rest) := by
    simp only [memClient, hcur]
  have hscan := isVolumePublished_of_list _ canAt attachReq metadata log _ hl
  have hloop : isVolumePublishedLoop canAt attachReq metadata (front ++ a :: rest) =
      .ok (some a) := by
    rw [isVolumePublishedLoop_append canAt attachReq metadata front _ hno,
      isVolumePublishedLoop, if_pos hv, if_neg (not_not.mpr hh), if_pos hc]
  rw [hloop] at hscan
  refine ⟨publishAttachment_of_found _ req canAt attachReq a metadata log _ hscan, ?_⟩
  rw [memAttachments_append, hcur]
  rfl

/-- The part before the scan against the in-memory client. -/
theorem memClient_prepare (penv : PublishEnv) (volumes : List VolumeSpec)
    (pools : List StoragePoolSpec) (pairs : List ReplicationSpec)
    (snapshots : List VolumeSnapshotSpec) (init : List VolumeAttachmentSpec)
    (req : ControllerPublishVolumeRequest) (vol : VolumeSpec) (pool : StoragePoolSpec)
    (host : GoString) (wwpns wwnns iqns : List GoString) (i : GoString)
    (mode : AccessModeMode)
    (hv : volumes.find? (fun v => v.Id = req.VolumeId) = some vol)
    (hp : pools.find? (fun p => p.Id = vol.PoolId) = some pool)
    (hx : extractInfoFromNodeId req.NodeId = .ok (host, wwpns, wwnns, iqns))
    (hs : selectInitiator penv (resolveProtocol penv pool) wwpns iqns = .ok i)
    (hcap : req.VolumeCapability = some { AccessMode := some { Mode := mode } })
    (log : List Call) :
    preparePublish penv (memClient volumes pools pairs snapshots init) req log =
      (.ok { attachReq := attachRequest penv req host i (resolveProtocol penv pool)
             canAtMultiNode := canAtMultiNode mode
             expectedMetadata := penv.MergeStringMaps req.VolumeContext vol.Metadata },
        log ++ [Call.GetVolume req.VolumeId, Call.GetPool vol.PoolId]) ∧
    memAttachments init (log ++ [Call.GetVolume req.VolumeId, Call.GetPool vol.PoolId]) =
      memAttachments init log := by
  constructor
  · apply preparePublish_ok penv _ req log vol pool host wwpns wwnns iqns i mode _ _ hx hs hcap
    · simp only [memClient, hv]
    · simp only [memClient, hp]
  · rw [memAttachments_append]
    exact memAttachments_neutral _ (by simp) _

set_option maxRecDepth 100000 in
/-- C26 (as stated, refuted): the volume `v1` has the metadata entry `k = v` and no
attachment, and the request has an empty volume context.  The first
`ControllerPublishVolume` call creates an attachment, which the in-memory client stores
unchanged; the second call, with the same request, compares the stored metadata with the
context merged with the volume metadata and fails with already-exists. -/
theorem controllerPublishVolume_reuse_fails :
    ControllerPublishVolume examplePublishEnv
        (memClient [examplePublishedVolume "v1" [("k".toList, "v".toList)]] [examplePool ""]
          [] [] [])
        (examplePublishRequest "host1,iqn:iqn.a" []) [] =
      (.ok { PublishContext :=
               publishContext examplePublishEnv (exampleAttachment "v" "host1") },
        [Call.GetVolume "v1".toList, Call.GetPool "pool1".toList,
         Call.ListVolumeAttachments,
         Call.CreateVolumeAttachment (exampleAttachment "" "host1")]) ∧
    ControllerPublishVolume examplePublishEnv
        (memClient [examplePublishedVolume "v1" [("k".toList, "v".toList)]] [examplePool ""]
          [] [] [])
        (examplePublishRequest "host1,iqn:iqn.a" [])
        [Call.GetVolume "v1".toList, Call.GetPool "pool1".toList,
         Call.ListVolumeAttachments,
         Call.CreateVolumeAttachment (exampleAttachment "" "host1")] =
      (.error (.error (.status .AlreadyExists "Volume published but is incompatible".toList)),
        [Call.GetVolume "v1".toList, Call.GetPool "pool1".toList,
         Call.ListVolumeAttachments,
         Call.CreateVolumeAttachment (exampleAttachment "" "host1"),
         Call.GetVolume "v1".toList, Call.GetPool "pool1".toList,
         Call.ListVolumeAttachments]) := by
  refine ⟨by decide, by decide⟩

/-- C26 (amended): against the in-memory client, whose create-attachment stores the
submitted attachment request unchanged under a fresh id, for a volume that has no
attachment and whose metadata, merged with the volume context of the request, gives the
volume context as a map; when volume, pool, initiator and access mode resolve, and the
context either names no replication pair or names a pair that is held and whose
secondary volume is another volume without attachment.  Two successive
`ControllerPublishVolume` calls with the same request both succeed with the same
response, which is built from the attachment stored by the first call, and the second
call issues no create of an attachment. -/
theorem controllerPublishVolume_reuse (penv : PublishEnv) (volumes : List VolumeSpec)
    (pools : List StoragePoolSpec) (pairs : List ReplicationSpec)
    (snapshots : List VolumeSnapshotSpec) (init : List VolumeAttachmentSpec)
    (req : ControllerPublishVolumeRequest) (vol : VolumeSpec) (pool : StoragePoolSpec)
    (host : GoString) (wwpns wwnns iqns : List GoString) (i : GoString)
    (mode : AccessModeMode) (log0 : List Call)
    (hv : volumes.find? (fun v => v.Id = req.VolumeId) = some vol)
    (hp : pools.find? (fun p => p.Id = vol.PoolId) = some pool)
    (hx : extractInfoFromNodeId req.NodeId = .ok (host, wwpns, wwnns, iqns))
    (hs : selectInitiator penv (resolveProtocol penv pool) wwpns iqns = .ok i)
    (hcap : req.VolumeCapability = some { AccessMode := some { Mode := mode } })
    (hinit : ∀ a ∈ memAttachments init log0, a.VolumeId ≠ req.VolumeId)
    (hmeta : isStringMapEqual req.VolumeContext
      (penv.MergeStringMaps req.VolumeContext vol.Metadata) = true)
    (hrep : mapFind req.VolumeContext penv.KVolumeReplicationId = none ∨
      ∃ replicationId r,
        mapFind req.VolumeContext penv.KVolumeReplicationId = some replicationId ∧
        pairs.find? (fun r => r.Id = replicationId) = some r ∧
        r.SecondaryVolumeId ≠ req.VolumeId ∧
        ∀ a ∈ memAttachments init log0, a.VolumeId ≠ r.SecondaryVolumeId) :
    ∃ resp log1 tail,
      ControllerPublishVolume penv (memClient volumes pools pairs snapshots init) req log0 =
        (.ok resp, log1) ∧
      ControllerPublishVolume penv (memClient volumes pools pairs snapshots init) req log1 =
        (.ok resp, log1 ++ tail) ∧
      (∀ c ∈ tail, ∀ body, c ≠ Call.CreateVolumeAttachment body) ∧
      (resp.PublishContext =
          publishContext penv
            (storedAttachment (attachRequest penv req host i (resolveProtocol penv pool))
              (memAttachments init log0)) ∨
        ∃ secondaryId, resp.PublishContext =
          mapSet (publishContext penv
            (storedAttachment (attachRequest penv req host i (resolveProtocol penv pool))
              (memAttachments init log0)))
            penv.KPublishSecondaryAttachId secondaryId) := by
  have hprep := memClient_prepare penv volumes pools pairs snapshots init req vol pool host
    wwpns wwnns iqns i mode hv hp hx hs hcap
  generalize hAR : attachRequest penv req host i (resolveProtocol penv pool) = AR at hprep ⊢
  generalize hEM : penv.MergeStringMaps req.VolumeContext vol.Metadata = EM at hprep hmeta
  generalize hM0 : memAttachments init log0 = M0 at hinit ⊢
  have hARv : AR.VolumeId = req.VolumeId := by rw [← hAR]; rfl
  have hARm : AR.Metadata = req.VolumeContext := by rw [← hAR]; rfl
  have hinit1 : ∀ a ∈ M0, a.VolumeId ≠ AR.VolumeId := by rw [hARv]; exact hinit
  obtain ⟨hp1, hm1⟩ := hprep log0
  rw [hM0] at hm1
  obtain ⟨hpa1, hma1⟩ := memClient_publish_fresh volumes pools pairs snapshots init req
    (canAtMultiNode mode) AR EM
    (log0 ++ [Call.GetVolume req.VolumeId, Call.GetPool vol.PoolId]) M0 hm1 hinit1
  have hcompat : ∀ (body : VolumeAttachmentSpec) (current : List VolumeAttachmentSpec),
      body.Metadata = req.VolumeContext →
      attachmentCompatible (storedAttachment body current) body EM = true := by
    intro body current hb
    simp only [attachmentCompatible, storedAttachment, hb, hmeta, decide_True, Bool.and_self]
  rcases hrep with hnone | ⟨replicationId, r, hsome, hpair, hne, hinit2⟩
  · have hc1 := controllerPublishVolume_of_single penv _ req log0 _ _ _ _ hp1 hpa1 hnone
    obtain ⟨hp2, hm2⟩ := hprep (log0 ++ [Call.GetVolume req.VolumeId, Call.GetPool vol.PoolId] ++
      [Call.ListVolumeAttachments] ++ [Call.CreateVolumeAttachment AR])
    rw [hma1] at hm2
    obtain ⟨hpa2, _⟩ := memClient_publish_reuse volumes pools pairs snapshots init req
      (canAtMultiNode mode) AR (storedAttachment AR M0) EM _ M0 [] hm2 hinit1 rfl rfl
      (hcompat AR M0 hARm)
    have hc2 := controllerPublishVolume_of_single penv _ req _ _ _ _ _ hp2 hpa2 hnone
    refine ⟨_, _, [Call.GetVolume req.VolumeId, Call.GetPool vol.PoolId,
      Call.ListVolumeAttachments], hc1, ?_, by simp, Or.inl rfl⟩
    rw [hc2]
    simp
  · have hget : ∀ log, (memClient volumes pools pairs snapshots init).GetReplication log
        replicationId = .ok r := by
      intro log
      simp only [memClient, hpair]
    rw [hM0] at hinit2
    generalize hAS : ({ AR with VolumeId := r.SecondaryVolumeId } : VolumeAttachmentSpec) = AS
    have hASv : AS.VolumeId = r.SecondaryVolumeId := by rw [← hAS]
    have hASm : AS.Metadata = req.VolumeContext := by rw [← hAS]; exact hARm
    have hno2 : ∀ a ∈ M0 ++ [storedAttachment AR M0], a.VolumeId ≠ AS.VolumeId := by
      intro a ha
      rw [hASv]
      rcases List.mem_append.mp ha with h | h
      · exact hinit2 a h
      · rw [List.mem_singleton.mp h]
        show AR.VolumeId ≠ r.SecondaryVolumeId
        rw [hARv]
        exact fun h => hne h.symm
    have hm3 : memAttachments init
        (log0 ++ [Call.GetVolume req.VolumeId, Call.GetPool vol.PoolId] ++
          [Call.ListVolumeAttachments] ++ [Call.CreateVolumeAttachment AR] ++
          [Call.GetReplication replicationId]) = M0 ++ [storedAttachment AR M0] := by
      rw [memAttachments_append, hma1]
      rfl
    obtain ⟨hpb1, hmb1⟩ := memClient_publish_fresh volumes pools pairs snapshots init req
      (canAtMultiNode mode) AS EM _ _ hm3 hno2
    have hc1 := controllerPublishVolume_of_pair penv _ req log0 _ _ _ _ _ _ replicationId r
      hp1 hpa1 hsome (hget _) (by rw [hAS]; exact hpb1)
    obtain ⟨hp2, hm2⟩ := hprep (log0 ++ [Call.GetVolume req.VolumeId, Call.GetPool vol.PoolId] ++
      [Call.ListVolumeAttachments] ++ [Call.CreateVolumeAttachment AR] ++
      [Call.GetReplication replicationId] ++ [Call.ListVolumeAttachments] ++
      [Call.CreateVolumeAttachment AS])
    rw [hmb1] at hm2
    have hm2b : memAttachments init
        (log0 ++ [Call.GetVolume req.VolumeId, Call.GetPool vol.PoolId] ++
          [Call.ListVolumeAttachments] ++ [Call.CreateVolumeAttachment AR] ++
          [Call.GetReplication replicationId] ++ [Call.ListVolumeAttachments] ++
          [Call.CreateVolumeAttachment AS] ++
          [Call.GetVolume req.VolumeId, Call.GetPool vol.PoolId]) =
        M0 ++ storedAttachment AR M0 ::
          [storedAttachment AS (M0 ++ [storedAttachment AR M0])] := by
      rw [hm2]
      simp
    obtain ⟨hpa2, hma2⟩ := memClient_publish_reuse volumes pools pairs snapshots init req
      (canAtMultiNode mode) AR (storedAttachment AR M0) EM _ M0 _ hm2b hinit1 rfl rfl
      (hcompat AR M0 hARm)
    have hm4 : memAttachments init
        (log0 ++ [Call.GetVolume req.VolumeId, Call.GetPool vol.PoolId] ++
          [Call.ListVolumeAttachments] ++ [Call.CreateVolumeAttachment AR] ++
          [Call.GetReplication replicationId] ++ [Call.ListVolumeAttachments] ++
          [Call.CreateVolumeAttachment AS] ++
          [Call.GetVolume req.VolumeId, Call.GetPool vol.PoolId] ++
          [Call.ListVolumeAttachments] ++ [Call.GetReplication replicationId]) =
        (M0 ++ [storedAttachment AR M0]) ++
          storedAttachment AS (M0 ++ [storedAttachment AR M0]) :: [] := by
      rw [memAttachments_append, hma2]
      simp [memAttachments, memAttachmentsStep]
    obtain ⟨hpb2, _⟩ := memClient_publish_reuse volumes pools pairs snapshots init req
      (canAtMultiNode mode) AS (storedAttachment AS (M0 ++ [storedAttachment AR M0])) EM _ _ []
      hm4 hno2 rfl rfl (hcompat AS _ hASm)
    have hc2 := controllerPublishVolume_of_pair penv _ req _ _ _ _ _ _ _ replicationId r
      hp2 hpa2 hsome (hget _) (by rw [hAS]; exact hpb2)
    refine ⟨_, _, [Call.GetVolume req.VolumeId, Call.GetPool vol.PoolId,
      Call.ListVolumeAttachments, Call.GetReplication replicationId,
      Call.ListVolumeAttachments], hc1, ?_, by simp, Or.inr ⟨_, rfl⟩⟩
    rw [hc2]
    simp

set_option maxRecDepth 100000 in
/-- C26 (amended) at the in-memory client that holds the volume `v1` without metadata
and no attachment, for the example request from `host1` without replication. -/
theorem controllerPublishVolume_reuse_witness :
    ∃ resp log1 tail,
      ControllerPublishVolume examplePublishEnv
          (memClient [examplePublishedVolume "v1" []] [examplePool ""] [] [] [])
          (examplePublishRequest "host1,iqn:iqn.a" []) [] = (.ok resp, log1) ∧
      ControllerPublishVolume examplePublishEnv
          (memClient [examplePublishedVolume "v1" []] [examplePool ""] [] [] [])
          (examplePublishRequest "host1,iqn:iqn.a" []) log1 = (.ok resp, log1 ++ tail) ∧
      (∀ c ∈ tail, ∀ body, c ≠ Call.CreateVolumeAttachment body) ∧
      (resp.PublishContext =
          publishContext examplePublishEnv
            (storedAttachment
              (attachRequest examplePublishEnv (examplePublishRequest "host1,iqn:iqn.a" [])
                "host1".toList "iqn.a".toList
                (resolveProtocol examplePublishEnv (examplePool "")))
              (memAttachments [] [])) ∨
        ∃ secondaryId, resp.PublishContext =
          mapSet (publishContext examplePublishEnv
            (storedAttachment
              (attachRequest examplePublishEnv (examplePublishRequest "host1,iqn:iqn.a" [])
                "host1".toList "iqn.a".toList
                (resolveProtocol examplePublishEnv (examplePool "")))
              (memAttachments [] [])))
            examplePublishEnv.KPublishSecondaryAttachId secondaryId) :=
  controllerPublishVolume_reuse examplePublishEnv [examplePublishedVolume "v1" []]
    [examplePool ""] [] [] [] (examplePublishRequest "host1,iqn:iqn.a" [])
    (examplePublishedVolume "v1" []) (examplePool "") "host1".toList [] []
    ["iqn.a".toList] "iqn.a".toList .SINGLE_NODE_WRITER []
    (by decide) (by decide) (by decide) (by decide) (by decide) (by decide) (by decide)
    (Or.inl (by decide))

/-! ## Node identity parser: index safety and the number of entries -/

/-- One iteration of the parser loop returns normally, keeps the index valid, and adds
one entry to the three lists exactly when the segment starts with a tag prefix. -/
theorem nodeIdStep_entries (st : NodeIdState) (seg : GoString) (hinv : st.indexValid) :
    ∃ st1, nodeIdStep st seg = .ok st1 ∧ st1.indexValid ∧
      st1.wwpns.length + st1.wwnns.length + st1.iqns.length =
        st.wwpns.length + st.wwnns.length + st.iqns.length +
          (if startsWithTag seg = true then 1 else 0) := by
  obtain ⟨h1, h2, h3, _, _, _⟩ := tag_ne
  obtain ⟨i1, i2, i3⟩ := hinv
  unfold nodeIdStep
  by_cases c1 : HasPrefix seg (Wwpn ++ [':']) = true
  · obtain ⟨v, hv⟩ := appendSecondPiece_of_hasPrefix st.wwpns seg Wwpn c1
    rw [if_pos c1, hv]
    refine ⟨_, rfl, ⟨?_, ?_, ?_⟩, ?_⟩
    · intro _; simp
    · intro h; exact absurd h h1
    · intro h; exact absurd h h2
    · simp [startsWithTag, c1]; omega
  · rw [if_neg c1]
    by_cases c2 : HasPrefix seg (Wwnn ++ [':']) = true
    · obtain ⟨v, hv⟩ := appendSecondPiece_of_hasPrefix st.wwnns seg Wwnn c2
      rw [if_pos c2, hv]
      refine ⟨_, rfl, ⟨?_, ?_, ?_⟩, ?_⟩
      · intro h; exact absurd h.symm h1
      · intro _; simp
      · intro h; exact absurd h h3
      · simp [startsWithTag, c2]; omega
    · rw [if_neg c2]
      by_cases c3 : HasPrefix seg (Iqn ++ [':']) = true
      · obtain ⟨v, hv⟩ := appendSecondPiece_of_hasPrefix st.iqns seg Iqn c3
        rw [if_pos c3, hv]
        refine ⟨_, rfl, ⟨?_, ?_, ?_⟩, ?_⟩
        · intro h; exact absurd h.symm h2
        · intro h; exact absurd h.symm h3
        · intro _; simp
        · simp [startsWithTag, c3]; omega
      · rw [if_neg c3]
        have hno : startsWithTag seg = false := by
          simp only [startsWithTag, Bool.or_eq_false_iff]
          exact ⟨⟨by simpa using c1, by simpa using c2⟩, by simpa using c3⟩
        rw [hno]
        by_cases p1 : st.previousParameter = Wwpn
        · obtain ⟨ys, hys, hlen⟩ :=
            appendContinuation_of_lt st.wwpns st.previousIndex seg (i1 p1)
          rw [if_pos p1, hys]
          exact ⟨_, rfl, ⟨fun h => by simpa [hlen] using i1 h, i2, i3⟩, by simp [hlen]⟩
        · rw [if_neg p1]
          by_cases p2 : st.previousParameter = Wwnn
          · obtain ⟨ys, hys, hlen⟩ :=
              appendContinuation_of_lt st.wwnns st.previousIndex seg (i2 p2)
            rw [if_pos p2, hys]
            exact ⟨_, rfl, ⟨i1, fun h => by simpa [hlen] using i2 h, i3⟩, by simp [hlen]⟩
          · rw [if_neg p2]
            by_cases p3 : st.previousParameter = Iqn
            · obtain ⟨ys, hys, hlen⟩ :=
                appendContinuation_of_lt st.iqns st.previousIndex seg (i3 p3)
              rw [if_pos p3, hys]
              exact ⟨_, rfl, ⟨i1, i2, fun h => by simpa [hlen] using i3 h⟩, by simp [hlen]⟩
            · rw [if_neg p3]
              exact ⟨st, rfl, ⟨i1, i2, i3⟩, by simp⟩

theorem nodeIdLoop_entries (segs : List GoString) :
    ∀ st : NodeIdState, st.indexValid →
      ∃ st1, nodeIdLoop st segs = .ok st1 ∧ st1.indexValid ∧
        st1.wwpns.length + st1.wwnns.length + st1.iqns.length =
          st.wwpns.length + st.wwnns.length + st.iqns.length +
            (segs.filter startsWithTag).length := by
  induction segs with
  | nil => intro st hinv; exact ⟨st, rfl, hinv, by simp⟩
  | cons seg rest ih =>
    intro st hinv
    obtain ⟨st1, h1, hinv1, hc1⟩ := nodeIdStep_entries st seg hinv
    obtain ⟨st2, h2, hinv2, hc2⟩ := ih st1 hinv1
    refine ⟨st2, by rw [nodeIdLoop, h1]; exact h2, hinv2, ?_⟩
    rw [hc2, hc1, List.filter_cons]
    by_cases hs : startsWithTag seg = true
    · simp [hs]; omega
    · simp [hs]

/-- C31: for every node id, (1) a segment that starts with a tag prefix `tag:` is split
at `tag:` into at least two pieces, so that the piece of index 1 exists wherever the
parser reads it; (2) before every iteration of the loop, that is after the loop has run
over any number of the segments after the first, the state is reached without panic and
its `previousIndex` is a valid index of the list selected by `previousParameter`; and
(3) the parser returns normally, and the three lists it returns have together as many
entries as there are segments after the first that start with a tag prefix. -/
theorem extractInfoFromNodeId_index_safe (nodeId : GoString) :
    (∀ seg tag : GoString, tag ∈ [Wwpn, Wwnn, Iqn] → HasPrefix seg (tag ++ [':']) = true →
      2 ≤ (Split seg (tag ++ [':'])).length) ∧
    (∀ n : Nat, ∃ st,
      nodeIdLoop NodeIdState.init (((Split nodeId [',']).drop 1).take n) = .ok st ∧
      st.indexValid) ∧
    ∃ hostName wwpns wwnns iqns,
      extractInfoFromNodeId nodeId = .ok (hostName, wwpns, wwnns, iqns) ∧
      wwpns.length + wwnns.length + iqns.length =
        (((Split nodeId [',']).drop 1).filter startsWithTag).length := by
  refine ⟨?_, ?_, ?_⟩
  · intro seg tag _ h
    obtain ⟨v, rest, hv⟩ := Split_of_hasPrefix (tag ++ [':']) seg (by simp) h
    rw [hv]
    simp
  · intro n
    obtain ⟨st, h1, h2, _⟩ :=
      nodeIdLoop_entries (((Split nodeId [',']).drop 1).take n) NodeIdState.init indexValid_init
    exact ⟨st, h1, h2⟩
  · obtain ⟨st, h1, _, h3⟩ :=
      nodeIdLoop_entries ((Split nodeId [',']).drop 1) NodeIdState.init indexValid_init
    refine ⟨if (Split nodeId [',']).length ≥ 1 then (Split nodeId [',']).headD [] else [],
      st.wwpns, st.wwnns, st.iqns, ?_, ?_⟩
    · unfold extractInfoFromNodeId
      simp only [h1]
    · rw [h3]; simp [NodeIdState.init]

/-! ## `ListSnapshots` and the order of the backend listing -/

/-- C32: for two backend listings that are permutations of each other, with pairwise
distinct ids, `ListSnapshots` returns the same outcome on the same request: the same
failure, or the same entries in the same order with the same next token. -/
theorem listSnapshots_order_independent (tl : TimeLib)
    (all1 all2 : List VolumeSnapshotSpec) (req : ListSnapshotsRequest)
    (hperm : all1.Perm all2) (hnd : (all1.map (fun s => s.Id)).Nodup) :
    ListSnapshots tl (.ok all1) req = ListSnapshots tl (.ok all2) req := by
  have hf : (all1.filter (matchesFilters req.SnapshotId req.SourceVolumeId)).Perm
      (all2.filter (matchesFilters req.SnapshotId req.SourceVolumeId)) := hperm.filter _
  have hnd2 : ((all2.filter (matchesFilters req.SnapshotId req.SourceVolumeId)).map
      (fun s => s.Id)).Nodup :=
    ((hperm.map _).nodup_iff.mp hnd).sublist ((List.filter_sublist _).map _)
  have hnil : all1.filter (matchesFilters req.SnapshotId req.SourceVolumeId) = [] ↔
      all2.filter (matchesFilters req.SnapshotId req.SourceVolumeId) = [] :=
    ⟨fun h => (List.perm_nil.mp (h ▸ hf.symm)), fun h => (List.perm_nil.mp (h ▸ hf))⟩
  have hfilter : filterSnapshots all1 req.SnapshotId req.SourceVolumeId =
      match filterSnapshots all2 req.SnapshotId req.SourceVolumeId with
      | .result _ => .result (all1.filter (matchesFilters req.SnapshotId req.SourceVolumeId))
      | other => other := by
    rw [filterSnapshots_eq, filterSnapshots_eq]
    by_cases h2 : all2.filter (matchesFilters req.SnapshotId req.SourceVolumeId) = []
    · rw [if_pos h2, if_pos (hnil.mpr h2)]
      by_cases c1 : req.SnapshotId = [] ∧ req.SourceVolumeId = []
      · simp [c1]
      · rw [if_neg c1]
        by_cases c2 : req.SnapshotId = []
        · simp [c2]
        · rw [if_neg c2]
          by_cases c3 : req.SourceVolumeId = []
          · simp [c3]
          · simp [c3]
    · rw [if_neg h2, if_neg (fun h => h2 (hnil.mp h))]
  unfold ListSnapshots
  simp only []
  rw [hfilter, filterSnapshots_eq all2]
  by_cases h2 : all2.filter (matchesFilters req.SnapshotId req.SourceVolumeId) = []
  · rw [if_pos h2]
    by_cases c1 : req.SnapshotId = [] ∧ req.SourceVolumeId = []
    · simp [c1]
    · rw [if_neg c1]
      by_cases c2 : req.SnapshotId = []
      · simp [c2]
      · rw [if_neg c2]
        by_cases c3 : req.SourceVolumeId = []
        · simp [c3]
        · simp [c3]
  · rw [if_neg h2]
    simp only []
    rw [sortResult_eq_of_perm _ _ hf hnd2]

/-- C32 at the example listing and its reverse, for the second page of size one. -/
theorem listSnapshots_order_independent_witness :
    exampleListing.Perm exampleListing.reverse ∧
    (exampleListing.map (fun s => s.Id)).Nodup ∧
    ListSnapshots exampleTimeLib (.ok exampleListing)
        { MaxEntries := 1, StartingToken := "1".toList, SourceVolumeId := [],
          SnapshotId := [] } =
      ListSnapshots exampleTimeLib (.ok exampleListing.reverse)
        { MaxEntries := 1, StartingToken := "1".toList, SourceVolumeId := [],
          SnapshotId := [] } :=
  ⟨(List.reverse_perm exampleListing).symm, by decide,
    listSnapshots_order_independent exampleTimeLib exampleListing exampleListing.reverse _
      (List.reverse_perm exampleListing).symm (by decide)⟩

/-! ## Capacity reported by `ListVolumes` and by `CreateVolume` -/

/-- The capacity that `ListVolumes` reports for a volume is its size, a number of
allocation units. -/
theorem listVolumes_capacity (volumes : List (Option VolumeSpec)) :
    ∃ resp, ListVolumes (.ok volumes) = .ok resp ∧
      resp.Entries.map (fun e => (e.Volume.VolumeId, e.Volume.CapacityBytes)) =
        (volumes.filterMap id).map (fun v => (v.Id, v.Size)) := by
  refine ⟨_, rfl, ?_⟩
  simp [listVolumesEntry, Function.comp_def]

set_option maxRecDepth 100000 in
/-- C34 (failing input): the backend holds the volume `id1` of name `vol1` and size one
allocation unit.  `CreateVolume` for `vol1` returns this volume with the capacity
`2^30` bytes, while `ListVolumes` reports the capacity `1` for it. -/
theorem listVolumes_capacity_in_units :
    (CreateVolume exampleEnv (memBackend [] [] [exampleVolume "id1" "vol1" 1])
        (exampleCreateRequest false) []).1.map
      (fun resp => (resp.Volume.VolumeId, resp.Volume.CapacityBytes)) =
      .ok ("id1".toList, 1073741824) ∧
    (ListVolumes (.ok [some (exampleVolume "id1" "vol1" 1)])).map
      (fun resp => resp.Entries.map (fun e => (e.Volume.VolumeId, e.Volume.CapacityBytes))) =
      .ok [("id1".toList, 1)] := by
  decide

/-! ## Attachments gathered by `ControllerUnpublishVolume` -/

/-- Without a pair, or with a pair whose secondary volume is another volume, the gathered
attachments have pairwise distinct ids when the listed ones have. -/
theorem gatheredActs_nodup (attachments : List VolumeAttachmentSpec)
    (req : ControllerUnpublishVolumeRequest) (hostName : GoString) (r : Option ReplicationSpec)
    (hnd : (attachments.map (fun a => a.Id)).Nodup)
    (hr : ∀ p, r = some p → p.SecondaryVolumeId ≠ req.VolumeId) :
    ((gatheredActs attachments req hostName r).map (fun a => a.Id)).Nodup := by
  have hsub : ∀ v, ((gatherAttachments attachments v req.NodeId hostName).map
      (fun a => a.Id)).Nodup := fun v =>
    hnd.sublist ((List.filter_sublist _).map _)
  cases r with
  | none => exact hsub _
  | some p =>
    have hne := hr p rfl
    simp only [gatheredActs, List.map_append]
    refine List.Nodup.append (hsub _) (hsub _) ?_
    intro id h1 h2
    obtain ⟨a, ha, rfl⟩ := List.mem_map.mp h1
    obtain ⟨b, hb, hab⟩ := List.mem_map.mp h2
    have ha1 := List.mem_filter.mp ha
    have hb1 := List.mem_filter.mp hb
    have : b = a := List.inj_on_of_nodup_map hnd hb1.1 ha1.1 hab
    subst this
    simp only [Bool.and_eq_true, decide_eq_true_eq] at ha1 hb1
    exact hne (hb1.2.1.symm.trans ha1.2.1)

set_option maxRecDepth 100000 in
/-- C33 (failing input): the volume `v1` is the secondary volume of a pair and has one
attachment `a1`, on the host `host1`.  Unpublishing `v1` from the node `host1` gathers
`a1` twice and issues two deletes of it; with a backend that refuses the delete of an
attachment it does not hold any more, the call fails after it has deleted `a1`. -/
theorem controllerUnpublishVolume_secondary_twice :
    gatheredActs [exampleAttachment "a1" "host1"]
        { VolumeId := "v1".toList, NodeId := "host1".toList } "host1".toList
        (some exampleSecondaryPair) =
      [exampleAttachment "a1" "host1", exampleAttachment "a1" "host1"] ∧
    ControllerUnpublishVolume secondaryClient
        { VolumeId := "v1".toList, NodeId := "host1".toList } [] =
      (.ok {}, [Call.GetVolume "v1".toList, Call.ListVolumeAttachments, Call.ListReplications,
        Call.DeleteVolumeAttachment "a1".toList, Call.DeleteVolumeAttachment "a1".toList]) ∧
    ControllerUnpublishVolume strictSecondaryClient
        { VolumeId := "v1".toList, NodeId := "host1".toList } [] =
      (.error (.error (.status .FailedPrecondition
        "the volume v1 failed to unpublish from node host1.".toList)),
       [Call.GetVolume "v1".toList, Call.ListVolumeAttachments, Call.ListReplications,
        Call.DeleteVolumeAttachment "a1".toList, Call.DeleteVolumeAttachment "a1".toList]) := by
  decide

/-! ## `isStringMapEqual` as extensional equality of maps -/

theorem mapGet_of_mem (m : List (GoString × GoString)) (k v : GoString)
    (hm : distinctKeys m) (h : (k, v) ∈ m) : mapGet m k = v := by
  have hf := mapFind_of_mem m k v hm h
  unfold mapFind at hf
  unfold mapGet
  cases hfind : m.find? (fun kv => kv.1 = k) with
  | none => rw [hfind] at hf; cases hf
  | some e =>
    rw [hfind] at hf
    simpa using hf

theorem mem_of_mem_keys (m : List (GoString × GoString)) (k : GoString)
    (h : k ∈ m.map (fun kv => kv.1)) : ∃ v, (k, v) ∈ m := by
  obtain ⟨e, he, rfl⟩ := List.mem_map.mp h
  exact ⟨e.2, he⟩

theorem mem_keys_of_mem (m : List (GoString × GoString)) (k v : GoString)
    (h : (k, v) ∈ m) : k ∈ m.map (fun kv => kv.1) :=
  List.mem_map.mpr ⟨(k, v), h, rfl⟩

/-- Two maps of distinct keys hold the same entries, up to order, exactly when they have
the same keys and the same value at every key. -/
theorem perm_iff_extensional (A B : List (GoString × GoString))
    (hA : distinctKeys A) (hB : distinctKeys B) :
    A.Perm B ↔
      (∀ k, k ∈ A.map (fun kv => kv.1) ↔ k ∈ B.map (fun kv => kv.1)) ∧
      ∀ k ∈ A.map (fun kv => kv.1), mapGet A k = mapGet B k := by
  constructor
  · intro hp
    refine ⟨fun k => (hp.map _).mem_iff, ?_⟩
    intro k hk
    obtain ⟨v, hv⟩ := mem_of_mem_keys A k hk
    rw [mapGet_of_mem A k v hA hv, mapGet_of_mem B k v hB (hp.mem_iff.mp hv)]
  · rintro ⟨hkeys, hvals⟩
    have hAn : A.Nodup := List.Nodup.of_map _ hA
    have hBn : B.Nodup := List.Nodup.of_map _ hB
    rw [List.perm_ext_iff_of_nodup hAn hBn]
    rintro ⟨k, v⟩
    constructor
    · intro h
      have hk := mem_keys_of_mem A k v h
      obtain ⟨w, hw⟩ := mem_of_mem_keys B k ((hkeys k).mp hk)
      have := hvals k hk
      rw [mapGet_of_mem A k v hA h, mapGet_of_mem B k w hB hw] at this
      rw [this]; exact hw
    · intro h
      have hk := (hkeys k).mpr (mem_keys_of_mem B k v h)
      obtain ⟨w, hw⟩ := mem_of_mem_keys A k hk
      have := hvals k hk
      rw [mapGet_of_mem A k w hA hw, mapGet_of_mem B k v hB h] at this
      rw [← this]; exact hw

/-- C35: for string maps `A` and `B` (held as entry lists of distinct keys, the nil map
being the empty list) `isStringMapEqual A B` is true exactly when `A` and `B` have the
same keys and the same value at every key; it is true of `A` and `A`, its result does not
depend on the order of its arguments, and from `A`, `B` and `B`, `C` it carries over to
`A`, `C`. -/
theorem isStringMapEqual_extensional (A B C : List (GoString × GoString))
    (hA : distinctKeys A) (hB : distinctKeys B) :
    (isStringMapEqual A B = true ↔
      (∀ k, k ∈ A.map (fun kv => kv.1) ↔ k ∈ B.map (fun kv => kv.1)) ∧
      ∀ k ∈ A.map (fun kv => kv.1), mapGet A k = mapGet B k) ∧
    isStringMapEqual A A = true ∧
    isStringMapEqual A B = isStringMapEqual B A ∧
    (isStringMapEqual A B = true → isStringMapEqual B C = true →
      isStringMapEqual A C = true) := by
  refine ⟨?_, ?_, ?_, ?_⟩
  · rw [isStringMapEqual_iff_perm A B hA]
    exact perm_iff_extensional A B hA hB
  · exact (isStringMapEqual_iff_perm A A hA).mpr (List.Perm.refl A)
  · rw [Bool.eq_iff_iff, isStringMapEqual_iff_perm A B hA, isStringMapEqual_iff_perm B A hB]
    exact List.perm_comm
  · intro h1 h2
    rw [isStringMapEqual_iff_perm A B hA] at h1
    rw [isStringMapEqual_iff_perm B C hB] at h2
    exact (isStringMapEqual_iff_perm A C hA).mpr (h1.trans h2)

/-- C35 at the maps `a ↦ 1, b ↦ 2` and `b ↦ 2, a ↦ 1`, which are found equal and
therefore have the same keys and the same values. -/
theorem isStringMapEqual_extensional_witness :
    distinctKeys [("a".toList, "1".toList), ("b".toList, "2".toList)] ∧
    distinctKeys [("b".toList, "2".toList), ("a".toList, "1".toList)] ∧
    isStringMapEqual [("a".toList, "1".toList), ("b".toList, "2".toList)]
      [("b".toList, "2".toList), ("a".toList, "1".toList)] = true ∧
    ((∀ k, k ∈ [("a".toList, "1".toList), ("b".toList, "2".toList)].map (fun kv => kv.1) ↔
        k ∈ [("b".toList, "2".toList), ("a".toList, "1".toList)].map (fun kv => kv.1)) ∧
      ∀ k ∈ [("a".toList, "1".toList), ("b".toList, "2".toList)].map (fun kv => kv.1),
        mapGet [("a".toList, "1".toList), ("b".toList, "2".toList)] k =
          mapGet [("b".toList, "2".toList), ("a".toList, "1".toList)] k) :=
  ⟨by unfold distinctKeys; decide, by unfold distinctKeys; decide, by decide,
    (isStringMapEqual_extensional [("a".toList, "1".toList), ("b".toList, "2".toList)]
      [("b".toList, "2".toList), ("a".toList, "1".toList)] []
      (by unfold distinctKeys; decide) (by unfold distinctKeys; decide)).1.mp (by decide)⟩

end Opensds
